import Mathlib

/-! NES emulator: a shallow embedding and its verified properties

The development follows the C++ sources `controller.cpp`, `cartridge.cpp`, `ppu.cpp`,
`apu.cpp`, `cpu.cpp` and `bus.cpp`.

Conventions of the embedding

* `uint8_t`, `uint16_t` and `uint64_t` values are natural numbers; wherever the C++
  arithmetic can leave the range of the destination type the reduction modulo
  `2 ^ w` is written out.  `int` values that can be negative are integers.
* A `std::array` or `std::vector` is a function from indices to values (with an
  explicit size for vectors).
* A nullable pointer to a component is a connection flag next to the component.
* Methods that mutate take the state and return the new state, together with the
  returned value when there is one.
-/

namespace Nes

/-! ## Controller (`controller.h`, `controller.cpp`) -/

/-- The joypad: live button image, shift register, and strobe latch. -/
structure Controller where
  buttons : Nat := 0
  shifter : Nat := 0
  strobe : Bool := false

/-- `Controller::setButtonState`. -/
def Controller.setButtonState (c : Controller) (state : Nat) : Controller :=
  { c with buttons := state }

/-- `Controller::write`: bit 0 is the strobe; while it is set the shifter is reloaded. -/
def Controller.write (c : Controller) (val : Nat) : Controller :=
  let strobe := (val &&& 1) != 0
  if strobe then { c with strobe := strobe, shifter := c.buttons }
  else { c with strobe := strobe }

/-- `Controller::read`: the returned byte and the controller afterwards. -/
def Controller.read (c : Controller) : Nat × Controller :=
  if c.strobe then
    ((c.buttons &&& 1) ||| 0x40, c)
  else
    ((c.shifter &&& 1) ||| 0x40, { c with shifter := c.shifter >>> 1 })

/-- The bytes returned by `n` successive `read()` calls, and the controller afterwards. -/
def Controller.readN : Nat → Controller → List Nat × Controller
  | 0, c => ([], c)
  | n + 1, c =>
    let r := c.read
    let rest := Controller.readN n r.2
    (r.1 :: rest.1, rest.2)

/-! ## Cartridge (`cartridge.h`, `cartridge.cpp`) -/

/-- Nametable mirroring published by the cartridge. -/
inductive MirrorMode where
  | Horizontal
  | Vertical
  | FourScreen
  deriving DecidableEq, Repr

/-- The cartridge as `load` leaves it: PRG and CHR vectors with their sizes, the bank
counts of the header, the mapper id, and the mirroring mode. -/
structure Cartridge where
  prgRom : Nat → Nat := fun _ => 0
  prgSize : Nat := 0
  chrRom : Nat → Nat := fun _ => 0
  chrSize : Nat := 0
  prgBanks : Nat := 0
  chrBanks : Nat := 0
  mapper : Nat := 0
  mirrorMode : MirrorMode := MirrorMode.Horizontal

/-- `Cartridge::cpuRead` with the C++ preconditions checked: `none` when the indexing
expression `prgRom[mapped % prgRom.size()]` is undefined (empty vector). -/
def Cartridge.cpuReadChecked (c : Cartridge) (addr : Nat) : Option Nat :=
  if addr ≥ 0x8000 then
    let mapped := addr - 0x8000
    let mapped := if c.prgBanks = 1 then mapped &&& 0x3FFF else mapped
    if c.prgSize = 0 then none else some (c.prgRom (mapped % c.prgSize))
  else some 0

/-- `Cartridge::cpuRead`; an undefined read is given the value 0. -/
def Cartridge.cpuRead (c : Cartridge) (addr : Nat) : Nat :=
  (c.cpuReadChecked addr).getD 0

/-- `Cartridge::cpuWrite`: mapper 0 has no writable PRG. -/
def Cartridge.cpuWrite (c : Cartridge) (_addr _val : Nat) : Cartridge := c

/-- `Cartridge::ppuRead` with the C++ preconditions checked. -/
def Cartridge.ppuReadChecked (c : Cartridge) (addr : Nat) : Option Nat :=
  if addr < 0x2000 then
    if c.chrSize = 0 then none else some (c.chrRom (addr % c.chrSize))
  else some 0

/-- `Cartridge::ppuRead`; an undefined read is given the value 0. -/
def Cartridge.ppuRead (c : Cartridge) (addr : Nat) : Nat :=
  (c.ppuReadChecked addr).getD 0

/-- `Cartridge::ppuWrite`: CHR is writable only when the image supplied no CHR bank.
The double assignment of the source stores `val` once at `addr % chrRom.size()`. -/
def Cartridge.ppuWrite (c : Cartridge) (addr val : Nat) : Cartridge :=
  if addr < 0x2000 ∧ c.chrBanks = 0 then
    { c with chrRom := Function.update c.chrRom (addr % c.chrSize) val }
  else c

/-! ## PPU (`ppu.h`, `ppu.cpp`) -/

/-- The 64 ARGB colours of `nesPalette`. -/
def nesPalette : List Nat := [
  0xFF666666, 0xFF002A88, 0xFF1412A7, 0xFF3B00A4,
  0xFF5C007E, 0xFF6E0040, 0xFF6C0600, 0xFF561D00,
  0xFF333500, 0xFF0B4800, 0xFF005200, 0xFF004F08,
  0xFF00404D, 0xFF000000, 0xFF000000, 0xFF000000,
  0xFFADADAD, 0xFF155FD9, 0xFF4240FF, 0xFF7527FE,
  0xFFA01ACC, 0xFFB71E7B, 0xFFB53120, 0xFF994E00,
  0xFF6B6D00, 0xFF388700, 0xFF0C9300, 0xFF008F32,
  0xFF007C8D, 0xFF000000, 0xFF000000, 0xFF000000,
  0xFFFFFEFF, 0xFF64B0FF, 0xFF9290FF, 0xFFC676FF,
  0xFFF36AFF, 0xFFFE6ECC, 0xFFFE8170, 0xFFEA9E22,
  0xFFBCBE00, 0xFF88D800, 0xFF5CE430, 0xFF45E082,
  0xFF48CDDE, 0xFF4F4F4F, 0xFF000000, 0xFF000000,
  0xFFFFFEFF, 0xFFC0DFFF, 0xFFD3D2FF, 0xFFE8C8FF,
  0xFFFBC2FF, 0xFFFEC4EA, 0xFFFECCC5, 0xFFF7D8A5,
  0xFFE4E594, 0xFFCFEF96, 0xFFBDF4AB, 0xFFB3F3CC,
  0xFFB5EBF2, 0xFFB8B8B8, 0xFF000000, 0xFF000000]

/-- One entry of the per-scanline sprite buffer. -/
structure Sprite where
  y : Nat := 0
  tile : Nat := 0
  attr : Nat := 0
  x : Nat := 0

/-- The PPU state of `ppu.h`.  `cartConn` is the `cartridge` pointer being non-null;
`oddFrame` is the function-local `static bool oddFrame` of `PPU::clock`. -/
structure PPU where
  cartConn : Bool := false
  vram : Nat → Nat := fun _ => 0
  palette : Nat → Nat := fun _ => 0
  oam : Nat → Nat := fun _ => 0
  frameBuffer : Nat → Nat := fun _ => 0xFF000000
  frameReady : Bool := false
  scanline : Int := -1
  cycle : Int := 0
  ctrl : Nat := 0
  mask : Nat := 0
  status : Nat := 0
  oamAddr : Nat := 0
  vramAddr : Nat := 0
  tempAddr : Nat := 0
  fineX : Nat := 0
  writeToggle : Bool := false
  dataBuffer : Nat := 0
  nmiOutput : Bool := false
  nmiRaised : Bool := false
  ntByte : Nat := 0
  atByte : Nat := 0
  bgLo : Nat := 0
  bgHi : Nat := 0
  bgShiftLo : Nat := 0
  bgShiftHi : Nat := 0
  atShiftLo : Nat := 0
  atShiftHi : Nat := 0
  atLatchLo : Nat := 0
  atLatchHi : Nat := 0
  spriteLine : Nat → Sprite := fun _ => {}
  spriteShiftLo : Nat → Nat := fun _ => 0
  spriteShiftHi : Nat → Nat := fun _ => 0
  spriteCount : Nat := 0
  sprite0OnLine : Bool := false
  sprite0Hit : Bool := false
  oddFrame : Bool := false

/-- `PPU::nesColor`. -/
def PPU.nesColor (idx : Nat) : Nat := nesPalette.getD (idx &&& 0x3F) 0

/-- `PPU::mirrorNametable`. -/
def PPU.mirrorNametable (p : PPU) (cart : Cartridge) (addr : Nat) : Nat :=
  let addr := addr &&& 0x0FFF
  if !p.cartConn then addr &&& 0x07FF
  else match cart.mirrorMode with
    | MirrorMode.Vertical => addr &&& 0x07FF
    | MirrorMode.Horizontal => ((addr / 0x800) * 0x400) + (addr &&& 0x03FF)
    | MirrorMode.FourScreen => addr &&& 0x0FFF

/-- The palette index selected by `ppuRead` and `ppuWrite` for an address at or above
`0x3F00`: `$3F10/$3F14/$3F18/$3F1C` fold onto `$3F00/$3F04/$3F08/$3F0C`. -/
def PPU.palAddr (addr : Nat) : Nat :=
  let palAddr := addr &&& 0x1F
  if palAddr &&& 0x13 = 0x10 then palAddr &&& 0x0F else palAddr

/-- `PPU::ppuRead`. -/
def PPU.ppuRead (p : PPU) (cart : Cartridge) (addr : Nat) : Nat :=
  let addr := addr &&& 0x3FFF
  if addr < 0x2000 then
    if p.cartConn then cart.ppuRead addr else 0
  else if addr < 0x3F00 then
    p.vram (p.mirrorNametable cart (addr - 0x2000))
  else
    p.palette (PPU.palAddr addr)

/-- `PPU::ppuWrite`: the PPU and the cartridge afterwards. -/
def PPU.ppuWrite (p : PPU) (cart : Cartridge) (addr val : Nat) : PPU × Cartridge :=
  let addr := addr &&& 0x3FFF
  if addr < 0x2000 then
    if p.cartConn then (p, cart.ppuWrite addr val) else (p, cart)
  else if addr < 0x3F00 then
    ({ p with vram := Function.update p.vram (p.mirrorNametable cart (addr - 0x2000)) val }, cart)
  else
    ({ p with palette := Function.update p.palette (PPU.palAddr addr) val }, cart)

/-- `PPU::cpuRead`: the byte returned and the PPU afterwards. -/
def PPU.cpuRead (p : PPU) (cart : Cartridge) (addr : Nat) : Nat × PPU :=
  match addr &&& 7 with
  | 2 =>
    ((p.status &&& 0xE0) ||| (p.dataBuffer &&& 0x1F),
      { p with status := p.status &&& 0x7F, nmiRaised := false, writeToggle := false })
  | 4 => (p.oam p.oamAddr, p)
  | 7 =>
    let isPal : Bool := decide ((p.vramAddr &&& 0x3FFF) ≥ 0x3F00)
    let data := if isPal then p.ppuRead cart p.vramAddr else p.dataBuffer
    let buf := if isPal then p.ppuRead cart ((p.vramAddr + 0x10000 - 0x1000) % 0x10000)
      else p.ppuRead cart p.vramAddr
    (data, { p with
      dataBuffer := buf
      vramAddr := (p.vramAddr + (if p.ctrl &&& 0x04 ≠ 0 then 32 else 1)) % 0x10000 })
  | _ => (0, p)

/-- `PPU::cpuWrite`: the PPU and the cartridge afterwards. -/
def PPU.cpuWrite (p : PPU) (cart : Cartridge) (addr val : Nat) : PPU × Cartridge :=
  match addr &&& 7 with
  | 0 =>
    let nmiOutput : Bool := (val &&& 0x80) != 0
    ({ p with
      ctrl := val
      nmiOutput := nmiOutput
      tempAddr := (p.tempAddr &&& 0xF3FF) ||| ((val &&& 0x03) <<< 10)
      nmiRaised := if nmiOutput && ((p.status &&& 0x80) != 0) then true else p.nmiRaised }, cart)
  | 1 => ({ p with mask := val }, cart)
  | 3 => ({ p with oamAddr := val }, cart)
  | 4 => ({ p with oam := Function.update p.oam p.oamAddr val,
                   oamAddr := (p.oamAddr + 1) % 256 }, cart)
  | 5 =>
    if !p.writeToggle then
      ({ p with fineX := val &&& 0x07
                tempAddr := (p.tempAddr &&& 0xFFE0) ||| (val >>> 3)
                writeToggle := !p.writeToggle }, cart)
    else
      ({ p with tempAddr := (p.tempAddr &&& 0x8C1F) ||| ((val &&& 0x07) <<< 12)
                              ||| ((val >>> 3) <<< 5)
                writeToggle := !p.writeToggle }, cart)
  | 6 =>
    if !p.writeToggle then
      ({ p with tempAddr := (p.tempAddr &&& 0x00FF) ||| ((val &&& 0x3F) <<< 8)
                writeToggle := !p.writeToggle }, cart)
    else
      let t := (p.tempAddr &&& 0xFF00) ||| val
      ({ p with tempAddr := t, vramAddr := t, writeToggle := !p.writeToggle }, cart)
  | 7 =>
    let r := p.ppuWrite cart p.vramAddr val
    ({ r.1 with vramAddr := (p.vramAddr + (if p.ctrl &&& 0x04 ≠ 0 then 32 else 1)) % 0x10000 },
      r.2)
  | _ => (p, cart)

/-- `PPU::nmiOccurred`. -/
def PPU.nmiOccurred (p : PPU) : Bool := p.nmiOutput && p.nmiRaised

/-- `PPU::clearNMI`. -/
def PPU.clearNMI (p : PPU) : PPU := { p with nmiRaised := false }

/-- `PPU::incrementX`. -/
def PPU.incrementX (p : PPU) : PPU :=
  if p.vramAddr &&& 0x001F = 31 then
    { p with vramAddr := (p.vramAddr &&& 0xFFE0) ^^^ 0x0400 }
  else
    { p with vramAddr := (p.vramAddr + 1) % 0x10000 }

/-- `PPU::incrementY`. -/
def PPU.incrementY (p : PPU) : PPU :=
  if p.vramAddr &&& 0x7000 ≠ 0x7000 then
    { p with vramAddr := (p.vramAddr + 0x1000) % 0x10000 }
  else
    let v := p.vramAddr &&& 0x8FFF
    let coarseY := (v &&& 0x03E0) >>> 5
    if coarseY = 29 then
      let v := v ^^^ 0x0800
      { p with vramAddr := (v &&& 0xFC1F) ||| (0 <<< 5) }
    else if coarseY = 31 then
      { p with vramAddr := (v &&& 0xFC1F) ||| (0 <<< 5) }
    else
      { p with vramAddr := (v &&& 0xFC1F) ||| ((coarseY + 1) <<< 5) }

/-- `PPU::transferX`. -/
def PPU.transferX (p : PPU) : PPU :=
  { p with vramAddr := (p.vramAddr &&& 0xFBE0) ||| (p.tempAddr &&& 0x041F) }

/-- `PPU::transferY`. -/
def PPU.transferY (p : PPU) : PPU :=
  { p with vramAddr := (p.vramAddr &&& 0x841F) ||| (p.tempAddr &&& 0x7BE0) }

/-- `PPU::loadBackgroundShifters`. -/
def PPU.loadBackgroundShifters (p : PPU) : PPU :=
  { p with
    bgShiftLo := (p.bgShiftLo &&& 0xFF00) ||| p.bgLo
    bgShiftHi := (p.bgShiftHi &&& 0xFF00) ||| p.bgHi
    atShiftLo := (p.atShiftLo &&& 0xFF00) ||| (if p.atLatchLo ≠ 0 then 0xFF else 0x00)
    atShiftHi := (p.atShiftHi &&& 0xFF00) ||| (if p.atLatchHi ≠ 0 then 0xFF else 0x00) }

/-- `PPU::updateShifters`. -/
def PPU.updateShifters (p : PPU) : PPU :=
  if p.mask &&& 0x08 ≠ 0 then
    { p with
      bgShiftLo := (p.bgShiftLo <<< 1) % 0x10000
      bgShiftHi := (p.bgShiftHi <<< 1) % 0x10000
      atShiftLo := (p.atShiftLo <<< 1) % 0x10000
      atShiftHi := (p.atShiftHi <<< 1) % 0x10000 }
  else p

/-- The `flipByte` lambda of `PPU::evaluateSprites`: bit reversal of a byte. -/
def PPU.flipByte (b : Nat) : Nat :=
  let b := ((b &&& 0xF0) >>> 4) ||| (((b &&& 0x0F) <<< 4) % 256)
  let b := ((b &&& 0xCC) >>> 2) ||| (((b &&& 0x33) <<< 2) % 256)
  let b := ((b &&& 0xAA) >>> 1) ||| (((b &&& 0x55) <<< 1) % 256)
  b

/-- One iteration of the loop of `PPU::evaluateSprites` for OAM record `i`
(the loop guard `spriteCount < 8` included). -/
def PPU.evaluateSprite (cart : Cartridge) (p : PPU) (i : Nat) : PPU :=
  if p.spriteCount < 8 then
    let spriteHeight : Int := if p.ctrl &&& 0x20 ≠ 0 then 16 else 8
    let diff : Int := p.scanline - (p.oam (i * 4) : Int)
    if diff ≥ 0 ∧ diff < spriteHeight then
      let s : Sprite :=
        { y := p.oam (i * 4 + 0), tile := p.oam (i * 4 + 1),
          attr := p.oam (i * 4 + 2), x := p.oam (i * 4 + 3) }
      let row : Int := if s.attr &&& 0x80 ≠ 0 then spriteHeight - 1 - diff else diff
      let patternAddr : Nat :=
        if spriteHeight = 8 then
          let table := if p.ctrl &&& 0x08 ≠ 0 then 0x1000 else 0x0000
          (table + s.tile * 16 + row.toNat) % 0x10000
        else
          let table := if s.tile &&& 1 ≠ 0 then 0x1000 else 0x0000
          let tileNum := s.tile &&& 0xFE
          if row ≥ 8 then (table + ((tileNum + 1) % 256) * 16 + (row - 8).toNat) % 0x10000
          else (table + tileNum * 16 + row.toNat) % 0x10000
      let lo := p.ppuRead cart patternAddr
      let hi := p.ppuRead cart ((patternAddr + 8) % 0x10000)
      let lo := if s.attr &&& 0x40 ≠ 0 then PPU.flipByte lo else lo
      let hi := if s.attr &&& 0x40 ≠ 0 then PPU.flipByte hi else hi
      { p with
        sprite0OnLine := if i = 0 then true else p.sprite0OnLine
        spriteLine := Function.update p.spriteLine p.spriteCount s
        spriteShiftLo := Function.update p.spriteShiftLo p.spriteCount lo
        spriteShiftHi := Function.update p.spriteShiftHi p.spriteCount hi
        spriteCount := p.spriteCount + 1 }
    else p
  else p

/-- `PPU::evaluateSprites`: the 64 OAM records are visited in order; once eight sprites are
buffered the remaining iterations do nothing (the loop of the source stops there). -/
def PPU.evaluateSprites (p : PPU) (cart : Cartridge) : PPU :=
  (List.range 64).foldl (PPU.evaluateSprite cart)
    { p with spriteCount := 0, sprite0OnLine := false }

/-- The sprite loop of `PPU::renderPixel`: starting at buffer slot `i` with `n` slots left,
the first slot whose sprite covers column `x` with a non-zero pattern pixel, together
with that pixel. -/
def PPU.findSprite (p : PPU) (x : Int) : Nat → Nat → Option (Nat × Nat)
  | 0, _ => none
  | n + 1, i =>
    let offset : Int := x - ((p.spriteLine i).x : Int)
    if offset < 0 ∨ offset ≥ 8 then PPU.findSprite p x n (i + 1)
    else
      let p0 := (p.spriteShiftLo i >>> (7 - offset).toNat) &&& 1
      let p1 := (p.spriteShiftHi i >>> (7 - offset).toNat) &&& 1
      let pixel := (p1 <<< 1) ||| p0
      if pixel = 0 then PPU.findSprite p x n (i + 1)
      else some (i, pixel)

/-- `PPU::renderPixel`. -/
def PPU.renderPixel (p : PPU) (cart : Cartridge) : PPU :=
  let x : Int := p.cycle - 1
  if x < 0 ∨ x ≥ 256 ∨ p.scanline < 0 ∨ p.scanline ≥ 240 then p
  else
    -- background pixel
    let bgOn : Bool := decide (p.mask &&& 0x08 ≠ 0) && (decide (p.mask &&& 0x02 ≠ 0) || decide (x ≥ 8))
    let mux := 0x8000 >>> p.fineX
    let bgPixel : Nat :=
      if bgOn then
        ((if p.bgShiftHi &&& mux ≠ 0 then 1 else 0) <<< 1) |||
          (if p.bgShiftLo &&& mux ≠ 0 then 1 else 0)
      else 0
    let bgPalette : Nat :=
      if bgOn then
        ((if p.atShiftHi &&& mux ≠ 0 then 1 else 0) <<< 1) |||
          (if p.atShiftLo &&& mux ≠ 0 then 1 else 0)
      else 0
    -- sprite pixel
    let sprOn : Bool := decide (p.mask &&& 0x10 ≠ 0) && (decide (p.mask &&& 0x04 ≠ 0) || decide (x ≥ 8))
    let found : Option (Nat × Nat) := if sprOn then PPU.findSprite p x p.spriteCount 0 else none
    let sprPixel : Nat := match found with
      | some (_, pixel) => pixel
      | none => 0
    let sprPalette : Nat := match found with
      | some (i, _) => ((p.spriteLine i).attr &&& 0x03) + 4
      | none => 0
    let sprPriority : Nat := match found with
      | some (i, _) => if (p.spriteLine i).attr &&& 0x20 ≠ 0 then 1 else 0
      | none => 0
    let spriteZero : Bool := match found with
      | some (i, _) => decide (i = 0) && p.sprite0OnLine
      | none => false
    -- compositing
    let both : Bool := !(decide (bgPixel = 0)) && !(decide (sprPixel = 0))
    let hit : Bool := both && spriteZero && !p.sprite0Hit && decide (x < 255)
      && decide (p.mask &&& 0x18 = 0x18)
      && !(decide (p.mask &&& 0x06 ≠ 0x06) && decide (x < 8))
    let finalPixel : Nat :=
      if bgPixel = 0 ∧ sprPixel = 0 then 0
      else if bgPixel = 0 ∧ sprPixel > 0 then sprPixel
      else if bgPixel > 0 ∧ sprPixel = 0 then bgPixel
      else if sprPriority = 0 then sprPixel else bgPixel
    let finalPalette : Nat :=
      if bgPixel = 0 ∧ sprPixel = 0 then 0
      else if bgPixel = 0 ∧ sprPixel > 0 then sprPalette
      else if bgPixel > 0 ∧ sprPixel = 0 then bgPalette
      else if sprPriority = 0 then sprPalette else bgPalette
    let p1 : PPU :=
      if hit then { p with sprite0Hit := true, status := p.status ||| 0x40 } else p
    let colorIdx := p1.ppuRead cart (0x3F00 + finalPalette * 4 + finalPixel) &&& 0x3F
    { p1 with
      frameBuffer := Function.update p1.frameBuffer (p.scanline * 256 + x).toNat
        (PPU.nesColor colorIdx) }

/-- The background fetch block shared by the pre-render and the visible scanlines of
`PPU::clock`: `updateShifters()` followed by `switch ((cycle - 1) % 8)`. -/
def PPU.backgroundFetch (p : PPU) (cart : Cartridge) : PPU :=
  let p := p.updateShifters
  let bgTable : Nat := if p.ctrl &&& 0x10 ≠ 0 then 0x1000 else 0x0000
  let fineY : Nat := (p.vramAddr >>> 12) &&& 0x07
  match (p.cycle - 1).tmod 8 with
  | 0 =>
    let p := p.loadBackgroundShifters
    { p with ntByte := p.ppuRead cart (0x2000 ||| (p.vramAddr &&& 0x0FFF)) }
  | 2 =>
    let atAddr := 0x23C0 ||| (p.vramAddr &&& 0x0C00) ||| ((p.vramAddr >>> 4) &&& 0x38)
      ||| ((p.vramAddr >>> 2) &&& 0x07)
    let atByte := p.ppuRead cart atAddr
    let atByte := if p.vramAddr &&& 0x40 ≠ 0 then atByte >>> 4 else atByte
    let atByte := if p.vramAddr &&& 0x02 ≠ 0 then atByte >>> 2 else atByte
    { p with atByte := atByte, atLatchLo := atByte &&& 1, atLatchHi := (atByte >>> 1) &&& 1 }
  | 4 => { p with bgLo := p.ppuRead cart ((bgTable + p.ntByte * 16 + fineY) % 0x10000) }
  | 6 => { p with bgHi := p.ppuRead cart ((bgTable + p.ntByte * 16 + fineY + 8) % 0x10000) }
  | 7 => p.incrementX
  | _ => p

/-- The body of `if (scanline == -1) { ... }` in `PPU::clock` up to the odd-frame skip. -/
def PPU.preRender (p : PPU) (cart : Cartridge) (rendering : Bool) : PPU :=
  let p := if p.cycle = 1 then
      { p with status := p.status &&& 0x1F, nmiRaised := false, sprite0Hit := false }
    else p
  if rendering then
    let p := if p.cycle ≥ 280 ∧ p.cycle ≤ 304 then p.transferY else p
    let p := if p.cycle = 257 then p.transferX else p
    let p := if (p.cycle ≥ 1 ∧ p.cycle ≤ 256) ∨ (p.cycle ≥ 321 ∧ p.cycle ≤ 336)
      then p.backgroundFetch cart else p
    if p.cycle = 256 then p.incrementY else p
  else p

/-- The body of `if (scanline >= 0 && scanline < 240) { ... }` in `PPU::clock`. -/
def PPU.visible (p : PPU) (cart : Cartridge) (rendering : Bool) : PPU :=
  let p :=
    if rendering then
      let p := if (p.cycle ≥ 1 ∧ p.cycle ≤ 256) ∨ (p.cycle ≥ 321 ∧ p.cycle ≤ 336)
        then p.backgroundFetch cart else p
      let p := if p.cycle = 256 then p.incrementY else p
      if p.cycle = 257 then (p.transferX).evaluateSprites cart else p
    else p
  if p.cycle ≥ 1 ∧ p.cycle ≤ 256 then p.renderPixel cart else p

/-- The tail of `PPU::clock`: VBlank start at (241, 1), then the dot and scanline advance. -/
def PPU.advance (p : PPU) : PPU :=
  let p := if p.scanline = 241 ∧ p.cycle = 1 then
      { p with status := p.status ||| 0x80, frameReady := true,
               nmiRaised := if p.nmiOutput then true else p.nmiRaised }
    else p
  let cycle := p.cycle + 1
  if cycle > 340 then
    let scanline := p.scanline + 1
    { p with cycle := 0, scanline := if scanline > 260 then -1 else scanline }
  else { p with cycle := cycle }

/-- `PPU::clock`. -/
def PPU.clock (p : PPU) (cart : Cartridge) : PPU :=
  let rendering : Bool := (p.mask &&& 0x18) != 0
  let p1 := if p.scanline = -1 then p.preRender cart rendering else p
  if p.scanline = -1 ∧ p.cycle = 339 ∧ rendering = true ∧ p.oddFrame = true then
    -- odd frame: jump to (0, 0) and return
    { p1 with cycle := 0, scanline := 0, oddFrame := !p.oddFrame }
  else
    let p2 := if p.scanline = -1 ∧ p.cycle = 339 ∧ rendering = true
      then { p1 with oddFrame := !p.oddFrame } else p1
    let p3 := if p2.scanline ≥ 0 ∧ p2.scanline < 240 then p2.visible cart rendering else p2
    p3.advance

/-! ## APU (`apu.h`, `apu.cpp`)

The floating-point sample pipeline (`mix`, `sampleSum`, `sampleAccumulator`, `prevSample`,
the contents of `sampleBuffer`) is not part of the state.  The one place where it decides
control flow, the test `sampleAccumulator >= 1.0` of `APU::clock`, is the argument `emit`. -/

/-- `APU::Pulse`. -/
structure Pulse where
  enabled : Bool := false
  duty : Nat := 0
  dutyPos : Nat := 0
  timerPeriod : Nat := 0
  timerValue : Nat := 0
  lengthCounter : Nat := 0
  lengthHalt : Bool := false
  envelopeStart : Bool := false
  envelopeLoop : Bool := false
  constantVolume : Bool := false
  envelopeVolume : Nat := 0
  envelopeDecay : Nat := 0
  envelopeDivider : Nat := 0
  sweepEnabled : Bool := false
  sweepNegate : Bool := false
  sweepReload : Bool := false
  sweepPeriod : Nat := 0
  sweepShift : Nat := 0
  sweepDivider : Nat := 0
  isChannel1 : Bool := false

/-- `APU::Triangle`. -/
structure Triangle where
  enabled : Bool := false
  timerPeriod : Nat := 0
  timerValue : Nat := 0
  lengthCounter : Nat := 0
  lengthHalt : Bool := false
  linearCounterLoad : Nat := 0
  linearCounter : Nat := 0
  linearReload : Bool := false
  sequencePos : Nat := 0

/-- `APU::Noise`. -/
structure Noise where
  enabled : Bool := false
  timerPeriod : Nat := 0
  timerValue : Nat := 0
  mode : Bool := false
  shiftReg : Nat := 1
  lengthCounter : Nat := 0
  lengthHalt : Bool := false
  envelopeStart : Bool := false
  envelopeLoop : Bool := false
  constantVolume : Bool := false
  envelopeVolume : Nat := 0
  envelopeDecay : Nat := 0
  envelopeDivider : Nat := 0

/-- `APU::DMC` (stub). -/
structure DMC where
  enabled : Bool := false
  output_level : Nat := 0

/-- The APU state of `apu.h` without the floating-point fields.  The constructor sets
`pulse1.isChannel1`. -/
structure APU where
  frameCounterMode : Nat := 0
  frameIRQ : Bool := false
  inhibitIRQ : Bool := false
  frameClock : Int := 0
  pulse1 : Pulse := { isChannel1 := true }
  pulse2 : Pulse := { isChannel1 := false }
  triangle : Triangle := {}
  noise : Noise := {}
  dmc : DMC := {}
  sampleWritePos : Int := 0
  sampleReadPos : Int := 0
  sampleCount : Int := 0
  cpuClock : Nat := 0

/-- `Pulse::dutyTable`. -/
def Pulse.dutyTable : List (List Bool) := [
  [false, true, false, false, false, false, false, false],
  [false, true, true, false, false, false, false, false],
  [false, true, true, true, true, false, false, false],
  [true, false, false, true, true, true, true, true]]

/-- `Triangle::sequence`. -/
def Triangle.sequence : List Nat := [
  15, 14, 13, 12, 11, 10, 9, 8, 7, 6, 5, 4, 3, 2, 1, 0,
  0, 1, 2, 3, 4, 5, 6, 7, 8, 9, 10, 11, 12, 13, 14, 15]

/-- `APU::lengthTable`. -/
def APU.lengthTable : List Nat := [
  10, 254, 20, 2, 40, 4, 80, 6, 160, 8, 60, 10, 14, 12, 26, 14,
  12, 16, 24, 18, 48, 20, 96, 22, 192, 24, 72, 26, 16, 28, 32, 30]

/-- `APU::noisePeriodTable`. -/
def APU.noisePeriodTable : List Nat := [
  4, 8, 16, 32, 64, 96, 128, 160, 202, 254, 380, 508, 762, 1016, 2034, 4068]

/-- `APU::BUFFER_SIZE`. -/
def APU.BUFFER_SIZE : Int := 8192

/-- Conversion of an integer to `int16_t` (two's complement wrap-around). -/
def toInt16 (z : Int) : Int := (z + 0x8000) % 0x10000 - 0x8000

/-- `Pulse::clockTimer`. -/
def Pulse.clockTimer (c : Pulse) : Pulse :=
  if c.timerValue = 0 then
    { c with timerValue := c.timerPeriod, dutyPos := (c.dutyPos + 1) &&& 7 }
  else { c with timerValue := c.timerValue - 1 }

/-- `Pulse::clockEnvelope`. -/
def Pulse.clockEnvelope (c : Pulse) : Pulse :=
  if c.envelopeStart then
    { c with envelopeStart := false, envelopeDecay := 15, envelopeDivider := c.envelopeVolume }
  else if c.envelopeDivider = 0 then
    if c.envelopeDecay > 0 then
      { c with envelopeDivider := c.envelopeVolume, envelopeDecay := c.envelopeDecay - 1 }
    else if c.envelopeLoop then
      { c with envelopeDivider := c.envelopeVolume, envelopeDecay := 15 }
    else { c with envelopeDivider := c.envelopeVolume }
  else { c with envelopeDivider := c.envelopeDivider - 1 }

/-- `Pulse::clockLengthCounter`. -/
def Pulse.clockLengthCounter (c : Pulse) : Pulse :=
  if !c.lengthHalt ∧ c.lengthCounter > 0 then { c with lengthCounter := c.lengthCounter - 1 }
  else c

/-- `Pulse::sweepTarget`. -/
def Pulse.sweepTarget (c : Pulse) : Nat :=
  let change : Int := toInt16 ((c.timerPeriod >>> c.sweepShift : Nat) : Int)
  let change : Int :=
    if c.sweepNegate then
      (if c.isChannel1 then toInt16 (toInt16 (-change) - 1) else toInt16 (-change))
    else change
  let target : Int := toInt16 (toInt16 (c.timerPeriod : Int) + change)
  (max 0 target).toNat

/-- `Pulse::clockSweep`. -/
def Pulse.clockSweep (c : Pulse) : Pulse :=
  let c1 :=
    if c.sweepDivider = 0 ∧ c.sweepEnabled = true ∧ c.sweepShift > 0 then
      if c.timerPeriod ≥ 8 ∧ c.sweepTarget ≤ 0x7FF then { c with timerPeriod := c.sweepTarget }
      else c
    else c
  if c1.sweepDivider = 0 ∨ c1.sweepReload = true then
    { c1 with sweepDivider := c1.sweepPeriod, sweepReload := false }
  else { c1 with sweepDivider := c1.sweepDivider - 1 }

/-- `Pulse::output`. -/
def Pulse.output (c : Pulse) : Nat :=
  if !c.enabled then 0
  else if c.lengthCounter = 0 then 0
  else if !((Pulse.dutyTable.getD c.duty []).getD c.dutyPos false) then 0
  else if c.timerPeriod < 8 then 0
  else if c.sweepTarget > 0x7FF then 0
  else if c.constantVolume then c.envelopeVolume else c.envelopeDecay

/-- `Triangle::clockTimer`. -/
def Triangle.clockTimer (c : Triangle) : Triangle :=
  if c.timerValue = 0 then
    if c.lengthCounter > 0 ∧ c.linearCounter > 0 then
      { c with timerValue := c.timerPeriod, sequencePos := (c.sequencePos + 1) &&& 31 }
    else { c with timerValue := c.timerPeriod }
  else { c with timerValue := c.timerValue - 1 }

/-- `Triangle::clockLinearCounter`. -/
def Triangle.clockLinearCounter (c : Triangle) : Triangle :=
  let c1 :=
    if c.linearReload then { c with linearCounter := c.linearCounterLoad }
    else if c.linearCounter > 0 then { c with linearCounter := c.linearCounter - 1 }
    else c
  if !c1.lengthHalt then { c1 with linearReload := false } else c1

/-- `Triangle::clockLengthCounter`. -/
def Triangle.clockLengthCounter (c : Triangle) : Triangle :=
  if !c.lengthHalt ∧ c.lengthCounter > 0 then { c with lengthCounter := c.lengthCounter - 1 }
  else c

/-- `Triangle::output`. -/
def Triangle.output (c : Triangle) : Nat :=
  if !c.enabled then 0
  else if c.lengthCounter = 0 then 0
  else if c.linearCounter = 0 then 0
  else if c.timerPeriod < 2 then 7
  else Triangle.sequence.getD c.sequencePos 0

/-- `Noise::clockTimer`. -/
def Noise.clockTimer (c : Noise) : Noise :=
  if c.timerValue = 0 then
    let bit : Nat := if c.mode then 6 else 1
    let feedback : Nat := (c.shiftReg &&& 1) ^^^ ((c.shiftReg >>> bit) &&& 1)
    { c with timerValue := c.timerPeriod
             shiftReg := ((c.shiftReg >>> 1) ||| (feedback <<< 14)) % 0x10000 }
  else { c with timerValue := c.timerValue - 1 }

/-- `Noise::clockEnvelope`. -/
def Noise.clockEnvelope (c : Noise) : Noise :=
  if c.envelopeStart then
    { c with envelopeStart := false, envelopeDecay := 15, envelopeDivider := c.envelopeVolume }
  else if c.envelopeDivider = 0 then
    if c.envelopeDecay > 0 then
      { c with envelopeDivider := c.envelopeVolume, envelopeDecay := c.envelopeDecay - 1 }
    else if c.envelopeLoop then
      { c with envelopeDivider := c.envelopeVolume, envelopeDecay := 15 }
    else { c with envelopeDivider := c.envelopeVolume }
  else { c with envelopeDivider := c.envelopeDivider - 1 }

/-- `Noise::clockLengthCounter`. -/
def Noise.clockLengthCounter (c : Noise) : Noise :=
  if !c.lengthHalt ∧ c.lengthCounter > 0 then { c with lengthCounter := c.lengthCounter - 1 }
  else c

/-- `Noise::output`. -/
def Noise.output (c : Noise) : Nat :=
  if !c.enabled then 0
  else if c.lengthCounter = 0 then 0
  else if c.shiftReg &&& 1 ≠ 0 then 0
  else if c.constantVolume then c.envelopeVolume else c.envelopeDecay

/-- `APU::clockQuarterFrame`. -/
def APU.clockQuarterFrame (a : APU) : APU :=
  { a with
    pulse1 := a.pulse1.clockEnvelope
    pulse2 := a.pulse2.clockEnvelope
    triangle := a.triangle.clockLinearCounter
    noise := a.noise.clockEnvelope }

/-- `APU::clockHalfFrame`. -/
def APU.clockHalfFrame (a : APU) : APU :=
  { a with
    pulse1 := a.pulse1.clockLengthCounter.clockSweep
    pulse2 := a.pulse2.clockLengthCounter.clockSweep
    triangle := a.triangle.clockLengthCounter
    noise := a.noise.clockLengthCounter }

/-- The five integer channel levels that `APU::mix` reads before its floating-point
formula: `p1`, `p2`, `tri`, `noi`, `dm`. -/
def APU.mixInputs (a : APU) : Nat × Nat × Nat × Nat × Nat :=
  (a.pulse1.output, a.pulse2.output, a.triangle.output, a.noise.output, a.dmc.output_level)

/-- `APU::cpuWrite`. -/
def APU.cpuWrite (a : APU) (addr val : Nat) : APU :=
  match addr with
  | 0x4000 => { a with pulse1 := { a.pulse1 with
      duty := (val >>> 6) &&& 3
      lengthHalt := (val &&& 0x20) != 0
      envelopeLoop := (val &&& 0x20) != 0
      constantVolume := (val &&& 0x10) != 0
      envelopeVolume := val &&& 0x0F } }
  | 0x4001 => { a with pulse1 := { a.pulse1 with
      sweepEnabled := (val &&& 0x80) != 0
      sweepPeriod := (val >>> 4) &&& 7
      sweepNegate := (val &&& 0x08) != 0
      sweepShift := val &&& 7
      sweepReload := true } }
  | 0x4002 => { a with pulse1 := { a.pulse1 with
      timerPeriod := (a.pulse1.timerPeriod &&& 0x700) ||| val } }
  | 0x4003 => { a with pulse1 := { a.pulse1 with
      timerPeriod := (a.pulse1.timerPeriod &&& 0xFF) ||| ((val &&& 7) <<< 8)
      lengthCounter := if a.pulse1.enabled then APU.lengthTable.getD (val >>> 3) 0
        else a.pulse1.lengthCounter
      envelopeStart := true
      dutyPos := 0 } }
  | 0x4004 => { a with pulse2 := { a.pulse2 with
      duty := (val >>> 6) &&& 3
      lengthHalt := (val &&& 0x20) != 0
      envelopeLoop := (val &&& 0x20) != 0
      constantVolume := (val &&& 0x10) != 0
      envelopeVolume := val &&& 0x0F } }
  | 0x4005 => { a with pulse2 := { a.pulse2 with
      sweepEnabled := (val &&& 0x80) != 0
      sweepPeriod := (val >>> 4) &&& 7
      sweepNegate := (val &&& 0x08) != 0
      sweepShift := val &&& 7
      sweepReload := true } }
  | 0x4006 => { a with pulse2 := { a.pulse2 with
      timerPeriod := (a.pulse2.timerPeriod &&& 0x700) ||| val } }
  | 0x4007 => { a with pulse2 := { a.pulse2 with
      timerPeriod := (a.pulse2.timerPeriod &&& 0xFF) ||| ((val &&& 7) <<< 8)
      lengthCounter := if a.pulse2.enabled then APU.lengthTable.getD (val >>> 3) 0
        else a.pulse2.lengthCounter
      envelopeStart := true
      dutyPos := 0 } }
  | 0x4008 => { a with triangle := { a.triangle with
      lengthHalt := (val &&& 0x80) != 0
      linearCounterLoad := val &&& 0x7F } }
  | 0x400A => { a with triangle := { a.triangle with
      timerPeriod := (a.triangle.timerPeriod &&& 0x700) ||| val } }
  | 0x400B => { a with triangle := { a.triangle with
      timerPeriod := (a.triangle.timerPeriod &&& 0xFF) ||| ((val &&& 7) <<< 8)
      lengthCounter := if a.triangle.enabled then APU.lengthTable.getD (val >>> 3) 0
        else a.triangle.lengthCounter
      linearReload := true } }
  | 0x400C => { a with noise := { a.noise with
      lengthHalt := (val &&& 0x20) != 0
      envelopeLoop := (val &&& 0x20) != 0
      constantVolume := (val &&& 0x10) != 0
      envelopeVolume := val &&& 0x0F } }
  | 0x400E => { a with noise := { a.noise with
      mode := (val &&& 0x80) != 0
      timerPeriod := APU.noisePeriodTable.getD (val &&& 0x0F) 0 } }
  | 0x400F => { a with noise := { a.noise with
      lengthCounter := if a.noise.enabled then APU.lengthTable.getD (val >>> 3) 0
        else a.noise.lengthCounter
      envelopeStart := true } }
  | 0x4011 => { a with dmc := { a.dmc with output_level := val &&& 0x7F } }
  | 0x4015 =>
    let e1 : Bool := (val &&& 0x01) != 0
    let e2 : Bool := (val &&& 0x02) != 0
    let e3 : Bool := (val &&& 0x04) != 0
    let e4 : Bool := (val &&& 0x08) != 0
    { a with
      pulse1 := { a.pulse1 with
        enabled := e1
        lengthCounter := if !e1 then 0 else a.pulse1.lengthCounter }
      pulse2 := { a.pulse2 with
        enabled := e2
        lengthCounter := if !e2 then 0 else a.pulse2.lengthCounter }
      triangle := { a.triangle with
        enabled := e3
        lengthCounter := if !e3 then 0 else a.triangle.lengthCounter }
      noise := { a.noise with
        enabled := e4
        lengthCounter := if !e4 then 0 else a.noise.lengthCounter }
      dmc := { a.dmc with enabled := (val &&& 0x10) != 0 } }
  | 0x4017 =>
    let mode := (val >>> 7) &&& 1
    let inhibit : Bool := (val &&& 0x40) != 0
    let a1 : APU := { a with
      frameCounterMode := mode
      inhibitIRQ := inhibit
      frameIRQ := if inhibit then false else a.frameIRQ
      frameClock := 0 }
    if mode = 1 then a1.clockQuarterFrame.clockHalfFrame else a1
  | _ => a

/-- `APU::cpuRead`: the byte returned and the APU afterwards. -/
def APU.cpuRead (a : APU) (addr : Nat) : Nat × APU :=
  if addr = 0x4015 then
    let status := (if a.pulse1.lengthCounter > 0 then 0x01 else 0)
      ||| (if a.pulse2.lengthCounter > 0 then 0x02 else 0)
      ||| (if a.triangle.lengthCounter > 0 then 0x04 else 0)
      ||| (if a.noise.lengthCounter > 0 then 0x08 else 0)
      ||| (if a.frameIRQ then 0x40 else 0)
    (status, { a with frameIRQ := false })
  else (0, a)

/-- The frame counter step of `APU::clock`, run after `frameClock++`. -/
def APU.frameStep (a : APU) : APU :=
  if a.frameCounterMode = 0 then
    match a.frameClock with
    | 3729 => a.clockQuarterFrame
    | 7457 => a.clockQuarterFrame.clockHalfFrame
    | 11186 => a.clockQuarterFrame
    | 14915 =>
      let a1 := a.clockQuarterFrame.clockHalfFrame
      { a1 with frameIRQ := if !a1.inhibitIRQ then true else a1.frameIRQ, frameClock := 0 }
    | _ => a
  else
    match a.frameClock with
    | 3729 => a.clockQuarterFrame
    | 7457 => a.clockQuarterFrame.clockHalfFrame
    | 11186 => a.clockQuarterFrame
    | 14915 => a
    | 18641 => { a.clockQuarterFrame.clockHalfFrame with frameClock := 0 }
    | _ => a

/-- `APU::clock`.  `emit` is the outcome of the test `sampleAccumulator >= 1.0`. -/
def APU.clock (a : APU) (emit : Bool) : APU :=
  let a := { a with triangle := a.triangle.clockTimer }
  let a :=
    if a.cpuClock % 2 = 0 then
      let a := { a with
        pulse1 := a.pulse1.clockTimer
        pulse2 := a.pulse2.clockTimer
        noise := a.noise.clockTimer }
      APU.frameStep { a with frameClock := a.frameClock + 1 }
    else a
  let a := { a with sampleCount := a.sampleCount + 1 }
  let a :=
    if emit then
      { a with sampleCount := 0
               sampleWritePos := (a.sampleWritePos + 1).tmod APU.BUFFER_SIZE }
    else a
  { a with cpuClock := a.cpuClock + 1 }

/-! ## Bus and CPU state (`bus.h`, `cpu.h`)

The bus reaches every other component and the CPU reaches the bus, so the CPU and bus
methods act on one record holding all components (wired as in `main.cpp`: one cartridge
shared by the bus and the PPU, two distinct controllers).  The 64-bit tick counters
`systemClock` and `cpuClock` are unbounded naturals. -/

/-- The CPU registers and flags of `cpu.h`.  `busConn` is the `bus` pointer being
non-null. -/
structure CPU where
  busConn : Bool := false
  stallCycles : Int := 0
  a : Nat := 0
  x : Nat := 0
  y : Nat := 0
  sp : Nat := 0
  pc : Nat := 0
  flagC : Bool := false
  flagZ : Bool := false
  flagI : Bool := false
  flagD : Bool := false
  flagB : Bool := false
  flagV : Bool := false
  flagN : Bool := false
  cycles : Int := 0

/-- The bus of `bus.h` together with the components its pointers reach.  A flag
`xConn` is the pointer to component `x` being non-null. -/
structure Bus where
  cpu : CPU := {}
  ppu : PPU := {}
  apu : APU := {}
  cart : Cartridge := {}
  ctrl1 : Controller := {}
  ctrl2 : Controller := {}
  cpuConn : Bool := false
  ppuConn : Bool := false
  apuConn : Bool := false
  cartConn : Bool := false
  ctrl1Conn : Bool := false
  ctrl2Conn : Bool := false
  ram : Nat → Nat := fun _ => 0
  systemClock : Nat := 0
  dmaActive : Bool := false
  dmaSync : Bool := true
  dmaPage : Nat := 0
  dmaAddr : Nat := 0
  dmaData : Nat := 0

/-! ## Bus address decoding (`bus.cpp`) -/

/-- `Bus::cpuRead`: the byte returned and the system afterwards. -/
def Bus.cpuRead (s : Bus) (addr : Nat) : Nat × Bus :=
  if addr < 0x2000 then
    (s.ram (addr &&& 0x07FF), s)
  else if addr < 0x4000 then
    if s.ppuConn then
      let r := s.ppu.cpuRead s.cart addr
      (r.1, { s with ppu := r.2 })
    else (0, s)
  else if addr = 0x4015 then
    if s.apuConn then
      let r := s.apu.cpuRead addr
      (r.1, { s with apu := r.2 })
    else (0, s)
  else if addr = 0x4016 then
    if s.ctrl1Conn then
      let r := s.ctrl1.read
      (r.1, { s with ctrl1 := r.2 })
    else (0, s)
  else if addr = 0x4017 then
    if s.ctrl2Conn then
      let r := s.ctrl2.read
      (r.1, { s with ctrl2 := r.2 })
    else (0, s)
  else if addr < 0x4020 then
    (0, s)
  else
    (if s.cartConn then s.cart.cpuRead addr else 0, s)

/-- `Bus::cpuWrite`. -/
def Bus.cpuWrite (s : Bus) (addr val : Nat) : Bus :=
  if addr < 0x2000 then
    { s with ram := Function.update s.ram (addr &&& 0x07FF) val }
  else if addr < 0x4000 then
    if s.ppuConn then
      let r := s.ppu.cpuWrite s.cart addr val
      { s with ppu := r.1, cart := r.2 }
    else s
  else if addr = 0x4014 then
    { s with dmaPage := val, dmaAddr := 0, dmaActive := true, dmaSync := true }
  else if addr = 0x4016 then
    let s := if s.ctrl1Conn then { s with ctrl1 := s.ctrl1.write val } else s
    if s.ctrl2Conn then { s with ctrl2 := s.ctrl2.write val } else s
  else if addr < 0x4020 then
    if s.apuConn then { s with apu := s.apu.cpuWrite addr val } else s
  else
    if s.cartConn then { s with cart := s.cart.cpuWrite addr val } else s

/-- The values returned by reading the given addresses one after the other through the
bus, and the system afterwards. -/
def Bus.readSeq (s : Bus) : List Nat → List Nat × Bus
  | [] => ([], s)
  | addr :: rest =>
    let r := s.cpuRead addr
    let rs := Bus.readSeq r.2 rest
    (r.1 :: rs.1, rs.2)

/-! ## CPU (`cpu.cpp`) -/

/-- `CPU::read`. -/
def CPU.read (s : Bus) (addr : Nat) : Nat × Bus :=
  if s.cpu.busConn then s.cpuRead addr else (0, s)

/-- `CPU::write`. -/
def CPU.write (s : Bus) (addr val : Nat) : Bus :=
  if s.cpu.busConn then s.cpuWrite addr val else s

/-- `CPU::push`. -/
def CPU.push (s : Bus) (val : Nat) : Bus :=
  let s := CPU.write s (0x0100 + s.cpu.sp) val
  { s with cpu := { s.cpu with sp := (s.cpu.sp + 255) % 256 } }

/-- `CPU::push16`. -/
def CPU.push16 (s : Bus) (val : Nat) : Bus :=
  CPU.push (CPU.push s ((val >>> 8) &&& 0xFF)) (val &&& 0xFF)

/-- `CPU::pull`: the byte pulled and the system afterwards. -/
def CPU.pull (s : Bus) : Nat × Bus :=
  let s := { s with cpu := { s.cpu with sp := (s.cpu.sp + 1) % 256 } }
  CPU.read s (0x0100 + s.cpu.sp)

/-- `CPU::pull16`. -/
def CPU.pull16 (s : Bus) : Nat × Bus :=
  let lo := CPU.pull s
  let hi := CPU.pull lo.2
  (((hi.1 <<< 8) ||| lo.1) % 0x10000, hi.2)

/-- `CPU::getStatus`. -/
def CPU.getStatus (c : CPU) : Nat :=
  0x20 ||| (if c.flagC then 0x01 else 0) ||| (if c.flagZ then 0x02 else 0)
    ||| (if c.flagI then 0x04 else 0) ||| (if c.flagD then 0x08 else 0)
    ||| (if c.flagB then 0x10 else 0) ||| (if c.flagV then 0x40 else 0)
    ||| (if c.flagN then 0x80 else 0)

/-- `CPU::setStatus`. -/
def CPU.setStatus (c : CPU) (val : Nat) : CPU :=
  { c with
    flagC := (val &&& 0x01) != 0
    flagZ := (val &&& 0x02) != 0
    flagI := (val &&& 0x04) != 0
    flagD := (val &&& 0x08) != 0
    flagB := (val &&& 0x10) != 0
    flagV := (val &&& 0x40) != 0
    flagN := (val &&& 0x80) != 0 }

/-- `CPU::setZN`. -/
def CPU.setZN (c : CPU) (val : Nat) : CPU :=
  { c with flagZ := decide (val = 0), flagN := (val &&& 0x80) != 0 }

/-- `CPU::pageCross`. -/
def CPU.pageCross (a b : Nat) : Bool := (a &&& 0xFF00) != (b &&& 0xFF00)

/-- `CPU::reset`. -/
def CPU.reset (s : Bus) : Bus :=
  let s := { s with cpu := CPU.setStatus { s.cpu with a := 0, x := 0, y := 0, sp := 0xFD } 0x24 }
  let lo := CPU.read s 0xFFFC
  let hi := CPU.read lo.2 0xFFFD
  { hi.2 with cpu := { hi.2.cpu with pc := (lo.1 ||| (hi.1 <<< 8)) % 0x10000, cycles := 8 } }

/-- `CPU::nmi`. -/
def CPU.nmi (s : Bus) : Bus :=
  let s := CPU.push16 s s.cpu.pc
  let s := { s with cpu := { s.cpu with flagB := false } }
  let s := CPU.push s (s.cpu.getStatus ||| 0x20)
  let s := { s with cpu := { s.cpu with flagI := true } }
  let lo := CPU.read s 0xFFFA
  let hi := CPU.read lo.2 0xFFFB
  { hi.2 with cpu := { hi.2.cpu with pc := (lo.1 ||| (hi.1 <<< 8)) % 0x10000, cycles := 7 } }

/-- `CPU::irq`. -/
def CPU.irq (s : Bus) : Bus :=
  if s.cpu.flagI then s
  else
    let s := CPU.push16 s s.cpu.pc
    let s := { s with cpu := { s.cpu with flagB := false } }
    let s := CPU.push s (s.cpu.getStatus ||| 0x20)
    let s := { s with cpu := { s.cpu with flagI := true } }
    let lo := CPU.read s 0xFFFE
    let hi := CPU.read lo.2 0xFFFF
    { hi.2 with cpu := { hi.2.cpu with pc := (lo.1 ||| (hi.1 <<< 8)) % 0x10000, cycles := 7 } }

/-- The addressing lambdas of `CPU::execute`; the flag of `abx`, `aby`, `izy` is their
`checkPage` argument. -/
inductive Mode where
  | imm
  | zp
  | zpx
  | zpy
  | abs
  | abx (checkPage : Bool)
  | aby (checkPage : Bool)
  | izx
  | izy (checkPage : Bool)
  deriving DecidableEq, Repr

/-- The `do_...` blocks of `CPU::execute` that work on an operand address. -/
inductive Op where
  | ADC | SBC | AND | ORA | EOR | CMP | CPX | CPY | BIT
  | LDA | LDX | LDY | STA | STX | STY | INC | DEC
  | ASL | LSR | ROL | ROR
  | LAX | SAX | DCP | ISB | SLO | RLA | SRE | RRA
  deriving DecidableEq, Repr

/-- The flag a branch tests. -/
inductive Flag where
  | C | Z | N | V
  deriving DecidableEq, Repr

/-- The `case` labels of the `switch (opcode)` in `CPU::execute`, grouped by body.
`mem op mode n` is `addr = mode(); cycles = n; goto do_op`; `branch f v` is the branch
taken when flag `f` equals `v`; `nop k n` is `pc += k; cycles = n`; `unknown` is the
`default` label. -/
inductive Instr where
  | mem (op : Op) (mode : Mode) (cycles : Int)
  | INX | INY | DEX | DEY
  | ASL_A | LSR_A | ROL_A | ROR_A
  | branch (flag : Flag) (value : Bool)
  | JMP_abs | JMP_ind | JSR | RTS | RTI
  | TAX | TXA | TAY | TYA | TXS | TSX
  | PHA | PLA | PHP | PLP
  | CLC | SEC | CLD | SED | CLI | SEI | CLV
  | BRK
  | nop (skip : Nat) (cycles : Int)
  | TOP_abx
  | unknown
  deriving DecidableEq, Repr

open Instr Op Mode in
/-- The opcode table: one entry per `case` label of `CPU::execute`. -/
def CPU.opcodeTable : List (Nat × Instr) := [
  -- ADC
  (0x69, mem ADC imm 2), (0x65, mem ADC zp 3), (0x75, mem ADC zpx 4), (0x6D, mem ADC abs 4),
  (0x7D, mem ADC (abx true) 4), (0x79, mem ADC (aby true) 4), (0x61, mem ADC izx 6),
  (0x71, mem ADC (izy true) 5),
  -- SBC
  (0xE9, mem SBC imm 2), (0xE5, mem SBC zp 3), (0xF5, mem SBC zpx 4), (0xED, mem SBC abs 4),
  (0xFD, mem SBC (abx true) 4), (0xF9, mem SBC (aby true) 4), (0xE1, mem SBC izx 6),
  (0xF1, mem SBC (izy true) 5),
  -- AND
  (0x29, mem AND imm 2), (0x25, mem AND zp 3), (0x35, mem AND zpx 4), (0x2D, mem AND abs 4),
  (0x3D, mem AND (abx true) 4), (0x39, mem AND (aby true) 4), (0x21, mem AND izx 6),
  (0x31, mem AND (izy true) 5),
  -- ORA
  (0x09, mem ORA imm 2), (0x05, mem ORA zp 3), (0x15, mem ORA zpx 4), (0x0D, mem ORA abs 4),
  (0x1D, mem ORA (abx true) 4), (0x19, mem ORA (aby true) 4), (0x01, mem ORA izx 6),
  (0x11, mem ORA (izy true) 5),
  -- EOR
  (0x49, mem EOR imm 2), (0x45, mem EOR zp 3), (0x55, mem EOR zpx 4), (0x4D, mem EOR abs 4),
  (0x5D, mem EOR (abx true) 4), (0x59, mem EOR (aby true) 4), (0x41, mem EOR izx 6),
  (0x51, mem EOR (izy true) 5),
  -- CMP
  (0xC9, mem CMP imm 2), (0xC5, mem CMP zp 3), (0xD5, mem CMP zpx 4), (0xCD, mem CMP abs 4),
  (0xDD, mem CMP (abx true) 4), (0xD9, mem CMP (aby true) 4), (0xC1, mem CMP izx 6),
  (0xD1, mem CMP (izy true) 5),
  -- CPX, CPY, BIT
  (0xE0, mem CPX imm 2), (0xE4, mem CPX zp 3), (0xEC, mem CPX abs 4),
  (0xC0, mem CPY imm 2), (0xC4, mem CPY zp 3), (0xCC, mem CPY abs 4),
  (0x24, mem BIT zp 3), (0x2C, mem BIT abs 4),
  -- LDA
  (0xA9, mem LDA imm 2), (0xA5, mem LDA zp 3), (0xB5, mem LDA zpx 4), (0xAD, mem LDA abs 4),
  (0xBD, mem LDA (abx true) 4), (0xB9, mem LDA (aby true) 4), (0xA1, mem LDA izx 6),
  (0xB1, mem LDA (izy true) 5),
  -- LDX, LDY
  (0xA2, mem LDX imm 2), (0xA6, mem LDX zp 3), (0xB6, mem LDX zpy 4), (0xAE, mem LDX abs 4),
  (0xBE, mem LDX (aby true) 4),
  (0xA0, mem LDY imm 2), (0xA4, mem LDY zp 3), (0xB4, mem LDY zpx 4), (0xAC, mem LDY abs 4),
  (0xBC, mem LDY (abx true) 4),
  -- STA, STX, STY
  (0x85, mem STA zp 3), (0x95, mem STA zpx 4), (0x8D, mem STA abs 4),
  (0x9D, mem STA (abx false) 5), (0x99, mem STA (aby false) 5), (0x81, mem STA izx 6),
  (0x91, mem STA (izy false) 6),
  (0x86, mem STX zp 3), (0x96, mem STX zpy 4), (0x8E, mem STX abs 4),
  (0x84, mem STY zp 3), (0x94, mem STY zpx 4), (0x8C, mem STY abs 4),
  -- INC, DEC
  (0xE6, mem INC zp 5), (0xF6, mem INC zpx 6), (0xEE, mem INC abs 6),
  (0xFE, mem INC (abx false) 7),
  (0xC6, mem DEC zp 5), (0xD6, mem DEC zpx 6), (0xCE, mem DEC abs 6),
  (0xDE, mem DEC (abx false) 7),
  (0xE8, INX), (0xC8, INY), (0xCA, DEX), (0x88, DEY),
  -- ASL, LSR, ROL, ROR
  (0x0A, ASL_A), (0x06, mem ASL zp 5), (0x16, mem ASL zpx 6), (0x0E, mem ASL abs 6),
  (0x1E, mem ASL (abx false) 7),
  (0x4A, LSR_A), (0x46, mem LSR zp 5), (0x56, mem LSR zpx 6), (0x4E, mem LSR abs 6),
  (0x5E, mem LSR (abx false) 7),
  (0x2A, ROL_A), (0x26, mem ROL zp 5), (0x36, mem ROL zpx 6), (0x2E, mem ROL abs 6),
  (0x3E, mem ROL (abx false) 7),
  (0x6A, ROR_A), (0x66, mem ROR zp 5), (0x76, mem ROR zpx 6), (0x6E, mem ROR abs 6),
  (0x7E, mem ROR (abx false) 7),
  -- branches: BCC, BCS, BEQ, BNE, BMI, BPL, BVC, BVS
  (0x90, branch Flag.C false), (0xB0, branch Flag.C true),
  (0xF0, branch Flag.Z true), (0xD0, branch Flag.Z false),
  (0x30, branch Flag.N true), (0x10, branch Flag.N false),
  (0x50, branch Flag.V false), (0x70, branch Flag.V true),
  -- jumps and returns
  (0x4C, JMP_abs), (0x6C, JMP_ind), (0x20, JSR), (0x60, RTS), (0x40, RTI),
  -- transfers
  (0xAA, TAX), (0x8A, TXA), (0xA8, TAY), (0x98, TYA), (0x9A, TXS), (0xBA, TSX),
  -- stack
  (0x48, PHA), (0x68, PLA), (0x08, PHP), (0x28, PLP),
  -- flags
  (0x18, CLC), (0x38, SEC), (0xD8, CLD), (0xF8, SED), (0x58, CLI), (0x78, SEI), (0xB8, CLV),
  -- NOP, BRK
  (0xEA, nop 0 2), (0x00, BRK),
  -- unofficial NOPs
  (0x1A, nop 0 2), (0x3A, nop 0 2), (0x5A, nop 0 2), (0x7A, nop 0 2), (0xDA, nop 0 2),
  (0xFA, nop 0 2),
  (0x04, nop 1 3), (0x44, nop 1 3), (0x64, nop 1 3),
  (0x14, nop 1 4), (0x34, nop 1 4), (0x54, nop 1 4), (0x74, nop 1 4), (0xD4, nop 1 4),
  (0xF4, nop 1 4),
  (0x80, nop 1 2), (0x82, nop 1 2), (0x89, nop 1 2), (0xC2, nop 1 2), (0xE2, nop 1 2),
  (0x0C, nop 2 4),
  (0x1C, TOP_abx), (0x3C, TOP_abx), (0x5C, TOP_abx), (0x7C, TOP_abx), (0xDC, TOP_abx),
  (0xFC, TOP_abx),
  -- LAX, SAX
  (0xA7, mem LAX zp 3), (0xB7, mem LAX zpy 4), (0xAF, mem LAX abs 4),
  (0xBF, mem LAX (aby true) 4), (0xA3, mem LAX izx 6), (0xB3, mem LAX (izy true) 5),
  (0x87, mem SAX zp 3), (0x97, mem SAX zpy 4), (0x8F, mem SAX abs 4), (0x83, mem SAX izx 6),
  -- DCP
  (0xC7, mem DCP zp 5), (0xD7, mem DCP zpx 6), (0xCF, mem DCP abs 6),
  (0xDF, mem DCP (abx false) 7), (0xDB, mem DCP (aby false) 7), (0xC3, mem DCP izx 8),
  (0xD3, mem DCP (izy false) 8),
  -- ISB
  (0xE7, mem ISB zp 5), (0xF7, mem ISB zpx 6), (0xEF, mem ISB abs 6),
  (0xFF, mem ISB (abx false) 7), (0xFB, mem ISB (aby false) 7), (0xE3, mem ISB izx 8),
  (0xF3, mem ISB (izy false) 8),
  -- SLO
  (0x07, mem SLO zp 5), (0x17, mem SLO zpx 6), (0x0F, mem SLO abs 6),
  (0x1F, mem SLO (abx false) 7), (0x1B, mem SLO (aby false) 7), (0x03, mem SLO izx 8),
  (0x13, mem SLO (izy false) 8),
  -- RLA
  (0x27, mem RLA zp 5), (0x37, mem RLA zpx 6), (0x2F, mem RLA abs 6),
  (0x3F, mem RLA (abx false) 7), (0x3B, mem RLA (aby false) 7), (0x23, mem RLA izx 8),
  (0x33, mem RLA (izy false) 8),
  -- SRE
  (0x47, mem SRE zp 5), (0x57, mem SRE zpx 6), (0x4F, mem SRE abs 6),
  (0x5F, mem SRE (abx false) 7), (0x5B, mem SRE (aby false) 7), (0x43, mem SRE izx 8),
  (0x53, mem SRE (izy false) 8),
  -- RRA
  (0x67, mem RRA zp 5), (0x77, mem RRA zpx 6), (0x6F, mem RRA abs 6),
  (0x7F, mem RRA (abx false) 7), (0x7B, mem RRA (aby false) 7), (0x63, mem RRA izx 8),
  (0x73, mem RRA (izy false) 8)]

/-- The `switch (opcode)` dispatch of `CPU::execute`. -/
def CPU.decode (opcode : Nat) : Instr :=
  (CPU.opcodeTable.lookup opcode).getD Instr.unknown

/-- `read(pc++)`: the program counter is advanced, then the old address is read. -/
def CPU.fetch (s : Bus) : Nat × Bus :=
  let pc := s.cpu.pc
  CPU.read { s with cpu := { s.cpu with pc := (pc + 1) % 0x10000 } } pc

/-- The `abs_` lambda: two fetches, `(hi << 8) | lo`. -/
def CPU.fetch16 (s : Bus) : Nat × Bus :=
  let lo := CPU.fetch s
  let hi := CPU.fetch lo.2
  (((hi.1 <<< 8) ||| lo.1) % 0x10000, hi.2)

/-- The addressing lambdas of `CPU::execute`: the operand address, the value given to
`extraCycle`, and the system afterwards. -/
def CPU.operand (s : Bus) : Mode → (Nat × Bool) × Bus
  | Mode.imm =>
    ((s.cpu.pc, false), { s with cpu := { s.cpu with pc := (s.cpu.pc + 1) % 0x10000 } })
  | Mode.zp =>
    let r := CPU.fetch s
    ((r.1 &&& 0xFF, false), r.2)
  | Mode.zpx =>
    let r := CPU.fetch s
    (((r.1 + r.2.cpu.x) &&& 0xFF, false), r.2)
  | Mode.zpy =>
    let r := CPU.fetch s
    (((r.1 + r.2.cpu.y) &&& 0xFF, false), r.2)
  | Mode.abs =>
    let r := CPU.fetch16 s
    ((r.1, false), r.2)
  | Mode.abx checkPage =>
    let r := CPU.fetch16 s
    let result := (r.1 + r.2.cpu.x) % 0x10000
    ((result, checkPage && CPU.pageCross r.1 result), r.2)
  | Mode.aby checkPage =>
    let r := CPU.fetch16 s
    let result := (r.1 + r.2.cpu.y) % 0x10000
    ((result, checkPage && CPU.pageCross r.1 result), r.2)
  | Mode.izx =>
    let r := CPU.fetch s
    let ptr := (r.1 + r.2.cpu.x) % 256
    let lo := CPU.read r.2 (ptr &&& 0xFF)
    let hi := CPU.read lo.2 ((ptr + 1) &&& 0xFF)
    ((((hi.1 <<< 8) ||| lo.1) % 0x10000, false), hi.2)
  | Mode.izy checkPage =>
    let r := CPU.fetch s
    let ptr := r.1 % 256
    let lo := CPU.read r.2 (ptr &&& 0xFF)
    let hi := CPU.read lo.2 ((ptr + 1) &&& 0xFF)
    let base := ((hi.1 <<< 8) ||| lo.1) % 0x10000
    let result := (base + hi.2.cpu.y) % 0x10000
    ((result, checkPage && CPU.pageCross base result), hi.2)

/-- The bit pattern of `~x` on a 32-bit `int`. -/
def not32 (x : Nat) : Nat := 0xFFFFFFFF ^^^ x

/-- Conversion of a byte to `int8_t`. -/
def toInt8 (v : Nat) : Int := if v % 256 ≥ 128 then ((v % 256 : Nat) : Int) - 256 else (v % 256 : Nat)

/-- `if (extraCycle) cycles++`. -/
def CPU.bump (c : CPU) (extraCycle : Bool) : CPU :=
  if extraCycle then { c with cycles := c.cycles + 1 } else c

/-- The addition shared by `do_adc`, `do_sbc`, `do_isb` and `do_rra`: `sum`, then `flagC`,
`flagV`, `a` and `setZN(a)`. -/
def CPU.addWithCarry (c : CPU) (m : Nat) : CPU :=
  let sum := (c.a + m + (if c.flagC then 1 else 0)) % 0x10000
  CPU.setZN { c with
    flagC := decide (sum > 0xFF)
    flagV := ((not32 (c.a ^^^ m)) &&& (c.a ^^^ sum) &&& 0x80) != 0
    a := sum &&& 0xFF } (sum &&& 0xFF)

/-- The comparison shared by `do_cmp`, `do_cpx`, `do_cpy` and `do_dcp`: `flagC = r >= m;
setZN(r - m)`. -/
def CPU.compare (c : CPU) (r m : Nat) : CPU :=
  CPU.setZN { c with flagC := decide (r ≥ m) } ((r + 256 - m) % 256)

/-- The `do_...` blocks of `CPU::execute`, run with `addr` and `extraCycle` as the
addressing lambda left them. -/
def CPU.runOp (s : Bus) (addr : Nat) (extraCycle : Bool) : Op → Bus
  | Op.ADC =>
    let r := CPU.read s addr
    { r.2 with cpu := (r.2.cpu.addWithCarry r.1).bump extraCycle }
  | Op.SBC =>
    let r := CPU.read s addr
    { r.2 with cpu := (r.2.cpu.addWithCarry (r.1 ^^^ 0xFF)).bump extraCycle }
  | Op.AND =>
    let r := CPU.read s addr
    let a := r.2.cpu.a &&& r.1
    { r.2 with cpu := (CPU.setZN { r.2.cpu with a := a } a).bump extraCycle }
  | Op.ORA =>
    let r := CPU.read s addr
    let a := r.2.cpu.a ||| r.1
    { r.2 with cpu := (CPU.setZN { r.2.cpu with a := a } a).bump extraCycle }
  | Op.EOR =>
    let r := CPU.read s addr
    let a := r.2.cpu.a ^^^ r.1
    { r.2 with cpu := (CPU.setZN { r.2.cpu with a := a } a).bump extraCycle }
  | Op.CMP =>
    let r := CPU.read s addr
    { r.2 with cpu := (r.2.cpu.compare r.2.cpu.a r.1).bump extraCycle }
  | Op.CPX =>
    let r := CPU.read s addr
    { r.2 with cpu := r.2.cpu.compare r.2.cpu.x r.1 }
  | Op.CPY =>
    let r := CPU.read s addr
    { r.2 with cpu := r.2.cpu.compare r.2.cpu.y r.1 }
  | Op.BIT =>
    let r := CPU.read s addr
    { r.2 with cpu := { r.2.cpu with
        flagZ := decide (r.2.cpu.a &&& r.1 = 0)
        flagV := (r.1 &&& 0x40) != 0
        flagN := (r.1 &&& 0x80) != 0 } }
  | Op.LDA =>
    let r := CPU.read s addr
    { r.2 with cpu := (CPU.setZN { r.2.cpu with a := r.1 } r.1).bump extraCycle }
  | Op.LDX =>
    let r := CPU.read s addr
    { r.2 with cpu := (CPU.setZN { r.2.cpu with x := r.1 } r.1).bump extraCycle }
  | Op.LDY =>
    let r := CPU.read s addr
    { r.2 with cpu := (CPU.setZN { r.2.cpu with y := r.1 } r.1).bump extraCycle }
  | Op.STA => CPU.write s addr s.cpu.a
  | Op.STX => CPU.write s addr s.cpu.x
  | Op.STY => CPU.write s addr s.cpu.y
  | Op.INC =>
    let r := CPU.read s addr
    let m := (r.1 + 1) % 256
    let w := CPU.write r.2 addr m
    { w with cpu := w.cpu.setZN m }
  | Op.DEC =>
    let r := CPU.read s addr
    let m := (r.1 + 255) % 256
    let w := CPU.write r.2 addr m
    { w with cpu := w.cpu.setZN m }
  | Op.ASL =>
    let r := CPU.read s addr
    let m := (r.1 <<< 1) % 256
    let w := CPU.write { r.2 with cpu := { r.2.cpu with flagC := (r.1 &&& 0x80) != 0 } } addr m
    { w with cpu := w.cpu.setZN m }
  | Op.LSR =>
    let r := CPU.read s addr
    let m := r.1 >>> 1
    let w := CPU.write { r.2 with cpu := { r.2.cpu with flagC := (r.1 &&& 0x01) != 0 } } addr m
    { w with cpu := w.cpu.setZN m }
  | Op.ROL =>
    let r := CPU.read s addr
    let m := ((r.1 <<< 1) ||| (if r.2.cpu.flagC then 1 else 0)) % 256
    let w := CPU.write { r.2 with cpu := { r.2.cpu with flagC := (r.1 &&& 0x80) != 0 } } addr m
    { w with cpu := w.cpu.setZN m }
  | Op.ROR =>
    let r := CPU.read s addr
    let m := ((r.1 >>> 1) ||| (if r.2.cpu.flagC then 0x80 else 0)) % 256
    let w := CPU.write { r.2 with cpu := { r.2.cpu with flagC := (r.1 &&& 0x01) != 0 } } addr m
    { w with cpu := w.cpu.setZN m }
  | Op.LAX =>
    let r := CPU.read s addr
    { r.2 with cpu := (CPU.setZN { r.2.cpu with a := r.1, x := r.1 } r.1).bump extraCycle }
  | Op.SAX => CPU.write s addr (s.cpu.a &&& s.cpu.x)
  | Op.DCP =>
    let r := CPU.read s addr
    let m := (r.1 + 255) % 256
    let w := CPU.write r.2 addr m
    { w with cpu := w.cpu.compare w.cpu.a m }
  | Op.ISB =>
    let r := CPU.read s addr
    let m := (r.1 + 1) % 256
    let w := CPU.write r.2 addr m
    { w with cpu := w.cpu.addWithCarry (m ^^^ 0xFF) }
  | Op.SLO =>
    let r := CPU.read s addr
    let m := (r.1 <<< 1) % 256
    let w := CPU.write { r.2 with cpu := { r.2.cpu with flagC := (r.1 &&& 0x80) != 0 } } addr m
    let a := w.cpu.a ||| m
    { w with cpu := CPU.setZN { w.cpu with a := a } a }
  | Op.RLA =>
    let r := CPU.read s addr
    let m := ((r.1 <<< 1) ||| (if r.2.cpu.flagC then 1 else 0)) % 256
    let w := CPU.write { r.2 with cpu := { r.2.cpu with flagC := (r.1 &&& 0x80) != 0 } } addr m
    let a := w.cpu.a &&& m
    { w with cpu := CPU.setZN { w.cpu with a := a } a }
  | Op.SRE =>
    let r := CPU.read s addr
    let m := r.1 >>> 1
    let w := CPU.write { r.2 with cpu := { r.2.cpu with flagC := (r.1 &&& 0x01) != 0 } } addr m
    let a := w.cpu.a ^^^ m
    { w with cpu := CPU.setZN { w.cpu with a := a } a }
  | Op.RRA =>
    let r := CPU.read s addr
    let m := ((r.1 >>> 1) ||| (if r.2.cpu.flagC then 0x80 else 0)) % 256
    let w := CPU.write { r.2 with cpu := { r.2.cpu with flagC := (r.1 &&& 0x01) != 0 } } addr m
    { w with cpu := w.cpu.addWithCarry m }

/-- The value of the flag a branch tests. -/
def CPU.flag (c : CPU) : Flag → Bool
  | Flag.C => c.flagC
  | Flag.Z => c.flagZ
  | Flag.N => c.flagN
  | Flag.V => c.flagV

/-- The body of one `case` of `CPU::execute`, run after the opcode fetch. -/
def CPU.run (s : Bus) : Instr → Bus
  | Instr.mem op mode cycles =>
    let r := CPU.operand s mode
    CPU.runOp { r.2 with cpu := { r.2.cpu with cycles := cycles } } r.1.1 r.1.2 op
  | Instr.INX =>
    let v := (s.cpu.x + 1) % 256
    { s with cpu := { CPU.setZN { s.cpu with x := v } v with cycles := 2 } }
  | Instr.INY =>
    let v := (s.cpu.y + 1) % 256
    { s with cpu := { CPU.setZN { s.cpu with y := v } v with cycles := 2 } }
  | Instr.DEX =>
    let v := (s.cpu.x + 255) % 256
    { s with cpu := { CPU.setZN { s.cpu with x := v } v with cycles := 2 } }
  | Instr.DEY =>
    let v := (s.cpu.y + 255) % 256
    { s with cpu := { CPU.setZN { s.cpu with y := v } v with cycles := 2 } }
  | Instr.ASL_A =>
    let v := (s.cpu.a <<< 1) % 256
    { s with cpu := { CPU.setZN { s.cpu with flagC := (s.cpu.a &&& 0x80) != 0, a := v } v
                      with cycles := 2 } }
  | Instr.LSR_A =>
    let v := s.cpu.a >>> 1
    { s with cpu := { CPU.setZN { s.cpu with flagC := (s.cpu.a &&& 0x01) != 0, a := v } v
                      with cycles := 2 } }
  | Instr.ROL_A =>
    let v := ((s.cpu.a <<< 1) ||| (if s.cpu.flagC then 1 else 0)) % 256
    { s with cpu := { CPU.setZN { s.cpu with flagC := (s.cpu.a &&& 0x80) != 0, a := v } v
                      with cycles := 2 } }
  | Instr.ROR_A =>
    let v := ((s.cpu.a >>> 1) ||| (if s.cpu.flagC then 0x80 else 0)) % 256
    { s with cpu := { CPU.setZN { s.cpu with flagC := (s.cpu.a &&& 0x01) != 0, a := v } v
                      with cycles := 2 } }
  | Instr.branch flag value =>
    let r := CPU.fetch s
    let off : Int := toInt8 r.1
    let s := r.2
    if s.cpu.flag flag = value then
      let newPC : Nat := (((s.cpu.pc : Int) + off) % 0x10000).toNat
      { s with cpu := { s.cpu with
          cycles := 2 + (if CPU.pageCross s.cpu.pc newPC then 2 else 1)
          pc := newPC } }
    else { s with cpu := { s.cpu with cycles := 2 } }
  | Instr.JMP_abs =>
    let r := CPU.fetch16 s
    { r.2 with cpu := { r.2.cpu with pc := r.1, cycles := 3 } }
  | Instr.JMP_ind =>
    let r := CPU.fetch16 s
    let ptr := r.1
    let lo := CPU.read r.2 ptr
    let hi := if ptr &&& 0xFF = 0xFF then CPU.read lo.2 (ptr &&& 0xFF00)
      else CPU.read lo.2 ((ptr + 1) % 0x10000)
    { hi.2 with cpu := { hi.2.cpu with pc := ((hi.1 <<< 8) ||| lo.1) % 0x10000, cycles := 5 } }
  | Instr.JSR =>
    let r := CPU.fetch16 s
    let s := CPU.push16 r.2 ((r.2.cpu.pc + 0xFFFF) % 0x10000)
    { s with cpu := { s.cpu with pc := r.1, cycles := 6 } }
  | Instr.RTS =>
    let r := CPU.pull16 s
    { r.2 with cpu := { r.2.cpu with pc := (r.1 + 1) % 0x10000, cycles := 6 } }
  | Instr.RTI =>
    let r := CPU.pull s
    let s := { r.2 with cpu := { r.2.cpu.setStatus r.1 with flagB := false } }
    let t := CPU.pull16 s
    { t.2 with cpu := { t.2.cpu with pc := t.1, cycles := 6 } }
  | Instr.TAX =>
    { s with cpu := { CPU.setZN { s.cpu with x := s.cpu.a } s.cpu.a with cycles := 2 } }
  | Instr.TXA =>
    { s with cpu := { CPU.setZN { s.cpu with a := s.cpu.x } s.cpu.x with cycles := 2 } }
  | Instr.TAY =>
    { s with cpu := { CPU.setZN { s.cpu with y := s.cpu.a } s.cpu.a with cycles := 2 } }
  | Instr.TYA =>
    { s with cpu := { CPU.setZN { s.cpu with a := s.cpu.y } s.cpu.y with cycles := 2 } }
  | Instr.TXS => { s with cpu := { s.cpu with sp := s.cpu.x, cycles := 2 } }
  | Instr.TSX =>
    { s with cpu := { CPU.setZN { s.cpu with x := s.cpu.sp } s.cpu.sp with cycles := 2 } }
  | Instr.PHA =>
    let s := CPU.push s s.cpu.a
    { s with cpu := { s.cpu with cycles := 3 } }
  | Instr.PLA =>
    let r := CPU.pull s
    { r.2 with cpu := { CPU.setZN { r.2.cpu with a := r.1 } r.1 with cycles := 4 } }
  | Instr.PHP =>
    let s := CPU.push s (s.cpu.getStatus ||| 0x10)
    { s with cpu := { s.cpu with cycles := 3 } }
  | Instr.PLP =>
    let r := CPU.pull s
    { r.2 with cpu := { r.2.cpu.setStatus r.1 with flagB := false, cycles := 4 } }
  | Instr.CLC => { s with cpu := { s.cpu with flagC := false, cycles := 2 } }
  | Instr.SEC => { s with cpu := { s.cpu with flagC := true, cycles := 2 } }
  | Instr.CLD => { s with cpu := { s.cpu with flagD := false, cycles := 2 } }
  | Instr.SED => { s with cpu := { s.cpu with flagD := true, cycles := 2 } }
  | Instr.CLI => { s with cpu := { s.cpu with flagI := false, cycles := 2 } }
  | Instr.SEI => { s with cpu := { s.cpu with flagI := true, cycles := 2 } }
  | Instr.CLV => { s with cpu := { s.cpu with flagV := false, cycles := 2 } }
  | Instr.BRK =>
    let s := { s with cpu := { s.cpu with pc := (s.cpu.pc + 1) % 0x10000 } }
    let s := CPU.push16 s s.cpu.pc
    let s := CPU.push s (s.cpu.getStatus ||| 0x30)
    let s := { s with cpu := { s.cpu with flagI := true } }
    let lo := CPU.read s 0xFFFE
    let hi := CPU.read lo.2 0xFFFF
    { hi.2 with cpu := { hi.2.cpu with pc := (lo.1 ||| (hi.1 <<< 8)) % 0x10000, cycles := 7 } }
  | Instr.nop skip cycles =>
    { s with cpu := { s.cpu with pc := (s.cpu.pc + skip) % 0x10000, cycles := cycles } }
  | Instr.TOP_abx =>
    let r := CPU.operand s (Mode.abx true)
    { r.2 with cpu := CPU.bump { r.2.cpu with cycles := 4 } r.1.2 }
  | Instr.unknown => { s with cpu := { s.cpu with cycles := 2 } }

/-- `CPU::execute`: fetch the opcode, then run its `case`. -/
def CPU.execute (s : Bus) : Bus :=
  let r := CPU.fetch s
  CPU.run r.2 (CPU.decode r.1)

/-- `CPU::clock`. -/
def CPU.clock (s : Bus) : Bus :=
  if s.cpu.cycles > 0 then
    { s with cpu := { s.cpu with cycles := s.cpu.cycles - 1 } }
  else
    let s := CPU.execute s
    { s with cpu := { s.cpu with cycles := s.cpu.cycles - 1 } }

/-! ## Master clock (`Bus::clock`) -/

/-- The `if (ppu) ppu->clock();` at the head of `Bus::clock`. -/
def Bus.clockPPU (s : Bus) : Bus :=
  if s.ppuConn then { s with ppu := s.ppu.clock s.cart } else s

/-- The `if (dmaActive) { ... }` branch of `Bus::clock`: one step of the OAM DMA. -/
def Bus.dmaStep (s : Bus) : Bus :=
  if s.dmaSync then
    if s.systemClock % 2 = 1 then { s with dmaSync := false } else s
  else if s.systemClock % 2 = 0 then
    let r := s.cpuRead ((s.dmaPage <<< 8) ||| s.dmaAddr)
    { r.2 with dmaData := r.1 }
  else
    let s := if s.ppuConn then
        { s with ppu := { s.ppu with oam := Function.update s.ppu.oam s.dmaAddr s.dmaData } }
      else s
    let addr := (s.dmaAddr + 1) % 256
    { s with dmaAddr := addr, dmaActive := if addr = 0 then false else s.dmaActive }

/-- The `if (systemClock % 3 == 0) { ... }` block of `Bus::clock`: the CPU-rate slot. -/
def Bus.cpuSlot (s : Bus) (emit : Bool) : Bus :=
  let s := if s.dmaActive then s.dmaStep else if s.cpuConn then CPU.clock s else s
  if s.apuConn then { s with apu := s.apu.clock emit } else s

/-- The NMI check at the end of `Bus::clock`. -/
def Bus.checkNMI (s : Bus) : Bus :=
  if s.ppuConn && s.cpuConn && s.ppu.nmiOccurred then
    CPU.nmi { s with ppu := s.ppu.clearNMI }
  else s

/-- `Bus::clock`: one master tick.  `emit` is passed on to `APU::clock`. -/
def Bus.clock (s : Bus) (emit : Bool) : Bus :=
  let s := s.clockPPU
  let s := if s.systemClock % 3 = 0 then s.cpuSlot emit else s
  let s := s.checkNMI
  { s with systemClock := s.systemClock + 1 }

/-- The system after `n` master ticks; tick number `i` (counted from 0) is given
`emits i`. -/
def Bus.run (emits : Nat → Bool) : Nat → Bus → Bus
  | 0, s => s
  | n + 1, s => (Bus.run emits n s).clock (emits n)

/-! ## Reachable states -/

/-- The APU states reachable from the constructed APU by `clock`, `cpuWrite` and `cpuRead`
calls with arbitrary arguments. -/
inductive APU.Reachable : APU → Prop where
  | init : APU.Reachable {}
  | clock (a : APU) (emit : Bool) : APU.Reachable a → APU.Reachable (a.clock emit)
  | cpuWrite (a : APU) (addr val : Nat) : APU.Reachable a → APU.Reachable (a.cpuWrite addr val)
  | cpuRead (a : APU) (addr : Nat) : APU.Reachable a → APU.Reachable (a.cpuRead addr).2

/-! ## Predicates used in the statements -/

/-- The byte `v` is a packed status byte: bit 5 is set, bit 4 is `b4`, and bits 0, 1, 2, 3,
6, 7 are the flags C, Z, I, D, V, N of `c`. -/
def CPU.StatusImage (c : CPU) (b4 : Bool) (v : Nat) : Prop :=
  v.testBit 5 = true ∧ v.testBit 4 = b4 ∧ v.testBit 0 = c.flagC ∧ v.testBit 1 = c.flagZ
    ∧ v.testBit 2 = c.flagI ∧ v.testBit 3 = c.flagD ∧ v.testBit 6 = c.flagV
    ∧ v.testBit 7 = c.flagN

/-- The system `b` with its CPU registers replaced by `c`. -/
def Bus.withCpu (b : Bus) (c : CPU) : Bus := { b with cpu := c }

/-- `Bus.DmaQuiet d u v`: between `u` and `v` the tick counter advanced by `d` while the
DMA registers, OAM, the PPU connection and work RAM outside the stack page stayed as
they were, and the stack pointer stayed a byte. -/
structure Bus.DmaQuiet (d : Nat) (u v : Bus) : Prop where
  dmaActive : v.dmaActive = u.dmaActive
  dmaSync : v.dmaSync = u.dmaSync
  dmaPage : v.dmaPage = u.dmaPage
  dmaAddr : v.dmaAddr = u.dmaAddr
  dmaData : v.dmaData = u.dmaData
  oam : v.ppu.oam = u.ppu.oam
  ppuConn : v.ppuConn = u.ppuConn
  systemClock : v.systemClock = u.systemClock + d
  ram : ∀ i, i < 0x100 ∨ 0x200 ≤ i → v.ram i = u.ram i
  sp : u.cpu.sp < 256 → v.cpu.sp < 256

/-- Two `$2006` writes, high byte then low byte of `a`. -/
def PPU.setAddr (p : PPU) (cart : Cartridge) (a : Nat) : PPU :=
  ((p.cpuWrite cart 0x2006 (a >>> 8)).1.cpuWrite cart 0x2006 (a &&& 0xFF)).1

/-- A constructed PPU whose VRAM holds `0x55` everywhere and whose palette holds `0x11`
everywhere. -/
def PPU.edgeState : PPU := { vram := (fun _ => 0x55), palette := (fun _ => 0x11) }

/-- The position of the PPU in the frame together with the odd-frame latch. -/
def PPU.dot (p : PPU) : Int × Int × Bool := (p.scanline, p.cycle, p.oddFrame)

/-- The `rendering` local of `PPU::clock`: PPUMASK bit 3 or bit 4 is set. -/
def PPU.rendering (p : PPU) : Bool := (p.mask &&& 0x18) != 0

/-- The PPU after `n` calls of `clock()` with nothing in between. -/
def PPU.clocks (cart : Cartridge) : Nat → PPU → PPU
  | 0, p => p
  | n + 1, p => (PPU.clocks cart n p).clock cart

/-- The clock count at which frame `j` starts when frame 0 starts at count 0: with
rendering enabled (`r`) a frame that starts with the odd-frame latch set is 89341 clocks
and the others are 89342, the latch flipping every frame from its initial value `odd0`;
with rendering disabled every frame is 89342 clocks. -/
def PPU.frameStart (r odd0 : Bool) (j : Nat) : Nat :=
  if r then 178683 * (j / 2) + (if j % 2 = 1 then (if odd0 then 89341 else 89342) else 0)
  else 89342 * j

/-- A PPU at (0, 0) with background rendering enabled and the odd-frame latch clear,
after `i` calls of `clock()` with nothing in between and no cartridge data. -/
def PPU.frameRun (i : Nat) : PPU :=
  PPU.clocks {} i { scanline := 0, cycle := 0, mask := 0x08 }

/-- `Bus.Keeps u v`: the component connections of the bus, the master tick counter and the
APU's own clock counter are the same in `v` as in `u`. -/
@[reducible] def Bus.Keeps (u v : Bus) : Prop :=
  v.cpuConn = u.cpuConn ∧ v.ppuConn = u.ppuConn ∧ v.apuConn = u.apuConn
    ∧ v.systemClock = u.systemClock ∧ v.apu.cpuClock = u.apu.cpuClock

/-- The system as `main` wires it around a loaded cartridge, before `cpu.reset()`. -/
def Bus.wired (cart : Cartridge) : Bus :=
  { cpu := { busConn := true }, ppu := { cartConn := true }, cart := cart,
    cpuConn := true, ppuConn := true, apuConn := true, cartConn := true,
    ctrl1Conn := true, ctrl2Conn := true }

/-- The system at power-on: wired as in `main`, then `cpu.reset()`. -/
def Bus.powerOn (cart : Cartridge) : Bus := CPU.reset (Bus.wired cart)

/-- The calls `Bus::clock` makes, in the order of its body: `ppu->clock()`, one step of the
OAM DMA block, `cpu->clock()`, `apu->clock()`, the NMI delivery
`ppu->clearNMI(); cpu->nmi()`, and its own `systemClock++`. -/
inductive Bus.Call where
  | ppuClock : Bus.Call
  | dmaStep : Bus.Call
  | cpuClock : Bus.Call
  | apuClock (emit : Bool) : Bus.Call
  | nmi : Bus.Call
  | tick : Bus.Call

/-- The effect of one call of `Bus::clock` on the system. -/
def Bus.Call.apply : Bus.Call → Bus → Bus
  | Bus.Call.ppuClock, s => { s with ppu := s.ppu.clock s.cart }
  | Bus.Call.dmaStep, s => s.dmaStep
  | Bus.Call.cpuClock, s => CPU.clock s
  | Bus.Call.apuClock emit, s => { s with apu := s.apu.clock emit }
  | Bus.Call.nmi, s => CPU.nmi { s with ppu := s.ppu.clearNMI }
  | Bus.Call.tick, s => { s with systemClock := s.systemClock + 1 }

/-- The system after a list of calls, made in order. -/
def Bus.replay (l : List Bus.Call) (s : Bus) : Bus := l.foldl (fun t c => c.apply t) s

/-- The calls one `Bus::clock()` makes from the state `s`, in order.  Each guard is the
guard of `Bus::clock` at that point, read in the state the earlier calls have left; the
test `systemClock % 3 == 0` is made once, before the CPU-rate block. -/
def Bus.calls (s : Bus) (emit : Bool) : List Bus.Call :=
  let l1 := if s.ppuConn then [Bus.Call.ppuClock] else []
  let s1 := Bus.replay l1 s
  let l2 := if s1.systemClock % 3 = 0 then
      (if s1.dmaActive then [Bus.Call.dmaStep]
        else if s1.cpuConn then [Bus.Call.cpuClock] else [])
    else []
  let s2 := Bus.replay l2 s1
  let l3 := if s1.systemClock % 3 = 0 ∧ s2.apuConn = true then [Bus.Call.apuClock emit] else []
  let s3 := Bus.replay l3 s2
  let l4 := if s3.ppuConn && s3.cpuConn && s3.ppu.nmiOccurred then [Bus.Call.nmi] else []
  l1 ++ l2 ++ l3 ++ l4 ++ [Bus.Call.tick]

/-- The calls the first `n` calls of `Bus::clock` make from the state `s`, in order. -/
def Bus.runCalls (emits : Nat → Bool) : Nat → Bus → List Bus.Call
  | 0, _ => []
  | n + 1, s => Bus.runCalls emits n s ++ (Bus.run emits n s).calls (emits n)

/-- The call is `ppu->clock()`. -/
def Bus.Call.isPpuClock : Bus.Call → Bool
  | Bus.Call.ppuClock => true
  | _ => false

/-- The call is the CPU-rate slot: a DMA step or `cpu->clock()`. -/
def Bus.Call.isCpuSlot : Bus.Call → Bool
  | Bus.Call.dmaStep => true
  | Bus.Call.cpuClock => true
  | _ => false

/-- The call is `apu->clock()`. -/
def Bus.Call.isApuClock : Bus.Call → Bool
  | Bus.Call.apuClock _ => true
  | _ => false

/-- The call is `systemClock++`. -/
def Bus.Call.isTick : Bus.Call → Bool
  | Bus.Call.tick => true
  | _ => false

/-- A wired system at master tick 0 whose PPU is at (241, 1) with NMI output enabled and
whose CPU is between instructions (`cycles = 0`) at `pc = 0`, with `NOP` (`0xEA`) in
every byte of work RAM. -/
def Bus.nmiRaceState : Bus :=
  { cpu := { busConn := true, sp := 0xFD, pc := 0, cycles := 0 },
    ppu := { cartConn := true, scanline := 241, cycle := 1, ctrl := 0x80, nmiOutput := true },
    cpuConn := true, ppuConn := true, apuConn := true, cartConn := true,
    ctrl1Conn := true, ctrl2Conn := true, systemClock := 0,
    ram := (fun _ => 0xEA) }

/-- `Bus.SameNmi u v`: the CPU and PPU connections, the CPU's bus connection, `PC`, `SP`
and the PPU's NMI lines are the same in `v` as in `u`. -/
@[reducible] def Bus.SameNmi (u v : Bus) : Prop :=
  v.cpuConn = u.cpuConn ∧ v.ppuConn = u.ppuConn ∧ v.cpu.busConn = u.cpu.busConn
    ∧ v.cpu.pc = u.cpu.pc ∧ v.cpu.sp = u.cpu.sp
    ∧ v.ppu.nmiOutput = u.ppu.nmiOutput ∧ v.ppu.nmiRaised = u.ppu.nmiRaised

/-- The system after `n` instructions: `n` calls of `CPU::execute`. -/
def CPU.steps : Nat → Bus → Bus
  | 0, s => s
  | n + 1, s => CPU.execute (CPU.steps n s)

/-- A 16 KiB mapper-0 image holding `LDA #$42 ; STA $00 ; JMP *` (bytes `A9 42 85 00 4C 04
80`) at `0x8000` and the reset vector `0x8000` at `0xFFFC/D`. -/
def Cartridge.resetDemo : Cartridge :=
  { prgBanks := 1, prgSize := 0x4000, chrBanks := 1, chrSize := 0x2000,
    prgRom := (fun i =>
      if i = 0 then 0xA9 else if i = 1 then 0x42 else if i = 2 then 0x85 else if i = 3 then 0x00
      else if i = 4 then 0x4C else if i = 5 then 0x04 else if i = 6 then 0x80
      else if i = 0x3FFC then 0x00 else if i = 0x3FFD then 0x80 else 0) }

/-- `Cartridge::load` after the file has been opened.  `header` is the 16-byte array the
first read fills and `rest` the bytes of the file after it; the result is `none` when the
magic is refused.  `resize` keeps the bytes the vector already held, new bytes are zero,
and a read overwrites as many bytes as the file still has. -/
def Cartridge.load (c : Cartridge) (header : Nat → Nat) (rest : List Nat) : Option Cartridge :=
  if header 0 ≠ 0x4E ∨ header 1 ≠ 0x45 ∨ header 2 ≠ 0x53 ∨ header 3 ≠ 0x1A then none
  else
    let prgBanks := header 4
    let chrBanks := header 5
    let flags6 := header 6
    let flags7 := header 7
    let mapper := (flags7 &&& 0xF0) ||| (flags6 >>> 4)
    let mirrorMode :=
      if flags6 &&& 0x08 ≠ 0 then MirrorMode.FourScreen
      else if flags6 &&& 0x01 ≠ 0 then MirrorMode.Vertical
      else MirrorMode.Horizontal
    let data := if flags6 &&& 0x04 ≠ 0 then rest.drop 512 else rest
    let prgSize := prgBanks * 16384
    let prgRom := fun i =>
      if i < prgSize then
        if i < data.length then data.getD i 0 else if i < c.prgSize then c.prgRom i else 0
      else 0
    if chrBanks = 0 then
      some { prgRom := prgRom, prgSize := prgSize
             chrRom := (fun i => if i < 8192 ∧ i < c.chrSize then c.chrRom i else 0)
             chrSize := 8192
             prgBanks := prgBanks, chrBanks := chrBanks
             mapper := mapper, mirrorMode := mirrorMode }
    else
      let chrSize := chrBanks * 8192
      let data2 := data.drop prgSize
      some { prgRom := prgRom, prgSize := prgSize
             chrRom := (fun i =>
               if i < chrSize then
                 if i < data2.length then data2.getD i 0
                 else if i < c.chrSize then c.chrRom i else 0
               else 0)
             chrSize := chrSize
             prgBanks := prgBanks, chrBanks := chrBanks
             mapper := mapper, mirrorMode := mirrorMode }

/-- A 16-byte iNES header with the given PRG and CHR bank counts and zero flags. -/
def Cartridge.demoHeader (prg chr : Nat) : Nat → Nat := fun i =>
  match i with
  | 0 => 0x4E
  | 1 => 0x45
  | 2 => 0x53
  | 3 => 0x1A
  | 4 => prg
  | 5 => chr
  | _ => 0

/-- `Bus.StackOnly d u v`: from `u` to `v` the stack pointer moved by `d` modulo 256 and
work RAM outside the stack page `0x0100..0x01FF` stayed as it was. -/
@[reducible] def Bus.StackOnly (d : Nat) (u v : Bus) : Prop :=
  v.cpu.sp = (u.cpu.sp + d) % 256 ∧ ∀ i, i < 0x100 ∨ 0x200 ≤ i → v.ram i = u.ram i

/-- The PPU states reachable from the constructed PPU by `clock`, register reads and
register writes with arbitrary arguments and cartridges, `clearNMI`, and the OAM stores of
the bus DMA. -/
inductive PPU.Reachable : PPU → Prop where
  | init : PPU.Reachable {}
  | clock (p : PPU) (cart : Cartridge) : PPU.Reachable p → PPU.Reachable (p.clock cart)
  | cpuRead (p : PPU) (cart : Cartridge) (addr : Nat) :
    PPU.Reachable p → PPU.Reachable (p.cpuRead cart addr).2
  | cpuWrite (p : PPU) (cart : Cartridge) (addr val : Nat) :
    PPU.Reachable p → PPU.Reachable (p.cpuWrite cart addr val).1
  | clearNMI (p : PPU) : PPU.Reachable p → PPU.Reachable p.clearNMI
  | oamStore (p : PPU) (i v : Nat) :
    PPU.Reachable p → PPU.Reachable { p with oam := Function.update p.oam i v }

/-- One iteration of the loop of `APU::fillBuffer`: a sample is consumed when the ring is
not empty.  The floats copied to the output buffer are not part of the state. -/
def APU.fillStep (a : APU) : APU :=
  if a.sampleReadPos ≠ a.sampleWritePos then
    { a with sampleReadPos := (a.sampleReadPos + 1).tmod APU.BUFFER_SIZE }
  else a

/-- `APU::fillBuffer(buffer, numSamples)`: the loop body runs for `i = 0 .. numSamples - 1`,
not at all when `numSamples ≤ 0`. -/
def APU.fillBuffer (a : APU) (numSamples : Int) : APU :=
  APU.fillStep^[numSamples.toNat] a

/-- The APU states reachable from the constructed APU by `clock`, `fillBuffer`, `cpuWrite`
and `cpuRead` calls with arbitrary arguments, each call running as a whole. -/
inductive APU.Played : APU → Prop where
  | init : APU.Played {}
  | clock (a : APU) (emit : Bool) : APU.Played a → APU.Played (a.clock emit)
  | fillBuffer (a : APU) (numSamples : Int) : APU.Played a → APU.Played (a.fillBuffer numSamples)
  | cpuWrite (a : APU) (addr val : Nat) : APU.Played a → APU.Played (a.cpuWrite addr val)
  | cpuRead (a : APU) (addr : Nat) : APU.Played a → APU.Played (a.cpuRead addr).2

/-- The APU after the register writes `ws` (pairs of address and value), in order. -/
def APU.writes (ws : List (Nat × Nat)) (a : APU) : APU :=
  ws.foldl (fun a w => a.cpuWrite w.1 w.2) a

/-- The channel state the frame sequencer acts on: pulse 1, pulse 2, triangle, noise. -/
def APU.channels (a : APU) : Pulse × Pulse × Triangle × Noise :=
  (a.pulse1, a.pulse2, a.triangle, a.noise)

/-- The timer clocks at the head of `APU::clock` on an even CPU tick: the triangle timer,
then the pulse and noise timers. -/
def APU.timers (a : APU) : APU :=
  { a with
    triangle := a.triangle.clockTimer
    pulse1 := a.pulse1.clockTimer
    pulse2 := a.pulse2.clockTimer
    noise := a.noise.clockTimer }

/-- The APU after `n` calls of `APU::clock`, call `i` emitting a sample when `emits i`. -/
def APU.clocks (emits : Nat → Bool) : Nat → APU → APU
  | 0, a => a
  | n + 1, a => (APU.clocks emits n a).clock (emits n)

/-- A 16-byte iNES header with one PRG bank, no CHR bank and the four-screen bit (bit 3 of
flags 6) set. -/
def Cartridge.fourScreenHeader : Nat → Nat := fun i =>
  match i with
  | 0 => 0x4E
  | 1 => 0x45
  | 2 => 0x53
  | 3 => 0x1A
  | 4 => 1
  | 6 => 0x08
  | _ => 0

/-- The fine-Y field (bits 14..12) of a VRAM address, as `backgroundFetch` extracts it. -/
def PPU.fineY (v : Nat) : Nat := (v >>> 12) &&& 0x07

/-- The coarse-Y field (bits 9..5) of a VRAM address, as `incrementY` extracts it. -/
def PPU.coarseY (v : Nat) : Nat := (v &&& 0x03E0) >>> 5

/-- The range test of `PPU::evaluateSprites` for OAM record `i`:
`diff >= 0 && diff < spriteHeight` with `diff = scanline - oam[i * 4]` and the sprite
height 16 or 8 by PPUCTRL bit 5. -/
def PPU.spriteInRange (p : PPU) (i : Nat) : Bool :=
  decide (p.scanline - (p.oam (i * 4) : Int) ≥ 0
    ∧ p.scanline - (p.oam (i * 4) : Int) < (if p.ctrl &&& 0x20 ≠ 0 then 16 else 8))

/-- The four bytes of OAM record `i` as `evaluateSprites` copies them into a sprite. -/
def PPU.oamSprite (p : PPU) (i : Nat) : Sprite :=
  { y := p.oam (i * 4 + 0), tile := p.oam (i * 4 + 1),
    attr := p.oam (i * 4 + 2), x := p.oam (i * 4 + 3) }

/-- The OAM records `0..63` that pass the range test, in increasing order. -/
def PPU.spritesInRange (p : PPU) : List Nat := (List.range 64).filter p.spriteInRange

/-- The sprite list `renderPixel` draws from: the count, the buffered records with their
pattern bytes, and the sprite-0-on-line flag. -/
def PPU.spriteList (p : PPU) : Nat × (Nat → Sprite) × (Nat → Nat) × (Nat → Nat) × Bool :=
  (p.spriteCount, p.spriteLine, p.spriteShiftLo, p.spriteShiftHi, p.sprite0OnLine)

/-- A PPU on the pre-render line at cycle 257 with rendering enabled, whose OAM has records
0, 1 and 2 at `y = 236` (the others at `y = 0`) and whose sprite list holds the three
sprites buffered by the evaluation on scanline 239. -/
def PPU.staleSprites : PPU :=
  { scanline := -1, cycle := 257, mask := 0x18, spriteCount := 3,
    oam := fun i => if i = 0 ∨ i = 4 ∨ i = 8 then 236 else 0 }

/-- The system after `n` calls of `CPU::clock` with nothing in between. -/
def CPU.clocks : Nat → Bus → Bus
  | 0, s => s
  | n + 1, s => CPU.clock (CPU.clocks n s)

/-- The base cycle count written in the `case` label of a memory instruction or NOP is at
least 2 (every other label sets a literal count in its body). -/
def Instr.costly : Instr → Bool
  | Instr.mem _ _ cycles => decide (2 ≤ cycles)
  | Instr.nop _ cycles => decide (2 ≤ cycles)
  | _ => true

/-- The byte `v` is stored at address `addr`: a bus read there returns `v` and changes
nothing (work RAM, cartridge ROM and unmapped addresses; not a register with a read side
effect). -/
def Bus.Holds (b : Bus) (addr v : Nat) : Prop := b.cpuRead addr = (v, b)

/-- The system after `push16(ret)` with stack pointer `sp`: the high byte stored at
`0x0100 + sp`, then the low byte at `0x0100 + ((sp - 1) mod 256)`. -/
def Bus.withReturn (b : Bus) (sp ret : Nat) : Bus :=
  { b with
    ram := (Function.update (Function.update b.ram (0x0100 + sp) ((ret >>> 8) &&& 0xFF))
      (0x0100 + (sp + 255) % 256) (ret &&& 0xFF)) }

/-- Bounds of a pulse channel: 4-bit envelope volume and decay level, duty index and duty
position inside `dutyTable`, and a length counter that is non-zero only when the channel
is enabled. -/
def Pulse.Sane (c : Pulse) : Prop :=
  c.envelopeVolume ≤ 15 ∧ c.envelopeDecay ≤ 15 ∧ c.duty < 4 ∧ c.dutyPos < 8
    ∧ (c.lengthCounter > 0 → c.enabled = true)

/-- Bounds of the triangle channel: sequence position inside `sequence`, and a length
counter that is non-zero only when the channel is enabled. -/
def Triangle.Sane (c : Triangle) : Prop :=
  c.sequencePos < 32 ∧ (c.lengthCounter > 0 → c.enabled = true)

/-- Bounds of the noise channel: 4-bit envelope volume and decay level, and a length
counter that is non-zero only when the channel is enabled. -/
def Noise.Sane (c : Noise) : Prop :=
  c.envelopeVolume ≤ 15 ∧ c.envelopeDecay ≤ 15 ∧ (c.lengthCounter > 0 → c.enabled = true)

/-- The bounds of all four channels. -/
def APU.Sane (a : APU) : Prop :=
  a.pulse1.Sane ∧ a.pulse2.Sane ∧ a.triangle.Sane ∧ a.noise.Sane

/-- The APU states reachable from the constructed APU by `clock`, `cpuWrite` and `cpuRead`
calls, together with the last value written to `$4015` (0 before the first such write). -/
inductive APU.After4015 : Nat → APU → Prop where
  | init : APU.After4015 0 {}
  | clock (w : Nat) (a : APU) (emit : Bool) : APU.After4015 w a → APU.After4015 w (a.clock emit)
  | cpuRead (w : Nat) (a : APU) (addr : Nat) :
    APU.After4015 w a → APU.After4015 w (a.cpuRead addr).2
  | cpuWrite (w : Nat) (a : APU) (addr val : Nat) :
    addr ≠ 0x4015 → APU.After4015 w a → APU.After4015 w (a.cpuWrite addr val)
  | status (w : Nat) (a : APU) (val : Nat) :
    APU.After4015 w a → APU.After4015 val (a.cpuWrite 0x4015 val)

/-- The four channel enable flags set by a `$4015` write: pulse 1, pulse 2, triangle,
noise. -/
def APU.enables (a : APU) : Bool × Bool × Bool × Bool :=
  (a.pulse1.enabled, a.pulse2.enabled, a.triangle.enabled, a.noise.enabled)

/-! # Verified properties -/

/-! ## Controller -/

/-- With the strobe low, `n` reads return the successive bits of the shift register. -/
theorem Controller.readN_shift (n : Nat) (c : Controller) (h : c.strobe = false) :
    (Controller.readN n c).1
      = (List.range n).map (fun i => 0x40 ||| ((c.shifter >>> i) &&& 1)) := by
  induction n generalizing c with
  | zero => rfl
  | succ n ih =>
    rw [List.range_succ_eq_map]
    simp only [Controller.readN, Controller.read, h, Bool.false_eq_true, if_false, List.map_cons,
      List.map_map]
    rw [ih _ (by simp [h])]
    simp only [Nat.lor_comm, Function.comp_def, Nat.shiftRight_zero, Nat.succ_eq_add_one]
    congr 2
    funext i
    rw [← Nat.shiftRight_add, Nat.add_comm]

/-- C1: for every button image `b` and every prior controller state, after
`setButtonState(b); write(1); write(0)` the `i`-th of the next eight `read()` calls
returns `0x40 | ((b >> i) & 1)`: the buttons come out least significant bit first. -/
theorem Controller.latch_order (c : Controller) (b : Nat) (_hb : b < 256) :
    (Controller.readN 8 (((c.setButtonState b).write 1).write 0)).1
      = (List.range 8).map (fun i => 0x40 ||| ((b >>> i) &&& 1)) := by
  rw [Controller.readN_shift]
  · simp [Controller.write, Controller.setButtonState]
  · simp [Controller.write, Controller.setButtonState]

/-- The latch scenario of the specification: live image `0xA5` gives the low bits
1,0,1,0,0,1,0,1. -/
theorem Controller.latch_order_witness :
    (0xA5 < 256) ∧
      (Controller.readN 8 (((({} : Controller).setButtonState 0xA5).write 1).write 0)).1
        = [0x41, 0x40, 0x41, 0x40, 0x40, 0x41, 0x40, 0x41] :=
  ⟨by decide, by rw [Controller.latch_order _ 0xA5 (by decide)]; decide⟩

/-! ## PPU palette -/

/-- A read at or above `0x3F00` (after the 14-bit mask) returns a palette entry. -/
theorem PPU.ppuRead_palette (p : PPU) (cart : Cartridge) (addr : Nat)
    (h : 0x3F00 ≤ addr &&& 0x3FFF) :
    p.ppuRead cart addr = p.palette (PPU.palAddr (addr &&& 0x3FFF)) := by
  unfold PPU.ppuRead
  simp only
  rw [if_neg (by omega), if_neg (by omega)]

/-- A write at or above `0x3F00` (after the 14-bit mask) updates a palette entry. -/
theorem PPU.ppuWrite_palette (p : PPU) (cart : Cartridge) (addr val : Nat)
    (h : 0x3F00 ≤ addr &&& 0x3FFF) :
    p.ppuWrite cart addr val
      = ({ p with palette := Function.update p.palette (PPU.palAddr (addr &&& 0x3FFF)) val },
          cart) := by
  unfold PPU.ppuWrite
  simp only
  rw [if_neg (by omega), if_neg (by omega)]

/-- The 32 addresses from `0x3F00` lie in the palette range. -/
theorem PPU.palAddr_range (j : Nat) (hj : j < 32) : 0x3F00 ≤ (0x3F00 + j) &&& 0x3FFF := by
  interval_cases j <;> decide

/-- The palette index of `0x3F10 + k` is that of `0x3F00 + k` for `k` in 0, 4, 8, 12. -/
theorem PPU.palAddr_mirror (k : Nat) (hk : k = 0 ∨ k = 4 ∨ k = 8 ∨ k = 12) :
    PPU.palAddr ((0x3F10 + k) &&& 0x3FFF) = PPU.palAddr ((0x3F00 + k) &&& 0x3FFF) := by
  rcases hk with rfl | rfl | rfl | rfl <;> decide

/-- No other palette address shares the palette index of `0x3F00 + k`. -/
theorem PPU.palAddr_other (k j : Nat) (hk : k = 0 ∨ k = 4 ∨ k = 8 ∨ k = 12) (hj : j < 32)
    (hne : j % 16 ≠ k) :
    PPU.palAddr ((0x3F00 + k) &&& 0x3FFF) ≠ PPU.palAddr ((0x3F00 + j) &&& 0x3FFF) := by
  rcases hk with rfl | rfl | rfl | rfl <;> interval_cases j <;> first | omega | decide

/-- C10: for `k` in 0, 4, 8, 12 and every byte `v`, a PPU write of `v` to `0x3F10 + k` is
read back at `0x3F00 + k`, a write to `0x3F00 + k` is read back at `0x3F10 + k`, and a
write to any other palette address `0x3F00 + j` (`j < 32`, `j` not congruent to `k`
modulo 16) leaves the value read at `0x3F00 + k` unchanged. -/
theorem PPU.palette_mirror (p : PPU) (cart : Cartridge) (k v : Nat)
    (hk : k = 0 ∨ k = 4 ∨ k = 8 ∨ k = 12) (_hv : v < 256) :
    ((p.ppuWrite cart (0x3F10 + k) v).1.ppuRead (p.ppuWrite cart (0x3F10 + k) v).2 (0x3F00 + k) = v)
    ∧ ((p.ppuWrite cart (0x3F00 + k) v).1.ppuRead (p.ppuWrite cart (0x3F00 + k) v).2 (0x3F10 + k) = v)
    ∧ (∀ j, j < 32 → j % 16 ≠ k →
        (p.ppuWrite cart (0x3F00 + j) v).1.ppuRead (p.ppuWrite cart (0x3F00 + j) v).2 (0x3F00 + k)
          = p.ppuRead cart (0x3F00 + k)) := by
  have hk32 : k < 32 := by omega
  have h10 : 0x3F00 ≤ (0x3F10 + k) &&& 0x3FFF := by
    have := PPU.palAddr_range (16 + k) (by omega)
    rwa [← Nat.add_assoc] at this
  refine ⟨?_, ?_, ?_⟩
  · rw [PPU.ppuWrite_palette _ _ _ _ h10, PPU.ppuRead_palette _ _ _ (PPU.palAddr_range k hk32),
      PPU.palAddr_mirror k hk]
    simp
  · rw [PPU.ppuWrite_palette _ _ _ _ (PPU.palAddr_range k hk32), PPU.ppuRead_palette _ _ _ h10,
      PPU.palAddr_mirror k hk]
    simp
  · intro j hj hne
    rw [PPU.ppuWrite_palette _ _ _ _ (PPU.palAddr_range j hj),
      PPU.ppuRead_palette _ _ _ (PPU.palAddr_range k hk32),
      PPU.ppuRead_palette _ _ _ (PPU.palAddr_range k hk32)]
    simp [Function.update_noteq (PPU.palAddr_other k j hk hj hne)]

/-- Palette mirroring at `k = 4`: a write of `0x2A` to `0x3F14` is read at `0x3F04`. -/
theorem PPU.palette_mirror_witness :
    (4 = 0 ∨ 4 = 4 ∨ 4 = 8 ∨ 4 = 12) ∧ 0x2A < 256 ∧ (({} : PPU).ppuWrite {} (0x3F10 + 4) 0x2A).1.ppuRead
      (({} : PPU).ppuWrite {} (0x3F10 + 4) 0x2A).2 (0x3F00 + 4) = 0x2A :=
  ⟨by decide, by decide, (PPU.palette_mirror {} {} 4 0x2A (by decide) (by decide)).1⟩

/-! ## APU noise shift register -/

/-- A bitwise or with a non-zero left operand is non-zero. -/
theorem lor_ne_zero_left {x y : Nat} (h : x ≠ 0) : x ||| y ≠ 0 := by
  intro h0
  apply h
  apply Nat.zero_of_testBit_eq_false
  intro i
  have := congrArg (fun n => n.testBit i) h0
  simp at this
  exact this.1

/-- The shift of the noise register as a function of the old value and the mode. -/
theorem Noise.shift_bounds (s : Nat) (mode : Bool) (hpos : 0 < s) (hle : s ≤ 0x7FFF) :
    let bit := (s &&& 1) ^^^ ((s >>> (if mode then 6 else 1)) &&& 1)
    0 < ((s >>> 1) ||| (bit <<< 14)) ∧ ((s >>> 1) ||| (bit <<< 14)) ≤ 0x7FFF := by
  intro bit
  have hbit : bit < 2 ^ 1 :=
    Nat.xor_lt_two_pow (Nat.and_lt_two_pow _ (by decide)) (Nat.and_lt_two_pow _ (by decide))
  have h1 : s >>> 1 < 2 ^ 15 := by
    rw [Nat.shiftRight_eq_div_pow]; omega
  have h2 : bit <<< 14 < 2 ^ 15 := by
    have := Nat.shiftLeft_lt (m := 14) hbit
    simpa using this
  have hlt := Nat.or_lt_two_pow h1 h2
  refine ⟨?_, by omega⟩
  by_cases h : s = 1
  · subst h
    cases mode <;> decide
  · apply Nat.pos_of_ne_zero
    apply lor_ne_zero_left
    rw [Nat.shiftRight_eq_div_pow]
    omega

/-- `Noise::clockTimer` keeps the register within `1..0x7FFF`. -/
theorem Noise.clockTimer_shiftReg (c : Noise) (hpos : 0 < c.shiftReg) (hle : c.shiftReg ≤ 0x7FFF) :
    0 < c.clockTimer.shiftReg ∧ c.clockTimer.shiftReg ≤ 0x7FFF := by
  unfold Noise.clockTimer
  split
  · have := Noise.shift_bounds c.shiftReg c.mode hpos hle
    simp only at this ⊢
    rw [Nat.mod_eq_of_lt (by omega)]
    exact this
  · exact ⟨hpos, hle⟩

/-- `Noise::clockEnvelope` leaves the shift register alone. -/
@[simp] theorem Noise.clockEnvelope_shiftReg (c : Noise) :
    c.clockEnvelope.shiftReg = c.shiftReg := by
  unfold Noise.clockEnvelope
  repeat' split
  all_goals rfl

/-- `Noise::clockLengthCounter` leaves the shift register alone. -/
@[simp] theorem Noise.clockLengthCounter_shiftReg (c : Noise) :
    c.clockLengthCounter.shiftReg = c.shiftReg := by
  unfold Noise.clockLengthCounter
  split <;> rfl

/-- The quarter-frame clock leaves the noise shift register alone. -/
@[simp] theorem APU.clockQuarterFrame_shiftReg (a : APU) :
    a.clockQuarterFrame.noise.shiftReg = a.noise.shiftReg := by
  simp [APU.clockQuarterFrame]

/-- The half-frame clock leaves the noise shift register alone. -/
@[simp] theorem APU.clockHalfFrame_shiftReg (a : APU) :
    a.clockHalfFrame.noise.shiftReg = a.noise.shiftReg := by
  simp [APU.clockHalfFrame]

/-- No register write touches the noise shift register. -/
theorem APU.cpuWrite_shiftReg (a : APU) (addr val : Nat) :
    (a.cpuWrite addr val).noise.shiftReg = a.noise.shiftReg := by
  unfold APU.cpuWrite
  split <;> try rfl
  simp only
  split <;> simp

/-- A register read leaves the noise shift register alone. -/
theorem APU.cpuRead_shiftReg (a : APU) (addr : Nat) :
    (a.cpuRead addr).2.noise.shiftReg = a.noise.shiftReg := by
  unfold APU.cpuRead
  split <;> rfl

/-- The frame counter step leaves the noise shift register alone. -/
theorem APU.frameStep_shiftReg (a : APU) :
    a.frameStep.noise.shiftReg = a.noise.shiftReg := by
  unfold APU.frameStep
  split <;> split <;> simp

/-- After `APU::clock` the noise shift register is unchanged or was moved by
`Noise::clockTimer`. -/
theorem APU.clock_shiftReg (a : APU) (emit : Bool) :
    (a.clock emit).noise.shiftReg = a.noise.shiftReg ∨
    (a.clock emit).noise.shiftReg = a.noise.clockTimer.shiftReg := by
  unfold APU.clock
  simp only
  by_cases h : a.cpuClock % 2 = 0
  · right
    simp only [h, if_true]
    split <;> simp [APU.frameStep_shiftReg]
  · left
    simp only [h, if_false]
    split <;> rfl

/-- C3: a `Noise::clockTimer` step that shifts (timer at 0) a register `s` with
`0 < s <= 0x7FFF` leaves `s' = (s >> 1) | (bit << 14)` with
`bit = s[0] XOR s[mode ? 6 : 1]` and `0 < s' <= 0x7FFF`, for either mode; and in every
APU state reachable from the constructed one by clocks, register writes and reads the
register is non-zero and at most `0x7FFF`. -/
theorem Noise.lfsr_never_zero (c : Noise) (ht : c.timerValue = 0) (hpos : 0 < c.shiftReg)
    (hle : c.shiftReg ≤ 0x7FFF) (a : APU) (ha : APU.Reachable a) :
    (c.clockTimer.shiftReg
        = ((c.shiftReg >>> 1) |||
            (((c.shiftReg &&& 1) ^^^ ((c.shiftReg >>> (if c.mode then 6 else 1)) &&& 1)) <<< 14))
      ∧ 0 < c.clockTimer.shiftReg ∧ c.clockTimer.shiftReg ≤ 0x7FFF)
    ∧ (0 < a.noise.shiftReg ∧ a.noise.shiftReg ≤ 0x7FFF) := by
  constructor
  · have hb := Noise.shift_bounds c.shiftReg c.mode hpos hle
    have hc := Noise.clockTimer_shiftReg c hpos hle
    refine ⟨?_, hc⟩
    simp only [Noise.clockTimer, ht, if_true]
    simp only at hb
    exact Nat.mod_eq_of_lt (by omega)
  · induction ha with
    | init => decide
    | clock a emit _ ih =>
      rcases APU.clock_shiftReg a emit with h | h
      · rw [h]; exact ih
      · rw [h]; exact Noise.clockTimer_shiftReg _ ih.1 ih.2
    | cpuWrite a addr val _ ih => rw [APU.cpuWrite_shiftReg]; exact ih
    | cpuRead a addr _ ih => rw [APU.cpuRead_shiftReg]; exact ih

/-- From the initial register value 1 one shift gives `0x4000`, and the register is
non-zero after a `$400E` write followed by a clock. -/
theorem Noise.lfsr_never_zero_witness :
    (0 < 1 ∧ 1 ≤ 0x7FFF ∧ APU.Reachable ((({} : APU).cpuWrite 0x400E 0x80).clock false)) ∧
    (Noise.clockTimer { shiftReg := 1, mode := false, timerValue := 0 }).shiftReg = 0x4000 ∧
    0 < ((({} : APU).cpuWrite 0x400E 0x80).clock false).noise.shiftReg :=
  have hr : APU.Reachable ((({} : APU).cpuWrite 0x400E 0x80).clock false) :=
    APU.Reachable.clock _ _ (APU.Reachable.cpuWrite _ _ _ APU.Reachable.init)
  have h := Noise.lfsr_never_zero { shiftReg := 1, mode := false, timerValue := 0 } rfl
    (by decide) (by decide) _ hr
  ⟨⟨by decide, by decide, hr⟩, by rw [h.1.1]; decide, h.2.1⟩

/-! ## CPU stack -/

/-- The stack pointer after a push and a pull is the one before. -/
theorem sp_dec_inc (sp : Nat) (h : sp < 256) : ((sp + 255) % 256 + 1) % 256 = sp := by omega

/-- A push stores the byte in work RAM at `0x0100 + SP` and decrements `SP` modulo 256. -/
theorem CPU.push_eq (s : Bus) (v : Nat) (hconn : s.cpu.busConn = true) (hsp : s.cpu.sp < 256) :
    CPU.push s v = { s with
      ram := Function.update s.ram ((0x0100 + s.cpu.sp) &&& 0x07FF) v
      cpu := { s.cpu with sp := (s.cpu.sp + 255) % 256 } } := by
  have h : 0x0100 + s.cpu.sp < 0x2000 := by omega
  simp [CPU.push, CPU.write, Bus.cpuWrite, hconn, h]

/-- A pull increments `SP` modulo 256 and reads work RAM at `0x0100 + SP`. -/
theorem CPU.pull_eq (s : Bus) (hconn : s.cpu.busConn = true) :
    CPU.pull s = (s.ram ((0x0100 + (s.cpu.sp + 1) % 256) &&& 0x07FF),
      { s with cpu := { s.cpu with sp := (s.cpu.sp + 1) % 256 } }) := by
  have h : 0x0100 + (s.cpu.sp + 1) % 256 < 0x2000 := by omega
  simp [CPU.pull, CPU.read, Bus.cpuRead, hconn, h]

/-- C4: with the CPU connected to the bus, for every byte `v` and every stack pointer
value (0x00 included, where the pointer wraps), `push(v)` followed by `pull()` returns
`v` and leaves `SP` as it was before the push. -/
theorem CPU.push_pull (s : Bus) (v : Nat) (hconn : s.cpu.busConn = true) (_hv : v < 256)
    (hsp : s.cpu.sp < 256) :
    (CPU.pull (CPU.push s v)).1 = v ∧ (CPU.pull (CPU.push s v)).2.cpu.sp = s.cpu.sp := by
  rw [CPU.push_eq s v hconn hsp, CPU.pull_eq]
  · dsimp only
    rw [sp_dec_inc s.cpu.sp hsp]
    simp
  · exact hconn

/-- Push and pull at `SP = 0x00`: the pointer wraps to `0xFF` and back. -/
theorem CPU.push_pull_witness :
    let s : Bus := { cpu := { busConn := true, sp := 0x00 } }
    (s.cpu.busConn = true ∧ 0x5A < 256 ∧ s.cpu.sp < 256) ∧
    (CPU.push s 0x5A).cpu.sp = 0xFF ∧
    (CPU.pull (CPU.push s 0x5A)).1 = 0x5A ∧ (CPU.pull (CPU.push s 0x5A)).2.cpu.sp = 0x00 :=
  ⟨⟨rfl, by decide, by decide⟩, by decide,
    CPU.push_pull { cpu := { busConn := true, sp := 0x00 } } 0x5A rfl (by decide) (by decide)⟩

/-! ## CPU status byte: PHP and PLP -/

/-- A bus read changes neither the CPU registers nor work RAM. -/
theorem Bus.cpuRead_cpu_ram (s : Bus) (addr : Nat) :
    (s.cpuRead addr).2.cpu = s.cpu ∧ (s.cpuRead addr).2.ram = s.ram := by
  unfold Bus.cpuRead
  repeat' split
  all_goals exact ⟨rfl, rfl⟩

/-- A CPU read changes neither the CPU registers nor work RAM. -/
theorem CPU.read_cpu_ram (s : Bus) (addr : Nat) :
    (CPU.read s addr).2.cpu = s.cpu ∧ (CPU.read s addr).2.ram = s.ram := by
  unfold CPU.read
  split
  · exact Bus.cpuRead_cpu_ram s addr
  · exact ⟨rfl, rfl⟩

/-- An opcode fetch advances the program counter and changes nothing else in the CPU or
in work RAM. -/
theorem CPU.fetch_cpu_ram (s : Bus) :
    (CPU.fetch s).2.cpu = { s.cpu with pc := (s.cpu.pc + 1) % 0x10000 }
      ∧ (CPU.fetch s).2.ram = s.ram := by
  unfold CPU.fetch
  exact CPU.read_cpu_ram _ _

/-- A fetch that returns a non-zero byte went through the bus. -/
theorem CPU.fetch_busConn (s : Bus) (h : (CPU.fetch s).1 ≠ 0) : s.cpu.busConn = true := by
  unfold CPU.fetch CPU.read at h
  by_contra hc
  simp [hc] at h

/-- Testing one bit with a mask is `testBit`. -/
theorem and_two_pow_ne_zero (n i : Nat) : ((n &&& 2 ^ i) != 0) = n.testBit i := by
  rw [Nat.and_two_pow]
  cases n.testBit i <;> simp

/-- The bits of the packed status byte. -/
theorem CPU.getStatus_testBit (c : CPU) :
    c.getStatus.testBit 0 = c.flagC ∧ c.getStatus.testBit 1 = c.flagZ
      ∧ c.getStatus.testBit 2 = c.flagI ∧ c.getStatus.testBit 3 = c.flagD
      ∧ c.getStatus.testBit 4 = c.flagB ∧ c.getStatus.testBit 5 = true
      ∧ c.getStatus.testBit 6 = c.flagV ∧ c.getStatus.testBit 7 = c.flagN := by
  unfold CPU.getStatus
  cases c.flagC <;> cases c.flagZ <;> cases c.flagI <;> cases c.flagD <;> cases c.flagB <;>
    cases c.flagV <;> cases c.flagN <;> decide

/-- The flags `setStatus` stores are the bits of its argument. -/
theorem CPU.setStatus_flags (c : CPU) (val : Nat) :
    (c.setStatus val).flagC = val.testBit 0 ∧ (c.setStatus val).flagZ = val.testBit 1
      ∧ (c.setStatus val).flagI = val.testBit 2 ∧ (c.setStatus val).flagD = val.testBit 3
      ∧ (c.setStatus val).flagB = val.testBit 4 ∧ (c.setStatus val).flagV = val.testBit 6
      ∧ (c.setStatus val).flagN = val.testBit 7 ∧ (c.setStatus val).sp = c.sp :=
  ⟨and_two_pow_ne_zero val 0, and_two_pow_ne_zero val 1, and_two_pow_ne_zero val 2,
    and_two_pow_ne_zero val 3, and_two_pow_ne_zero val 4, and_two_pow_ne_zero val 6,
    and_two_pow_ne_zero val 7, rfl⟩

/-- The instruction `PHP` in terms of the state after the opcode fetch. -/
theorem CPU.run_PHP (s : Bus) (hconn : s.cpu.busConn = true) (hsp : s.cpu.sp < 256) :
    CPU.run s Instr.PHP = { s with
      ram := Function.update s.ram ((0x0100 + s.cpu.sp) &&& 0x07FF) (s.cpu.getStatus ||| 0x10)
      cpu := { s.cpu with sp := (s.cpu.sp + 255) % 256, cycles := 3 } } := by
  simp only [CPU.run]
  rw [CPU.push_eq s _ hconn hsp]

/-- The instruction `PLP` in terms of the state after the opcode fetch. -/
theorem CPU.run_PLP (s : Bus) (hconn : s.cpu.busConn = true) :
    CPU.run s Instr.PLP = { s with
      cpu := { CPU.setStatus { s.cpu with sp := (s.cpu.sp + 1) % 256 }
                (s.ram ((0x0100 + (s.cpu.sp + 1) % 256) &&& 0x07FF))
               with flagB := false, cycles := 4 } } := by
  simp only [CPU.run]
  rw [CPU.pull_eq s hconn]

/-- The effect of executing `PHP` (opcode 0x08). -/
theorem CPU.execute_PHP (s : Bus) (hsp : s.cpu.sp < 256) (h : (CPU.fetch s).1 = 0x08) :
    (CPU.execute s).ram
        = Function.update s.ram ((0x0100 + s.cpu.sp) &&& 0x07FF) (s.cpu.getStatus ||| 0x10)
      ∧ (CPU.execute s).cpu.sp = (s.cpu.sp + 255) % 256
      ∧ (CPU.execute s).cpu.busConn = true := by
  have hconn : s.cpu.busConn = true := CPU.fetch_busConn s (by rw [h]; decide)
  obtain ⟨hfc, hfr⟩ := CPU.fetch_cpu_ram s
  have e : CPU.execute s = CPU.run (CPU.fetch s).2 Instr.PHP := by
    unfold CPU.execute
    simp only [h]
    rfl
  rw [e, CPU.run_PHP _ (by rw [hfc]; exact hconn) (by rw [hfc]; exact hsp)]
  simp only
  rw [hfc, hfr]
  exact ⟨rfl, rfl, hconn⟩

/-- The effect of executing `PLP` (opcode 0x28), with `v` the byte on top of the stack. -/
theorem CPU.execute_PLP (s : Bus) (h : (CPU.fetch s).1 = 0x28) :
    let v := s.ram ((0x0100 + (s.cpu.sp + 1) % 256) &&& 0x07FF)
    (CPU.execute s).cpu.sp = (s.cpu.sp + 1) % 256
      ∧ (CPU.execute s).cpu.flagC = v.testBit 0 ∧ (CPU.execute s).cpu.flagZ = v.testBit 1
      ∧ (CPU.execute s).cpu.flagI = v.testBit 2 ∧ (CPU.execute s).cpu.flagD = v.testBit 3
      ∧ (CPU.execute s).cpu.flagV = v.testBit 6 ∧ (CPU.execute s).cpu.flagN = v.testBit 7
      ∧ (CPU.execute s).cpu.flagB = false := by
  intro v
  have hconn : s.cpu.busConn = true := CPU.fetch_busConn s (by rw [h]; decide)
  obtain ⟨hfc, hfr⟩ := CPU.fetch_cpu_ram s
  have e : CPU.execute s = CPU.run (CPU.fetch s).2 Instr.PLP := by
    unfold CPU.execute
    simp only [h]
    rfl
  rw [e, CPU.run_PLP _ (by rw [hfc]; exact hconn)]
  simp only
  rw [hfc, hfr]
  obtain ⟨c0, c1, c2, c3, _, c6, c7, csp⟩ := CPU.setStatus_flags
    { ({ s.cpu with pc := (s.cpu.pc + 1) % 0x10000 } : CPU) with sp := (s.cpu.sp + 1) % 256 } v
  exact ⟨csp, c0, c1, c2, c3, c6, c7, trivial⟩

/-- C5: `PHP` followed by `PLP` (opcodes 0x08 then 0x28) leaves the flags C, Z, I, D, V, N
and the stack pointer as they were before the `PHP` and leaves B = 0, for every initial
flag combination; the byte `PHP` pushed has bits 4 and 5 set. -/
theorem CPU.php_plp (s : Bus) (hsp : s.cpu.sp < 256)
    (h1 : (CPU.fetch s).1 = 0x08) (h2 : (CPU.fetch (CPU.execute s)).1 = 0x28) :
    let s1 := CPU.execute s
    let s2 := CPU.execute s1
    (s2.cpu.flagC = s.cpu.flagC ∧ s2.cpu.flagZ = s.cpu.flagZ ∧ s2.cpu.flagI = s.cpu.flagI
      ∧ s2.cpu.flagD = s.cpu.flagD ∧ s2.cpu.flagV = s.cpu.flagV ∧ s2.cpu.flagN = s.cpu.flagN)
    ∧ s2.cpu.sp = s.cpu.sp ∧ s2.cpu.flagB = false
    ∧ (s1.ram ((0x0100 + s.cpu.sp) &&& 0x07FF)).testBit 4 = true
    ∧ (s1.ram ((0x0100 + s.cpu.sp) &&& 0x07FF)).testBit 5 = true := by
  intro s1 s2
  obtain ⟨hram, hsp1, _⟩ := CPU.execute_PHP s hsp h1
  have hplp := CPU.execute_PLP s1 h2
  simp only at hplp
  have hv : s1.ram ((0x0100 + (s1.cpu.sp + 1) % 256) &&& 0x07FF) = s.cpu.getStatus ||| 0x10 := by
    show (CPU.execute s).ram ((0x0100 + ((CPU.execute s).cpu.sp + 1) % 256) &&& 0x07FF) = _
    rw [hsp1, sp_dec_inc _ hsp, hram, Function.update_same]
  rw [hv] at hplp
  obtain ⟨b0, b1, b2, b3, _, b5, b6, b7⟩ := CPU.getStatus_testBit s.cpu
  have t0 : Nat.testBit 0x10 0 = false := by decide
  have t1 : Nat.testBit 0x10 1 = false := by decide
  have t2 : Nat.testBit 0x10 2 = false := by decide
  have t3 : Nat.testBit 0x10 3 = false := by decide
  have t4 : Nat.testBit 0x10 4 = true := by decide
  have t6 : Nat.testBit 0x10 6 = false := by decide
  have t7 : Nat.testBit 0x10 7 = false := by decide
  simp only [Nat.testBit_or, b0, b1, b2, b3, b6, b7, t0, t1, t2, t3, t6, t7, Bool.or_false]
    at hplp
  obtain ⟨csp, c0, c1, c2, c3, c6, c7, cb⟩ := hplp
  refine ⟨⟨c0, c1, c2, c3, c6, c7⟩, ?_, cb, ?_, ?_⟩
  · show (CPU.execute s1).cpu.sp = _
    rw [csp]
    show ((CPU.execute s).cpu.sp + 1) % 256 = _
    rw [hsp1]; exact sp_dec_inc _ hsp
  · show ((CPU.execute s).ram _).testBit 4 = true
    rw [hram, Function.update_same, Nat.testBit_or, t4, Bool.or_true]
  · show ((CPU.execute s).ram _).testBit 5 = true
    rw [hram, Function.update_same, Nat.testBit_or, b5, Bool.true_or]

/-- A program `PHP ; PLP` at `0x0000` run with C, I, V and B set and `SP = 0xFD`: the
pushed byte is `0x75`, and afterwards C, I, V are set, B is clear, `SP = 0xFD`. -/
theorem CPU.php_plp_witness :
    let s : Bus := { cpu := { busConn := true, sp := 0xFD, pc := 0, flagC := true, flagI := true,
                              flagV := true, flagB := true },
                     ram := fun a => if a = 0 then 0x08 else if a = 1 then 0x28 else 0 }
    (s.cpu.sp < 256 ∧ (CPU.fetch s).1 = 0x08 ∧ (CPU.fetch (CPU.execute s)).1 = 0x28)
    ∧ (CPU.execute (CPU.execute s)).cpu.flagC = true
    ∧ (CPU.execute (CPU.execute s)).cpu.flagB = false
    ∧ (CPU.execute (CPU.execute s)).cpu.sp = 0xFD :=
  have h := CPU.php_plp { cpu := { busConn := true, sp := 0xFD, pc := 0, flagC := true,
                                   flagI := true, flagV := true, flagB := true },
                          ram := fun a => if a = 0 then 0x08 else if a = 1 then 0x28 else 0 }
    (by decide) (by decide) (by decide)
  ⟨⟨by decide, by decide, by decide⟩, h.1.1, h.2.2.1, h.2.1⟩

/-! ## CPU status byte: BRK, PHP, NMI, IRQ -/

/-- A bus write leaves the CPU registers alone. -/
theorem Bus.cpuWrite_cpu (s : Bus) (addr val : Nat) : (s.cpuWrite addr val).cpu = s.cpu := by
  unfold Bus.cpuWrite
  dsimp only
  split_ifs <;> rfl

/-- A push changes only `SP` in the CPU. -/
theorem CPU.push_cpu (s : Bus) (v : Nat) :
    (CPU.push s v).cpu = { s.cpu with sp := (s.cpu.sp + 255) % 256 } := by
  have h : (CPU.write s (0x0100 + s.cpu.sp) v).cpu = s.cpu := by
    unfold CPU.write
    split
    · exact Bus.cpuWrite_cpu _ _ _
    · rfl
  simp only [CPU.push, h]

/-- With the bus connected a push stores its byte in work RAM at `0x0100 + SP`. -/
theorem CPU.push_ram (s : Bus) (v : Nat) (hconn : s.cpu.busConn = true) (hsp : s.cpu.sp < 256) :
    (CPU.push s v).ram = Function.update s.ram ((0x0100 + s.cpu.sp) &&& 0x07FF) v := by
  rw [CPU.push_eq s v hconn hsp]

/-- `push16` lowers `SP` by two and changes nothing else in the CPU. -/
theorem CPU.push16_cpu (s : Bus) (v : Nat) :
    (CPU.push16 s v).cpu = { s.cpu with sp := ((s.cpu.sp + 255) % 256 + 255) % 256 } := by
  unfold CPU.push16
  rw [CPU.push_cpu, CPU.push_cpu]

/-- The packed status byte with extra bits or-ed in: `getStatus() | 0x30` has B set,
`getStatus() | 0x20` with `flagB` cleared has B clear. -/
theorem CPU.statusImage_getStatus (c : CPU) :
    CPU.StatusImage c true (c.getStatus ||| 0x30)
      ∧ CPU.StatusImage c true (c.getStatus ||| 0x10)
      ∧ CPU.StatusImage c false (({ c with flagB := false } : CPU).getStatus ||| 0x20) := by
  have key : ∀ fC fZ fI fD fB fV fN : Bool,
      let c : CPU := { flagC := fC, flagZ := fZ, flagI := fI, flagD := fD, flagB := fB,
                       flagV := fV, flagN := fN }
      CPU.StatusImage c true (c.getStatus ||| 0x30)
      ∧ CPU.StatusImage c true (c.getStatus ||| 0x10)
      ∧ CPU.StatusImage c false (({ c with flagB := false } : CPU).getStatus ||| 0x20) := by
    intro fC fZ fI fD fB fV fN
    cases fC <;> cases fZ <;> cases fI <;> cases fD <;> cases fB <;> cases fV <;> cases fN <;>
      simp only [CPU.StatusImage, CPU.getStatus] <;> decide
  exact key c.flagC c.flagZ c.flagI c.flagD c.flagB c.flagV c.flagN

/-- The interrupt entry shared by `nmi()` and a taken `irq()`: the byte left at the third
stack slot is the status with B clear. -/
theorem CPU.interrupt_status (s : Bus) (hconn : s.cpu.busConn = true) :
    let s1 := CPU.push16 s s.cpu.pc
    let s2 : Bus := { s1 with cpu := { s1.cpu with flagB := false } }
    let s3 := CPU.push s2 (s2.cpu.getStatus ||| 0x20)
    CPU.StatusImage s.cpu false (s3.ram ((0x0100 + (s.cpu.sp + 254) % 256) &&& 0x07FF)) := by
  intro s1 s2 s3
  have h1 : s1.cpu = { s.cpu with sp := ((s.cpu.sp + 255) % 256 + 255) % 256 } :=
    CPU.push16_cpu s s.cpu.pc
  have hsp2 : s2.cpu.sp = (s.cpu.sp + 254) % 256 := by
    show s1.cpu.sp = _
    rw [h1]; simp only; omega
  have hconn2 : s2.cpu.busConn = true := by
    show s1.cpu.busConn = true
    rw [h1]; exact hconn
  have hst : s2.cpu.getStatus = ({ s.cpu with flagB := false } : CPU).getStatus := by
    show ({ s1.cpu with flagB := false } : CPU).getStatus = _
    rw [h1]; simp only [CPU.getStatus]
  have hram : s3.ram = Function.update s2.ram ((0x0100 + s2.cpu.sp) &&& 0x07FF)
      (s2.cpu.getStatus ||| 0x20) :=
    CPU.push_ram s2 _ hconn2 (by rw [hsp2]; omega)
  rw [hram, hsp2, Function.update_same, hst]
  exact (CPU.statusImage_getStatus s.cpu).2.2

/-- The vector reads and register updates that end `nmi()`, `irq()` and `BRK` leave work
RAM as the last push left it. -/
theorem CPU.read2_ram (s : Bus) (a b : Nat) :
    (CPU.read (CPU.read s a).2 b).2.ram = s.ram := by
  rw [(CPU.read_cpu_ram _ b).2, (CPU.read_cpu_ram s a).2]

/-- The status byte `nmi()` leaves on the stack. -/
theorem CPU.nmi_status (s : Bus) (hconn : s.cpu.busConn = true) :
    CPU.StatusImage s.cpu false
      ((CPU.nmi s).ram ((0x0100 + (s.cpu.sp + 254) % 256) &&& 0x07FF)) := by
  have h := CPU.interrupt_status s hconn
  simp only at h
  unfold CPU.nmi
  simp only
  rw [CPU.read2_ram]
  exact h

/-- The status byte a taken `irq()` leaves on the stack. -/
theorem CPU.irq_status (s : Bus) (hconn : s.cpu.busConn = true)
    (hI : s.cpu.flagI = false) :
    CPU.StatusImage s.cpu false
      ((CPU.irq s).ram ((0x0100 + (s.cpu.sp + 254) % 256) &&& 0x07FF)) := by
  have h := CPU.interrupt_status s hconn
  simp only at h
  unfold CPU.irq
  simp only [hI, Bool.false_eq_true, if_false]
  rw [CPU.read2_ram]
  exact h

/-- Work RAM after the body of `BRK` is work RAM after its three pushes. -/
theorem CPU.run_BRK_ram (t t1 t2 : Bus)
    (h1 : t1 = { t with cpu := { t.cpu with pc := (t.cpu.pc + 1) % 0x10000 } })
    (h2 : t2 = CPU.push16 t1 t1.cpu.pc) :
    (CPU.run t Instr.BRK).ram = (CPU.push t2 (t2.cpu.getStatus ||| 0x30)).ram := by
  subst h2
  subst h1
  simp only [CPU.run]
  rw [CPU.read2_ram]

/-- The status byte `BRK` leaves on the stack. -/
theorem CPU.brk_status (s : Bus) (hconn : s.cpu.busConn = true)
    (h : (CPU.fetch s).1 = 0x00) :
    CPU.StatusImage s.cpu true
      ((CPU.execute s).ram ((0x0100 + (s.cpu.sp + 254) % 256) &&& 0x07FF)) := by
  obtain ⟨hfc, hfr⟩ := CPU.fetch_cpu_ram s
  have e : CPU.execute s = CPU.run (CPU.fetch s).2 Instr.BRK := by
    unfold CPU.execute
    simp only [h]
    rfl
  obtain ⟨t1, ht1⟩ : ∃ t1 : Bus, t1 = { (CPU.fetch s).2 with
      cpu := { (CPU.fetch s).2.cpu with pc := ((CPU.fetch s).2.cpu.pc + 1) % 0x10000 } } :=
    ⟨_, rfl⟩
  obtain ⟨t2, ht2⟩ : ∃ t2 : Bus, t2 = CPU.push16 t1 t1.cpu.pc := ⟨_, rfl⟩
  rw [e, CPU.run_BRK_ram _ t1 t2 ht1 ht2]
  have ht1c : t1.cpu = { s.cpu with pc := ((s.cpu.pc + 1) % 0x10000 + 1) % 0x10000 } := by
    rw [ht1]; simp only; rw [hfc]
  have h1 : t2.cpu = { t1.cpu with sp := ((t1.cpu.sp + 255) % 256 + 255) % 256 } := by
    rw [ht2]; exact CPU.push16_cpu _ _
  have hsp2 : t2.cpu.sp = (s.cpu.sp + 254) % 256 := by
    rw [h1, ht1c]; simp only; omega
  have hconn2 : t2.cpu.busConn = true := by
    rw [h1, ht1c]; exact hconn
  have hst : t2.cpu.getStatus = s.cpu.getStatus := by
    rw [h1, ht1c]; simp only [CPU.getStatus]
  rw [CPU.push_ram _ _ hconn2 (by rw [hsp2]; omega), hsp2, Function.update_same, hst]
  exact (CPU.statusImage_getStatus s.cpu).1

/-- The status byte `PHP` leaves on the stack. -/
theorem CPU.php_status (s : Bus) (hsp : s.cpu.sp < 256) (h : (CPU.fetch s).1 = 0x08) :
    CPU.StatusImage s.cpu true ((CPU.execute s).ram ((0x0100 + s.cpu.sp) &&& 0x07FF)) := by
  rw [(CPU.execute_PHP s hsp h).1, Function.update_same]
  exact (CPU.statusImage_getStatus s.cpu).2.1

/-- C6: with the CPU connected to the bus, the status byte written to the stack by `BRK`
(0x00) and `PHP` (0x08) has bit 5 = 1 and bit 4 = 1, the one written by `nmi()` and by a
taken `irq()` has bit 5 = 1 and bit 4 = 0, and in all four cases bits 0, 1, 2, 3, 6, 7
are the flags C, Z, I, D, V, N before the push.  `BRK`, `nmi()` and `irq()` push the
program counter first, so their status byte lies two below the old stack top. -/
theorem CPU.pushed_status (s : Bus) (hconn : s.cpu.busConn = true) (hsp : s.cpu.sp < 256) :
    ((CPU.fetch s).1 = 0x00 → CPU.StatusImage s.cpu true
        ((CPU.execute s).ram ((0x0100 + (s.cpu.sp + 254) % 256) &&& 0x07FF)))
    ∧ ((CPU.fetch s).1 = 0x08 → CPU.StatusImage s.cpu true
        ((CPU.execute s).ram ((0x0100 + s.cpu.sp) &&& 0x07FF)))
    ∧ CPU.StatusImage s.cpu false
        ((CPU.nmi s).ram ((0x0100 + (s.cpu.sp + 254) % 256) &&& 0x07FF))
    ∧ (s.cpu.flagI = false → CPU.StatusImage s.cpu false
        ((CPU.irq s).ram ((0x0100 + (s.cpu.sp + 254) % 256) &&& 0x07FF))) :=
  ⟨CPU.brk_status s hconn, CPU.php_status s hsp, CPU.nmi_status s hconn,
    CPU.irq_status s hconn⟩

/-- With C and N set and `SP = 0xFD`: `BRK` (opcode 0 at `0x0000`) leaves `0xB1` at
`0x01FB`, `nmi()` and `irq()` leave `0xA1` there, and `PHP` leaves `0xB1` at `0x01FD`. -/
theorem CPU.pushed_status_witness :
    let s : Bus := { cpu := { busConn := true, sp := 0xFD, flagC := true, flagN := true } }
    let t : Bus := { s with ram := fun a => if a = 0 then 0x08 else 0 }
    (s.cpu.busConn = true ∧ s.cpu.sp < 256 ∧ (CPU.fetch s).1 = 0x00 ∧ s.cpu.flagI = false
      ∧ (CPU.fetch t).1 = 0x08)
    ∧ (CPU.execute s).ram 0x1FB = 0xB1 ∧ CPU.StatusImage s.cpu true ((CPU.execute s).ram 0x1FB)
    ∧ (CPU.nmi s).ram 0x1FB = 0xA1 ∧ CPU.StatusImage s.cpu false ((CPU.nmi s).ram 0x1FB)
    ∧ (CPU.irq s).ram 0x1FB = 0xA1 ∧ CPU.StatusImage s.cpu false ((CPU.irq s).ram 0x1FB)
    ∧ (CPU.execute t).ram 0x1FD = 0xB1 ∧ CPU.StatusImage t.cpu true ((CPU.execute t).ram 0x1FD) :=
  have hs := CPU.pushed_status
    { cpu := { busConn := true, sp := 0xFD, flagC := true, flagN := true } } rfl (by decide)
  have ht := CPU.pushed_status
    { cpu := { busConn := true, sp := 0xFD, flagC := true, flagN := true },
      ram := fun a => if a = 0 then 0x08 else 0 } rfl (by decide)
  ⟨⟨rfl, by decide, by decide, rfl, by decide⟩, by decide, hs.1 (by decide), by decide,
    hs.2.2.1, by decide, hs.2.2.2 rfl, by decide, ht.2.1 (by decide)⟩

/-! ## CPU indirect jump -/

/-- Replacing the CPU registers and reading them back. -/
@[simp] theorem Bus.withCpu_cpu (b : Bus) (c : CPU) : (b.withCpu c).cpu = c := rfl

/-- Every state is itself with its own CPU registers. -/
theorem Bus.withCpu_self (s : Bus) : s.withCpu s.cpu = s := rfl

/-- Replacing the CPU registers twice keeps the last ones. -/
@[simp] theorem Bus.withCpu_withCpu (b : Bus) (c d : CPU) :
    (b.withCpu c).withCpu d = b.withCpu d := rfl

/-- A bus read does not look at the CPU registers. -/
theorem Bus.cpuRead_withCpu (b : Bus) (c : CPU) (addr : Nat) :
    (b.withCpu c).cpuRead addr = ((b.cpuRead addr).1, (b.cpuRead addr).2.withCpu c) := by
  unfold Bus.cpuRead Bus.withCpu
  dsimp only
  split_ifs <;> rfl

/-- A CPU read with the bus connected is the bus read. -/
theorem CPU.read_withCpu (b : Bus) (c : CPU) (addr : Nat) (hconn : c.busConn = true) :
    CPU.read (b.withCpu c) addr = ((b.cpuRead addr).1, (b.cpuRead addr).2.withCpu c) := by
  unfold CPU.read
  rw [Bus.withCpu_cpu, if_pos hconn, Bus.cpuRead_withCpu]

/-- A fetch with the bus connected reads the byte at `pc` and advances `pc`. -/
theorem CPU.fetch_withCpu (b : Bus) (c : CPU) (hconn : c.busConn = true) :
    CPU.fetch (b.withCpu c)
      = ((b.cpuRead c.pc).1,
         (b.cpuRead c.pc).2.withCpu { c with pc := (c.pc + 1) % 0x10000 }) := by
  unfold CPU.fetch
  exact CPU.read_withCpu b _ _ hconn

/-- The operand fetch of `abs_` with the bus connected. -/
theorem CPU.fetch16_withCpu (b : Bus) (c : CPU) (hconn : c.busConn = true) :
    CPU.fetch16 (b.withCpu c)
      = ((((((b.cpuRead c.pc).2.cpuRead ((c.pc + 1) % 0x10000)).1 <<< 8)
            ||| (b.cpuRead c.pc).1) % 0x10000),
         ((b.cpuRead c.pc).2.cpuRead ((c.pc + 1) % 0x10000)).2.withCpu
           { c with pc := ((c.pc + 1) % 0x10000 + 1) % 0x10000 }) := by
  unfold CPU.fetch16
  simp only [CPU.fetch_withCpu b c hconn]
  rw [CPU.fetch_withCpu _ _ (by exact hconn)]

/-- C7: for opcode 0x6C with pointer operand `p`, the new program counter has its low
byte read from `p` and its high byte read from `p & 0xFF00` when `(p & 0xFF) = 0xFF` and
from `p + 1` otherwise; the instruction costs 5 cycles.  The five bus reads are the
opcode, the two operand bytes, and the two bytes of the target. -/
theorem CPU.jmp_indirect (s s' : Bus) (plo phi l h : Nat) (hconn : s.cpu.busConn = true)
    (hread :
      let p := ((phi <<< 8) ||| plo) % 0x10000
      s.readSeq [s.cpu.pc, (s.cpu.pc + 1) % 0x10000, (s.cpu.pc + 2) % 0x10000, p,
          if p &&& 0xFF = 0xFF then p &&& 0xFF00 else p + 1]
        = ([0x6C, plo, phi, l, h], s')) :
    (CPU.execute s).cpu.pc = ((h <<< 8) ||| l) % 0x10000 ∧ (CPU.execute s).cpu.cycles = 5 := by
  simp only [Bus.readSeq, Prod.mk.injEq, List.cons.injEq, and_true] at hread
  obtain ⟨⟨h0, h1, h2, h3, h4⟩, _⟩ := hread
  have hp : ∀ p : Nat, p < 0x10000 → p &&& 0xFF ≠ 0xFF → (p + 1) % 0x10000 = p + 1 := by
    intro p hp hne
    have : p &&& 0xFF = p % 256 := Nat.and_pow_two_sub_one_eq_mod p 8
    rw [this] at hne
    omega
  have hpc2 : ((s.cpu.pc + 1) % 0x10000 + 1) % 0x10000 = (s.cpu.pc + 2) % 0x10000 := by omega
  unfold CPU.execute
  rw [← Bus.withCpu_self s, CPU.fetch_withCpu _ _ hconn]
  simp only [h0]
  have hd : CPU.decode 0x6C = Instr.JMP_ind := by decide
  rw [hd]
  simp only [CPU.run, CPU.fetch16_withCpu, CPU.read_withCpu, Bus.withCpu_cpu, hconn, h1, hpc2, h2]
  have hlt : (phi <<< 8 ||| plo) % 65536 < 0x10000 := Nat.mod_lt _ (by decide)
  by_cases hw : (phi <<< 8 ||| plo) % 65536 &&& 255 = 255
  · simp only [hw, if_true] at h4 ⊢
    simp only [CPU.read_withCpu, Bus.withCpu_cpu, hconn, h3, h4, and_self]
  · simp only [hw, if_false] at h4 ⊢
    rw [hp _ hlt hw]
    simp only [CPU.read_withCpu, Bus.withCpu_cpu, hconn, h3, h4, and_self]

/-- `JMP ($02FF)` at `0x0000` with `0x34` at `0x02FF`, `0x12` at `0x0200` and `0x56` at
`0x0300`: the high byte comes from `0x0200`, the new program counter is `0x1234`. -/
theorem CPU.jmp_indirect_witness :
    let s : Bus := { cpu := { busConn := true, pc := 0 },
                     ram := fun a => if a = 0 then 0x6C else if a = 1 then 0xFF
                       else if a = 2 then 0x02 else if a = 0x2FF then 0x34
                       else if a = 0x200 then 0x12 else if a = 0x300 then 0x56 else 0 }
    (s.cpu.busConn = true
      ∧ (s.readSeq [0, 1, 2, 0x02FF, 0x0200]).1 = [0x6C, 0xFF, 0x02, 0x34, 0x12])
    ∧ (CPU.execute s).cpu.pc = 0x1234 ∧ (CPU.execute s).cpu.cycles = 5 :=
  ⟨⟨rfl, by decide⟩,
    CPU.jmp_indirect
      { cpu := { busConn := true, pc := 0 },
        ram := fun a => if a = 0 then 0x6C else if a = 1 then 0xFF
          else if a = 2 then 0x02 else if a = 0x2FF then 0x34
          else if a = 0x200 then 0x12 else if a = 0x300 then 0x56 else 0 }
      _ 0xFF 0x02 0x34 0x12 rfl (Prod.ext (by decide) rfl)⟩

/-! ## CPU branches -/

/-- The mask `0xFF00` keeps the second byte. -/
theorem and_FF00 (a : Nat) : a &&& 0xFF00 = (a / 256 % 256) * 256 := by
  have e : (0xFF00 : Nat) = (2 ^ 8 - 1) <<< 8 := by decide
  have : a &&& 0xFF00 = ((a >>> 8) &&& (2 ^ 8 - 1)) <<< 8 := by
    apply Nat.eq_of_testBit_eq
    intro i
    rw [e]
    simp only [Nat.testBit_and, Nat.testBit_shiftLeft, Nat.testBit_shiftRight,
      Nat.testBit_two_pow_sub_one]
    by_cases h : 8 ≤ i
    · simp [h, Nat.add_sub_cancel' h]
    · simp [h]
  rw [this, Nat.and_pow_two_sub_one_eq_mod, Nat.shiftRight_eq_div_pow, Nat.shiftLeft_eq]

/-- Two 16-bit addresses are on different pages exactly when `pageCross` says so. -/
theorem CPU.pageCross_iff (a b : Nat) (ha : a < 0x10000) (hb : b < 0x10000) :
    CPU.pageCross a b = true ↔ a / 256 ≠ b / 256 := by
  unfold CPU.pageCross
  rw [and_FF00, and_FF00]
  simp only [bne_iff_ne, ne_eq]
  omega

/-- C8: for each of the eight branch opcodes and every offset byte, the cycle count is 2
when the branch is not taken, 3 when it is taken and the target is on the page of the
address of the following instruction, and 4 when it is taken and the target is on
another page; a taken branch sets `PC` to that address plus the sign-extended offset
modulo `2 ^ 16`. -/
theorem CPU.branch_cycles (s s' : Bus) (op off : Nat) (flag : Flag) (value : Bool)
    (hconn : s.cpu.busConn = true)
    (hop : (op, flag, value) ∈
      [(0x90, Flag.C, false), (0xB0, Flag.C, true), (0xF0, Flag.Z, true), (0xD0, Flag.Z, false),
       (0x30, Flag.N, true), (0x10, Flag.N, false), (0x50, Flag.V, false), (0x70, Flag.V, true)])
    (hoff : off < 256)
    (hread : s.readSeq [s.cpu.pc, (s.cpu.pc + 1) % 0x10000] = ([op, off], s')) :
    let next : Nat := (s.cpu.pc + 2) % 0x10000
    let target : Nat :=
      (((next : Int) + (if off < 128 then (off : Int) else (off : Int) - 256)) % 0x10000).toNat
    (s.cpu.flag flag ≠ value →
      (CPU.execute s).cpu.cycles = 2 ∧ (CPU.execute s).cpu.pc = next)
    ∧ (s.cpu.flag flag = value →
      (CPU.execute s).cpu.pc = target
      ∧ (CPU.execute s).cpu.cycles = if next / 256 = target / 256 then 3 else 4) := by
  intro next target
  simp only [Bus.readSeq, Prod.mk.injEq, List.cons.injEq, and_true] at hread
  obtain ⟨⟨h0, h1⟩, _⟩ := hread
  have hd : CPU.decode op = Instr.branch flag value := by
    simp only [List.mem_cons, Prod.mk.injEq, List.mem_singleton, List.not_mem_nil, or_false] at hop
    rcases hop with h | h | h | h | h | h | h | h
    all_goals
      obtain ⟨rfl, rfl, rfl⟩ := h
      decide
  have hpc2 : ((s.cpu.pc + 1) % 0x10000 + 1) % 0x10000 = next := by
    show _ = (s.cpu.pc + 2) % 0x10000
    omega
  have hoff8 : toInt8 off = if off < 128 then (off : Int) else (off : Int) - 256 := by
    unfold toInt8
    rw [Nat.mod_eq_of_lt hoff]
    split_ifs <;> first | rfl | omega
  have hnext : next < 0x10000 := Nat.mod_lt _ (by decide)
  have htarget : target < 0x10000 := by
    show (((next : Int) + _) % 0x10000).toNat < 0x10000
    omega
  have hflag : ∀ c : CPU, c.flagC = s.cpu.flagC → c.flagZ = s.cpu.flagZ → c.flagN = s.cpu.flagN →
      c.flagV = s.cpu.flagV → c.flag flag = s.cpu.flag flag := by
    intro c hC hZ hN hV
    cases flag <;> simp only [CPU.flag, hC, hZ, hN, hV]
  unfold CPU.execute
  rw [← Bus.withCpu_self s, CPU.fetch_withCpu _ _ hconn]
  simp only [h0, hd, CPU.run, CPU.fetch_withCpu, Bus.withCpu_cpu, hconn, h1, hpc2, hoff8]
  rw [hflag { s.cpu with busConn := true, pc := next } rfl rfl rfl rfl]
  constructor
  · intro hne
    simp only [hne, if_false, and_self]
  · intro heq
    simp only [heq, if_true, true_and]
    by_cases hpg : next / 256 = target / 256
    · have : CPU.pageCross next target = false := by
        rw [← Bool.not_eq_true, CPU.pageCross_iff _ _ hnext htarget]
        simpa using hpg
      simp only [hpg, if_true]
      show (2 : Int) + (if CPU.pageCross next target = true then 2 else 1) = 3
      rw [this]
      rfl
    · have : CPU.pageCross next target = true := by
        rw [CPU.pageCross_iff _ _ hnext htarget]
        exact hpg
      simp only [hpg, if_false]
      show (2 : Int) + (if CPU.pageCross next target = true then 2 else 1) = 4
      rw [this]
      rfl

/-- `BNE` at `0x00FD` with offset `0x05` and Z clear lands on `0x0104`, another page
(4 cycles); with offset `0xFE` it lands on `0x00FD`, the same page (3 cycles); with Z set
it is not taken (2 cycles). -/
theorem CPU.branch_cycles_witness :
    let mem : Nat → Nat → Nat := fun off a => if a = 0xFD then 0xD0 else if a = 0xFE then off else 0
    let s1 : Bus := { cpu := { busConn := true, pc := 0xFD }, ram := mem 0x05 }
    let s2 : Bus := { cpu := { busConn := true, pc := 0xFD }, ram := mem 0xFE }
    let s3 : Bus := { cpu := { busConn := true, pc := 0xFD, flagZ := true }, ram := mem 0x05 }
    ((CPU.execute s1).cpu.pc = 0x0104 ∧ (CPU.execute s1).cpu.cycles = 4)
    ∧ ((CPU.execute s2).cpu.pc = 0x00FD ∧ (CPU.execute s2).cpu.cycles = 3)
    ∧ ((CPU.execute s3).cpu.pc = 0x00FF ∧ (CPU.execute s3).cpu.cycles = 2) :=
  have hm : (0xD0, Flag.Z, false) ∈
      [(0x90, Flag.C, false), (0xB0, Flag.C, true), (0xF0, Flag.Z, true), (0xD0, Flag.Z, false),
       (0x30, Flag.N, true), (0x10, Flag.N, false), (0x50, Flag.V, false), (0x70, Flag.V, true)] :=
    by decide
  have h1 := (CPU.branch_cycles
    { cpu := { busConn := true, pc := 0xFD },
      ram := fun a => if a = 0xFD then 0xD0 else if a = 0xFE then 0x05 else 0 }
    _ 0xD0 0x05 Flag.Z false rfl hm (by decide) (Prod.ext (by decide) rfl)).2 rfl
  have h2 := (CPU.branch_cycles
    { cpu := { busConn := true, pc := 0xFD },
      ram := fun a => if a = 0xFD then 0xD0 else if a = 0xFE then 0xFE else 0 }
    _ 0xD0 0xFE Flag.Z false rfl hm (by decide) (Prod.ext (by decide) rfl)).2 rfl
  have h3 := (CPU.branch_cycles
    { cpu := { busConn := true, pc := 0xFD, flagZ := true },
      ram := fun a => if a = 0xFD then 0xD0 else if a = 0xFE then 0x05 else 0 }
    _ 0xD0 0x05 Flag.Z false rfl hm (by decide) (Prod.ext (by decide) rfl)).1 (by decide)
  ⟨h1, h2, ⟨h3.2, h3.1⟩⟩

/-! ## CPU page-cross penalty -/

/-- A CPU write leaves the CPU registers alone. -/
theorem CPU.write_cpu (s : Bus) (addr val : Nat) : (CPU.write s addr val).cpu = s.cpu := by
  unfold CPU.write
  split
  · exact Bus.cpuWrite_cpu _ _ _
  · rfl

/-- The cycle count `LDA` leaves: the base count, plus one when `extraCycle` is set. -/
theorem CPU.run_LDA_cycles (t : Bus) (mode : Mode) (n : Int) :
    (CPU.run t (Instr.mem Op.LDA mode n)).cpu.cycles
      = n + (if (CPU.operand t mode).1.2 = true then 1 else 0) := by
  simp only [CPU.run, CPU.runOp, (CPU.read_cpu_ram _ _).1, CPU.bump, CPU.setZN]
  split <;> simp

/-- The cycle count `STA` leaves: the base count. -/
theorem CPU.run_STA_cycles (t : Bus) (mode : Mode) (n : Int) :
    (CPU.run t (Instr.mem Op.STA mode n)).cpu.cycles = n := by
  simp only [CPU.run, CPU.runOp, CPU.write_cpu]

/-- The `extraCycle` flag of the three indexed addressing lambdas, in terms of the bytes
the bus returns. -/
theorem CPU.operand_extra (b : Bus) (c : CPU) (hconn : c.busConn = true) (checkPage : Bool) :
    (let r1 := b.cpuRead c.pc
     let r2 := r1.2.cpuRead ((c.pc + 1) % 0x10000)
     let base := ((r2.1 <<< 8) ||| r1.1) % 0x10000
     (CPU.operand (b.withCpu c) (Mode.abx checkPage)).1.2
        = (checkPage && CPU.pageCross base ((base + c.x) % 0x10000))
     ∧ (CPU.operand (b.withCpu c) (Mode.aby checkPage)).1.2
        = (checkPage && CPU.pageCross base ((base + c.y) % 0x10000)))
    ∧ (let r1 := b.cpuRead c.pc
       let ptr := r1.1 % 256
       let r2 := r1.2.cpuRead (ptr &&& 0xFF)
       let r3 := r2.2.cpuRead ((ptr + 1) &&& 0xFF)
       let base := ((r3.1 <<< 8) ||| r2.1) % 0x10000
       (CPU.operand (b.withCpu c) (Mode.izy checkPage)).1.2
        = (checkPage && CPU.pageCross base ((base + c.y) % 0x10000))) := by
  refine ⟨⟨?_, ?_⟩, ?_⟩ <;>
    simp only [CPU.operand, CPU.fetch16_withCpu, CPU.fetch_withCpu, CPU.read_withCpu,
      Bus.withCpu_cpu, hconn]

/-- The cycle count of an instruction whose opcode byte is `op`, when the opcode read
returns `op` with the bus connected. -/
theorem CPU.execute_eq_run (s : Bus) (op : Nat) (hconn : s.cpu.busConn = true)
    (h0 : (s.cpuRead s.cpu.pc).1 = op) :
    CPU.execute s = CPU.run ((s.cpuRead s.cpu.pc).2.withCpu
      { s.cpu with pc := (s.cpu.pc + 1) % 0x10000 }) (CPU.decode op) := by
  unfold CPU.execute
  rw [← Bus.withCpu_self s, CPU.fetch_withCpu _ _ hconn]
  simp only [Bus.withCpu_cpu, h0]
  rfl

/-- C9: `LDA abs,X` (0xBD) and `LDA abs,Y` (0xB9) cost 4 cycles when the base address and
the indexed address are on the same page and 5 otherwise, `LDA (zp),Y` (0xB1) costs 5 or
6 likewise; `STA abs,X` (0x9D) and `STA abs,Y` (0x99) cost 5 and `STA (zp),Y` (0x91)
costs 6 whether or not the index crosses a page. -/
theorem CPU.page_cross_penalty (s : Bus) (hconn : s.cpu.busConn = true) :
    (∀ (s' : Bus) (op lo hi : Nat),
        s.readSeq [s.cpu.pc, (s.cpu.pc + 1) % 0x10000, (s.cpu.pc + 2) % 0x10000]
          = ([op, lo, hi], s') →
        let base := ((hi <<< 8) ||| lo) % 0x10000
        (op = 0xBD → (CPU.execute s).cpu.cycles
            = if base / 256 = ((base + s.cpu.x) % 0x10000) / 256 then 4 else 5)
        ∧ (op = 0xB9 → (CPU.execute s).cpu.cycles
            = if base / 256 = ((base + s.cpu.y) % 0x10000) / 256 then 4 else 5)
        ∧ (op = 0x9D → (CPU.execute s).cpu.cycles = 5)
        ∧ (op = 0x99 → (CPU.execute s).cpu.cycles = 5))
    ∧ (∀ (s' : Bus) (op zp lo hi : Nat), zp < 256 →
        s.readSeq [s.cpu.pc, (s.cpu.pc + 1) % 0x10000, zp, (zp + 1) % 256]
          = ([op, zp, lo, hi], s') →
        let base := ((hi <<< 8) ||| lo) % 0x10000
        (op = 0xB1 → (CPU.execute s).cpu.cycles
            = if base / 256 = ((base + s.cpu.y) % 0x10000) / 256 then 5 else 6)
        ∧ (op = 0x91 → (CPU.execute s).cpu.cycles = 6)) := by
  have hpen : ∀ (base idx : Nat) (n : Int), base < 0x10000 →
      n + (if (true && CPU.pageCross base ((base + idx) % 0x10000)) = true then 1 else 0)
        = if base / 256 = ((base + idx) % 0x10000) / 256 then n else n + 1 := by
    intro base idx n hb
    have hr : (base + idx) % 0x10000 < 0x10000 := Nat.mod_lt _ (by decide)
    by_cases hpg : base / 256 = ((base + idx) % 0x10000) / 256
    · have : CPU.pageCross base ((base + idx) % 0x10000) = false := by
        rw [← Bool.not_eq_true, CPU.pageCross_iff _ _ hb hr]
        simpa using hpg
      simp [this, hpg]
    · have : CPU.pageCross base ((base + idx) % 0x10000) = true := by
        rw [CPU.pageCross_iff _ _ hb hr]
        exact hpg
      simp [this, hpg]
  have hmod : ∀ n : Nat, n % 0x10000 < 0x10000 := fun n => Nat.mod_lt _ (by decide)
  constructor
  · intro s' op lo hi hread base
    simp only [Bus.readSeq, Prod.mk.injEq, List.cons.injEq, and_true] at hread
    obtain ⟨⟨h0, h1, h2⟩, _⟩ := hread
    have hpc2 : ((s.cpu.pc + 1) % 0x10000 + 1) % 0x10000 = (s.cpu.pc + 2) % 0x10000 := by omega
    have hex := CPU.operand_extra (s.cpuRead s.cpu.pc).2
      { s.cpu with pc := (s.cpu.pc + 1) % 0x10000 } hconn
    simp only [h1, hpc2, h2] at hex
    rw [CPU.execute_eq_run s op hconn h0]
    refine ⟨?_, ?_, ?_, ?_⟩
    · rintro rfl
      have hd : CPU.decode 0xBD = Instr.mem Op.LDA (Mode.abx true) 4 := by decide
      rw [hd, CPU.run_LDA_cycles, (hex true).1.1, hpen _ _ _ (hmod _)]
      rfl
    · rintro rfl
      have hd : CPU.decode 0xB9 = Instr.mem Op.LDA (Mode.aby true) 4 := by decide
      rw [hd, CPU.run_LDA_cycles, (hex true).1.2, hpen _ _ _ (hmod _)]
      rfl
    · rintro rfl
      have hd : CPU.decode 0x9D = Instr.mem Op.STA (Mode.abx false) 5 := by decide
      rw [hd, CPU.run_STA_cycles]
    · rintro rfl
      have hd : CPU.decode 0x99 = Instr.mem Op.STA (Mode.aby false) 5 := by decide
      rw [hd, CPU.run_STA_cycles]
  · intro s' op zp lo hi hzp hread base
    simp only [Bus.readSeq, Prod.mk.injEq, List.cons.injEq, and_true] at hread
    obtain ⟨⟨h0, h1, h2, h3⟩, _⟩ := hread
    have hex := CPU.operand_extra (s.cpuRead s.cpu.pc).2
      { s.cpu with pc := (s.cpu.pc + 1) % 0x10000 } hconn
    have e1 : zp % 256 &&& 0xFF = zp := by
      rw [Nat.mod_eq_of_lt hzp]
      exact Nat.and_pow_two_sub_one_of_lt_two_pow (n := 8) hzp
    have e2 : (zp % 256 + 1) &&& 0xFF = (zp + 1) % 256 := by
      rw [Nat.mod_eq_of_lt hzp]
      exact Nat.and_pow_two_sub_one_eq_mod _ 8
    simp only [h1, e1, e2, h2, h3] at hex
    rw [CPU.execute_eq_run s op hconn h0]
    refine ⟨?_, ?_⟩
    · rintro rfl
      have hd : CPU.decode 0xB1 = Instr.mem Op.LDA (Mode.izy true) 5 := by decide
      rw [hd, CPU.run_LDA_cycles, (hex true).2, hpen _ _ _ (hmod _)]
      rfl
    · rintro rfl
      have hd : CPU.decode 0x91 = Instr.mem Op.STA (Mode.izy false) 6 := by decide
      rw [hd, CPU.run_STA_cycles]

/-- `LDA $01F0,X` at `0x0000`: with `X = 0x20` the index crosses into page 2 (5 cycles),
with `X = 0x01` it does not (4 cycles); `STA $01F0,X` with `X = 0x20` costs 5 cycles. -/
theorem CPU.page_cross_penalty_witness :
    let mem : Nat → Nat → Nat :=
      fun op a => if a = 0 then op else if a = 1 then 0xF0 else if a = 2 then 0x01 else 0
    (CPU.execute { cpu := { busConn := true, x := 0x20 }, ram := mem 0xBD }).cpu.cycles = 5
    ∧ (CPU.execute { cpu := { busConn := true, x := 0x01 }, ram := mem 0xBD }).cpu.cycles = 4
    ∧ (CPU.execute { cpu := { busConn := true, x := 0x20 }, ram := mem 0x9D }).cpu.cycles = 5 :=
  ⟨((CPU.page_cross_penalty
      { cpu := { busConn := true, x := 0x20 },
        ram := fun a => if a = 0 then 0xBD else if a = 1 then 0xF0 else if a = 2 then 0x01 else 0 }
      rfl).1 _ 0xBD 0xF0 0x01 (Prod.ext (by decide) rfl)).1 rfl,
   ((CPU.page_cross_penalty
      { cpu := { busConn := true, x := 0x01 },
        ram := fun a => if a = 0 then 0xBD else if a = 1 then 0xF0 else if a = 2 then 0x01 else 0 }
      rfl).1 _ 0xBD 0xF0 0x01 (Prod.ext (by decide) rfl)).1 rfl,
   ((CPU.page_cross_penalty
      { cpu := { busConn := true, x := 0x20 },
        ram := fun a => if a = 0 then 0x9D else if a = 1 then 0xF0 else if a = 2 then 0x01 else 0 }
      rfl).1 _ 0x9D 0xF0 0x01 (Prod.ext (by decide) rfl)).2.2.1 rfl⟩

/-! ## OAM DMA -/

/-! ### The PPU clock never writes OAM -/

@[simp] theorem PPU.evaluateSprite_oam (cart : Cartridge) (p : PPU) (i : Nat) :
    (PPU.evaluateSprite cart p i).oam = p.oam := by
  unfold PPU.evaluateSprite
  simp only [apply_ite PPU.oam, ite_self]

/-- Quiet stretches compose. -/
theorem Bus.DmaQuiet.trans {a b : Nat} {u v w : Bus} (h1 : Bus.DmaQuiet a u v)
    (h2 : Bus.DmaQuiet b v w) : Bus.DmaQuiet (a + b) u w :=
  ⟨h2.dmaActive.trans h1.dmaActive, h2.dmaSync.trans h1.dmaSync, h2.dmaPage.trans h1.dmaPage,
    h2.dmaAddr.trans h1.dmaAddr, h2.dmaData.trans h1.dmaData, h2.oam.trans h1.oam,
    h2.ppuConn.trans h1.ppuConn, by rw [h2.systemClock, h1.systemClock, Nat.add_assoc],
    fun i hi => (h2.ram i hi).trans (h1.ram i hi), fun h => h2.sp (h1.sp h)⟩

/-- The stack slot of a byte-sized stack pointer lies in the stack page of work RAM. -/
theorem stack_slot (sp : Nat) (h : sp < 256) : (0x0100 + sp) &&& 0x07FF = 0x0100 + sp :=
  Nat.and_pow_two_sub_one_of_lt_two_pow (n := 11) (by omega)

/-- A push is quiet: it writes the stack page only. -/
theorem CPU.push_quiet (s : Bus) (v : Nat) (hsp : s.cpu.sp < 256) :
    Bus.DmaQuiet 0 s (CPU.push s v) := by
  by_cases hconn : s.cpu.busConn = true
  · rw [CPU.push_eq s v hconn hsp, stack_slot _ hsp]
    refine ⟨rfl, rfl, rfl, rfl, rfl, rfl, rfl, rfl, ?_, fun _ => ?_⟩
    · intro i hi
      exact Function.update_noteq (by omega) _ _
    · exact Nat.mod_lt _ (by decide)
  · have : CPU.push s v = { s with cpu := { s.cpu with sp := (s.cpu.sp + 255) % 256 } } := by
      simp [CPU.push, CPU.write, hconn]
    rw [this]
    exact ⟨rfl, rfl, rfl, rfl, rfl, rfl, rfl, rfl, fun _ _ => rfl,
      fun _ => Nat.mod_lt _ (by decide)⟩

/-- C18. The image changed while the strobe is high is lost at the falling edge: after
`setButtonState(0); write(1); setButtonState(1)` a `read()` made while the strobe is still
high returns `0x41`, bit 0 of the current image, but after the following `write(0)` the
next eight `read()` calls return `0x40` each, the bits of the image `0` that was current
at the `write(1)`, where the bits 0..7 of the current image `1` are
`0x41, 0x40, ..., 0x40`. -/
theorem Controller.strobe_reload_stale :
    ((((({} : Controller).setButtonState 0).write 1).setButtonState 1).read).1 = 0x41
    ∧ (Controller.readN 8
          ((((({} : Controller).setButtonState 0).write 1).setButtonState 1).write 0)).1
        = [0x40, 0x40, 0x40, 0x40, 0x40, 0x40, 0x40, 0x40]
    ∧ (List.range 8).map (fun i => 0x40 ||| ((1 >>> i) &&& 1))
        = [0x41, 0x40, 0x40, 0x40, 0x40, 0x40, 0x40, 0x40] := by
  decide

/-- The continuous-reload law does not hold of the code: with `b1 = 0` and `b2 = 1` the
sequence `setButtonState(b1); write(1); setButtonState(b2); write(0)` leaves `b1` in the
shift register, so the first `read()` returns `0x40` (bit 0 of `b1`) and not `0x41`
(bit 0 of `b2`). -/
theorem Controller.strobe_reload_counterexample :
    ¬ (∀ (c : Controller) (b1 b2 : Nat), b1 < 256 → b2 < 256 →
        (Controller.readN 8
            ((((c.setButtonState b1).write 1).setButtonState b2).write 0)).1
          = (List.range 8).map (fun i => 0x40 ||| ((b2 >>> i) &&& 1))) := by
  intro h
  have h1 := h {} 0 1 (by decide) (by decide)
  revert h1
  decide

/-- What the code does for every pair of images: `write` copies the button image into the
shift register only at the moment of a write with bit 0 set.  After `setButtonState(b1); write(1);
setButtonState(b2)` a `read()` made while the strobe is still high returns bit 0 of the
current image `b2`; after the following `write(0)` the next eight `read()` calls return
bits 0..7 of `b1`, the image that was current at the `write(1)`. -/
theorem Controller.strobe_latch (c : Controller) (b1 b2 : Nat) (_h1 : b1 < 256)
    (_h2 : b2 < 256) :
    ((((c.setButtonState b1).write 1).setButtonState b2).read).1 = (b2 &&& 1) ||| 0x40
    ∧ (Controller.readN 8
          ((((c.setButtonState b1).write 1).setButtonState b2).write 0)).1
        = (List.range 8).map (fun i => 0x40 ||| ((b1 >>> i) &&& 1)) := by
  constructor
  · simp [Controller.write, Controller.setButtonState, Controller.read]
  · rw [Controller.readN_shift]
    · simp [Controller.write, Controller.setButtonState]
    · simp [Controller.write, Controller.setButtonState]

/-- The behaviour of the code on `b1 = 0xA5`, `b2 = 0x5A`. -/
theorem Controller.strobe_latch_witness :
    (0xA5 < 256) ∧ (0x5A < 256)
    ∧ ((((({} : Controller).setButtonState 0xA5).write 1).setButtonState 0x5A).read).1 = 0x40
    ∧ (Controller.readN 8
          ((((({} : Controller).setButtonState 0xA5).write 1).setButtonState 0x5A).write 0)).1
        = [0x41, 0x40, 0x41, 0x40, 0x40, 0x41, 0x40, 0x41] := by
  have h := Controller.strobe_latch {} 0xA5 0x5A (by decide) (by decide)
  refine ⟨by decide, by decide, ?_, ?_⟩
  · rw [h.1]; decide
  · rw [h.2]; decide

/-! ## APU pulse output -/

/-- The sweep target of a channel whose timer period is 8 is at most 16. -/
theorem Pulse.sweepTarget_period8 (c : Pulse) (h : c.timerPeriod = 8) : c.sweepTarget ≤ 16 := by
  have hs : (8 >>> c.sweepShift : Nat) ≤ 8 := by
    rw [Nat.shiftRight_eq_div_pow]
    exact Nat.div_le_self _ _
  unfold Pulse.sweepTarget toInt16
  rw [h]
  generalize (8 >>> c.sweepShift : Nat) = k at hs ⊢
  dsimp only
  rw [Int.toNat_le]
  push_cast
  rw [max_le_iff]
  split_ifs <;> omega

/-- C19, as stated, fails: an enabled pulse channel with length counter 1, constant volume
15 and timer period 8 whose duty sequencer stands at a low step (duty 0, position 0, the
values of a constructed channel) has output 0. -/
theorem Pulse.silence_counterexample :
    ¬ (∀ c : Pulse, c.enabled = true → c.lengthCounter > 0 → c.constantVolume = true →
        c.envelopeVolume = 15 →
        ({ c with timerPeriod := 7 } : Pulse).output = 0
          ∧ ({ c with timerPeriod := 8 } : Pulse).output ≠ 0) := by
  intro h
  have h1 := (h { enabled := true, lengthCounter := 1, constantVolume := true,
                  envelopeVolume := 15 } rfl (by decide) rfl rfl).2
  exact h1 (by decide)

/-- C19 (amended): for a pulse channel that is enabled, has length counter > 0,
constant-volume flag set and volume 15, `output()` is 0 when the timer period is 7; when
the period is raised to 8 with everything else unchanged the output is 15 if the duty
table entry at the current sequencer step is 1, and 0 if that entry is 0. -/
theorem Pulse.silence_rule (c : Pulse) (hen : c.enabled = true) (hlen : c.lengthCounter > 0)
    (hcv : c.constantVolume = true) (hvol : c.envelopeVolume = 15) :
    ({ c with timerPeriod := 7 } : Pulse).output = 0
    ∧ ((Pulse.dutyTable.getD c.duty []).getD c.dutyPos false = true →
        ({ c with timerPeriod := 8 } : Pulse).output = 15)
    ∧ ((Pulse.dutyTable.getD c.duty []).getD c.dutyPos false = false →
        ({ c with timerPeriod := 8 } : Pulse).output = 0) := by
  have hlen0 : c.lengthCounter ≠ 0 := by omega
  have ht := Pulse.sweepTarget_period8 ({ c with timerPeriod := 8 } : Pulse) rfl
  have ht2 : ¬ (({ c with timerPeriod := 8 } : Pulse).sweepTarget > 0x7FF) := by omega
  refine ⟨?_, ?_, ?_⟩
  · unfold Pulse.output
    simp [hen, hlen0]
  · intro hd
    unfold Pulse.output
    dsimp only
    rw [if_neg (by simp [hen]), if_neg hlen0, if_neg (by rw [hd]; decide), if_neg (by decide),
      if_neg ht2, if_pos hcv, hvol]
  · intro hd
    unfold Pulse.output
    dsimp only
    rw [if_neg (by simp [hen]), if_neg hlen0, if_pos (by rw [hd]; decide)]

/-- The amended rule on pulse 1 with duty 2 at sequencer step 1 (a high step). -/
theorem Pulse.silence_rule_witness :
    ({ enabled := true, duty := 2, dutyPos := 1, timerPeriod := 7, lengthCounter := 10,
       constantVolume := true, envelopeVolume := 15, isChannel1 := true } : Pulse).output = 0
    ∧ ({ enabled := true, duty := 2, dutyPos := 1, timerPeriod := 8, lengthCounter := 10,
         constantVolume := true, envelopeVolume := 15, isChannel1 := true } : Pulse).output = 15 :=
  have h := Pulse.silence_rule
    { enabled := true, duty := 2, dutyPos := 1, lengthCounter := 10,
      constantVolume := true, envelopeVolume := 15, isChannel1 := true }
    rfl (by decide) rfl rfl
  ⟨h.1, h.2.1 (by decide)⟩

/-! ## Sprite-0 hit at the screen edges -/

/-- A mask with bit 1 or bit 2 clear differs from `0x06` on those two bits. -/
theorem mask_left_clipped (m : Nat) (h : m &&& 0x02 = 0 ∨ m &&& 0x04 = 0) : m &&& 0x06 ≠ 0x06 := by
  intro h6
  have h2 : m &&& 0x02 = 0x02 := by
    have : (m &&& 0x06) &&& 0x02 = 0x02 := by rw [h6]; decide
    rwa [Nat.and_assoc] at this
  have h4 : m &&& 0x04 = 0x04 := by
    have : (m &&& 0x06) &&& 0x04 = 0x04 := by rw [h6]; decide
    rwa [Nat.and_assoc] at this
  rcases h with h | h
  · rw [h] at h2; exact absurd h2 (by decide)
  · rw [h] at h4; exact absurd h4 (by decide)

/-- When the hit condition of `renderPixel` is ruled out, the call leaves the sprite-0-hit
latch and the status register as they were. -/
theorem PPU.renderPixel_no_hit (p : PPU) (cart : Cartridge)
    (h : ¬ (p.cycle - 1 < 255) ∨ (p.mask &&& 0x06 ≠ 0x06 ∧ p.cycle - 1 < 8)) :
    (p.renderPixel cart).status = p.status
    ∧ (p.renderPixel cart).sprite0Hit = p.sprite0Hit := by
  unfold PPU.renderPixel
  dsimp only
  split
  · exact ⟨rfl, rfl⟩
  · have hhit : ∀ b1 b2 b3 : Bool,
        (b1 && b2 && b3 && decide (p.cycle - 1 < 255) && decide (p.mask &&& 0x18 = 0x18)
          && !(decide (p.mask &&& 0x06 ≠ 0x06) && decide (p.cycle - 1 < 8))) = false := by
      intro b1 b2 b3
      rcases h with h | ⟨h1, h2⟩
      · simp [h]
      · simp [h1, h2]
    simp only [hhit, Bool.false_eq_true, if_false, and_self]

/-- C20: for every PPU state, a `renderPixel` call at screen column `x = cycle - 1 < 8`
leaves PPUSTATUS (bit 6 included) and the sprite-0-hit latch unchanged when PPUMASK bit 1
or bit 2 is clear; and so does every `renderPixel` call at `x = 255`. -/
theorem PPU.sprite0_edges (p : PPU) (cart : Cartridge) :
    (p.cycle - 1 < 8 → (p.mask &&& 0x02 = 0 ∨ p.mask &&& 0x04 = 0) →
        (p.renderPixel cart).status = p.status
        ∧ (p.renderPixel cart).sprite0Hit = p.sprite0Hit)
    ∧ (p.cycle - 1 = 255 →
        (p.renderPixel cart).status = p.status
        ∧ (p.renderPixel cart).sprite0Hit = p.sprite0Hit) := by
  constructor
  · intro hx hm
    exact PPU.renderPixel_no_hit p cart (Or.inr ⟨mask_left_clipped _ hm, hx⟩)
  · intro hx
    exact PPU.renderPixel_no_hit p cart (Or.inl (by omega))

/-- A state in which every other condition of the hit holds: sprite 0 and an opaque
background pixel overlap at `x = 3` on scanline 10 with both layers enabled and the
background clipped in the left 8 columns (`mask = 0x1C`): no hit; and the same overlap
at `x = 255` with nothing clipped (`mask = 0x1E`): no hit either. -/
theorem PPU.sprite0_edges_witness :
    ((({ scanline := 10, cycle := 4, mask := 0x1C, bgShiftLo := 0x8000, spriteCount := 1,
         sprite0OnLine := true, spriteShiftLo := (fun _ => 0xFF) } : PPU).renderPixel {}).status = 0)
    ∧ ((({ scanline := 10, cycle := 256, mask := 0x1E, bgShiftLo := 0x8000, spriteCount := 1,
           sprite0OnLine := true, spriteShiftLo := (fun _ => 0xFF),
           spriteLine := (fun _ => { x := 250 }) } : PPU).renderPixel {}).status = 0) :=
  ⟨((PPU.sprite0_edges _ _).1 (by decide) (Or.inl (by decide))).1,
   ((PPU.sprite0_edges _ _).2 (by decide)).1⟩

/-! ## CPU reset -/

/-- A bus read at or above `0x4020` returns the cartridge byte and changes nothing. -/
theorem Bus.cpuRead_cart (t : Bus) (addr : Nat) (h : 0x4020 ≤ addr) :
    t.cpuRead addr = ((if t.cartConn then t.cart.cpuRead addr else 0), t) := by
  unfold Bus.cpuRead
  split_ifs
  all_goals first
    | rfl
    | omega

/-- A CPU read at or above `0x4020` returns the cartridge byte (0 without a bus or a
cartridge) and changes nothing. -/
theorem CPU.read_cart (t : Bus) (addr : Nat) (h : 0x4020 ≤ addr) :
    CPU.read t addr
      = ((if t.cpu.busConn then (if t.cartConn then t.cart.cpuRead addr else 0) else 0), t) := by
  unfold CPU.read
  split
  · rw [Bus.cpuRead_cart t addr h]
  · rfl

/-- Unpacking `0x24` sets I and clears the six other flags. -/
theorem CPU.setStatus_0x24 (c : CPU) :
    c.setStatus 0x24 = { c with flagC := false, flagZ := false, flagI := true, flagD := false,
                                flagB := false, flagV := false, flagN := false } := by
  unfold CPU.setStatus
  congr 1

/-- With only I set the packed status byte is `0x24`. -/
theorem CPU.getStatus_only_I (c : CPU) (hC : c.flagC = false) (hZ : c.flagZ = false)
    (hI : c.flagI = true) (hD : c.flagD = false) (hB : c.flagB = false) (hV : c.flagV = false)
    (hN : c.flagN = false) : c.getStatus = 0x24 := by
  unfold CPU.getStatus
  rw [hC, hZ, hI, hD, hB, hV, hN]
  decide

/-- C16: for every prior state, after `reset()` the stack pointer is `0xFD`, the packed
status byte is `0x24` (I set, the six other flags clear), A = X = Y = 0, and PC is
`read(0xFFFC) | (read(0xFFFD) << 8)`; `cycles` is 8 and nothing outside the CPU changes. -/
theorem CPU.reset_registers (s : Bus) (hlo : (CPU.read s 0xFFFC).1 < 256)
    (hhi : (CPU.read s 0xFFFD).1 < 256) :
    (CPU.reset s).cpu.sp = 0xFD
    ∧ (CPU.reset s).cpu.getStatus = 0x24
    ∧ ((CPU.reset s).cpu.flagI = true ∧ (CPU.reset s).cpu.flagC = false
        ∧ (CPU.reset s).cpu.flagZ = false ∧ (CPU.reset s).cpu.flagD = false
        ∧ (CPU.reset s).cpu.flagB = false ∧ (CPU.reset s).cpu.flagV = false
        ∧ (CPU.reset s).cpu.flagN = false)
    ∧ (CPU.reset s).cpu.a = 0 ∧ (CPU.reset s).cpu.x = 0 ∧ (CPU.reset s).cpu.y = 0
    ∧ (CPU.reset s).cpu.pc = (CPU.read s 0xFFFC).1 ||| ((CPU.read s 0xFFFD).1 <<< 8)
    ∧ (CPU.reset s).cpu.cycles = 8
    ∧ (CPU.reset s).withCpu s.cpu = s := by
  have hlt : ∀ a b : Nat, a < 256 → b < 256 → (a ||| (b <<< 8)) % 0x10000 = a ||| (b <<< 8) := by
    intro a b ha hb
    apply Nat.mod_eq_of_lt
    apply Nat.or_lt_two_pow (n := 16)
    · omega
    · rw [Nat.shiftLeft_eq]; omega
  have hr : CPU.reset s = s.withCpu
      { CPU.setStatus { s.cpu with a := 0, x := 0, y := 0, sp := 0xFD } 0x24 with
        pc := ((CPU.read s 0xFFFC).1 ||| ((CPU.read s 0xFFFD).1 <<< 8)) % 0x10000
        cycles := 8 } := by
    unfold CPU.reset
    simp only [CPU.read_cart _ 0xFFFC (by decide), CPU.read_cart _ 0xFFFD (by decide)]
    rfl
  rw [hr, hlt _ _ hlo hhi, CPU.setStatus_0x24]
  exact ⟨rfl, CPU.getStatus_only_I _ rfl rfl rfl rfl rfl rfl rfl,
    ⟨rfl, rfl, rfl, rfl, rfl, rfl, rfl⟩, rfl, rfl, rfl, rfl, rfl, rfl⟩

/-- Reset of a CPU with arbitrary registers wired to a 16 KiB cartridge whose vector
bytes are `0x00`, `0x80`: PC becomes `0x8000`. -/
theorem CPU.reset_registers_witness :
    (CPU.reset { cpu := { busConn := true, a := 7, x := 8, y := 9, sp := 0x10, pc := 0x1234,
                          flagC := true, flagN := true },
                 cartConn := true,
                 cart := { prgBanks := 1, prgSize := 0x4000,
                           prgRom := (fun i => if i = 0x3FFD then 0x80 else 0) } }).cpu.pc
      = 0x8000 := by
  have h := CPU.reset_registers
    { cpu := { busConn := true, a := 7, x := 8, y := 9, sp := 0x10, pc := 0x1234,
               flagC := true, flagN := true },
      cartConn := true,
      cart := { prgBanks := 1, prgSize := 0x4000,
                prgRom := (fun i => if i = 0x3FFD then 0x80 else 0) } }
    (by decide) (by decide)
  rw [h.2.2.2.2.2.2.1]
  decide

/-! ## Opcodes without a case -/

/-- A CPU read does not look at the registers, the connection flag apart. -/
theorem CPU.read_setCpu (s : Bus) (c : CPU) (addr : Nat) (h : c.busConn = s.cpu.busConn) :
    CPU.read (s.withCpu c) addr = ((CPU.read s addr).1, (CPU.read s addr).2.withCpu c) := by
  unfold CPU.read
  rw [Bus.withCpu_cpu, h]
  split
  · exact Bus.cpuRead_withCpu s c addr
  · rfl

/-- C17: for every opcode byte `op` without an entry in the opcode table (without a `case`
label in `CPU::execute`), executing it from any state leaves the system as the opcode
read itself left it, except that PC has advanced by one (modulo `2 ^ 16`) and `cycles`
is 2: nothing is written, and A, X, Y, SP and the seven flags are unchanged. -/
theorem CPU.unknown_opcode (s : Bus) (op : Nat) (hop : CPU.opcodeTable.lookup op = none)
    (hfetch : (CPU.fetch s).1 = op) :
    CPU.execute s
        = (CPU.read s s.cpu.pc).2.withCpu
            { s.cpu with pc := (s.cpu.pc + 1) % 0x10000, cycles := 2 }
    ∧ (CPU.execute s).cpu.pc = (s.cpu.pc + 1) % 0x10000
    ∧ (CPU.execute s).cpu.cycles = 2
    ∧ (CPU.execute s).ram = s.ram
    ∧ (CPU.execute s).cpu.a = s.cpu.a ∧ (CPU.execute s).cpu.x = s.cpu.x
    ∧ (CPU.execute s).cpu.y = s.cpu.y ∧ (CPU.execute s).cpu.sp = s.cpu.sp
    ∧ (CPU.execute s).cpu.flagC = s.cpu.flagC ∧ (CPU.execute s).cpu.flagZ = s.cpu.flagZ
    ∧ (CPU.execute s).cpu.flagI = s.cpu.flagI ∧ (CPU.execute s).cpu.flagD = s.cpu.flagD
    ∧ (CPU.execute s).cpu.flagB = s.cpu.flagB ∧ (CPU.execute s).cpu.flagV = s.cpu.flagV
    ∧ (CPU.execute s).cpu.flagN = s.cpu.flagN := by
  have hd : CPU.decode op = Instr.unknown := by
    unfold CPU.decode
    rw [hop]
    rfl
  have hf : CPU.fetch s = ((CPU.read s s.cpu.pc).1,
      (CPU.read s s.cpu.pc).2.withCpu { s.cpu with pc := (s.cpu.pc + 1) % 0x10000 }) := by
    unfold CPU.fetch
    exact CPU.read_setCpu s _ _ rfl
  have he : CPU.execute s = (CPU.read s s.cpu.pc).2.withCpu
      { s.cpu with pc := (s.cpu.pc + 1) % 0x10000, cycles := 2 } := by
    unfold CPU.execute
    dsimp only
    rw [hfetch, hd, hf]
    rfl
  rw [he]
  exact ⟨rfl, rfl, rfl, (CPU.read_cpu_ram s s.cpu.pc).2, rfl, rfl, rfl, rfl, rfl, rfl, rfl, rfl,
    rfl, rfl, rfl⟩

/-- The opcodes `0x02` and `0xEB` have no case; executing `0xEB` at `pc = 0x0010` gives
`pc = 0x0011` and `cycles = 2`. -/
theorem CPU.unknown_opcode_witness :
    CPU.opcodeTable.lookup 0x02 = none ∧ CPU.opcodeTable.lookup 0xEB = none
    ∧ (CPU.execute { cpu := { busConn := true, pc := 0x10, a := 5, sp := 0xFD, flagC := true },
                     ram := (fun _ => 0xEB) }).cpu.pc = 0x11
    ∧ (CPU.execute { cpu := { busConn := true, pc := 0x10, a := 5, sp := 0xFD, flagC := true },
                     ram := (fun _ => 0xEB) }).cpu.cycles = 2 :=
  have h := CPU.unknown_opcode
    { cpu := { busConn := true, pc := 0x10, a := 5, sp := 0xFD, flagC := true },
      ram := (fun _ => 0xEB) } 0xEB (by decide) (by decide)
  ⟨by decide, by decide, h.2.1, h.2.2.1⟩

/-! ## PPU data port -/

/-- The address assembled by two `$2006` writes from the bytes of `a < 0x3F00`. -/
theorem PPU.addr_bytes (t a : Nat) (ha : a < 0x3F00) :
    ((((t &&& 0x00FF) ||| (((a >>> 8) &&& 0x3F) <<< 8)) &&& 0xFF00) ||| (a &&& 0xFF)) = a := by
  have hhi : a >>> 8 < 2 ^ 6 := by
    rw [Nat.shiftRight_eq_div_pow]; omega
  have e1 : (0x3F : Nat) = 2 ^ 6 - 1 := by decide
  have e2 : (0xFF : Nat) = 2 ^ 8 - 1 := by decide
  rw [e1, Nat.and_pow_two_sub_one_of_lt_two_pow hhi, and_FF00, e2,
    Nat.and_pow_two_sub_one_eq_mod, Nat.and_pow_two_sub_one_eq_mod, Nat.shiftLeft_eq,
    Nat.shiftRight_eq_div_pow, Nat.lor_comm (t % 2 ^ 8),
    Nat.mul_comm (a / 2 ^ 8) (2 ^ 8),
    ← Nat.mul_add_lt_is_or (Nat.mod_lt t (by decide)) (a / 2 ^ 8)]
  have h3 : (2 ^ 8 * (a / 2 ^ 8) + t % 2 ^ 8) / 256 % 256 * 256 = 2 ^ 8 * (a / 2 ^ 8) := by
    omega
  rw [h3, ← Nat.mul_add_lt_is_or (Nat.mod_lt a (by decide)) (a / 2 ^ 8)]
  omega

/-- With the write toggle clear, two `$2006` writes load `a` into `v` and `t` and leave
the toggle clear. -/
theorem PPU.setAddr_eq (p : PPU) (cart : Cartridge) (a : Nat) (ht : p.writeToggle = false)
    (ha : a < 0x3F00) :
    p.setAddr cart a = { p with tempAddr := a, vramAddr := a } := by
  have h1 : ∀ (q : PPU) (v : Nat), q.writeToggle = false →
      (q.cpuWrite cart 0x2006 v).1
        = { q with tempAddr := (q.tempAddr &&& 0x00FF) ||| ((v &&& 0x3F) <<< 8)
                   writeToggle := true } := by
    intro q v hq
    show (if (!q.writeToggle) = true then (_ : PPU × Cartridge) else _).1 = _
    rw [hq]
    rfl
  have h2 : ∀ (q : PPU) (v : Nat), q.writeToggle = true →
      (q.cpuWrite cart 0x2006 v).1
        = { q with tempAddr := (q.tempAddr &&& 0xFF00) ||| v
                   vramAddr := (q.tempAddr &&& 0xFF00) ||| v
                   writeToggle := false } := by
    intro q v hq
    show (if (!q.writeToggle) = true then (_ : PPU × Cartridge) else _).1 = _
    rw [hq]
    rfl
  unfold PPU.setAddr
  rw [h1 p _ ht, h2 _ _ rfl]
  dsimp only
  rw [PPU.addr_bytes p.tempAddr a ha, ← ht]

/-- A `$2007` read while `v` is below the palette range returns the read buffer, refills
it from the byte at `v`, and advances `v`. -/
theorem PPU.cpuRead_data (q : PPU) (cart : Cartridge) (hq : (q.vramAddr &&& 0x3FFF) < 0x3F00) :
    q.cpuRead cart 0x2007
      = (q.dataBuffer,
         { q with dataBuffer := q.ppuRead cart q.vramAddr
                  vramAddr := (q.vramAddr + (if q.ctrl &&& 0x04 ≠ 0 then 32 else 1)) % 0x10000 }) := by
  have e : q.cpuRead cart 0x2007
      = ((if decide ((q.vramAddr &&& 0x3FFF) ≥ 0x3F00) = true then q.ppuRead cart q.vramAddr
            else q.dataBuffer),
         { q with
           dataBuffer := if decide ((q.vramAddr &&& 0x3FFF) ≥ 0x3F00) = true
             then q.ppuRead cart ((q.vramAddr + 0x10000 - 0x1000) % 0x10000)
             else q.ppuRead cart q.vramAddr
           vramAddr := (q.vramAddr + (if q.ctrl &&& 0x04 ≠ 0 then 32 else 1)) % 0x10000 }) := rfl
  have hd : decide ((q.vramAddr &&& 0x3FFF) ≥ 0x3F00) = false := decide_eq_false (by omega)
  rw [e, hd]
  rfl

/-- A `$2007` read while `v` is in the palette range returns the palette byte at once. -/
theorem PPU.cpuRead_data_palette (q : PPU) (cart : Cartridge)
    (hq : (q.vramAddr &&& 0x3FFF) ≥ 0x3F00) :
    (q.cpuRead cart 0x2007).1 = q.ppuRead cart q.vramAddr := by
  have e : (q.cpuRead cart 0x2007).1
      = (if decide ((q.vramAddr &&& 0x3FFF) ≥ 0x3F00) = true then q.ppuRead cart q.vramAddr
            else q.dataBuffer) := rfl
  rw [e, decide_eq_true hq]
  rfl

/-- Masking an address below `0x4000` with `0x3FFF` changes nothing. -/
theorem and_3FFF (a : Nat) (h : a < 0x4000) : a &&& 0x3FFF = a :=
  Nat.and_pow_two_sub_one_of_lt_two_pow (n := 14) h

/-- The byte `ppuRead` returns for a nametable address is the VRAM cell the mirroring
selects; a `$2007` write while `v` is that address stores there. -/
theorem PPU.nametable_access (p : PPU) (cart : Cartridge) (a v : Nat) (h1 : 0x2000 ≤ a)
    (h2 : a < 0x3F00) :
    p.ppuRead cart a = p.vram (p.mirrorNametable cart (a - 0x2000))
    ∧ (p.ppuWrite cart a v)
        = ({ p with vram := Function.update p.vram (p.mirrorNametable cart (a - 0x2000)) v },
           cart) := by
  unfold PPU.ppuRead PPU.ppuWrite
  dsimp only
  rw [and_3FFF a (by omega), if_neg (by omega), if_pos h2, if_neg (by omega), if_pos h2]
  exact ⟨rfl, rfl⟩

/-- A `$2007` write stores at `v` and advances `v`. -/
theorem PPU.cpuWrite_data (q : PPU) (cart : Cartridge) (v : Nat) :
    q.cpuWrite cart 0x2007 v
      = ({ (q.ppuWrite cart q.vramAddr v).1 with
           vramAddr := (q.vramAddr + (if q.ctrl &&& 0x04 ≠ 0 then 32 else 1)) % 0x10000 },
         (q.ppuWrite cart q.vramAddr v).2) := rfl

/-- The address after one increment of `v` from `a`, when that stays below the palette. -/
theorem PPU.next_addr_mask (ctrl a : Nat)
    (ha : a + (if ctrl &&& 0x04 ≠ 0 then 32 else 1) < 0x3F00) :
    ((a + (if ctrl &&& 0x04 ≠ 0 then 32 else 1)) % 0x10000) &&& 0x3FFF < 0x3F00 := by
  rw [Nat.mod_eq_of_lt (by omega), and_3FFF _ (by omega)]
  exact ha

/-- C11, as stated, fails at `A = 0x3EFF`: the first `$2007` read moves `v` to `0x3F00`,
so the second read is a palette read and returns palette entry 0 (`0x11` here) instead of
the byte stored at `0x3EFF` (`0x55` here). -/
theorem PPU.buffered_read_counterexample :
    ¬ (∀ (p : PPU) (cart : Cartridge) (a : Nat), p.writeToggle = false → a < 0x3F00 →
        ((p.setAddr cart a).cpuRead cart 0x2007).1 = p.dataBuffer
        ∧ (((p.setAddr cart a).cpuRead cart 0x2007).2.cpuRead cart 0x2007).1
            = p.ppuRead cart a) := by
  intro h
  have h1 := (h PPU.edgeState {} 0x3EFF rfl (by decide)).2
  have e1 := PPU.setAddr_eq PPU.edgeState {} 0x3EFF rfl (by decide)
  have e2 := PPU.cpuRead_data { PPU.edgeState with tempAddr := 0x3EFF, vramAddr := 0x3EFF } {}
    (by decide)
  rw [e1, e2] at h1
  rw [PPU.cpuRead_data_palette _ _ (by decide)] at h1
  have h2 : (0x11 : Nat) = 0x55 := h1
  exact absurd h2 (by decide)

/-- With the write toggle clear and `b` plus the `$2007` increment below `0x3F00`: after
two `$2006` writes of the bytes of `b`, the first `$2007` read returns the old read buffer
and the second the byte at `b`. -/
theorem PPU.buffered_law (q : PPU) (cart : Cartridge) (b : Nat) (hq : q.writeToggle = false)
    (hb : b + (if q.ctrl &&& 0x04 ≠ 0 then 32 else 1) < 0x3F00) :
    ((q.setAddr cart b).cpuRead cart 0x2007).1 = q.dataBuffer
    ∧ (((q.setAddr cart b).cpuRead cart 0x2007).2.cpuRead cart 0x2007).1
        = q.ppuRead cart b := by
  have hb0 : b < 0x3F00 := by split at hb <;> omega
  rw [PPU.setAddr_eq q cart b hq hb0, PPU.cpuRead_data _ _ (by
    show b &&& 0x3FFF < 0x3F00
    rw [and_3FFF _ (by omega)]; exact hb0)]
  refine ⟨rfl, ?_⟩
  rw [PPU.cpuRead_data _ _ (PPU.next_addr_mask q.ctrl b hb)]
  rfl

/-- `ppuRead` looks only at VRAM, the palette and the cartridge connection. -/
theorem PPU.ppuRead_congr (q1 q2 : PPU) (cart : Cartridge) (a : Nat) (hv : q1.vram = q2.vram)
    (hp : q1.palette = q2.palette) (hc : q1.cartConn = q2.cartConn) :
    q1.ppuRead cart a = q2.ppuRead cart a := by
  unfold PPU.ppuRead PPU.mirrorNametable
  rw [hv, hp, hc]

/-- Writing `v` through `$2007` at a nametable address `b` set by two `$2006` writes:
the cartridge, the write toggle, PPUCTRL and the read buffer are as before, and the byte
at `b` is `v`. -/
theorem PPU.write_data_at (p : PPU) (cart : Cartridge) (b v : Nat)
    (ht : p.writeToggle = false) (h1 : 0x2000 ≤ b) (h2 : b < 0x3F00) :
    ((p.setAddr cart b).cpuWrite cart 0x2007 v).2 = cart
    ∧ ((p.setAddr cart b).cpuWrite cart 0x2007 v).1.writeToggle = false
    ∧ ((p.setAddr cart b).cpuWrite cart 0x2007 v).1.ctrl = p.ctrl
    ∧ ((p.setAddr cart b).cpuWrite cart 0x2007 v).1.dataBuffer = p.dataBuffer
    ∧ ((p.setAddr cart b).cpuWrite cart 0x2007 v).1.ppuRead cart b = v := by
  rw [PPU.setAddr_eq p cart b ht h2, PPU.cpuWrite_data]
  dsimp only
  rw [(PPU.nametable_access _ cart b v h1 h2).2]
  refine ⟨rfl, ht, rfl, rfl, ?_⟩
  refine Eq.trans (PPU.ppuRead_congr _
    { p with vram := Function.update p.vram (p.mirrorNametable cart (b - 0x2000)) v }
    cart b rfl rfl rfl) ?_
  rw [(PPU.nametable_access _ cart b v h1 h2).1]
  exact Function.update_same _ _ _

/-- C11 (amended): with the write toggle clear, for every address `A` such that `A` plus
the `$2007` increment (1, or 32 when PPUCTRL bit 2 is set) is below `0x3F00`, after two
`$2006` writes (high byte, then low byte of `A`) `v = A`, the first `$2007` read returns
the read buffer held before the read, and the second `$2007` read returns the byte stored
at `A`.  In particular, after writing `0x77` at `0x2000` through `$2007` and setting `v` to
`0x2000` again, the first read returns the buffer held before and the second returns
`0x77`. -/
theorem PPU.buffered_read (p : PPU) (cart : Cartridge) (a : Nat) (ht : p.writeToggle = false)
    (ha : a + (if p.ctrl &&& 0x04 ≠ 0 then 32 else 1) < 0x3F00) :
    (p.setAddr cart a).vramAddr = a
    ∧ ((p.setAddr cart a).cpuRead cart 0x2007).1 = p.dataBuffer
    ∧ (((p.setAddr cart a).cpuRead cart 0x2007).2.cpuRead cart 0x2007).1 = p.ppuRead cart a
    ∧ ((((p.setAddr cart 0x2000).cpuWrite cart 0x2007 0x77).1.setAddr
            ((p.setAddr cart 0x2000).cpuWrite cart 0x2007 0x77).2 0x2000).cpuRead
          ((p.setAddr cart 0x2000).cpuWrite cart 0x2007 0x77).2 0x2007).1 = p.dataBuffer
    ∧ (((((p.setAddr cart 0x2000).cpuWrite cart 0x2007 0x77).1.setAddr
            ((p.setAddr cart 0x2000).cpuWrite cart 0x2007 0x77).2 0x2000).cpuRead
          ((p.setAddr cart 0x2000).cpuWrite cart 0x2007 0x77).2 0x2007).2.cpuRead
          ((p.setAddr cart 0x2000).cpuWrite cart 0x2007 0x77).2 0x2007).1 = 0x77 := by
  have hinc : (if p.ctrl &&& 0x04 ≠ 0 then 32 else 1) ≤ 32 := by split <;> omega
  have hw := PPU.write_data_at p cart 0x2000 0x77 ht (by decide) (by decide)
  refine ⟨?_, (PPU.buffered_law p cart a ht ha).1, (PPU.buffered_law p cart a ht ha).2, ?_⟩
  · rw [PPU.setAddr_eq p cart a ht (by omega)]
  · rw [hw.1]
    have h := PPU.buffered_law _ cart 0x2000 hw.2.1 (by rw [hw.2.2.1]; omega)
    rw [h.1, h.2, hw.2.2.2.1, hw.2.2.2.2]
    exact ⟨rfl, rfl⟩

/-- The scenario on the constructed PPU: the first read returns the power-on buffer
`0x00`, the second `0x77`. -/
theorem PPU.buffered_read_witness :
    (((((({} : PPU).setAddr {} 0x2000).cpuWrite {} 0x2007 0x77).1.setAddr
            ((({} : PPU).setAddr {} 0x2000).cpuWrite {} 0x2007 0x77).2 0x2000).cpuRead
          ((({} : PPU).setAddr {} 0x2000).cpuWrite {} 0x2007 0x77).2 0x2007).1 = 0x00)
    ∧ ((((((({} : PPU).setAddr {} 0x2000).cpuWrite {} 0x2007 0x77).1.setAddr
            ((({} : PPU).setAddr {} 0x2000).cpuWrite {} 0x2007 0x77).2 0x2000).cpuRead
          ((({} : PPU).setAddr {} 0x2000).cpuWrite {} 0x2007 0x77).2 0x2007).2.cpuRead
          ((({} : PPU).setAddr {} 0x2000).cpuWrite {} 0x2007 0x77).2 0x2007).1 = 0x77) :=
  have h := PPU.buffered_read {} {} 0x2000 rfl (by decide)
  ⟨h.2.2.2.1, h.2.2.2.2⟩

/-! ## PPU frame length -/

/-! ### The parts of the PPU clock that leave the dot position alone -/

/-- `updateShifters` leaves the dot position, PPUMASK and the odd-frame latch alone. -/
theorem PPU.updateShifters_dot (p : PPU) :
    p.updateShifters.scanline = p.scanline ∧ p.updateShifters.cycle = p.cycle
    ∧ p.updateShifters.mask = p.mask ∧ p.updateShifters.oddFrame = p.oddFrame := by
  unfold PPU.updateShifters; split <;> exact ⟨rfl, rfl, rfl, rfl⟩

/-- `incrementX` leaves the dot position, PPUMASK and the odd-frame latch alone. -/
theorem PPU.incrementX_dot (p : PPU) :
    p.incrementX.scanline = p.scanline ∧ p.incrementX.cycle = p.cycle
    ∧ p.incrementX.mask = p.mask ∧ p.incrementX.oddFrame = p.oddFrame := by
  unfold PPU.incrementX; split <;> exact ⟨rfl, rfl, rfl, rfl⟩

/-- `incrementY` leaves the dot position, PPUMASK and the odd-frame latch alone. -/
theorem PPU.incrementY_dot (p : PPU) :
    p.incrementY.scanline = p.scanline ∧ p.incrementY.cycle = p.cycle
    ∧ p.incrementY.mask = p.mask ∧ p.incrementY.oddFrame = p.oddFrame := by
  unfold PPU.incrementY
  simp only [apply_ite PPU.scanline, apply_ite PPU.cycle, apply_ite PPU.mask,
    apply_ite PPU.oddFrame, ite_self, and_self]

/-- The background fetch leaves the dot position, PPUMASK and the odd-frame latch alone. -/
theorem PPU.backgroundFetch_dot (p : PPU) (cart : Cartridge) :
    (p.backgroundFetch cart).scanline = p.scanline ∧ (p.backgroundFetch cart).cycle = p.cycle
    ∧ (p.backgroundFetch cart).mask = p.mask
    ∧ (p.backgroundFetch cart).oddFrame = p.oddFrame := by
  unfold PPU.backgroundFetch
  simp only
  split <;> simp only [PPU.updateShifters_dot, PPU.loadBackgroundShifters, PPU.incrementX_dot,
    and_self]

/-- One sprite evaluation step leaves the dot position, PPUMASK and the odd-frame latch alone. -/
theorem PPU.evaluateSprite_dot (cart : Cartridge) (p : PPU) (i : Nat) :
    (PPU.evaluateSprite cart p i).scanline = p.scanline
    ∧ (PPU.evaluateSprite cart p i).cycle = p.cycle
    ∧ (PPU.evaluateSprite cart p i).mask = p.mask
    ∧ (PPU.evaluateSprite cart p i).oddFrame = p.oddFrame := by
  unfold PPU.evaluateSprite
  simp only [apply_ite PPU.scanline, apply_ite PPU.cycle, apply_ite PPU.mask,
    apply_ite PPU.oddFrame, ite_self, and_self]

/-- `evaluateSprites` leaves the dot position, PPUMASK and the odd-frame latch alone. -/
theorem PPU.evaluateSprites_dot (p : PPU) (cart : Cartridge) :
    (p.evaluateSprites cart).scanline = p.scanline ∧ (p.evaluateSprites cart).cycle = p.cycle
    ∧ (p.evaluateSprites cart).mask = p.mask
    ∧ (p.evaluateSprites cart).oddFrame = p.oddFrame := by
  unfold PPU.evaluateSprites
  have : ∀ (l : List Nat) (q : PPU),
      (l.foldl (PPU.evaluateSprite cart) q).scanline = q.scanline
      ∧ (l.foldl (PPU.evaluateSprite cart) q).cycle = q.cycle
      ∧ (l.foldl (PPU.evaluateSprite cart) q).mask = q.mask
      ∧ (l.foldl (PPU.evaluateSprite cart) q).oddFrame = q.oddFrame := by
    intro l
    induction l with
    | nil => intro q; exact ⟨rfl, rfl, rfl, rfl⟩
    | cons a l ih =>
      intro q
      rw [List.foldl_cons]
      simp only [ih, PPU.evaluateSprite_dot, and_self]
  simp only [this, and_self]

/-- `renderPixel` leaves the dot position, PPUMASK and the odd-frame latch alone. -/
theorem PPU.renderPixel_dot (p : PPU) (cart : Cartridge) :
    (p.renderPixel cart).scanline = p.scanline ∧ (p.renderPixel cart).cycle = p.cycle
    ∧ (p.renderPixel cart).mask = p.mask ∧ (p.renderPixel cart).oddFrame = p.oddFrame := by
  unfold PPU.renderPixel
  simp only [apply_ite PPU.scanline, apply_ite PPU.cycle, apply_ite PPU.mask,
    apply_ite PPU.oddFrame, ite_self, and_self]

/-- The pre-render work leaves the dot position, PPUMASK and the odd-frame latch alone. -/
theorem PPU.preRender_dot (p : PPU) (cart : Cartridge) (r : Bool) :
    (p.preRender cart r).scanline = p.scanline ∧ (p.preRender cart r).cycle = p.cycle
    ∧ (p.preRender cart r).mask = p.mask ∧ (p.preRender cart r).oddFrame = p.oddFrame := by
  unfold PPU.preRender
  simp only [apply_ite PPU.scanline, apply_ite PPU.cycle, apply_ite PPU.mask,
    apply_ite PPU.oddFrame, PPU.incrementY_dot, PPU.backgroundFetch_dot, PPU.transferX,
    PPU.transferY, ite_self, and_self]

/-- The visible-scanline work leaves the dot position, PPUMASK and the odd-frame latch alone. -/
theorem PPU.visible_dot (p : PPU) (cart : Cartridge) (r : Bool) :
    (p.visible cart r).scanline = p.scanline ∧ (p.visible cart r).cycle = p.cycle
    ∧ (p.visible cart r).mask = p.mask ∧ (p.visible cart r).oddFrame = p.oddFrame := by
  unfold PPU.visible
  simp only [apply_ite PPU.scanline, apply_ite PPU.cycle, apply_ite PPU.mask,
    apply_ite PPU.oddFrame, PPU.incrementY_dot, PPU.backgroundFetch_dot, PPU.transferX,
    PPU.evaluateSprites_dot, PPU.renderPixel_dot, ite_self, and_self]

/-- The dot and scanline advance at the tail of `PPU::clock`. -/
theorem PPU.advance_dot (p : PPU) :
    p.advance.scanline
        = (if p.cycle + 1 > 340 then (if p.scanline + 1 > 260 then -1 else p.scanline + 1)
            else p.scanline)
    ∧ p.advance.cycle = (if p.cycle + 1 > 340 then 0 else p.cycle + 1)
    ∧ p.advance.mask = p.mask ∧ p.advance.oddFrame = p.oddFrame := by
  unfold PPU.advance
  simp only [apply_ite PPU.scanline, apply_ite PPU.cycle, apply_ite PPU.mask,
    apply_ite PPU.oddFrame, ite_self, and_self, and_true]

/-- `PPU::clock` never writes PPUMASK. -/
theorem PPU.clock_mask (p : PPU) (cart : Cartridge) : (p.clock cart).mask = p.mask := by
  unfold PPU.clock
  simp only [apply_ite PPU.mask, PPU.advance_dot, PPU.visible_dot, PPU.preRender_dot, ite_self]

/-- The odd-frame skip: at dot 339 of the pre-render line, with rendering enabled and the
odd-frame latch set, `PPU::clock` goes straight to (0, 0) and clears the latch. -/
theorem PPU.clock_skip (p : PPU) (cart : Cartridge) (hs : p.scanline = -1) (hc : p.cycle = 339)
    (hr : ((p.mask &&& 0x18) != 0) = true) (ho : p.oddFrame = true) :
    (p.clock cart).scanline = 0 ∧ (p.clock cart).cycle = 0
    ∧ (p.clock cart).oddFrame = false := by
  unfold PPU.clock
  rw [if_pos ⟨hs, hc, hr, ho⟩]
  simp only [ho, Bool.not_true, and_self]

/-- Every other `PPU::clock` call moves one dot ahead, wrapping dot 340 to the next
scanline and scanline 260 to the pre-render line; the odd-frame latch flips at dot 339
of the pre-render line when rendering is enabled. -/
theorem PPU.clock_next (p : PPU) (cart : Cartridge)
    (h : ¬ (p.scanline = -1 ∧ p.cycle = 339 ∧ ((p.mask &&& 0x18) != 0) = true
          ∧ p.oddFrame = true)) :
    (p.clock cart).scanline
        = (if p.cycle + 1 > 340 then (if p.scanline + 1 > 260 then -1 else p.scanline + 1)
            else p.scanline)
    ∧ (p.clock cart).cycle = (if p.cycle + 1 > 340 then 0 else p.cycle + 1)
    ∧ (p.clock cart).oddFrame
        = (if p.scanline = -1 ∧ p.cycle = 339 ∧ ((p.mask &&& 0x18) != 0) = true
            then !p.oddFrame else p.oddFrame) := by
  unfold PPU.clock
  simp only [if_neg h]
  simp only [PPU.advance_dot, apply_ite PPU.scanline, apply_ite PPU.cycle,
    apply_ite PPU.oddFrame, PPU.visible_dot, PPU.preRender_dot, ite_self, true_and]

/-! ### Counting dots -/

/-- In a run of PPU clocks that starts at (0, 0), dot `k ≤ 89340` of the frame is at
scanline `k / 341`, cycle `k % 341` for the 261 lines 0..260 and on the pre-render line
after them, with the odd-frame latch untouched. -/
theorem PPU.frame_position (carts : Nat → Cartridge) (ps : Nat → PPU)
    (hstep : ∀ i, (ps (i + 1)).dot = ((ps i).clock (carts i)).dot)
    (n : Nat) (hs : (ps n).scanline = 0) (hc : (ps n).cycle = 0) (k : Nat) (hk : k ≤ 89340) :
    (ps (n + k)).oddFrame = (ps n).oddFrame
    ∧ (ps (n + k)).scanline = (if k < 89001 then ((k / 341 : Nat) : Int) else -1)
    ∧ (ps (n + k)).cycle = (if k < 89001 then ((k % 341 : Nat) : Int) else (k : Int) - 89001) := by
  induction k with
  | zero => exact ⟨rfl, by simpa using hs, by simpa using hc⟩
  | succ k ih =>
    obtain ⟨io, is, ic⟩ := ih (by omega)
    have hd := hstep (n + k)
    simp only [PPU.dot, Prod.mk.injEq] at hd
    have hno : ¬ ((ps (n + k)).scanline = -1 ∧ (ps (n + k)).cycle = 339
        ∧ (((ps (n + k)).mask &&& 0x18) != 0) = true ∧ (ps (n + k)).oddFrame = true) := by
      rintro ⟨h1, h2, -, -⟩
      rw [is] at h1
      rw [ic] at h2
      split_ifs at h1 h2 <;> omega
    obtain ⟨ns, nc, no⟩ := PPU.clock_next (ps (n + k)) (carts (n + k)) hno
    have hno2 : ¬ ((ps (n + k)).scanline = -1 ∧ (ps (n + k)).cycle = 339
        ∧ (((ps (n + k)).mask &&& 0x18) != 0) = true) := by
      rintro ⟨h1, h2, -⟩
      rw [is] at h1
      rw [ic] at h2
      split_ifs at h1 h2 <;> omega
    rw [if_neg hno2] at no
    rw [← Nat.add_assoc, hd.1, hd.2.1, hd.2.2, ns, nc, no, is, ic]
    refine ⟨io, ?_, ?_⟩
    · split_ifs <;> omega
    · split_ifs <;> omega

/-- One frame: from an arrival at (0, 0), the next arrival is `L` clocks later, where
`L` is 89341 when rendering is enabled and the odd-frame latch is set at the start of the
frame, and 89342 otherwise. -/
theorem PPU.frame_once (carts : Nat → Cartridge) (ps : Nat → PPU)
    (hstep : ∀ i, (ps (i + 1)).dot = ((ps i).clock (carts i)).dot)
    (r : Bool) (hren : ∀ i, (ps i).rendering = r)
    (n : Nat) (hs : (ps n).scanline = 0) (hc : (ps n).cycle = 0)
    (L : Nat) (hL : L = if (r && (ps n).oddFrame) = true then 89341 else 89342) :
    ((ps (n + L)).scanline = 0 ∧ (ps (n + L)).cycle = 0)
    ∧ (ps (n + L)).oddFrame = (if r = true then !(ps n).oddFrame else (ps n).oddFrame)
    ∧ (∀ k, 0 < k → k < L → ¬ ((ps (n + k)).scanline = 0 ∧ (ps (n + k)).cycle = 0))
    ∧ (L = 89341 → (ps (n + L - 1)).scanline = -1 ∧ (ps (n + L - 1)).cycle = 339)
    ∧ (L = 89342 → (ps (n + L - 1)).scanline = -1 ∧ (ps (n + L - 1)).cycle = 340) := by
  have hpos := PPU.frame_position carts ps hstep n hs hc
  obtain ⟨eo, es, ec⟩ := hpos 89340 (by omega)
  rw [if_neg (by omega)] at es ec
  have ec339 : (ps (n + 89340)).cycle = 339 := by rw [ec]; rfl
  have hr340 : (((ps (n + 89340)).mask &&& 0x18) != 0) = r := hren (n + 89340)
  have hd := hstep (n + 89340)
  simp only [PPU.dot, Prod.mk.injEq] at hd
  have hearly : ∀ k, 0 < k → k ≤ 89340 →
      ¬ ((ps (n + k)).scanline = 0 ∧ (ps (n + k)).cycle = 0) := by
    intro k hk0 hk
    obtain ⟨-, ks, kc⟩ := hpos k hk
    rintro ⟨h1, h2⟩
    rw [ks] at h1
    rw [kc] at h2
    split_ifs at h1 h2 <;> omega
  by_cases hshort : (r && (ps n).oddFrame) = true
  · -- the skip
    rw [if_pos hshort] at hL
    have hr : r = true := by
      cases r
      · simp at hshort
      · rfl
    have ho : (ps n).oddFrame = true := by
      rw [hr] at hshort
      simpa using hshort
    obtain ⟨ns, nc, no⟩ := PPU.clock_skip (ps (n + 89340)) (carts (n + 89340)) es ec339
      (by rw [hr340, hr]) (by rw [eo, ho])
    have e1 : n + L = n + 89340 + 1 := by omega
    have e2 : n + L - 1 = n + 89340 := by omega
    rw [e2, e1, hd.1, hd.2.1, hd.2.2, ns, nc, no, hr, ho]
    refine ⟨⟨rfl, rfl⟩, rfl, ?_, fun _ => ⟨es, ec339⟩, fun h => by omega⟩
    intro k hk0 hk
    exact hearly k hk0 (by omega)
  · rw [if_neg hshort] at hL
    have hno : ¬ ((ps (n + 89340)).scanline = -1 ∧ (ps (n + 89340)).cycle = 339
        ∧ (((ps (n + 89340)).mask &&& 0x18) != 0) = true
        ∧ (ps (n + 89340)).oddFrame = true) := by
      rintro ⟨-, -, h3, h4⟩
      apply hshort
      rw [← hr340, h3, ← eo, h4]
      rfl
    obtain ⟨ns, nc, no⟩ := PPU.clock_next (ps (n + 89340)) (carts (n + 89340)) hno
    rw [es, ec339] at ns
    rw [ec339] at nc
    rw [hr340, es, ec339, eo] at no
    have fs : (ps (n + 89341)).scanline = -1 := by
      rw [show n + 89341 = n + 89340 + 1 by omega, hd.1, ns]; rfl
    have fc : (ps (n + 89341)).cycle = 340 := by
      rw [show n + 89341 = n + 89340 + 1 by omega, hd.2.1, nc]; rfl
    have fo : (ps (n + 89341)).oddFrame = (if r = true then !(ps n).oddFrame else (ps n).oddFrame) := by
      rw [show n + 89341 = n + 89340 + 1 by omega, hd.2.2, no]
      simp
    have hd2 := hstep (n + 89341)
    simp only [PPU.dot, Prod.mk.injEq] at hd2
    have hno2 : ¬ ((ps (n + 89341)).scanline = -1 ∧ (ps (n + 89341)).cycle = 339
        ∧ (((ps (n + 89341)).mask &&& 0x18) != 0) = true
        ∧ (ps (n + 89341)).oddFrame = true) := by
      rintro ⟨-, h2, -, -⟩
      rw [fc] at h2
      omega
    obtain ⟨ms, mc, mo⟩ := PPU.clock_next (ps (n + 89341)) (carts (n + 89341)) hno2
    rw [fs, fc] at ms
    rw [fc] at mc
    rw [if_neg (by rw [fc]; rintro ⟨-, h, -⟩; omega), fo] at mo
    have e1 : n + L = n + 89341 + 1 := by omega
    have e2 : n + L - 1 = n + 89341 := by omega
    rw [e2, e1, hd2.1, hd2.2.1, hd2.2.2, ms, mc, mo]
    refine ⟨⟨rfl, rfl⟩, rfl, ?_, fun h => by omega, fun _ => ⟨fs, fc⟩⟩
    intro k hk0 hk
    by_cases hk1 : k ≤ 89340
    · exact hearly k hk0 hk1
    · have : k = 89341 := by omega
      rw [this, fs]
      rintro ⟨h, -⟩
      omega

/-- The odd-frame latch at the start of frame `j`. -/
theorem PPU.frameStart_succ (r odd0 : Bool) (j : Nat) :
    PPU.frameStart r odd0 (j + 1)
      = PPU.frameStart r odd0 j
        + (if (r && (if r = true then xor odd0 (decide (j % 2 = 1)) else odd0)) = true
            then 89341 else 89342) := by
  unfold PPU.frameStart
  rcases Nat.mod_two_eq_zero_or_one j with h | h
  · have h1 : (j + 1) % 2 = 1 := by omega
    have h2 : (j + 1) / 2 = j / 2 := by omega
    cases r <;> cases odd0 <;> simp [h, h1, h2] <;> omega
  · have h1 : (j + 1) % 2 = 0 := by omega
    have h2 : (j + 1) / 2 = j / 2 + 1 := by omega
    cases r <;> cases odd0 <;> simp [h, h1, h2] <;> omega

/-- Every frame of a run starts at the count `frameStart` gives, with the odd-frame latch
flipped once per frame while rendering is enabled. -/
theorem PPU.frame_starts (carts : Nat → Cartridge) (ps : Nat → PPU)
    (hstep : ∀ i, (ps (i + 1)).dot = ((ps i).clock (carts i)).dot)
    (r : Bool) (hren : ∀ i, (ps i).rendering = r)
    (hs : (ps 0).scanline = 0) (hc : (ps 0).cycle = 0) (j : Nat) :
    (ps (PPU.frameStart r (ps 0).oddFrame j)).scanline = 0
    ∧ (ps (PPU.frameStart r (ps 0).oddFrame j)).cycle = 0
    ∧ (ps (PPU.frameStart r (ps 0).oddFrame j)).oddFrame
        = (if r = true then xor (ps 0).oddFrame (decide (j % 2 = 1)) else (ps 0).oddFrame) := by
  induction j with
  | zero =>
    have e : PPU.frameStart r (ps 0).oddFrame 0 = 0 := by
      unfold PPU.frameStart; cases r <;> simp
    rw [e]
    refine ⟨hs, hc, ?_⟩
    cases r <;> simp
  | succ j ih =>
    obtain ⟨is, ic, io⟩ := ih
    have hsucc := PPU.frameStart_succ r (ps 0).oddFrame j
    rw [← io] at hsucc
    obtain ⟨⟨fs, fc⟩, fo, -⟩ := PPU.frame_once carts ps hstep r hren _ is ic _ rfl
    rw [← hsucc] at fs fc fo
    refine ⟨fs, fc, ?_⟩
    rw [fo, io]
    rcases Nat.mod_two_eq_zero_or_one j with h | h
    · have h1 : (j + 1) % 2 = 1 := by omega
      cases r <;> simp [h, h1]
    · have h1 : (j + 1) % 2 = 0 := by omega
      cases r <;> simp [h, h1]

/-- C12: in a run of PPU clocks that starts at (scanline 0, cycle 0), in which other
accesses may come between the clocks as long as they leave the dot position and the
odd-frame latch alone, with `rendering` (PPUMASK bit 3 or 4) constantly `r`: the
arrivals at (0, 0) are at the counts `frameStart r odd0 j` and nowhere in between.  With
`r = true` consecutive frames are 89341 and 89342 clocks long, alternating; with
`r = false` every frame is 89342 clocks.  A frame of 89341 clocks ends with the jump from
cycle 339 of the pre-render line to (0, 0); a frame of 89342 clocks ends at cycle 340 of
the pre-render line. -/
theorem PPU.frame_length (carts : Nat → Cartridge) (ps : Nat → PPU)
    (hstep : ∀ i, (ps (i + 1)).dot = ((ps i).clock (carts i)).dot)
    (r : Bool) (hren : ∀ i, (ps i).rendering = r)
    (hs : (ps 0).scanline = 0) (hc : (ps 0).cycle = 0) (j a b c : Nat)
    (ha : a = PPU.frameStart r (ps 0).oddFrame j)
    (hb : b = PPU.frameStart r (ps 0).oddFrame (j + 1))
    (hc2 : c = PPU.frameStart r (ps 0).oddFrame (j + 2)) :
    ((ps a).scanline = 0 ∧ (ps a).cycle = 0)
    ∧ ((ps b).scanline = 0 ∧ (ps b).cycle = 0)
    ∧ (∀ k, a < k → k < b → ¬ ((ps k).scanline = 0 ∧ (ps k).cycle = 0))
    ∧ (r = true → (b - a = 89341 ∧ c - b = 89342) ∨ (b - a = 89342 ∧ c - b = 89341))
    ∧ (r = false → b - a = 89342)
    ∧ (b - a = 89341 → (ps (b - 1)).scanline = -1 ∧ (ps (b - 1)).cycle = 339)
    ∧ (b - a = 89342 → (ps (b - 1)).scanline = -1 ∧ (ps (b - 1)).cycle = 340) := by
  obtain ⟨as, ac, ao⟩ := PPU.frame_starts carts ps hstep r hren hs hc j
  obtain ⟨bs, bc, -⟩ := PPU.frame_starts carts ps hstep r hren hs hc (j + 1)
  have h1 := PPU.frameStart_succ r (ps 0).oddFrame j
  have h2 := PPU.frameStart_succ r (ps 0).oddFrame (j + 1)
  rw [← ha, ← hb] at h1
  rw [← hb, ← hc2] at h2
  rw [← ha] at as ac ao
  rw [← hb] at bs bc
  obtain ⟨-, -, hbetween, hshort, hlong⟩ :=
    PPU.frame_once carts ps hstep r hren a as ac (b - a) (by
      rw [ao, h1]
      simp)
  have hab : a + (b - a) = b := by omega
  rw [hab] at hshort hlong
  refine ⟨⟨as, ac⟩, ⟨bs, bc⟩, ?_, ?_, ?_, hshort, hlong⟩
  · intro k hk1 hk2
    have := hbetween (k - a) (by omega) (by omega)
    rwa [show a + (k - a) = k by omega] at this
  · intro hr
    rw [hr] at h1 h2
    rcases Nat.mod_two_eq_zero_or_one j with h | h
    · have h' : (j + 1) % 2 = 1 := by omega
      cases ho : (ps 0).oddFrame <;> simp [h, h', ho] at h1 h2 <;> omega
    · have h' : (j + 1) % 2 = 0 := by omega
      cases ho : (ps 0).oddFrame <;> simp [h, h', ho] at h1 h2 <;> omega
  · intro hr
    rw [hr] at h1
    simp at h1
    omega

/-- `clock()` calls with nothing in between keep PPUMASK. -/
theorem PPU.clocks_mask (cart : Cartridge) (n : Nat) (p : PPU) :
    (PPU.clocks cart n p).mask = p.mask := by
  induction n with
  | zero => rfl
  | succ n ih => rw [PPU.clocks, PPU.clock_mask, ih]

/-- The run `frameRun` is back at (0, 0) after 89342 clocks and again 89341 clocks
later, not in between, and one clock before the second arrival it is at cycle 339 of the
pre-render line. -/
theorem PPU.frame_length_witness :
    ((PPU.frameRun 89342).scanline = 0 ∧ (PPU.frameRun 89342).cycle = 0)
    ∧ ((PPU.frameRun 178683).scanline = 0 ∧ (PPU.frameRun 178683).cycle = 0)
    ∧ (∀ k, 89342 < k → k < 178683 →
        ¬ ((PPU.frameRun k).scanline = 0 ∧ (PPU.frameRun k).cycle = 0))
    ∧ ((PPU.frameRun (178683 - 1)).scanline = -1 ∧ (PPU.frameRun (178683 - 1)).cycle = 339) := by
  have h := PPU.frame_length (fun _ => {}) PPU.frameRun
    (fun _ => rfl) true
    (fun i => by rw [PPU.rendering, PPU.frameRun, PPU.clocks_mask]; rfl) rfl rfl
    1 89342 178683 268025 (by decide) (by decide) (by decide)
  exact ⟨h.1, h.2.1, h.2.2.1, h.2.2.2.2.2.1 (by decide)⟩

/-! ## Master clock ratios -/

/-- A register write leaves the APU's clock counter alone. -/
theorem APU.cpuWrite_cpuClock (a : APU) (addr val : Nat) :
    (a.cpuWrite addr val).cpuClock = a.cpuClock := by
  unfold APU.cpuWrite
  split <;> try rfl
  simp only
  split <;> simp [APU.clockQuarterFrame, APU.clockHalfFrame]

/-- A register read leaves the APU's clock counter alone. -/
theorem APU.cpuRead_cpuClock (a : APU) (addr : Nat) :
    (a.cpuRead addr).2.cpuClock = a.cpuClock := by
  unfold APU.cpuRead
  split <;> rfl

/-- The frame counter step leaves the APU's clock counter alone. -/
theorem APU.frameStep_cpuClock (a : APU) : a.frameStep.cpuClock = a.cpuClock := by
  unfold APU.frameStep
  split <;> split <;> simp [APU.clockQuarterFrame, APU.clockHalfFrame]

/-- `APU::clock` adds one to the APU's clock counter. -/
theorem APU.clock_cpuClock (a : APU) (emit : Bool) :
    (a.clock emit).cpuClock = a.cpuClock + 1 := by
  unfold APU.clock
  simp only
  by_cases h : a.cpuClock % 2 = 0
  · simp only [h, if_true]
    split <;> simp [APU.frameStep_cpuClock]
  · simp only [h, if_false]
    split <;> rfl

/-- A bus read keeps the connections and counters. -/
theorem Bus.cpuRead_keeps (s : Bus) (addr : Nat) : Bus.Keeps s (s.cpuRead addr).2 := by
  unfold Bus.cpuRead
  split_ifs
  all_goals first
    | exact ⟨rfl, rfl, rfl, rfl, rfl⟩
    | exact ⟨rfl, rfl, rfl, rfl, APU.cpuRead_cpuClock _ _⟩

/-- A bus write keeps the connections and counters. -/
theorem Bus.cpuWrite_keeps (s : Bus) (addr val : Nat) : Bus.Keeps s (s.cpuWrite addr val) := by
  unfold Bus.cpuWrite
  dsimp only
  split_ifs
  all_goals first
    | exact ⟨rfl, rfl, rfl, rfl, rfl⟩
    | exact ⟨rfl, rfl, rfl, rfl, APU.cpuWrite_cpuClock _ _ _⟩

/-- A CPU read keeps the connections and counters. -/
theorem CPU.read_keeps (s : Bus) (addr : Nat) : Bus.Keeps s (CPU.read s addr).2 := by
  unfold CPU.read
  split
  · exact Bus.cpuRead_keeps s addr
  · exact ⟨rfl, rfl, rfl, rfl, rfl⟩

/-- A CPU write keeps the connections and counters. -/
theorem CPU.write_keeps (s : Bus) (addr val : Nat) : Bus.Keeps s (CPU.write s addr val) := by
  unfold CPU.write
  split
  · exact Bus.cpuWrite_keeps s addr val
  · exact ⟨rfl, rfl, rfl, rfl, rfl⟩

/-- A push keeps the connections and counters. -/
theorem CPU.push_keeps (s : Bus) (v : Nat) : Bus.Keeps s (CPU.push s v) := by
  unfold CPU.push
  simp only [Bus.Keeps, CPU.write_keeps, and_self]

/-- A 16-bit push keeps the connections and counters. -/
theorem CPU.push16_keeps (s : Bus) (v : Nat) : Bus.Keeps s (CPU.push16 s v) := by
  unfold CPU.push16
  simp only [Bus.Keeps, CPU.push_keeps, and_self]

/-- A pull keeps the connections and counters. -/
theorem CPU.pull_keeps (s : Bus) : Bus.Keeps s (CPU.pull s).2 := by
  unfold CPU.pull
  simp only [Bus.Keeps, CPU.read_keeps, and_self]

/-- A 16-bit pull keeps the connections and counters. -/
theorem CPU.pull16_keeps (s : Bus) : Bus.Keeps s (CPU.pull16 s).2 := by
  unfold CPU.pull16
  simp only [Bus.Keeps, CPU.pull_keeps, and_self]

/-- A fetch keeps the connections and counters. -/
theorem CPU.fetch_keeps (s : Bus) : Bus.Keeps s (CPU.fetch s).2 := by
  unfold CPU.fetch
  simp only [Bus.Keeps, CPU.read_keeps, and_self]

/-- A 16-bit fetch keeps the connections and counters. -/
theorem CPU.fetch16_keeps (s : Bus) : Bus.Keeps s (CPU.fetch16 s).2 := by
  unfold CPU.fetch16
  simp only [Bus.Keeps, CPU.fetch_keeps, and_self]

/-- Every addressing mode keeps the connections and counters. -/
theorem CPU.operand_keeps (s : Bus) (m : Mode) : Bus.Keeps s (CPU.operand s m).2 := by
  cases m <;>
    simp only [Bus.Keeps, CPU.operand, CPU.fetch_keeps, CPU.fetch16_keeps, CPU.read_keeps, and_self]

/-- Every operation on an operand keeps the connections and counters. -/
theorem CPU.runOp_keeps (s : Bus) (addr : Nat) (e : Bool) (op : Op) :
    Bus.Keeps s (CPU.runOp s addr e op) := by
  cases op <;>
    simp only [Bus.Keeps, CPU.runOp, CPU.read_keeps, CPU.write_keeps, and_self]

/-- Every instruction body keeps the connections and counters. -/
theorem CPU.run_keeps (s : Bus) (i : Instr) : Bus.Keeps s (CPU.run s i) := by
  cases i <;>
    simp only [Bus.Keeps, CPU.run, CPU.operand_keeps, CPU.runOp_keeps, CPU.fetch_keeps, CPU.fetch16_keeps,
      CPU.read_keeps, CPU.push_keeps, CPU.push16_keeps, CPU.pull_keeps, CPU.pull16_keeps,
      apply_ite Prod.snd, apply_ite Bus.cpuConn, apply_ite Bus.ppuConn, apply_ite Bus.apuConn,
      apply_ite Bus.systemClock, apply_ite Bus.apu, apply_ite APU.cpuClock, ite_self, and_self]

/-- `CPU::execute` keeps the connections and counters. -/
theorem CPU.execute_keeps (s : Bus) : Bus.Keeps s (CPU.execute s) := by
  unfold CPU.execute
  simp only [Bus.Keeps, CPU.run_keeps, CPU.fetch_keeps, and_self]

/-- `CPU::clock` keeps the connections and counters. -/
theorem CPU.clock_keeps (s : Bus) : Bus.Keeps s (CPU.clock s) := by
  unfold CPU.clock
  split
  · exact ⟨rfl, rfl, rfl, rfl, rfl⟩
  · simp only [Bus.Keeps, CPU.execute_keeps, and_self]

/-- `CPU::nmi` keeps the connections and counters. -/
theorem CPU.nmi_keeps (s : Bus) : Bus.Keeps s (CPU.nmi s) := by
  unfold CPU.nmi
  simp only [Bus.Keeps, CPU.read_keeps, CPU.push_keeps, CPU.push16_keeps, and_self]

/-- `CPU::reset` keeps the connections and counters. -/
theorem CPU.reset_keeps (s : Bus) : Bus.Keeps s (CPU.reset s) := by
  unfold CPU.reset
  simp only [Bus.Keeps, CPU.read_keeps, and_self]

/-- The PPU clock keeps the connections and counters. -/
theorem Bus.clockPPU_keeps (s : Bus) : Bus.Keeps s s.clockPPU := by
  unfold Bus.clockPPU
  split <;> exact ⟨rfl, rfl, rfl, rfl, rfl⟩

/-- A DMA step keeps the connections and counters. -/
theorem Bus.dmaStep_keeps (s : Bus) : Bus.Keeps s s.dmaStep := by
  unfold Bus.dmaStep
  dsimp only
  split_ifs
  all_goals first
    | exact ⟨rfl, rfl, rfl, rfl, rfl⟩
    | exact Bus.cpuRead_keeps s _

/-- The NMI check keeps the connections and counters. -/
theorem Bus.checkNMI_keeps (s : Bus) : Bus.Keeps s s.checkNMI := by
  unfold Bus.checkNMI
  split
  · exact CPU.nmi_keeps { s with ppu := s.ppu.clearNMI }
  · exact ⟨rfl, rfl, rfl, rfl, rfl⟩

/-- The CPU-rate block keeps the connections and the master tick counter, and clocks a
connected APU once. -/
theorem Bus.cpuSlot_counts (s : Bus) (emit : Bool) :
    (s.cpuSlot emit).cpuConn = s.cpuConn ∧ (s.cpuSlot emit).ppuConn = s.ppuConn
    ∧ (s.cpuSlot emit).apuConn = s.apuConn
    ∧ (s.cpuSlot emit).systemClock = s.systemClock
    ∧ (s.cpuSlot emit).apu.cpuClock = s.apu.cpuClock + (if s.apuConn then 1 else 0) := by
  have h1 : Bus.Keeps s (if s.dmaActive then s.dmaStep else if s.cpuConn then CPU.clock s else s) := by
    split_ifs
    · exact Bus.dmaStep_keeps s
    · exact CPU.clock_keeps s
    · exact ⟨rfl, rfl, rfl, rfl, rfl⟩
  have key : ∀ t : Bus, Bus.Keeps s t →
      (if t.apuConn then { t with apu := t.apu.clock emit } else t).cpuConn = s.cpuConn
      ∧ (if t.apuConn then { t with apu := t.apu.clock emit } else t).ppuConn = s.ppuConn
      ∧ (if t.apuConn then { t with apu := t.apu.clock emit } else t).apuConn = s.apuConn
      ∧ (if t.apuConn then { t with apu := t.apu.clock emit } else t).systemClock
          = s.systemClock
      ∧ (if t.apuConn then { t with apu := t.apu.clock emit } else t).apu.cpuClock
          = s.apu.cpuClock + (if s.apuConn then 1 else 0) := by
    rintro t ⟨a, b, c, d, e⟩
    by_cases hc : t.apuConn = true
    · have hs : s.apuConn = true := by rw [← c]; exact hc
      rw [if_pos hc, if_pos hs]
      exact ⟨a, b, c, d, by
        show (t.apu.clock emit).cpuClock = _
        rw [APU.clock_cpuClock, e]⟩
    · have hs : ¬ s.apuConn = true := by rw [← c]; exact hc
      rw [if_neg hc, if_neg hs]
      exact ⟨a, b, c, d, e⟩
  exact key _ h1

/-- One master tick: the tick counter goes up by one, the connections stay, and a
connected APU is clocked once when the tick was entered with the counter divisible by 3. -/
theorem Bus.clock_counts (s : Bus) (emit : Bool) :
    (s.clock emit).cpuConn = s.cpuConn ∧ (s.clock emit).ppuConn = s.ppuConn
    ∧ (s.clock emit).apuConn = s.apuConn
    ∧ (s.clock emit).systemClock = s.systemClock + 1
    ∧ (s.clock emit).apu.cpuClock
        = s.apu.cpuClock + (if s.systemClock % 3 = 0 ∧ s.apuConn = true then 1 else 0) := by
  obtain ⟨a1, b1, c1, d1, e1⟩ := Bus.clockPPU_keeps s
  unfold Bus.clock
  dsimp only
  by_cases h3 : s.systemClock % 3 = 0
  · rw [d1, if_pos h3]
    obtain ⟨a2, b2, c2, d2, e2⟩ := Bus.cpuSlot_counts s.clockPPU emit
    obtain ⟨a3, b3, c3, d3, e3⟩ := Bus.checkNMI_keeps (s.clockPPU.cpuSlot emit)
    refine ⟨by rw [a3, a2, a1], by rw [b3, b2, b1], by rw [c3, c2, c1],
      by rw [d3, d2, d1], ?_⟩
    show (s.clockPPU.cpuSlot emit).checkNMI.apu.cpuClock = _
    rw [e3, e2, e1, c1]
    by_cases hc : s.apuConn = true <;> simp [hc, h3]
  · rw [d1, if_neg h3]
    obtain ⟨a3, b3, c3, d3, e3⟩ := Bus.checkNMI_keeps s.clockPPU
    refine ⟨by rw [a3, a1], by rw [b3, b1], by rw [c3, c1], by rw [d3, d1], ?_⟩
    show s.clockPPU.checkNMI.apu.cpuClock = _
    rw [e3, e1]
    simp [h3]

/-- From tick counter 0, after `n` master ticks the counter is `n`, the connections are
as before, and a connected APU has been clocked `(n + 2) / 3` times. -/
theorem Bus.run_counts (emits : Nat → Bool) (s : Bus) (hclk : s.systemClock = 0) (n : Nat) :
    (Bus.run emits n s).cpuConn = s.cpuConn ∧ (Bus.run emits n s).ppuConn = s.ppuConn
    ∧ (Bus.run emits n s).apuConn = s.apuConn
    ∧ (Bus.run emits n s).systemClock = n
    ∧ (Bus.run emits n s).apu.cpuClock
        = s.apu.cpuClock + (if s.apuConn = true then (n + 2) / 3 else 0) := by
  induction n with
  | zero => exact ⟨rfl, rfl, rfl, hclk, by split <;> rfl⟩
  | succ n ih =>
    obtain ⟨a, b, c, d, e⟩ := ih
    obtain ⟨a1, b1, c1, d1, e1⟩ := Bus.clock_counts (Bus.run emits n s) (emits n)
    rw [Bus.run]
    refine ⟨by rw [a1, a], by rw [b1, b], by rw [c1, c], by rw [d1, d], ?_⟩
    rw [e1, e, d, c]
    by_cases hc : s.apuConn = true
    · simp only [hc, and_true, if_true]
      split_ifs <;> omega
    · simp [hc]

/-- The system at power-on has tick counter 0, an APU clock counter of 0, and the PPU and
the APU connected. -/
theorem Bus.powerOn_counts (cart : Cartridge) :
    (Bus.powerOn cart).systemClock = 0 ∧ (Bus.powerOn cart).ppuConn = true
    ∧ (Bus.powerOn cart).apuConn = true ∧ (Bus.powerOn cart).apu.cpuClock = 0 := by
  obtain ⟨-, b, c, d, e⟩ := CPU.reset_keeps (Bus.wired cart)
  exact ⟨d, b, c, e⟩

/-- Replaying two lists of calls one after the other. -/
theorem Bus.replay_append (l1 l2 : List Bus.Call) (s : Bus) :
    Bus.replay (l1 ++ l2) s = Bus.replay l2 (Bus.replay l1 s) :=
  List.foldl_append _ _ _ _

/-- One `Bus::clock()` is the calls of `Bus.calls`, made in order. -/
theorem Bus.clock_replay (s : Bus) (emit : Bool) :
    s.clock emit = Bus.replay (s.calls emit) s := by
  unfold Bus.calls
  simp only [Bus.replay_append]
  have hc : s.clock emit = Bus.Call.apply Bus.Call.tick
      (if s.clockPPU.systemClock % 3 = 0 then s.clockPPU.cpuSlot emit
        else s.clockPPU).checkNMI := rfl
  rw [hc]
  have e1 : Bus.replay (if s.ppuConn then [Bus.Call.ppuClock] else []) s = s.clockPPU := by
    unfold Bus.clockPPU
    split <;> rfl
  rw [e1]
  generalize s.clockPPU = s1
  have e2 : Bus.replay (if s1.systemClock % 3 = 0 ∧
        (Bus.replay (if s1.systemClock % 3 = 0 then
          (if s1.dmaActive then [Bus.Call.dmaStep]
            else if s1.cpuConn then [Bus.Call.cpuClock] else []) else []) s1).apuConn = true
        then [Bus.Call.apuClock emit] else [])
      (Bus.replay (if s1.systemClock % 3 = 0 then
          (if s1.dmaActive then [Bus.Call.dmaStep]
            else if s1.cpuConn then [Bus.Call.cpuClock] else []) else []) s1)
      = (if s1.systemClock % 3 = 0 then s1.cpuSlot emit else s1) := by
    by_cases h3 : s1.systemClock % 3 = 0
    · simp only [h3, if_true, true_and]
      unfold Bus.cpuSlot
      have e : Bus.replay (if s1.dmaActive then [Bus.Call.dmaStep]
            else if s1.cpuConn then [Bus.Call.cpuClock] else []) s1
          = (if s1.dmaActive then s1.dmaStep else if s1.cpuConn then CPU.clock s1 else s1) := by
        split_ifs <;> rfl
      rw [e]
      generalize (if s1.dmaActive then s1.dmaStep else if s1.cpuConn then CPU.clock s1 else s1)
        = s2
      dsimp only
      split <;> rfl
    · simp only [h3, if_false, false_and]
      rfl
  rw [e2]
  generalize (if s1.systemClock % 3 = 0 then s1.cpuSlot emit else s1) = s3
  have e3 : Bus.replay (if (s3.ppuConn && s3.cpuConn && s3.ppu.nmiOccurred) = true
      then [Bus.Call.nmi] else []) s3 = s3.checkNMI := by
    unfold Bus.checkNMI
    split <;> rfl
  rw [e3]
  rfl

/-- The first `n` calls of `Bus::clock` are the calls of `Bus.runCalls`, made in order. -/
theorem Bus.run_replay (emits : Nat → Bool) (n : Nat) (s : Bus) :
    Bus.run emits n s = Bus.replay (Bus.runCalls emits n s) s := by
  induction n with
  | zero => rfl
  | succ n ih =>
    have e : Bus.runCalls emits (n + 1) s
        = Bus.runCalls emits n s ++ (Bus.run emits n s).calls (emits n) := rfl
    rw [e, Bus.replay_append, ← ih, ← Bus.clock_replay]
    rfl

/-- The calls of one `Bus::clock()` with CPU, PPU and APU connected: one `ppu->clock()`,
one `systemClock++`, and, when the call was entered with the tick counter divisible
by 3, one CPU-rate slot (a DMA step or `cpu->clock()`) and one `apu->clock()`. -/
theorem Bus.calls_counts (s : Bus) (emit : Bool) (hcpu : s.cpuConn = true)
    (hppu : s.ppuConn = true) (hapu : s.apuConn = true) :
    (s.calls emit).countP Bus.Call.isTick = 1
    ∧ (s.calls emit).countP Bus.Call.isPpuClock = 1
    ∧ (s.calls emit).countP Bus.Call.isCpuSlot = (if s.systemClock % 3 = 0 then 1 else 0)
    ∧ (s.calls emit).countP Bus.Call.isApuClock
        = (if s.systemClock % 3 = 0 then 1 else 0) := by
  obtain ⟨s1, hs1⟩ : ∃ s1, s1 = Bus.replay [Bus.Call.ppuClock] s := ⟨_, rfl⟩
  have k1 : s1.systemClock = s.systemClock := by rw [hs1]; rfl
  have k2 : s1.cpuConn = true := by rw [hs1]; exact hcpu
  have k3 : s1.apuConn = true := by rw [hs1]; exact hapu
  obtain ⟨l2, hl2⟩ : ∃ l2, l2 = (if s1.systemClock % 3 = 0 then
      (if s1.dmaActive then [Bus.Call.dmaStep]
        else if s1.cpuConn then [Bus.Call.cpuClock] else [])
    else []) := ⟨_, rfl⟩
  have c2 : (l2 = [Bus.Call.dmaStep] ∨ l2 = [Bus.Call.cpuClock]) ∧ s.systemClock % 3 = 0
      ∨ l2 = [] ∧ ¬ s.systemClock % 3 = 0 := by
    rw [hl2, k1, k2]
    by_cases h3 : s.systemClock % 3 = 0
    · rw [if_pos h3, if_pos rfl]
      by_cases hd : s1.dmaActive = true
      · rw [if_pos hd]
        exact Or.inl ⟨Or.inl rfl, h3⟩
      · rw [if_neg hd]
        exact Or.inl ⟨Or.inr rfl, h3⟩
    · rw [if_neg h3]
      exact Or.inr ⟨rfl, h3⟩
  have k4 : (Bus.replay l2 s1).apuConn = true := by
    rcases c2 with ⟨h | h, -⟩ | ⟨h, -⟩
    · rw [h]
      exact (Bus.dmaStep_keeps s1).2.2.1.trans k3
    · rw [h]
      exact (CPU.clock_keeps s1).2.2.1.trans k3
    · rw [h]
      exact k3
  obtain ⟨l4, hl4⟩ : ∃ l4 : List Bus.Call, (l4 = [Bus.Call.nmi] ∨ l4 = []) ∧ l4 =
      (if ((Bus.replay (if s1.systemClock % 3 = 0 ∧ (Bus.replay l2 s1).apuConn = true
            then [Bus.Call.apuClock emit] else []) (Bus.replay l2 s1)).ppuConn
          && (Bus.replay (if s1.systemClock % 3 = 0 ∧ (Bus.replay l2 s1).apuConn = true
            then [Bus.Call.apuClock emit] else []) (Bus.replay l2 s1)).cpuConn
          && (Bus.replay (if s1.systemClock % 3 = 0 ∧ (Bus.replay l2 s1).apuConn = true
            then [Bus.Call.apuClock emit] else []) (Bus.replay l2 s1)).ppu.nmiOccurred) = true
        then [Bus.Call.nmi] else []) := by
    exact ⟨_, ite_eq_or_eq _ _ _, rfl⟩
  have hcalls : s.calls emit = [Bus.Call.ppuClock] ++ l2
      ++ (if s.systemClock % 3 = 0 then [Bus.Call.apuClock emit] else []) ++ l4
      ++ [Bus.Call.tick] := by
    unfold Bus.calls
    simp only [if_pos hppu]
    rw [← hs1, ← hl2, ← hl4.2]
    simp only [k4, and_true, k1]
  rw [hcalls]
  simp only [List.countP_append]
  rcases hl4.1 with h4 | h4 <;> rcases c2 with ⟨h | h, h3⟩ | ⟨h, h3⟩ <;>
    · rw [h4, h]
      simp only [h3, if_true, if_false]
      exact ⟨rfl, rfl, rfl, rfl⟩

/-- From tick counter 0 with CPU, PPU and APU connected, the first `n` calls of
`Bus::clock` make `n` increments of the tick counter, `n` calls of `ppu->clock()`, and
`(n + 2) / 3` CPU-rate slots and calls of `apu->clock()`. -/
theorem Bus.runCalls_counts (emits : Nat → Bool) (s : Bus) (hclk : s.systemClock = 0)
    (hcpu : s.cpuConn = true) (hppu : s.ppuConn = true) (hapu : s.apuConn = true) (n : Nat) :
    (Bus.runCalls emits n s).countP Bus.Call.isTick = n
    ∧ (Bus.runCalls emits n s).countP Bus.Call.isPpuClock = n
    ∧ (Bus.runCalls emits n s).countP Bus.Call.isCpuSlot = (n + 2) / 3
    ∧ (Bus.runCalls emits n s).countP Bus.Call.isApuClock = (n + 2) / 3 := by
  induction n with
  | zero => exact ⟨rfl, rfl, rfl, rfl⟩
  | succ n ih =>
    obtain ⟨i1, i2, i3, i4⟩ := ih
    obtain ⟨a, b, c, d, -⟩ := Bus.run_counts emits s hclk n
    obtain ⟨t1, t2, t3, t4⟩ := Bus.calls_counts (Bus.run emits n s) (emits n) (a.trans hcpu)
      (b.trans hppu) (c.trans hapu)
    have e : Bus.runCalls emits (n + 1) s
        = Bus.runCalls emits n s ++ (Bus.run emits n s).calls (emits n) := rfl
    rw [e]
    simp only [List.countP_append]
    rw [i1, i2, i3, i4, t1, t2, t3, t4, d]
    refine ⟨rfl, rfl, ?_, ?_⟩ <;> split_ifs <;> omega

/-- The system at power-on has the CPU connected. -/
theorem Bus.powerOn_cpuConn (cart : Cartridge) : (Bus.powerOn cart).cpuConn = true :=
  (CPU.reset_keeps (Bus.wired cart)).1

/-- C13, as stated, fails after the first `Bus::clock` call from power-on (here with the
cartridge `Cartridge.resetDemo`): that call is entered with tick counter 0, so it runs
the CPU-rate slot and clocks the APU, while `floor(1 / 3) = 0`. -/
theorem Bus.clock_ratios_counterexample :
    ¬ (∀ n, (Bus.run (fun _ => false) n (Bus.powerOn Cartridge.resetDemo)).systemClock = n
          ∧ (Bus.runCalls (fun _ => false) n (Bus.powerOn Cartridge.resetDemo)).countP
              Bus.Call.isPpuClock = n
          ∧ (Bus.run (fun _ => false) n (Bus.powerOn Cartridge.resetDemo)).apu.cpuClock = n / 3
          ∧ (Bus.runCalls (fun _ => false) n (Bus.powerOn Cartridge.resetDemo)).countP
              Bus.Call.isCpuSlot = n / 3) := by
  intro h
  have h1 := (h 1).2.2.2
  rw [(Bus.runCalls_counts _ _ (Bus.powerOn_counts _).1 (Bus.powerOn_cpuConn _)
    (Bus.powerOn_counts _).2.1 (Bus.powerOn_counts _).2.2.1 1).2.2.1] at h1
  exact absurd h1 (by decide)

/-- C13 (amended): starting from a state with tick counter 0 and the CPU, PPU and APU
connected (power-on), the state after any number `n` of `Bus::clock` calls is the state
the calls listed by `Bus.runCalls` produce when made in order; the tick counter equals `n`
(each call adds exactly 1); among those calls there are `n` of `ppu->clock()`, and the
number of `apu->clock()` calls, and of CPU-rate slots (`cpu->clock()` or a DMA step),
is `(n + 2) / 3`, the ceiling of `n / 3`, as is the APU's own clock counter: the slot runs
exactly in the calls entered with the counter divisible by 3, the first call included. -/
theorem Bus.clock_ratios (emits : Nat → Bool) (s : Bus) (hclk : s.systemClock = 0)
    (hcpu : s.cpuConn = true) (hppu : s.ppuConn = true) (hapu : s.apuConn = true) (n : Nat) :
    Bus.run emits n s = Bus.replay (Bus.runCalls emits n s) s
    ∧ (Bus.run emits n s).systemClock = n
    ∧ (Bus.run emits (n + 1) s).systemClock = (Bus.run emits n s).systemClock + 1
    ∧ (Bus.runCalls emits n s).countP Bus.Call.isTick = n
    ∧ (Bus.runCalls emits n s).countP Bus.Call.isPpuClock = n
    ∧ (Bus.runCalls emits n s).countP Bus.Call.isCpuSlot = (n + 2) / 3
    ∧ (Bus.runCalls emits n s).countP Bus.Call.isApuClock = (n + 2) / 3
    ∧ (Bus.run emits n s).apu.cpuClock = s.apu.cpuClock + (n + 2) / 3
    ∧ ((Bus.run emits n s).calls (emits n)).countP Bus.Call.isPpuClock = 1
    ∧ ((Bus.run emits n s).calls (emits n)).countP Bus.Call.isCpuSlot
        = (if n % 3 = 0 then 1 else 0)
    ∧ ((Bus.run emits n s).calls (emits n)).countP Bus.Call.isApuClock
        = (if n % 3 = 0 then 1 else 0) := by
  have h := Bus.run_counts emits s hclk n
  have h2 := Bus.run_counts emits s hclk (n + 1)
  obtain ⟨c1, c2, c3, c4⟩ := Bus.runCalls_counts emits s hclk hcpu hppu hapu n
  obtain ⟨-, t2, t3, t4⟩ := Bus.calls_counts (Bus.run emits n s) (emits n) (h.1.trans hcpu)
    (h.2.1.trans hppu) (h.2.2.1.trans hapu)
  rw [h.2.2.2.1] at t3 t4
  refine ⟨Bus.run_replay emits n s, h.2.2.2.1, by rw [h2.2.2.2.1, h.2.2.2.1], c1, c2, c3, c4,
    ?_, t2, t3, t4⟩
  rw [h.2.2.2.2, if_pos hapu]

/-- Four master ticks from power-on with the cartridge `Cartridge.resetDemo`: the counter
is 4, the calls made include 4 of `ppu->clock()`, 2 CPU-rate slots and 2 of `apu->clock()`
(ticks 0 and 3), and the APU's clock counter is 2. -/
theorem Bus.clock_ratios_witness :
    (Bus.powerOn Cartridge.resetDemo).systemClock = 0
    ∧ (Bus.powerOn Cartridge.resetDemo).cpuConn = true
    ∧ (Bus.powerOn Cartridge.resetDemo).ppuConn = true
    ∧ (Bus.powerOn Cartridge.resetDemo).apuConn = true
    ∧ (Bus.run (fun _ => false) 4 (Bus.powerOn Cartridge.resetDemo)).systemClock = 4
    ∧ (Bus.runCalls (fun _ => false) 4 (Bus.powerOn Cartridge.resetDemo)).countP
        Bus.Call.isPpuClock = 4
    ∧ (Bus.runCalls (fun _ => false) 4 (Bus.powerOn Cartridge.resetDemo)).countP
        Bus.Call.isCpuSlot = 2
    ∧ (Bus.runCalls (fun _ => false) 4 (Bus.powerOn Cartridge.resetDemo)).countP
        Bus.Call.isApuClock = 2
    ∧ (Bus.run (fun _ => false) 4 (Bus.powerOn Cartridge.resetDemo)).apu.cpuClock = 2 := by
  have h := Bus.clock_ratios (fun _ => false) (Bus.powerOn Cartridge.resetDemo)
    (Bus.powerOn_counts _).1 (Bus.powerOn_cpuConn _) (Bus.powerOn_counts _).2.1
    (Bus.powerOn_counts _).2.2.1 4
  refine ⟨(Bus.powerOn_counts _).1, Bus.powerOn_cpuConn _, (Bus.powerOn_counts _).2.1,
    (Bus.powerOn_counts _).2.2.1, h.2.1, h.2.2.2.2.1, h.2.2.2.2.2.1, h.2.2.2.2.2.2.1, ?_⟩
  rw [h.2.2.2.2.2.2.2.1, (Bus.powerOn_counts _).2.2.2]

/-! ## NMI delivery within the tick that raises it -/

/-- At (241, 1) `PPU::clock` raises NMI when NMI output is enabled, and leaves the output
enable as it was. -/
theorem PPU.clock_vblank (p : PPU) (cart : Cartridge) (hs : p.scanline = 241)
    (hc : p.cycle = 1) (ho : p.nmiOutput = true) :
    (p.clock cart).nmiOutput = true ∧ (p.clock cart).nmiRaised = true := by
  have n1 : ¬ (p.scanline = -1) := by rw [hs]; omega
  have e : p.clock cart = p.advance := by
    unfold PPU.clock
    simp only [n1, false_and, if_false]
    rw [if_neg (by rw [hs]; omega)]
  rw [e]
  unfold PPU.advance
  simp only [hs, hc, and_self, if_true, ho]
  split <;> exact ⟨rfl, rfl⟩

/-- The return address `nmi()` leaves on the stack, and the registers it sets. -/
theorem CPU.nmi_return (s : Bus) (hconn : s.cpu.busConn = true) (hsp : s.cpu.sp < 256) :
    (CPU.nmi s).ram (0x0100 + s.cpu.sp) = (s.cpu.pc >>> 8) &&& 0xFF
    ∧ (CPU.nmi s).ram (0x0100 + (s.cpu.sp + 255) % 256) = s.cpu.pc &&& 0xFF
    ∧ (CPU.nmi s).cpu.sp = (s.cpu.sp + 253) % 256
    ∧ (CPU.nmi s).cpu.flagI = true ∧ (CPU.nmi s).cpu.cycles = 7 := by
  obtain ⟨t1, ht1⟩ : ∃ t1 : Bus, t1 = CPU.push s ((s.cpu.pc >>> 8) &&& 0xFF) := ⟨_, rfl⟩
  obtain ⟨t2, ht2⟩ : ∃ t2 : Bus, t2 = CPU.push t1 (s.cpu.pc &&& 0xFF) := ⟨_, rfl⟩
  obtain ⟨t3, ht3⟩ : ∃ t3 : Bus, t3 = ({ t2 with cpu := { t2.cpu with flagB := false } } : Bus) :=
    ⟨_, rfl⟩
  obtain ⟨t4, ht4⟩ : ∃ t4 : Bus, t4 = CPU.push t3 (t3.cpu.getStatus ||| 0x20) := ⟨_, rfl⟩
  have c1 : t1.cpu = { s.cpu with sp := (s.cpu.sp + 255) % 256 } := by
    rw [ht1]; exact CPU.push_cpu _ _
  have c2 : t2.cpu = { t1.cpu with sp := (t1.cpu.sp + 255) % 256 } := by
    rw [ht2]; exact CPU.push_cpu _ _
  have c4 : t4.cpu = { t3.cpu with sp := (t3.cpu.sp + 255) % 256 } := by
    rw [ht4]; exact CPU.push_cpu _ _
  have r1 : t1.ram = Function.update s.ram ((0x0100 + s.cpu.sp) &&& 0x07FF)
      ((s.cpu.pc >>> 8) &&& 0xFF) := by
    rw [ht1]; exact CPU.push_ram s _ hconn hsp
  have sp1 : t1.cpu.sp = (s.cpu.sp + 255) % 256 := by rw [c1]
  have r2 : t2.ram = Function.update t1.ram ((0x0100 + t1.cpu.sp) &&& 0x07FF)
      (s.cpu.pc &&& 0xFF) := by
    rw [ht2]; exact CPU.push_ram t1 _ (by rw [c1]; exact hconn) (by rw [sp1]; omega)
  have sp2 : t2.cpu.sp = (s.cpu.sp + 254) % 256 := by rw [c2, sp1]; dsimp only; omega
  have sp3 : t3.cpu.sp = (s.cpu.sp + 254) % 256 := by rw [ht3]; exact sp2
  have r4 : t4.ram = Function.update t3.ram ((0x0100 + t3.cpu.sp) &&& 0x07FF)
      (t3.cpu.getStatus ||| 0x20) := by
    rw [ht4]
    exact CPU.push_ram t3 _ (by rw [ht3]; show t2.cpu.busConn = true; rw [c2, c1]; exact hconn)
      (by rw [sp3]; omega)
  have r3 : t3.ram = t2.ram := by rw [ht3]
  have e : CPU.nmi s = { (CPU.read (CPU.read { t4 with cpu := { t4.cpu with flagI := true } }
        0xFFFA).2 0xFFFB).2 with
      cpu := { (CPU.read (CPU.read { t4 with cpu := { t4.cpu with flagI := true } }
          0xFFFA).2 0xFFFB).2.cpu with
        pc := ((CPU.read { t4 with cpu := { t4.cpu with flagI := true } } 0xFFFA).1
          ||| ((CPU.read (CPU.read { t4 with cpu := { t4.cpu with flagI := true } }
            0xFFFA).2 0xFFFB).1 <<< 8)) % 0x10000
        cycles := 7 } } := by
    rw [ht4, ht3, ht2, ht1]
    rfl
  have hcpu : (CPU.read (CPU.read { t4 with cpu := { t4.cpu with flagI := true } }
        0xFFFA).2 0xFFFB).2.cpu = { t4.cpu with flagI := true } := by
    rw [(CPU.read_cpu_ram _ _).1, (CPU.read_cpu_ram _ _).1]
  have hram : (CPU.nmi s).ram = t4.ram := by
    rw [e]
    exact CPU.read2_ram _ _ _
  have i0 := stack_slot s.cpu.sp hsp
  have i1 := stack_slot ((s.cpu.sp + 255) % 256) (by omega)
  have i2 := stack_slot ((s.cpu.sp + 254) % 256) (by omega)
  refine ⟨?_, ?_, ?_, ?_, ?_⟩
  · rw [hram, r4, r3, r2, r1, sp3, sp1, i0, i1, i2,
      Function.update_noteq (by omega), Function.update_noteq (by omega), Function.update_same]
  · rw [hram, r4, r3, r2, sp3, sp1, i1, i2,
      Function.update_noteq (by omega), Function.update_same]
  · rw [e]
    show (CPU.read (CPU.read { t4 with cpu := { t4.cpu with flagI := true } }
        0xFFFA).2 0xFFFB).2.cpu.sp = _
    rw [hcpu]
    show t4.cpu.sp = _
    rw [c4, sp3]
    dsimp only
    omega
  · rw [e]
    show (CPU.read (CPU.read { t4 with cpu := { t4.cpu with flagI := true } }
        0xFFFA).2 0xFFFB).2.cpu.flagI = _
    rw [hcpu]
  · rw [e]

/-- A bus read outside `0x2000..0x3FFF` leaves the PPU alone. -/
theorem Bus.cpuRead_ppu (s : Bus) (addr : Nat) (h : addr < 0x2000 ∨ 0x4000 ≤ addr) :
    (s.cpuRead addr).2.ppu = s.ppu := by
  unfold Bus.cpuRead
  split_ifs
  all_goals first
    | rfl
    | omega

/-- The DMA source address is `page * 256 + offset`. -/
theorem Bus.dma_source (page a : Nat) (ha : a < 256) : (page <<< 8) ||| a = page * 256 + a := by
  rw [Nat.shiftLeft_eq, Nat.mul_comm, ← Nat.mul_add_lt_is_or (by omega) page, Nat.mul_comm]

/-- A DMA step whose source page is outside the PPU registers leaves the CPU and the
NMI lines alone. -/
theorem Bus.dmaStep_sameNmi (t : Bus) (ha : t.dmaAddr < 256)
    (hp : t.dmaPage < 0x20 ∨ 0x40 ≤ t.dmaPage) : Bus.SameNmi t t.dmaStep := by
  unfold Bus.dmaStep
  dsimp only
  split_ifs
  · exact ⟨rfl, rfl, rfl, rfl, rfl, rfl, rfl⟩
  · exact ⟨rfl, rfl, rfl, rfl, rfl, rfl, rfl⟩
  · have hk := Bus.cpuRead_keeps t ((t.dmaPage <<< 8) ||| t.dmaAddr)
    have hc := (Bus.cpuRead_cpu_ram t ((t.dmaPage <<< 8) ||| t.dmaAddr)).1
    have hq := Bus.cpuRead_ppu t ((t.dmaPage <<< 8) ||| t.dmaAddr) (by
      rw [Bus.dma_source _ _ ha]; omega)
    refine ⟨hk.1, hk.2.1, ?_, ?_, ?_, ?_, ?_⟩
    · show (t.cpuRead _).2.cpu.busConn = _
      rw [hc]
    · show (t.cpuRead _).2.cpu.pc = _
      rw [hc]
    · show (t.cpuRead _).2.cpu.sp = _
      rw [hc]
    · show (t.cpuRead _).2.ppu.nmiOutput = _
      rw [hq]
    · show (t.cpuRead _).2.ppu.nmiRaised = _
      rw [hq]
  all_goals exact ⟨rfl, rfl, rfl, rfl, rfl, rfl, rfl⟩

/-- A CPU-rate block in which the CPU only counts down, or a DMA step runs from outside
the PPU registers, leaves the CPU's `PC`, `SP` and the NMI lines alone. -/
theorem Bus.cpuSlot_sameNmi (t : Bus) (emit : Bool)
    (h : (t.dmaActive = false ∧ t.cpu.cycles > 0)
      ∨ (t.dmaActive = true ∧ t.dmaAddr < 256 ∧ (t.dmaPage < 0x20 ∨ 0x40 ≤ t.dmaPage))) :
    Bus.SameNmi t (t.cpuSlot emit) := by
  have h1 : Bus.SameNmi t
      (if t.dmaActive then t.dmaStep else if t.cpuConn then CPU.clock t else t) := by
    rcases h with ⟨hd, hc⟩ | ⟨hd, ha, hp⟩
    · rw [hd]
      simp only [Bool.false_eq_true, if_false]
      split
      · unfold CPU.clock
        rw [if_pos hc]
        exact ⟨rfl, rfl, rfl, rfl, rfl, rfl, rfl⟩
      · exact ⟨rfl, rfl, rfl, rfl, rfl, rfl, rfl⟩
    · rw [if_pos hd]
      exact Bus.dmaStep_sameNmi t ha hp
  have key : ∀ u : Bus, Bus.SameNmi t u →
      Bus.SameNmi t (if u.apuConn then { u with apu := u.apu.clock emit } else u) := by
    intro u hu
    split
    · exact hu
    · exact hu
  exact key _ h1

/-- An NMI that is pending at the NMI check is delivered there: the check pushes the
current `PC` and enters the handler. -/
theorem Bus.checkNMI_delivers (t : Bus) (hcpu : t.cpuConn = true) (hppu : t.ppuConn = true)
    (hbus : t.cpu.busConn = true) (hsp : t.cpu.sp < 256) (hout : t.ppu.nmiOutput = true)
    (hraised : t.ppu.nmiRaised = true) :
    t.checkNMI.ram (0x0100 + t.cpu.sp) = (t.cpu.pc >>> 8) &&& 0xFF
    ∧ t.checkNMI.ram (0x0100 + (t.cpu.sp + 255) % 256) = t.cpu.pc &&& 0xFF
    ∧ t.checkNMI.cpu.sp = (t.cpu.sp + 253) % 256
    ∧ t.checkNMI.cpu.flagI = true ∧ t.checkNMI.cpu.cycles = 7 := by
  have e : t.checkNMI = CPU.nmi { t with ppu := t.ppu.clearNMI } := by
    unfold Bus.checkNMI PPU.nmiOccurred
    rw [hcpu, hppu, hout, hraised]
    rfl
  rw [e]
  exact CPU.nmi_return { t with ppu := t.ppu.clearNMI } hbus hsp

/-- C14, as stated, fails on a CPU-rate tick that finds the CPU between instructions:
in `nmiRaceState` (tick counter 0, `cycles = 0`, `PC = 0x0000`, PPU at (241, 1) with NMI
output enabled) `Bus::clock` clocks the PPU, which raises NMI, then `cpu->clock()`
executes the `NOP` at `0x0000`, and only then delivers the NMI: the return address
pushed is `0x0001`, not `0x0000`. -/
theorem Bus.nmi_before_fetch_counterexample :
    ¬ (∀ (s : Bus) (emit : Bool), s.cpuConn = true → s.ppuConn = true →
        s.cpu.busConn = true → s.cpu.sp < 256 → s.ppu.scanline = 241 → s.ppu.cycle = 1 →
        s.ppu.nmiOutput = true →
        (s.clock emit).ram (0x0100 + s.cpu.sp) = (s.cpu.pc >>> 8) &&& 0xFF
        ∧ (s.clock emit).ram (0x0100 + (s.cpu.sp + 255) % 256) = s.cpu.pc &&& 0xFF) := by
  intro h
  have h1 := (h Bus.nmiRaceState false rfl rfl rfl (by decide) rfl rfl rfl).2
  have h2 : (Bus.nmiRaceState.clock false).ram 0x1FC = 1 := by decide
  have h3 : (Bus.nmiRaceState.clock false).ram 0x1FC = 0 := h1
  rw [h2] at h3
  exact absurd h3 (by decide)

/-- C14 (amended): in every `Bus::clock` tick in which the PPU raises NMI by entering
VBlank at (scanline 241, cycle 1) with NMI output enabled, and in which the CPU does not
start an instruction (the tick is not a CPU-rate tick, or the CPU is still counting down
the cycles of its current instruction, or an OAM DMA whose source page is outside the PPU
registers holds the CPU-rate slot), the NMI is delivered in the same tick and the return
address it pushes is the `PC` the CPU held when the tick began. -/
theorem Bus.nmi_same_tick (s : Bus) (emit : Bool) (hcpu : s.cpuConn = true)
    (hppu : s.ppuConn = true) (hbus : s.cpu.busConn = true) (hsp : s.cpu.sp < 256)
    (hline : s.ppu.scanline = 241) (hdot : s.ppu.cycle = 1) (hout : s.ppu.nmiOutput = true)
    (hidle : s.systemClock % 3 ≠ 0
      ∨ (s.dmaActive = false ∧ s.cpu.cycles > 0)
      ∨ (s.dmaActive = true ∧ s.dmaAddr < 256 ∧ (s.dmaPage < 0x20 ∨ 0x40 ≤ s.dmaPage))) :
    (s.clock emit).ram (0x0100 + s.cpu.sp) = (s.cpu.pc >>> 8) &&& 0xFF
    ∧ (s.clock emit).ram (0x0100 + (s.cpu.sp + 255) % 256) = s.cpu.pc &&& 0xFF
    ∧ (s.clock emit).cpu.sp = (s.cpu.sp + 253) % 256
    ∧ (s.clock emit).cpu.flagI = true ∧ (s.clock emit).cpu.cycles = 7 := by
  obtain ⟨vo, vr⟩ := PPU.clock_vblank s.ppu s.cart hline hdot hout
  have e1 : s.clockPPU = { s with ppu := s.ppu.clock s.cart } := by
    unfold Bus.clockPPU
    rw [if_pos hppu]
  have key : ∀ t : Bus, Bus.SameNmi s.clockPPU t →
      t.checkNMI.ram (0x0100 + s.cpu.sp) = (s.cpu.pc >>> 8) &&& 0xFF
      ∧ t.checkNMI.ram (0x0100 + (s.cpu.sp + 255) % 256) = s.cpu.pc &&& 0xFF
      ∧ t.checkNMI.cpu.sp = (s.cpu.sp + 253) % 256
      ∧ t.checkNMI.cpu.flagI = true ∧ t.checkNMI.cpu.cycles = 7 := by
    rintro t ⟨a, b, c, d, e, f, g⟩
    rw [e1] at a b c d e f g
    have h := Bus.checkNMI_delivers t (by rw [a]; exact hcpu) (by rw [b]; exact hppu)
      (by rw [c]; exact hbus) (by rw [e]; exact hsp) (by rw [f]; exact vo) (by rw [g]; exact vr)
    rw [d, e] at h
    exact h
  unfold Bus.clock
  dsimp only
  by_cases h3 : s.clockPPU.systemClock % 3 = 0
  · rw [if_pos h3]
    have hs3 : s.systemClock % 3 = 0 := by rw [e1] at h3; exact h3
    have hidle2 : (s.clockPPU.dmaActive = false ∧ s.clockPPU.cpu.cycles > 0)
        ∨ (s.clockPPU.dmaActive = true ∧ s.clockPPU.dmaAddr < 256
            ∧ (s.clockPPU.dmaPage < 0x20 ∨ 0x40 ≤ s.clockPPU.dmaPage)) := by
      rw [e1]
      rcases hidle with h | h | h
      · exact absurd hs3 h
      · exact Or.inl h
      · exact Or.inr h
    exact key _ (Bus.cpuSlot_sameNmi s.clockPPU emit hidle2)
  · rw [if_neg h3]
    exact key _ ⟨rfl, rfl, rfl, rfl, rfl, rfl, rfl⟩

/-- The state `nmiRaceState` moved to tick counter 1 (not a CPU-rate tick): the NMI raised
in the tick is delivered in it and the return address on the stack is `0x0000`, the `PC`
at the start of the tick. -/
theorem Bus.nmi_same_tick_witness :
    (({ Bus.nmiRaceState with systemClock := 1 } : Bus).clock false).ram 0x1FD = 0
    ∧ (({ Bus.nmiRaceState with systemClock := 1 } : Bus).clock false).ram 0x1FC = 0
    ∧ (({ Bus.nmiRaceState with systemClock := 1 } : Bus).clock false).cpu.sp = 0xFA := by
  have h := Bus.nmi_same_tick { Bus.nmiRaceState with systemClock := 1 } false rfl rfl rfl
    (by decide) rfl rfl rfl (Or.inl (by decide))
  exact ⟨h.1, h.2.1, h.2.2.1⟩

/-! ## Reset-vector scenario -/

/-- A bus write below `0x2000` stores into work RAM. -/
theorem Bus.cpuWrite_ram (b : Bus) (addr val : Nat) (h : addr < 0x2000) :
    b.cpuWrite addr val = { b with ram := Function.update b.ram (addr &&& 0x07FF) val } := by
  unfold Bus.cpuWrite
  rw [if_pos h]

/-- A CPU write below `0x2000` with the bus connected stores into work RAM. -/
theorem CPU.write_ram (b : Bus) (c : CPU) (addr val : Nat) (hconn : c.busConn = true)
    (h : addr < 0x2000) :
    CPU.write (b.withCpu c) addr val
      = ({ b with ram := Function.update b.ram (addr &&& 0x07FF) val } : Bus).withCpu c := by
  unfold CPU.write
  rw [Bus.withCpu_cpu, if_pos hconn, Bus.cpuWrite_ram _ _ _ h]
  rfl

/-- A CPU read from cartridge space with bus and cartridge connected. -/
theorem CPU.read_rom (b : Bus) (c : CPU) (addr : Nat) (hconn : c.busConn = true)
    (hcart : b.cartConn = true) (h : 0x4020 ≤ addr) :
    CPU.read (b.withCpu c) addr = (b.cart.cpuRead addr, b.withCpu c) := by
  rw [CPU.read_withCpu b c addr hconn, Bus.cpuRead_cart b addr h, if_pos hcart]

/-- A fetch from cartridge space with bus and cartridge connected. -/
theorem CPU.fetch_rom (b : Bus) (c : CPU) (hconn : c.busConn = true)
    (hcart : b.cartConn = true) (h : 0x4020 ≤ c.pc) :
    CPU.fetch (b.withCpu c)
      = (b.cart.cpuRead c.pc, b.withCpu { c with pc := (c.pc + 1) % 0x10000 }) := by
  rw [CPU.fetch_withCpu b c hconn, Bus.cpuRead_cart b c.pc h, if_pos hcart]

/-- `LDA #v` at `0x8000` in cartridge space. -/
theorem CPU.execute_LDA_imm (b : Bus) (c : CPU) (v : Nat) (hconn : c.busConn = true)
    (hcart : b.cartConn = true) (hpc : c.pc = 0x8000)
    (h0 : b.cart.cpuRead 0x8000 = 0xA9) (h1 : b.cart.cpuRead 0x8001 = v) :
    CPU.execute (b.withCpu c)
      = b.withCpu ((CPU.setZN { c with pc := 0x8002, cycles := 2, a := v } v).bump false) := by
  have hd : CPU.decode 0xA9 = Instr.mem Op.LDA Mode.imm 2 := by decide
  have e : CPU.execute (b.withCpu c)
      = CPU.run (b.withCpu { c with pc := 0x8001 }) (Instr.mem Op.LDA Mode.imm 2) := by
    unfold CPU.execute
    rw [CPU.fetch_rom b c hconn hcart (by rw [hpc]; decide), hpc]
    dsimp only
    rw [h0, hd]
  have r : CPU.run (b.withCpu { c with pc := 0x8001 }) (Instr.mem Op.LDA Mode.imm 2)
      = (let r := CPU.read (b.withCpu { c with pc := 0x8002, cycles := 2 }) 0x8001
         { r.2 with cpu := (CPU.setZN { r.2.cpu with a := r.1 } r.1).bump false }) := rfl
  rw [e, r, CPU.read_rom b { c with pc := 0x8002, cycles := 2 } 0x8001 hconn hcart (by decide), h1]
  rfl

/-- `STA $00` at `0x8002` in cartridge space. -/
theorem CPU.execute_STA_zp (b : Bus) (c : CPU) (hconn : c.busConn = true)
    (hcart : b.cartConn = true) (hpc : c.pc = 0x8002)
    (h0 : b.cart.cpuRead 0x8002 = 0x85) (h1 : b.cart.cpuRead 0x8003 = 0x00) :
    CPU.execute (b.withCpu c)
      = ({ b with ram := Function.update b.ram 0 c.a } : Bus).withCpu
          { c with pc := 0x8004, cycles := 3 } := by
  have hd : CPU.decode 0x85 = Instr.mem Op.STA Mode.zp 3 := by decide
  have e : CPU.execute (b.withCpu c)
      = CPU.run (b.withCpu { c with pc := 0x8003 }) (Instr.mem Op.STA Mode.zp 3) := by
    unfold CPU.execute
    rw [CPU.fetch_rom b c hconn hcart (by rw [hpc]; decide), hpc]
    dsimp only
    rw [h0, hd]
  have r : CPU.run (b.withCpu { c with pc := 0x8003 }) (Instr.mem Op.STA Mode.zp 3)
      = (let f := CPU.fetch (b.withCpu { c with pc := 0x8003 })
         CPU.write { f.2 with cpu := { f.2.cpu with cycles := 3 } } (f.1 &&& 0xFF)
           ({ f.2 with cpu := { f.2.cpu with cycles := 3 } } : Bus).cpu.a) := rfl
  rw [e, r, CPU.fetch_rom b { c with pc := 0x8003 } hconn hcart (by show 0x4020 ≤ 0x8003; decide)]
  dsimp only
  rw [h1]
  exact CPU.write_ram b { c with pc := 0x8004, cycles := 3 } 0 c.a hconn (by decide)

/-- `JMP $8004` at `0x8004` in cartridge space: the state is a fixed point apart from
`cycles`. -/
theorem CPU.execute_JMP_self (b : Bus) (c : CPU) (hconn : c.busConn = true)
    (hcart : b.cartConn = true) (hpc : c.pc = 0x8004)
    (h0 : b.cart.cpuRead 0x8004 = 0x4C) (h1 : b.cart.cpuRead 0x8005 = 0x04)
    (h2 : b.cart.cpuRead 0x8006 = 0x80) :
    CPU.execute (b.withCpu c) = b.withCpu { c with pc := 0x8004, cycles := 3 } := by
  have hd : CPU.decode 0x4C = Instr.JMP_abs := by decide
  have e : CPU.execute (b.withCpu c)
      = CPU.run (b.withCpu { c with pc := 0x8005 }) Instr.JMP_abs := by
    unfold CPU.execute
    rw [CPU.fetch_rom b c hconn hcart (by rw [hpc]; decide), hpc]
    dsimp only
    rw [h0, hd]
  have r : CPU.run (b.withCpu { c with pc := 0x8005 }) Instr.JMP_abs
      = (let lo := CPU.fetch (b.withCpu { c with pc := 0x8005 })
         let hi := CPU.fetch lo.2
         { hi.2 with cpu := { hi.2.cpu with pc := ((hi.1 <<< 8) ||| lo.1) % 0x10000
                                            cycles := 3 } }) := rfl
  rw [e, r, CPU.fetch_rom b { c with pc := 0x8005 } hconn hcart (by show 0x4020 ≤ 0x8005; decide)]
  dsimp only
  rw [CPU.fetch_rom b { c with pc := 0x8006 } hconn hcart (by show 0x4020 ≤ 0x8006; decide)]
  dsimp only
  rw [h1, h2]
  rfl

/-- `reset()` with the vector `0x8000` in cartridge space. -/
theorem CPU.reset_rom (b : Bus) (c : CPU) (hconn : c.busConn = true)
    (hcart : b.cartConn = true) (h0 : b.cart.cpuRead 0xFFFC = 0x00)
    (h1 : b.cart.cpuRead 0xFFFD = 0x80) :
    CPU.reset (b.withCpu c)
      = b.withCpu { CPU.setStatus { c with a := 0, x := 0, y := 0, sp := 0xFD } 0x24 with
                    pc := 0x8000, cycles := 8 } := by
  have r : CPU.reset (b.withCpu c)
      = (let lo := CPU.read
           (b.withCpu (CPU.setStatus { c with a := 0, x := 0, y := 0, sp := 0xFD } 0x24)) 0xFFFC
         let hi := CPU.read lo.2 0xFFFD
         { hi.2 with cpu := { hi.2.cpu with pc := (lo.1 ||| (hi.1 <<< 8)) % 0x10000
                                            cycles := 8 } }) := rfl
  rw [r, CPU.read_rom b (CPU.setStatus { c with a := 0, x := 0, y := 0, sp := 0xFD } 0x24)
    0xFFFC hconn hcart (by decide)]
  dsimp only
  rw [CPU.read_rom b (CPU.setStatus { c with a := 0, x := 0, y := 0, sp := 0xFD } 0x24)
    0xFFFD hconn hcart (by decide)]
  dsimp only
  rw [h0, h1]
  rfl

/-- The reset-vector program runs into its `JMP *` after two instructions and stays
there: after `reset()` and `n + 3` instructions `A` and `RAM[0]` hold `0x42`, the rest of
work RAM is untouched, and `PC` is `0x8004`, the address of the `JMP`. -/
theorem CPU.reset_program (s : Bus) (hconn : s.cpu.busConn = true) (hcart : s.cartConn = true)
    (hv0 : s.cart.cpuRead 0xFFFC = 0x00) (hv1 : s.cart.cpuRead 0xFFFD = 0x80)
    (h0 : s.cart.cpuRead 0x8000 = 0xA9) (h1 : s.cart.cpuRead 0x8001 = 0x42)
    (h2 : s.cart.cpuRead 0x8002 = 0x85) (h3 : s.cart.cpuRead 0x8003 = 0x00)
    (h4 : s.cart.cpuRead 0x8004 = 0x4C) (h5 : s.cart.cpuRead 0x8005 = 0x04)
    (h6 : s.cart.cpuRead 0x8006 = 0x80) (n : Nat) :
    (CPU.steps (n + 3) (CPU.reset s)).ram 0 = 0x42
    ∧ (∀ i, i ≠ 0 → (CPU.steps (n + 3) (CPU.reset s)).ram i = s.ram i)
    ∧ (CPU.steps (n + 3) (CPU.reset s)).cpu.pc = 0x8004
    ∧ (CPU.steps (n + 3) (CPU.reset s)).cpu.a = 0x42 := by
  obtain ⟨c0, hc0⟩ : ∃ c0 : CPU, c0 =
      { CPU.setStatus { s.cpu with a := 0, x := 0, y := 0, sp := 0xFD } 0x24 with
        pc := 0x8000, cycles := 8 } := ⟨_, rfl⟩
  obtain ⟨c1, hc1⟩ : ∃ c1 : CPU,
      c1 = (CPU.setZN { c0 with pc := 0x8002, cycles := 2, a := 0x42 } 0x42).bump false :=
    ⟨_, rfl⟩
  obtain ⟨b2, hb2⟩ : ∃ b2 : Bus, b2 = { s with ram := Function.update s.ram 0 c1.a } :=
    ⟨_, rfl⟩
  have k0 : c0.busConn = true := by rw [hc0]; exact hconn
  have k1 : c1.busConn = true := by rw [hc1]; exact k0
  have a1 : c1.a = 0x42 := by rw [hc1]; rfl
  have e0 : CPU.reset s = s.withCpu c0 := by
    rw [hc0, ← CPU.reset_rom s s.cpu hconn hcart hv0 hv1, Bus.withCpu_self]
  have e1 : CPU.execute (s.withCpu c0) = s.withCpu c1 := by
    rw [hc1]
    exact CPU.execute_LDA_imm s c0 0x42 k0 hcart (by rw [hc0]) h0 h1
  have e2 : CPU.execute (s.withCpu c1) = b2.withCpu { c1 with pc := 0x8004, cycles := 3 } := by
    rw [hb2]
    exact CPU.execute_STA_zp s c1 k1 hcart (by rw [hc1]; rfl) h2 h3
  have e3 : CPU.execute (b2.withCpu { c1 with pc := 0x8004, cycles := 3 })
      = b2.withCpu { c1 with pc := 0x8004, cycles := 3 } :=
    CPU.execute_JMP_self b2 { c1 with pc := 0x8004, cycles := 3 } k1 (by rw [hb2]; exact hcart)
      rfl (by rw [hb2]; exact h4) (by rw [hb2]; exact h5) (by rw [hb2]; exact h6)
  have key : ∀ m, CPU.steps (m + 3) (CPU.reset s)
      = b2.withCpu { c1 with pc := 0x8004, cycles := 3 } := by
    intro m
    induction m with
    | zero =>
      show CPU.execute (CPU.execute (CPU.execute (CPU.reset s))) = _
      rw [e0, e1, e2, e3]
    | succ m ih =>
      show CPU.execute (CPU.steps (m + 3) (CPU.reset s)) = _
      rw [ih, e3]
  rw [key n, hb2, a1]
  refine ⟨?_, ?_, rfl, rfl⟩
  · show Function.update s.ram 0 0x42 0 = 0x42
    exact Function.update_same _ _ _
  · intro i hi
    show Function.update s.ram 0 0x42 i = s.ram i
    exact Function.update_noteq hi _ _

/-- The image `resetDemo` holds the program and the vector. -/
theorem Cartridge.resetDemo_bytes :
    Cartridge.resetDemo.cpuRead 0xFFFC = 0x00 ∧ Cartridge.resetDemo.cpuRead 0xFFFD = 0x80
    ∧ Cartridge.resetDemo.cpuRead 0x8000 = 0xA9 ∧ Cartridge.resetDemo.cpuRead 0x8001 = 0x42
    ∧ Cartridge.resetDemo.cpuRead 0x8002 = 0x85 ∧ Cartridge.resetDemo.cpuRead 0x8003 = 0x00
    ∧ Cartridge.resetDemo.cpuRead 0x8004 = 0x4C ∧ Cartridge.resetDemo.cpuRead 0x8005 = 0x04
    ∧ Cartridge.resetDemo.cpuRead 0x8006 = 0x80 := by
  decide

/-- C15, as stated, fails: on the system wired around `resetDemo` the program counter
after `reset()` and 10 instructions is `0x8004`, the address of the `JMP *` itself (the
two instructions before it take two bytes each), not `0x8003`. -/
theorem CPU.reset_scenario_counterexample :
    ¬ ((CPU.steps 10 (CPU.reset (Bus.wired Cartridge.resetDemo))).ram 0 = 0x42
        ∧ (CPU.steps 10 (CPU.reset (Bus.wired Cartridge.resetDemo))).cpu.pc = 0x8003) := by
  rintro ⟨-, h⟩
  obtain ⟨v0, v1, b0, b1, b2, b3, b4, b5, b6⟩ := Cartridge.resetDemo_bytes
  have hp := (CPU.reset_program (Bus.wired Cartridge.resetDemo) rfl rfl v0 v1 b0 b1 b2 b3 b4
    b5 b6 7).2.2.1
  rw [show 7 + 3 = 10 from rfl] at hp
  rw [hp] at h
  exact absurd h (by decide)

/-- C15 (amended): with a ROM holding `LDA #$42 ; STA $00 ; JMP *` starting at `0x8000`
(bytes `A9 42 85 00 4C 04 80`) and the reset vector `0xFFFC/D = 0x8000`, on a system whose
CPU is connected to the bus and whose bus is connected to the cartridge, after `reset()`
and the execution of 10 instructions `RAM[0x00] = 0x42` and `PC = 0x8004`; the rest of
work RAM is as before the reset and `A = 0x42`. -/
theorem CPU.reset_scenario (s : Bus) (hconn : s.cpu.busConn = true)
    (hcart : s.cartConn = true)
    (hvec : s.cart.cpuRead 0xFFFC = 0x00 ∧ s.cart.cpuRead 0xFFFD = 0x80)
    (hprog : s.cart.cpuRead 0x8000 = 0xA9 ∧ s.cart.cpuRead 0x8001 = 0x42
      ∧ s.cart.cpuRead 0x8002 = 0x85 ∧ s.cart.cpuRead 0x8003 = 0x00
      ∧ s.cart.cpuRead 0x8004 = 0x4C ∧ s.cart.cpuRead 0x8005 = 0x04
      ∧ s.cart.cpuRead 0x8006 = 0x80) :
    (CPU.steps 10 (CPU.reset s)).ram 0 = 0x42
    ∧ (CPU.steps 10 (CPU.reset s)).cpu.pc = 0x8004
    ∧ (CPU.steps 10 (CPU.reset s)).cpu.a = 0x42
    ∧ (∀ i, i ≠ 0 → (CPU.steps 10 (CPU.reset s)).ram i = s.ram i) := by
  obtain ⟨v0, v1⟩ := hvec
  obtain ⟨b0, b1, b2, b3, b4, b5, b6⟩ := hprog
  have h := CPU.reset_program s hconn hcart v0 v1 b0 b1 b2 b3 b4 b5 b6 7
  rw [show 7 + 3 = 10 from rfl] at h
  exact ⟨h.1, h.2.2.1, h.2.2.2, h.2.1⟩

/-- The scenario on the system wired around `resetDemo`. -/
theorem CPU.reset_scenario_witness :
    (CPU.steps 10 (CPU.reset (Bus.wired Cartridge.resetDemo))).ram 0 = 0x42
    ∧ (CPU.steps 10 (CPU.reset (Bus.wired Cartridge.resetDemo))).cpu.pc = 0x8004 := by
  obtain ⟨v0, v1, b⟩ := Cartridge.resetDemo_bytes
  have h := CPU.reset_scenario (Bus.wired Cartridge.resetDemo) rfl rfl ⟨v0, v1⟩ b
  exact ⟨h.1, h.2.1⟩

/-- A successful `load` sizes the PRG vector at 16 KiB per bank and the CHR vector at
8 KiB per bank, or at 8 KiB when the header has no CHR bank. -/
theorem Cartridge.load_sizes (c : Cartridge) (header : Nat → Nat) (rest : List Nat)
    (cart : Cartridge) (h : Cartridge.load c header rest = some cart) :
    cart.prgBanks = header 4 ∧ cart.chrBanks = header 5
    ∧ cart.prgSize = cart.prgBanks * 16384
    ∧ cart.chrSize = (if cart.chrBanks = 0 then 8192 else cart.chrBanks * 8192) := by
  unfold Cartridge.load at h
  dsimp only at h
  by_cases h1 : header 0 ≠ 0x4E ∨ header 1 ≠ 0x45 ∨ header 2 ≠ 0x53 ∨ header 3 ≠ 0x1A
  · rw [if_pos h1] at h
    cases h
  · rw [if_neg h1] at h
    by_cases h2 : header 5 = 0
    · rw [if_pos h2] at h
      cases h
      exact ⟨rfl, rfl, rfl, (if_pos h2).symm⟩
    · rw [if_neg h2] at h
      cases h
      exact ⟨rfl, rfl, rfl, (if_neg h2).symm⟩

/-- Toggling bit 14 of an address of the cartridge half keeps it in that half and keeps
its low 14 bits. -/
theorem xor_4000 (a : Nat) (h1 : 0x8000 ≤ a) (h2 : a ≤ 0xFFFF) :
    0x8000 ≤ a ^^^ 0x4000 ∧ a ^^^ 0x4000 ≤ 0xFFFF
    ∧ (a ^^^ 0x4000) % 0x4000 = a % 0x4000 := by
  have hb : a.testBit 15 = true := by
    obtain ⟨b, rfl⟩ : ∃ b, a = 2 ^ 15 + b := ⟨a - 0x8000, by omega⟩
    rw [Nat.testBit_two_pow_add_eq, Nat.testBit_lt_two_pow (by omega)]
    rfl
  refine ⟨?_, ?_, ?_⟩
  · have : (a ^^^ 0x4000).testBit 15 = true := by
      rw [Nat.testBit_xor, hb]
      decide
    exact Nat.testBit_implies_ge this
  · have : a ^^^ 0x4000 < 2 ^ 16 := Nat.xor_lt_two_pow (by omega) (by decide)
    omega
  · apply Nat.eq_of_testBit_eq
    intro i
    rw [show (0x4000 : Nat) = 2 ^ 14 from rfl]
    simp only [Nat.testBit_mod_two_pow, Nat.testBit_xor, Nat.testBit_two_pow]
    by_cases hi : i < 14
    · have : ¬ (14 = i) := by omega
      simp [hi, this]
    · simp [hi]

/-- Reads of a one-bank cartridge at `0x8000..0xFFFF`. -/
theorem Cartridge.cpuRead_one_bank (cart : Cartridge) (hb : cart.prgBanks = 1)
    (hs : cart.prgSize = 16384) (a : Nat) (h1 : 0x8000 ≤ a) :
    cart.cpuReadChecked a = some (cart.prgRom ((a - 0x8000) % 0x4000)) := by
  unfold Cartridge.cpuReadChecked
  rw [if_pos h1]
  dsimp only
  rw [if_pos hb, if_neg (by omega), hs, show (0x3FFF : Nat) = 2 ^ 14 - 1 from rfl,
    Nat.and_pow_two_sub_one_eq_mod]
  simp

/-- Reads of a two-bank cartridge at `0x8000..0xFFFF`. -/
theorem Cartridge.cpuRead_two_banks (cart : Cartridge) (hb : cart.prgBanks = 2)
    (hs : cart.prgSize = 32768) (a : Nat) (h1 : 0x8000 ≤ a) (h2 : a ≤ 0xFFFF) :
    cart.cpuReadChecked a = some (cart.prgRom (a - 0x8000)) := by
  unfold Cartridge.cpuReadChecked
  rw [if_pos h1]
  dsimp only
  rw [if_neg (by omega), if_neg (by omega), hs, Nat.mod_eq_of_lt (by omega)]

/-- C26. NROM PRG mirroring: for a cartridge that `load` produced, with one 16 KiB bank a
read at `a` in `0x8000..0xFFFF` is defined, equals the read at `a XOR 0x4000` and is
`PRG[(a - 0x8000) mod 0x4000]`; with two banks it is `PRG[a - 0x8000]`; the index is
inside the vector in both cases; and `cpuWrite` changes nothing, so every later read
returns what it returned before. -/
theorem Cartridge.nrom_prg_mirror (c0 : Cartridge) (header : Nat → Nat) (rest : List Nat)
    (cart : Cartridge) (hload : Cartridge.load c0 header rest = some cart) :
    (cart.prgBanks = 1 → ∀ a, 0x8000 ≤ a → a ≤ 0xFFFF →
        cart.cpuRead a = cart.prgRom ((a - 0x8000) % 0x4000)
        ∧ cart.cpuRead a = cart.cpuRead (a ^^^ 0x4000)
        ∧ cart.cpuReadChecked a = some (cart.cpuRead a)
        ∧ (a - 0x8000) % 0x4000 < cart.prgSize)
    ∧ (cart.prgBanks = 2 → ∀ a, 0x8000 ≤ a → a ≤ 0xFFFF →
        cart.cpuRead a = cart.prgRom (a - 0x8000)
        ∧ cart.cpuReadChecked a = some (cart.cpuRead a)
        ∧ a - 0x8000 < cart.prgSize)
    ∧ (∀ w v a, (cart.cpuWrite w v).cpuRead a = cart.cpuRead a
        ∧ (cart.cpuWrite w v).cpuReadChecked a = cart.cpuReadChecked a) := by
  obtain ⟨-, -, hs, -⟩ := Cartridge.load_sizes c0 header rest cart hload
  refine ⟨fun hb a h1 h2 => ?_, fun hb a h1 h2 => ?_, fun w v a => ⟨rfl, rfl⟩⟩
  · rw [hb] at hs
    obtain ⟨x1, x2, x3⟩ := xor_4000 a h1 h2
    have e1 := Cartridge.cpuRead_one_bank cart hb hs a h1
    have e2 := Cartridge.cpuRead_one_bank cart hb hs (a ^^^ 0x4000) x1
    have e3 : ((a ^^^ 0x4000) - 0x8000) % 0x4000 = (a - 0x8000) % 0x4000 := by omega
    unfold Cartridge.cpuRead
    rw [e1, e2, e3]
    refine ⟨rfl, rfl, rfl, ?_⟩
    omega
  · rw [hb] at hs
    have e1 := Cartridge.cpuRead_two_banks cart hb hs a h1 h2
    unfold Cartridge.cpuRead
    rw [e1]
    refine ⟨rfl, rfl, ?_⟩
    omega

/-- A one-bank image with PRG bytes `A9 42` loads, and `0xC001` reads the byte `0x42` of
`0x8001`. -/
theorem Cartridge.nrom_prg_mirror_witness :
    (Cartridge.load {} (Cartridge.demoHeader 1 0) [0xA9, 0x42]).isSome = true
    ∧ ((Cartridge.load {} (Cartridge.demoHeader 1 0) [0xA9, 0x42]).getD {}).cpuRead 0xC001
        = 0x42 := by
  obtain ⟨cart, hc⟩ : ∃ cart, Cartridge.load {} (Cartridge.demoHeader 1 0) [0xA9, 0x42]
      = some cart := ⟨_, rfl⟩
  have hb : cart.prgBanks = 1 := by
    rw [(Cartridge.load_sizes _ _ _ _ hc).1]
    rfl
  have h := ((Cartridge.nrom_prg_mirror {} (Cartridge.demoHeader 1 0) [0xA9, 0x42] cart hc).1
    hb 0xC001 (by decide) (by decide)).1
  rw [hc]
  refine ⟨rfl, ?_⟩
  show cart.cpuRead 0xC001 = 0x42
  rw [h]
  cases hc
  decide

/-- C27. A header with valid magic and PRG bank count 0 loads successfully and leaves the
PRG vector empty; the read at `0xFFFC` (the first read of `CPU::reset`) then evaluates
`mapped % prgRom.size()` with size 0, which the checked read reports as undefined. -/
theorem Cartridge.cpuRead_no_prg :
    (Cartridge.load {} (Cartridge.demoHeader 0 1) []).isSome = true
    ∧ ((Cartridge.load {} (Cartridge.demoHeader 0 1) []).getD {}).prgSize = 0
    ∧ ((Cartridge.load {} (Cartridge.demoHeader 0 1) []).getD {}).cpuReadChecked 0xFFFC
        = none := by
  refine ⟨rfl, rfl, ?_⟩
  decide

/-- Reads of a loaded cartridge with at least one PRG bank are defined at every address,
and every read below `0x8000` is 0. -/
theorem Cartridge.cpuRead_total (c0 : Cartridge) (header : Nat → Nat) (rest : List Nat)
    (cart : Cartridge) (hload : Cartridge.load c0 header rest = some cart) (a : Nat) :
    (cart.prgBanks ≠ 0 → (cart.cpuReadChecked a).isSome = true)
    ∧ (a < 0x8000 → cart.cpuReadChecked a = some 0) := by
  obtain ⟨-, -, hs, -⟩ := Cartridge.load_sizes c0 header rest cart hload
  unfold Cartridge.cpuReadChecked
  dsimp only
  refine ⟨fun hb => ?_, fun ha => ?_⟩
  · by_cases h : a ≥ 0x8000
    · rw [if_pos h, if_neg (by omega)]
      rfl
    · rw [if_neg h]
      rfl
  · rw [if_neg (by omega)]

/-- C28. CHR write path of a cartridge that `load` produced: with a CHR bank in the header
`ppuWrite` changes nothing; with none (8 KiB CHR-RAM) a write at `a < 0x2000` is the single
store `chr[a mod 8192] = v` inside the vector, after which `ppuRead a` is `v` and every
other CHR byte is as before; a write at `a ≥ 0x2000` changes nothing. -/
theorem Cartridge.chr_write_path (c0 : Cartridge) (header : Nat → Nat) (rest : List Nat)
    (cart : Cartridge) (hload : Cartridge.load c0 header rest = some cart) :
    (cart.chrBanks ≠ 0 → ∀ a v, cart.ppuWrite a v = cart)
    ∧ (cart.chrBanks = 0 → ∀ a v, a < 0x2000 →
        cart.ppuWrite a v = { cart with chrRom := Function.update cart.chrRom (a % 8192) v }
        ∧ a % 8192 < cart.chrSize
        ∧ (cart.ppuWrite a v).ppuReadChecked a = some v
        ∧ (cart.ppuWrite a v).ppuRead a = v
        ∧ (∀ i, i ≠ a % 8192 → (cart.ppuWrite a v).chrRom i = cart.chrRom i))
    ∧ (∀ a v, 0x2000 ≤ a → cart.ppuWrite a v = cart) := by
  obtain ⟨-, -, -, hs⟩ := Cartridge.load_sizes c0 header rest cart hload
  refine ⟨fun hb a v => ?_, fun hb a v ha => ?_, fun a v ha => ?_⟩
  · unfold Cartridge.ppuWrite
    rw [if_neg (fun h => hb h.2)]
  · rw [if_pos hb] at hs
    have e : cart.ppuWrite a v
        = { cart with chrRom := Function.update cart.chrRom (a % 8192) v } := by
      unfold Cartridge.ppuWrite
      rw [if_pos ⟨ha, hb⟩, hs]
    have r : (cart.ppuWrite a v).ppuReadChecked a = some v := by
      rw [e]
      unfold Cartridge.ppuReadChecked
      dsimp only
      rw [if_pos ha, if_neg (by omega), hs, Function.update_same]
    refine ⟨e, by omega, r, ?_, fun i hi => ?_⟩
    · unfold Cartridge.ppuRead
      rw [r]
      rfl
    · rw [e]
      exact Function.update_noteq hi _ _
  · unfold Cartridge.ppuWrite
    rw [if_neg (fun h => absurd h.1 (by omega))]

/-- An image without CHR bank loads, and a write of `0x5A` at `0x1234` is read back. -/
theorem Cartridge.chr_write_path_witness :
    (Cartridge.load {} (Cartridge.demoHeader 1 0) []).isSome = true
    ∧ (((Cartridge.load {} (Cartridge.demoHeader 1 0) []).getD {}).ppuWrite 0x1234
        0x5A).ppuRead 0x1234 = 0x5A := by
  obtain ⟨cart, hc⟩ : ∃ cart, Cartridge.load {} (Cartridge.demoHeader 1 0) []
      = some cart := ⟨_, rfl⟩
  have hb : cart.chrBanks = 0 := by
    rw [(Cartridge.load_sizes _ _ _ _ hc).2.1]
    rfl
  have h := ((Cartridge.chr_write_path {} (Cartridge.demoHeader 1 0) [] cart hc).2.1
    hb 0x1234 0x5A (by decide)).2.2.2.1
  rw [hc]
  exact ⟨rfl, h⟩

/-- The bus mask `0x07FF` is a reduction modulo `0x800`. -/
theorem and_07FF (a : Nat) : a &&& 0x07FF = a % 0x800 :=
  Nat.and_pow_two_sub_one_eq_mod a 11

/-- C25. Work RAM mirroring: after `cpuWrite a v` with `a` in `0..0x1FFF`, a `cpuRead` of
an address `a'` in `0..0x1FFF` returns `v` when `a' mod 0x800 = a mod 0x800` and what it
returned before the write otherwise; the read leaves the system as the write left it. -/
theorem Bus.ram_mirror (s : Bus) (a v a' : Nat) (ha : a < 0x2000) (ha' : a' < 0x2000) :
    (a' % 0x800 = a % 0x800 → ((s.cpuWrite a v).cpuRead a').1 = v)
    ∧ (a' % 0x800 ≠ a % 0x800 → ((s.cpuWrite a v).cpuRead a').1 = (s.cpuRead a').1)
    ∧ ((s.cpuWrite a v).cpuRead a').2 = s.cpuWrite a v := by
  have r : ∀ t : Bus, t.cpuRead a' = (t.ram (a' % 0x800), t) := by
    intro t
    unfold Bus.cpuRead
    rw [if_pos ha', and_07FF]
  rw [r, r, Bus.cpuWrite_ram s a v ha, and_07FF]
  refine ⟨fun h => ?_, fun h => ?_, rfl⟩
  · show Function.update s.ram (a % 0x800) v (a' % 0x800) = v
    rw [h, Function.update_same]
  · show Function.update s.ram (a % 0x800) v (a' % 0x800) = s.ram (a' % 0x800)
    exact Function.update_noteq h _ _

/-- A write of `0x5A` at `0x0802` is read back at the mirror `0x1802`. -/
theorem Bus.ram_mirror_witness :
    (0x0802 : Nat) < 0x2000 ∧ (0x1802 : Nat) < 0x2000
    ∧ (((({} : Bus).cpuWrite 0x0802 0x5A).cpuRead 0x1802).1 = 0x5A) :=
  ⟨by decide, by decide,
    (Bus.ram_mirror {} 0x0802 0x5A 0x1802 (by decide) (by decide)).1 (by decide)⟩

/-- Stack-only steps compose, the pointer offsets adding up modulo 256. -/
theorem Bus.StackOnly.chain {a b : Nat} {u v w : Bus} (h1 : Bus.StackOnly a u v)
    (h2 : Bus.StackOnly b v w) (c : Nat) (hc : c % 256 = (a + b) % 256) :
    Bus.StackOnly c u w := by
  refine ⟨?_, fun i hi => (h2.2 i hi).trans (h1.2 i hi)⟩
  rw [h2.1, h1.1]
  omega

/-- The pointer is a byte after a stack-only step from a byte pointer. -/
theorem Bus.StackOnly.sp_lt {d : Nat} {u v : Bus} (h : Bus.StackOnly d u v) :
    v.cpu.sp < 256 := by
  rw [h.1]
  omega

/-- A push moves the pointer down by one and writes the stack page only. -/
theorem CPU.push_stack (s : Bus) (v : Nat) (hsp : s.cpu.sp < 256) :
    Bus.StackOnly 255 s (CPU.push s v) :=
  ⟨by rw [CPU.push_cpu], (CPU.push_quiet s v hsp).ram⟩

/-- A pull moves the pointer up by one and writes nothing. -/
theorem CPU.pull_stack (s : Bus) : Bus.StackOnly 1 s (CPU.pull s).2 := by
  unfold CPU.pull
  dsimp only
  obtain ⟨h1, h2⟩ := CPU.read_cpu_ram
    { s with cpu := { s.cpu with sp := (s.cpu.sp + 1) % 256 } }
    (0x0100 + (s.cpu.sp + 1) % 256)
  exact ⟨by rw [h1], fun i _ => by rw [h2]⟩

/-- A read leaves the pointer and work RAM alone. -/
theorem CPU.read_stack (s : Bus) (addr : Nat) (hsp : s.cpu.sp < 256) :
    Bus.StackOnly 0 s (CPU.read s addr).2 := by
  obtain ⟨h1, h2⟩ := CPU.read_cpu_ram s addr
  exact ⟨by rw [h1]; omega, fun i _ => by rw [h2]⟩

/-- Replacing CPU registers other than the pointer. -/
theorem Bus.setCpu_stack (s : Bus) (c : CPU) (h : c.sp = s.cpu.sp) (hsp : s.cpu.sp < 256) :
    Bus.StackOnly 0 s { s with cpu := c } :=
  ⟨by show c.sp = _; rw [h]; omega, fun _ _ => rfl⟩

/-- An operand fetch leaves the pointer and work RAM alone. -/
theorem CPU.fetch_stack (s : Bus) (hsp : s.cpu.sp < 256) :
    Bus.StackOnly 0 s (CPU.fetch s).2 := by
  obtain ⟨h1, h2⟩ := CPU.fetch_cpu_ram s
  exact ⟨by rw [h1]; show s.cpu.sp = _; omega, fun i _ => by rw [h2]⟩

/-- A 16-bit operand fetch leaves the pointer and work RAM alone. -/
theorem CPU.fetch16_stack (s : Bus) (hsp : s.cpu.sp < 256) :
    Bus.StackOnly 0 s (CPU.fetch16 s).2 := by
  unfold CPU.fetch16
  have q := CPU.fetch_stack s hsp
  exact q.chain (CPU.fetch_stack _ q.sp_lt) 0 rfl

/-- `push16` moves the pointer down by two. -/
theorem CPU.push16_stack (s : Bus) (v : Nat) (hsp : s.cpu.sp < 256) :
    Bus.StackOnly 254 s (CPU.push16 s v) := by
  unfold CPU.push16
  have q1 := CPU.push_stack s ((v >>> 8) &&& 0xFF) hsp
  exact q1.chain (CPU.push_stack _ (v &&& 0xFF) q1.sp_lt) 254 rfl

/-- `pull16` moves the pointer up by two. -/
theorem CPU.pull16_stack (s : Bus) : Bus.StackOnly 2 s (CPU.pull16 s).2 := by
  unfold CPU.pull16
  exact (CPU.pull_stack s).chain (CPU.pull_stack _) 2 rfl

/-- The interrupt sequence shared by `BRK`, `nmi()` and `irq()`: push the return address,
push the status byte, set I, read the vector. -/
theorem CPU.interrupt_stack (s : Bus) (hsp : s.cpu.sp < 256) (f g : CPU → CPU)
    (hf : ∀ c, (f c).sp = c.sp) (hg : ∀ c, (g c).sp = c.sp) (st : Bus → Nat) (vec : Nat)
    (fin : Nat → Nat → CPU → CPU) (hfin : ∀ a b c, (fin a b c).sp = c.sp)
    (s1 s2 s3 s4 : Bus) (e1 : s1 = CPU.push16 s s.cpu.pc)
    (e2 : s2 = { s1 with cpu := f s1.cpu }) (e3 : s3 = CPU.push s2 (st s2))
    (e4 : s4 = { s3 with cpu := g s3.cpu }) :
    Bus.StackOnly 253 s
      { (CPU.read (CPU.read s4 vec).2 (vec + 1)).2 with
        cpu := fin (CPU.read s4 vec).1 (CPU.read (CPU.read s4 vec).2 (vec + 1)).1
          (CPU.read (CPU.read s4 vec).2 (vec + 1)).2.cpu } := by
  have q1 : Bus.StackOnly 254 s s1 := e1 ▸ CPU.push16_stack s _ hsp
  have q2 : Bus.StackOnly 0 s1 s2 := e2 ▸ Bus.setCpu_stack s1 _ (hf _) q1.sp_lt
  have q12 := q1.chain q2 254 rfl
  have q3 : Bus.StackOnly 255 s2 s3 := e3 ▸ CPU.push_stack s2 _ q12.sp_lt
  have q4 : Bus.StackOnly 0 s3 s4 := e4 ▸ Bus.setCpu_stack s3 _ (hg _) q3.sp_lt
  have q5 := CPU.read_stack s4 vec q4.sp_lt
  have q6 := CPU.read_stack (CPU.read s4 vec).2 (vec + 1) q5.sp_lt
  have q7 := Bus.setCpu_stack (CPU.read (CPU.read s4 vec).2 (vec + 1)).2
    (fin (CPU.read s4 vec).1 (CPU.read (CPU.read s4 vec).2 (vec + 1)).1
      (CPU.read (CPU.read s4 vec).2 (vec + 1)).2.cpu) (hfin _ _ _) q6.sp_lt
  exact ((((q12.chain q3 253 rfl).chain q4 253 rfl).chain q5 253 rfl).chain q6 253 rfl).chain
    q7 253 rfl

/-- `nmi()` pushes three bytes. -/
theorem CPU.nmi_stack (s : Bus) (hsp : s.cpu.sp < 256) : Bus.StackOnly 253 s (CPU.nmi s) :=
  CPU.interrupt_stack s hsp (fun c => { c with flagB := false })
    (fun c => { c with flagI := true }) (fun _ => rfl) (fun _ => rfl)
    (fun t => t.cpu.getStatus ||| 0x20) 0xFFFA
    (fun lo hi c => { c with pc := (lo ||| (hi <<< 8)) % 0x10000, cycles := 7 })
    (fun _ _ _ => rfl) _ _ _ _ rfl rfl rfl rfl

/-- `irq()` pushes three bytes when the I flag is clear, and does nothing when it is
set. -/
theorem CPU.irq_stack (s : Bus) (hsp : s.cpu.sp < 256) :
    Bus.StackOnly (if s.cpu.flagI then 0 else 253) s (CPU.irq s) := by
  unfold CPU.irq
  by_cases h : s.cpu.flagI = true
  · rw [if_pos h, if_pos h]
    exact ⟨by omega, fun _ _ => rfl⟩
  · rw [if_neg h, if_neg h]
    exact CPU.interrupt_stack s hsp (fun c => { c with flagB := false })
      (fun c => { c with flagI := true }) (fun _ => rfl) (fun _ => rfl)
      (fun t => t.cpu.getStatus ||| 0x20) 0xFFFE
      (fun lo hi c => { c with pc := (lo ||| (hi <<< 8)) % 0x10000, cycles := 7 })
      (fun _ _ _ => rfl) _ _ _ _ rfl rfl rfl rfl

/-- `BRK` pushes three bytes. -/
theorem CPU.brk_stack (s : Bus) (hsp : s.cpu.sp < 256) :
    Bus.StackOnly 253 s (CPU.run s Instr.BRK) := by
  have q0 := Bus.setCpu_stack s { s.cpu with pc := (s.cpu.pc + 1) % 0x10000 } rfl hsp
  have q := CPU.interrupt_stack { s with cpu := { s.cpu with pc := (s.cpu.pc + 1) % 0x10000 } }
    hsp (fun c => c)
    (fun c => { c with flagI := true }) (fun _ => rfl) (fun _ => rfl)
    (fun t => t.cpu.getStatus ||| 0x30) 0xFFFE
    (fun lo hi c => { c with pc := (lo ||| (hi <<< 8)) % 0x10000, cycles := 7 })
    (fun _ _ _ => rfl) _ _ _ _ rfl rfl rfl rfl
  exact q0.chain q 253 rfl

/-- The stack instructions with one push or pull, and the subroutine instructions. -/
theorem CPU.stack_instrs (s : Bus) (hsp : s.cpu.sp < 256) :
    Bus.StackOnly 255 s (CPU.run s Instr.PHA) ∧ Bus.StackOnly 255 s (CPU.run s Instr.PHP)
    ∧ Bus.StackOnly 1 s (CPU.run s Instr.PLA) ∧ Bus.StackOnly 1 s (CPU.run s Instr.PLP)
    ∧ Bus.StackOnly 254 s (CPU.run s Instr.JSR) ∧ Bus.StackOnly 2 s (CPU.run s Instr.RTS)
    ∧ Bus.StackOnly 3 s (CPU.run s Instr.RTI) := by
  refine ⟨?_, ?_, ?_, ?_, ?_, ?_, ?_⟩
  · have q := CPU.push_stack s s.cpu.a hsp
    exact q.chain (Bus.setCpu_stack _ _ rfl q.sp_lt) 255 rfl
  · have q := CPU.push_stack s (s.cpu.getStatus ||| 0x10) hsp
    exact q.chain (Bus.setCpu_stack _ _ rfl q.sp_lt) 255 rfl
  · have q := CPU.pull_stack s
    exact q.chain (Bus.setCpu_stack _ _ rfl q.sp_lt) 1 rfl
  · have q := CPU.pull_stack s
    exact q.chain (Bus.setCpu_stack _ _ rfl q.sp_lt) 1 rfl
  · have q1 := CPU.fetch16_stack s hsp
    have q2 := CPU.push16_stack (CPU.fetch16 s).2
      (((CPU.fetch16 s).2.cpu.pc + 0xFFFF) % 0x10000) q1.sp_lt
    have q := q1.chain q2 254 rfl
    exact q.chain (Bus.setCpu_stack _ _ rfl q.sp_lt) 254 rfl
  · have q := CPU.pull16_stack s
    exact q.chain (Bus.setCpu_stack _ _ rfl q.sp_lt) 2 rfl
  · have q1 := CPU.pull_stack s
    have q2 := Bus.setCpu_stack (CPU.pull s).2
      { (CPU.pull s).2.cpu.setStatus (CPU.pull s).1 with flagB := false } rfl q1.sp_lt
    have q3 := CPU.pull16_stack
      { (CPU.pull s).2 with
        cpu := { (CPU.pull s).2.cpu.setStatus (CPU.pull s).1 with flagB := false } }
    have q := (q1.chain q2 1 rfl).chain q3 3 rfl
    exact q.chain (Bus.setCpu_stack _ _ rfl q.sp_lt) 3 rfl

/-- C24. Stack page: with `SP` a byte, `push` makes its bus write at `0x0100 + SP`, `pull`
its bus read at `0x0100 + ((SP + 1) mod 256)`, both inside `0x0100..0x01FF`, and `SP`
wraps modulo 256; `PHA`, `PHP`, `PLA`, `PLP`, `JSR`, `RTS`, `RTI`, `BRK`, `nmi()` and
`irq()` move `SP` by their number of pushes or pulls modulo 256 and leave work RAM outside
the stack page as it was. -/
theorem CPU.stack_page (s : Bus) (hsp : s.cpu.sp < 256) :
    (∀ v, 0x0100 ≤ 0x0100 + s.cpu.sp ∧ 0x0100 + s.cpu.sp ≤ 0x01FF
      ∧ CPU.push s v = { CPU.write s (0x0100 + s.cpu.sp) v with
          cpu := { s.cpu with sp := (s.cpu.sp + 255) % 256 } })
    ∧ (0x0100 ≤ 0x0100 + (s.cpu.sp + 1) % 256 ∧ 0x0100 + (s.cpu.sp + 1) % 256 ≤ 0x01FF
      ∧ CPU.pull s = CPU.read { s with cpu := { s.cpu with sp := (s.cpu.sp + 1) % 256 } }
          (0x0100 + (s.cpu.sp + 1) % 256))
    ∧ Bus.StackOnly 255 s (CPU.run s Instr.PHA) ∧ Bus.StackOnly 255 s (CPU.run s Instr.PHP)
    ∧ Bus.StackOnly 1 s (CPU.run s Instr.PLA) ∧ Bus.StackOnly 1 s (CPU.run s Instr.PLP)
    ∧ Bus.StackOnly 254 s (CPU.run s Instr.JSR) ∧ Bus.StackOnly 2 s (CPU.run s Instr.RTS)
    ∧ Bus.StackOnly 3 s (CPU.run s Instr.RTI) ∧ Bus.StackOnly 253 s (CPU.run s Instr.BRK)
    ∧ Bus.StackOnly 253 s (CPU.nmi s)
    ∧ Bus.StackOnly (if s.cpu.flagI then 0 else 253) s (CPU.irq s) := by
  obtain ⟨i1, i2, i3, i4, i5, i6, i7⟩ := CPU.stack_instrs s hsp
  refine ⟨fun v => ⟨by omega, by omega, ?_⟩, ⟨by omega, by omega, rfl⟩, i1, i2, i3, i4, i5,
    i6, i7, CPU.brk_stack s hsp, CPU.nmi_stack s hsp, CPU.irq_stack s hsp⟩
  have h : (CPU.write s (0x0100 + s.cpu.sp) v).cpu = s.cpu := by
    unfold CPU.write
    split
    · exact Bus.cpuWrite_cpu _ _ _
    · rfl
  unfold CPU.push
  dsimp only
  rw [h]

/-- From `SP = 0x00` with the bus connected, `PHA` stores `A` at `0x0100` and wraps `SP`
to `0xFF`. -/
theorem CPU.stack_page_witness :
    ((CPU.run { cpu := { busConn := true, sp := 0, a := 0x5A } } Instr.PHA).cpu.sp = 0xFF)
    ∧ (CPU.run { cpu := { busConn := true, sp := 0, a := 0x5A } } Instr.PHA).ram 0x100
        = 0x5A := by
  have h := (CPU.stack_page { cpu := { busConn := true, sp := 0, a := 0x5A } }
    (by decide)).2.2.1
  refine ⟨h.1, ?_⟩
  decide

/-! ### Status register and NMI enable across a PPU clock -/

/-- `updateShifters` leaves PPUCTRL, the NMI enable, PPUSTATUS and the sprite-0 latch
alone. -/
theorem PPU.updateShifters_regs (p : PPU) :
    p.updateShifters.ctrl = p.ctrl ∧ p.updateShifters.nmiOutput = p.nmiOutput
    ∧ p.updateShifters.status = p.status ∧ p.updateShifters.sprite0Hit = p.sprite0Hit := by
  unfold PPU.updateShifters; split <;> exact ⟨rfl, rfl, rfl, rfl⟩

/-- `incrementX` leaves PPUCTRL, the NMI enable, PPUSTATUS and the sprite-0 latch alone. -/
theorem PPU.incrementX_regs (p : PPU) :
    p.incrementX.ctrl = p.ctrl ∧ p.incrementX.nmiOutput = p.nmiOutput
    ∧ p.incrementX.status = p.status ∧ p.incrementX.sprite0Hit = p.sprite0Hit := by
  unfold PPU.incrementX; split <;> exact ⟨rfl, rfl, rfl, rfl⟩

/-- `incrementY` leaves PPUCTRL, the NMI enable, PPUSTATUS and the sprite-0 latch alone. -/
theorem PPU.incrementY_regs (p : PPU) :
    p.incrementY.ctrl = p.ctrl ∧ p.incrementY.nmiOutput = p.nmiOutput
    ∧ p.incrementY.status = p.status ∧ p.incrementY.sprite0Hit = p.sprite0Hit := by
  unfold PPU.incrementY
  simp only [apply_ite PPU.ctrl, apply_ite PPU.nmiOutput, apply_ite PPU.status,
    apply_ite PPU.sprite0Hit, ite_self, and_self]

/-- The background fetch leaves PPUCTRL, the NMI enable, PPUSTATUS and the sprite-0 latch
alone. -/
theorem PPU.backgroundFetch_regs (p : PPU) (cart : Cartridge) :
    (p.backgroundFetch cart).ctrl = p.ctrl ∧ (p.backgroundFetch cart).nmiOutput = p.nmiOutput
    ∧ (p.backgroundFetch cart).status = p.status
    ∧ (p.backgroundFetch cart).sprite0Hit = p.sprite0Hit := by
  unfold PPU.backgroundFetch
  simp only
  split <;> simp only [PPU.updateShifters_regs, PPU.loadBackgroundShifters,
    PPU.incrementX_regs, and_self]

/-- One sprite evaluation step leaves PPUCTRL, the NMI enable, PPUSTATUS and the sprite-0
latch alone. -/
theorem PPU.evaluateSprite_regs (cart : Cartridge) (p : PPU) (i : Nat) :
    (PPU.evaluateSprite cart p i).ctrl = p.ctrl
    ∧ (PPU.evaluateSprite cart p i).nmiOutput = p.nmiOutput
    ∧ (PPU.evaluateSprite cart p i).status = p.status
    ∧ (PPU.evaluateSprite cart p i).sprite0Hit = p.sprite0Hit := by
  unfold PPU.evaluateSprite
  simp only [apply_ite PPU.ctrl, apply_ite PPU.nmiOutput, apply_ite PPU.status,
    apply_ite PPU.sprite0Hit, ite_self, and_self]

/-- `evaluateSprites` leaves PPUCTRL, the NMI enable, PPUSTATUS and the sprite-0 latch
alone. -/
theorem PPU.evaluateSprites_regs (p : PPU) (cart : Cartridge) :
    (p.evaluateSprites cart).ctrl = p.ctrl ∧ (p.evaluateSprites cart).nmiOutput = p.nmiOutput
    ∧ (p.evaluateSprites cart).status = p.status
    ∧ (p.evaluateSprites cart).sprite0Hit = p.sprite0Hit := by
  unfold PPU.evaluateSprites
  have : ∀ (l : List Nat) (q : PPU),
      (l.foldl (PPU.evaluateSprite cart) q).ctrl = q.ctrl
      ∧ (l.foldl (PPU.evaluateSprite cart) q).nmiOutput = q.nmiOutput
      ∧ (l.foldl (PPU.evaluateSprite cart) q).status = q.status
      ∧ (l.foldl (PPU.evaluateSprite cart) q).sprite0Hit = q.sprite0Hit := by
    intro l
    induction l with
    | nil => intro q; exact ⟨rfl, rfl, rfl, rfl⟩
    | cons a l ih =>
      intro q
      rw [List.foldl_cons]
      simp only [ih, PPU.evaluateSprite_regs, and_self]
  simp only [this, and_self]

/-- Setting bit 6 of a byte leaves its bit 7 as it was. -/
theorem testBit7_or_0x40 (v : Nat) : (v ||| 0x40).testBit 7 = v.testBit 7 := by
  rw [Nat.testBit_or, show (0x40 : Nat).testBit 7 = false from by decide, Bool.or_false]

/-- `renderPixel` leaves PPUCTRL, the NMI enable and bit 7 of PPUSTATUS alone. -/
theorem PPU.renderPixel_regs (p : PPU) (cart : Cartridge) :
    (p.renderPixel cart).ctrl = p.ctrl ∧ (p.renderPixel cart).nmiOutput = p.nmiOutput
    ∧ (p.renderPixel cart).status.testBit 7 = p.status.testBit 7 := by
  unfold PPU.renderPixel
  simp only [apply_ite PPU.ctrl, apply_ite PPU.nmiOutput, apply_ite PPU.status,
    apply_ite (fun v : Nat => v.testBit 7), testBit7_or_0x40, ite_self, and_self]

/-- The pre-render work leaves PPUCTRL and the NMI enable alone; at dot 1 it clears bits 5,
6, 7 of PPUSTATUS and the sprite-0 latch, and at every other dot leaves both alone. -/
theorem PPU.preRender_regs (p : PPU) (cart : Cartridge) (r : Bool) :
    (p.preRender cart r).ctrl = p.ctrl ∧ (p.preRender cart r).nmiOutput = p.nmiOutput
    ∧ (p.preRender cart r).status = (if p.cycle = 1 then p.status &&& 0x1F else p.status)
    ∧ (p.preRender cart r).sprite0Hit = (if p.cycle = 1 then false else p.sprite0Hit) := by
  unfold PPU.preRender
  by_cases h : p.cycle = 1
  · simp only [h, if_true, apply_ite PPU.ctrl, apply_ite PPU.nmiOutput, apply_ite PPU.status,
      apply_ite PPU.sprite0Hit, PPU.incrementY_regs, PPU.backgroundFetch_regs, PPU.transferX,
      PPU.transferY, ite_self, and_self]
  · simp only [h, if_false, apply_ite PPU.ctrl, apply_ite PPU.nmiOutput,
      apply_ite PPU.status, apply_ite PPU.sprite0Hit, PPU.incrementY_regs,
      PPU.backgroundFetch_regs, PPU.transferX, PPU.transferY, ite_self, and_self]

/-- The visible-scanline work leaves PPUCTRL, the NMI enable and bit 7 of PPUSTATUS
alone. -/
theorem PPU.visible_regs (p : PPU) (cart : Cartridge) (r : Bool) :
    (p.visible cart r).ctrl = p.ctrl ∧ (p.visible cart r).nmiOutput = p.nmiOutput
    ∧ (p.visible cart r).status.testBit 7 = p.status.testBit 7 := by
  unfold PPU.visible
  simp only [apply_ite PPU.ctrl, apply_ite PPU.nmiOutput, apply_ite PPU.status,
    apply_ite (fun v : Nat => v.testBit 7), PPU.renderPixel_regs,
    PPU.incrementY_regs, PPU.backgroundFetch_regs, PPU.transferX,
    PPU.evaluateSprites_regs, ite_self, and_self]

/-- The tail of `PPU::clock` leaves PPUCTRL and the NMI enable alone; at (241, 1) it sets
bit 7 of PPUSTATUS and the frame-ready flag and raises NMI when the enable is set, and at
every other dot leaves PPUSTATUS and the sprite-0 latch alone. -/
theorem PPU.advance_regs (p : PPU) :
    p.advance.ctrl = p.ctrl ∧ p.advance.nmiOutput = p.nmiOutput
    ∧ p.advance.sprite0Hit = p.sprite0Hit
    ∧ p.advance.status = (if p.scanline = 241 ∧ p.cycle = 1 then p.status ||| 0x80
        else p.status)
    ∧ (p.scanline = 241 ∧ p.cycle = 1 → p.advance.frameReady = true
        ∧ p.advance.nmiRaised = (if p.nmiOutput then true else p.nmiRaised)) := by
  unfold PPU.advance
  by_cases h : p.scanline = 241 ∧ p.cycle = 1
  · simp only [h, and_self, if_true, apply_ite PPU.ctrl, apply_ite PPU.nmiOutput,
      apply_ite PPU.status, apply_ite PPU.sprite0Hit, apply_ite PPU.frameReady,
      apply_ite PPU.nmiRaised, ite_self, and_self, true_implies]
  · simp only [h, if_false, apply_ite PPU.ctrl, apply_ite PPU.nmiOutput,
      apply_ite PPU.status, apply_ite PPU.sprite0Hit, ite_self, and_self, false_implies]

/-- `PPU::clock` never writes PPUCTRL or the NMI enable. -/
theorem PPU.clock_ctrl (p : PPU) (cart : Cartridge) :
    (p.clock cart).ctrl = p.ctrl ∧ (p.clock cart).nmiOutput = p.nmiOutput := by
  unfold PPU.clock
  simp only [apply_ite PPU.ctrl, apply_ite PPU.nmiOutput, PPU.advance_regs, PPU.visible_regs,
    PPU.preRender_regs, ite_self, and_self]

/-- A PPU bus write leaves the dot position, PPUCTRL, the NMI enable and PPUSTATUS alone. -/
theorem PPU.ppuWrite_regs (p : PPU) (cart : Cartridge) (addr val : Nat) :
    (p.ppuWrite cart addr val).1.scanline = p.scanline
    ∧ (p.ppuWrite cart addr val).1.cycle = p.cycle
    ∧ (p.ppuWrite cart addr val).1.ctrl = p.ctrl
    ∧ (p.ppuWrite cart addr val).1.nmiOutput = p.nmiOutput := by
  unfold PPU.ppuWrite
  dsimp only
  split_ifs <;> exact ⟨rfl, rfl, rfl, rfl⟩

/-- A register read leaves the dot position, PPUCTRL and the NMI enable alone. -/
theorem PPU.cpuRead_regs (p : PPU) (cart : Cartridge) (addr : Nat) :
    (p.cpuRead cart addr).2.scanline = p.scanline ∧ (p.cpuRead cart addr).2.cycle = p.cycle
    ∧ (p.cpuRead cart addr).2.ctrl = p.ctrl
    ∧ (p.cpuRead cart addr).2.nmiOutput = p.nmiOutput := by
  unfold PPU.cpuRead
  split <;> exact ⟨rfl, rfl, rfl, rfl⟩

/-- A register write leaves the dot position alone and keeps the NMI enable equal to bit 7
of PPUCTRL. -/
theorem PPU.cpuWrite_regs (p : PPU) (cart : Cartridge) (addr val : Nat) :
    (p.cpuWrite cart addr val).1.scanline = p.scanline
    ∧ (p.cpuWrite cart addr val).1.cycle = p.cycle
    ∧ (p.nmiOutput = ((p.ctrl &&& 0x80) != 0) →
        (p.cpuWrite cart addr val).1.nmiOutput
          = (((p.cpuWrite cart addr val).1.ctrl &&& 0x80) != 0)) := by
  unfold PPU.cpuWrite
  split
  · exact ⟨rfl, rfl, fun _ => rfl⟩
  · exact ⟨rfl, rfl, fun h => h⟩
  · exact ⟨rfl, rfl, fun h => h⟩
  · exact ⟨rfl, rfl, fun h => h⟩
  · split <;> exact ⟨rfl, rfl, fun h => h⟩
  · split <;> exact ⟨rfl, rfl, fun h => h⟩
  · obtain ⟨h1, h2, h3, h4⟩ := PPU.ppuWrite_regs p cart p.vramAddr val
    exact ⟨h1, h2, fun h => by show (p.ppuWrite cart p.vramAddr val).1.nmiOutput = _; rw [h4, h]; show _ = (((p.ppuWrite cart p.vramAddr val).1.ctrl &&& 0x80) != 0); rw [h3]⟩
  · exact ⟨rfl, rfl, fun h => h⟩

/-- In every reachable PPU state the NMI enable is bit 7 of PPUCTRL. -/
theorem PPU.reachable_nmiOutput (p : PPU) (h : PPU.Reachable p) :
    p.nmiOutput = ((p.ctrl &&& 0x80) != 0) := by
  induction h with
  | init => rfl
  | clock p cart _ ih => rw [(PPU.clock_ctrl p cart).1, (PPU.clock_ctrl p cart).2]; exact ih
  | cpuRead p cart addr _ ih =>
    obtain ⟨-, -, h3, h4⟩ := PPU.cpuRead_regs p cart addr
    rw [h3, h4]; exact ih
  | cpuWrite p cart addr val _ ih => exact (PPU.cpuWrite_regs p cart addr val).2.2 ih
  | clearNMI p _ ih => exact ih
  | oamStore p i v _ ih => exact ih

/-- The dot position after one `PPU::clock` stays inside the frame. -/
theorem PPU.clock_range (p : PPU) (cart : Cartridge)
    (h : -1 ≤ p.scanline ∧ p.scanline ≤ 260 ∧ 0 ≤ p.cycle ∧ p.cycle ≤ 340) :
    -1 ≤ (p.clock cart).scanline ∧ (p.clock cart).scanline ≤ 260
    ∧ 0 ≤ (p.clock cart).cycle ∧ (p.clock cart).cycle ≤ 340 := by
  by_cases hk : p.scanline = -1 ∧ p.cycle = 339 ∧ ((p.mask &&& 0x18) != 0) = true
      ∧ p.oddFrame = true
  · obtain ⟨e1, e2, -⟩ := PPU.clock_skip p cart hk.1 hk.2.1 hk.2.2.1 hk.2.2.2
    rw [e1, e2]
    omega
  · obtain ⟨e1, e2, -⟩ := PPU.clock_next p cart hk
    rw [e1, e2]
    split_ifs <;> omega

/-- C22. Dot and scanline range: in every PPU state reachable from power-on (scanline -1,
cycle 0) by any interleaving of `clock()`, register reads and register writes (and
`clearNMI` and DMA stores into OAM), `-1 ≤ scanline ≤ 260` and `0 ≤ cycle ≤ 340`. -/
theorem PPU.dot_range (p : PPU) (h : PPU.Reachable p) :
    -1 ≤ p.scanline ∧ p.scanline ≤ 260 ∧ 0 ≤ p.cycle ∧ p.cycle ≤ 340 := by
  induction h with
  | init => decide
  | clock p cart _ ih => exact PPU.clock_range p cart ih
  | cpuRead p cart addr _ ih =>
    obtain ⟨h1, h2, -, -⟩ := PPU.cpuRead_regs p cart addr
    rw [h1, h2]; exact ih
  | cpuWrite p cart addr val _ ih =>
    obtain ⟨h1, h2, -⟩ := PPU.cpuWrite_regs p cart addr val
    rw [h1, h2]; exact ih
  | clearNMI p _ ih => exact ih
  | oamStore p i v _ ih => exact ih

/-- The state after a `$2000` write and one clock from power-on is reachable and inside
the frame. -/
theorem PPU.dot_range_witness :
    PPU.Reachable ((({} : PPU).cpuWrite {} 0x2000 0x80).1.clock {})
    ∧ -1 ≤ ((({} : PPU).cpuWrite {} 0x2000 0x80).1.clock {}).scanline
    ∧ ((({} : PPU).cpuWrite {} 0x2000 0x80).1.clock {}).cycle ≤ 340 :=
  ⟨PPU.Reachable.clock _ _ (PPU.Reachable.cpuWrite _ _ _ _ PPU.Reachable.init),
    (PPU.dot_range _
      (PPU.Reachable.clock _ _ (PPU.Reachable.cpuWrite _ _ _ _ PPU.Reachable.init))).1,
    (PPU.dot_range _
      (PPU.Reachable.clock _ _ (PPU.Reachable.cpuWrite _ _ _ _ PPU.Reachable.init))).2.2.2⟩

/-- `PPU::clock` off the pre-render line and off the visible lines is the tail alone. -/
theorem PPU.clock_blank (p : PPU) (cart : Cartridge) (h : 240 ≤ p.scanline) :
    p.clock cart = p.advance := by
  have n1 : ¬ (p.scanline = -1) := by omega
  unfold PPU.clock
  simp only [n1, false_and, if_false]
  rw [if_neg (by omega)]

/-- Bits 5, 6 and 7 of a byte masked with `0x1F` are clear. -/
theorem testBit_and_0x1F (v : Nat) :
    (v &&& 0x1F).testBit 5 = false ∧ (v &&& 0x1F).testBit 6 = false
    ∧ (v &&& 0x1F).testBit 7 = false := by
  refine ⟨?_, ?_, ?_⟩
  · rw [Nat.testBit_and, show (0x1F : Nat).testBit 5 = false from by decide, Bool.and_false]
  · rw [Nat.testBit_and, show (0x1F : Nat).testBit 6 = false from by decide, Bool.and_false]
  · rw [Nat.testBit_and, show (0x1F : Nat).testBit 7 = false from by decide, Bool.and_false]

/-- Bit 7 of a byte or-ed with `0x80` is set. -/
theorem testBit7_or_0x80 (v : Nat) : (v ||| 0x80).testBit 7 = true := by
  rw [Nat.testBit_or, show (0x80 : Nat).testBit 7 = true from by decide, Bool.or_true]

/-- PPUSTATUS and the sprite-0 latch after a `PPU::clock` on the pre-render line. -/
theorem PPU.clock_prerender (p : PPU) (cart : Cartridge) (hs : p.scanline = -1) :
    (p.clock cart).status = (if p.cycle = 1 then p.status &&& 0x1F else p.status)
    ∧ (p.clock cart).sprite0Hit = (if p.cycle = 1 then false else p.sprite0Hit) := by
  have n2 : ∀ q : PPU, q.scanline = -1 → ¬ (q.scanline ≥ 0 ∧ q.scanline < 240) := by
    intro q hq; omega
  have n3 : ∀ q : PPU, q.scanline = -1 → ¬ (q.scanline = 241 ∧ q.cycle = 1) := by
    intro q hq; omega
  have d := (PPU.preRender_dot p cart ((p.mask &&& 0x18) != 0)).1
  unfold PPU.clock
  simp only [hs, true_and, if_true]
  split
  · exact ⟨(PPU.preRender_regs p cart _).2.2.1, (PPU.preRender_regs p cart _).2.2.2⟩
  · split
    · rw [if_neg (n2 _ (by show (p.preRender cart _).scanline = -1; rw [d, hs]))]
      obtain ⟨-, -, a3, a4, -⟩ := PPU.advance_regs
        { p.preRender cart ((p.mask &&& 0x18) != 0) with oddFrame := !p.oddFrame }
      rw [a3, a4, if_neg (n3 _ (by show (p.preRender cart _).scanline = -1; rw [d, hs]))]
      exact ⟨(PPU.preRender_regs p cart _).2.2.1, (PPU.preRender_regs p cart _).2.2.2⟩
    · rw [if_neg (n2 _ (by rw [d, hs]))]
      obtain ⟨-, -, a3, a4, -⟩ := PPU.advance_regs (p.preRender cart ((p.mask &&& 0x18) != 0))
      rw [a3, a4, if_neg (n3 _ (by rw [d, hs]))]
      exact ⟨(PPU.preRender_regs p cart _).2.2.1, (PPU.preRender_regs p cart _).2.2.2⟩

/-- Bit 7 of PPUSTATUS after a `PPU::clock` on a visible line. -/
theorem PPU.clock_visible (p : PPU) (cart : Cartridge) (h0 : 0 ≤ p.scanline)
    (h1 : p.scanline < 240) :
    (p.clock cart).status.testBit 7 = p.status.testBit 7 := by
  have n1 : ¬ (p.scanline = -1) := by omega
  unfold PPU.clock
  simp only [n1, false_and, if_false]
  rw [if_pos ⟨h0, h1⟩]
  obtain ⟨-, -, -, a4, -⟩ := PPU.advance_regs (p.visible cart ((p.mask &&& 0x18) != 0))
  rw [a4, if_neg, (PPU.visible_regs p cart _).2.2]
  rw [(PPU.visible_dot p cart _).1]
  omega

/-- C21. VBlank flag timing: `clock()` at (241, 1) sets bit 7 of PPUSTATUS and the
frame-ready flag and raises NMI when the NMI enable is set, which in a state where the
enable mirrors PPUCTRL bit 7 (every reachable state) is when PPUCTRL bit 7 is set;
`clock()` at (-1, 1) clears bits 5, 6, 7 of PPUSTATUS and the sprite-0-hit latch;
`clock()` at any other (scanline, cycle) leaves bit 7 of PPUSTATUS as it was. -/
theorem PPU.vblank_timing (p : PPU) (cart : Cartridge) :
    (p.scanline = 241 → p.cycle = 1 →
      (p.clock cart).status = p.status ||| 0x80
      ∧ (p.clock cart).status.testBit 7 = true
      ∧ (p.clock cart).frameReady = true
      ∧ (p.nmiOutput = true → (p.clock cart).nmiOccurred = true)
      ∧ (p.nmiOutput = ((p.ctrl &&& 0x80) != 0) → p.ctrl &&& 0x80 ≠ 0 →
          (p.clock cart).nmiOccurred = true))
    ∧ (p.scanline = -1 → p.cycle = 1 →
      (p.clock cart).status = p.status &&& 0x1F
      ∧ (p.clock cart).status.testBit 5 = false
      ∧ (p.clock cart).status.testBit 6 = false
      ∧ (p.clock cart).status.testBit 7 = false
      ∧ (p.clock cart).sprite0Hit = false)
    ∧ (¬ (p.scanline = 241 ∧ p.cycle = 1) → ¬ (p.scanline = -1 ∧ p.cycle = 1) →
      (p.clock cart).status.testBit 7 = p.status.testBit 7) := by
  refine ⟨fun hs hc => ?_, fun hs hc => ?_, fun h1 h2 => ?_⟩
  · have e := PPU.clock_blank p cart (by omega)
    obtain ⟨-, -, -, a4, a5⟩ := PPU.advance_regs p
    obtain ⟨a6, a7⟩ := a5 ⟨hs, hc⟩
    have hn : p.nmiOutput = true → (p.clock cart).nmiOccurred = true := by
      intro ho
      obtain ⟨v1, v2⟩ := PPU.clock_vblank p cart hs hc ho
      unfold PPU.nmiOccurred
      rw [v1, v2]
      rfl
    rw [e, a4, if_pos ⟨hs, hc⟩]
    refine ⟨rfl, testBit7_or_0x80 _, a6, fun ho => e ▸ hn ho, fun hi hb => e ▸ hn ?_⟩
    rw [hi]
    simpa using hb
  · obtain ⟨a1, a2⟩ := PPU.clock_prerender p cart hs
    rw [a1, a2, if_pos hc, if_pos hc]
    obtain ⟨b5, b6, b7⟩ := testBit_and_0x1F p.status
    exact ⟨rfl, b5, b6, b7, rfl⟩
  · by_cases hs : p.scanline = -1
    · rw [(PPU.clock_prerender p cart hs).1, if_neg (fun hc => h2 ⟨hs, hc⟩)]
    · by_cases hv : 0 ≤ p.scanline ∧ p.scanline < 240
      · exact PPU.clock_visible p cart hv.1 hv.2
      · by_cases hb : 240 ≤ p.scanline
        · rw [PPU.clock_blank p cart hb, (PPU.advance_regs p).2.2.2.1, if_neg h1]
        · have hl : p.scanline < -1 := by omega
          have n1 : ¬ (p.scanline = -1) := by omega
          unfold PPU.clock
          simp only [n1, false_and, if_false]
          rw [if_neg (by omega), (PPU.advance_regs p).2.2.2.1, if_neg h1]

/-- At (241, 1) with PPUCTRL = `0x80` the clock sets VBlank and raises NMI; at (-1, 1) it
clears a PPUSTATUS of `0xE0`. -/
theorem PPU.vblank_timing_witness :
    ((({ scanline := 241, cycle := 1, ctrl := 0x80, nmiOutput := true } : PPU).clock
        {}).nmiOccurred = true)
    ∧ (({ scanline := -1, cycle := 1, status := 0xE0 } : PPU).clock {}).status = 0 :=
  ⟨(((PPU.vblank_timing { scanline := 241, cycle := 1, ctrl := 0x80, nmiOutput := true }
      {}).1 rfl rfl).2.2.2.2) rfl (by decide),
    ((PPU.vblank_timing { scanline := -1, cycle := 1, status := 0xE0 } {}).2.1 rfl rfl).1⟩

/-! ### Sample ring indices -/

/-- A register write leaves the ring indices alone. -/
theorem APU.cpuWrite_ring (a : APU) (addr val : Nat) :
    (a.cpuWrite addr val).sampleWritePos = a.sampleWritePos
    ∧ (a.cpuWrite addr val).sampleReadPos = a.sampleReadPos := by
  unfold APU.cpuWrite
  split <;> try exact ⟨rfl, rfl⟩
  simp only
  split <;> simp [APU.clockQuarterFrame, APU.clockHalfFrame]

/-- A register read leaves the ring indices alone. -/
theorem APU.cpuRead_ring (a : APU) (addr : Nat) :
    (a.cpuRead addr).2.sampleWritePos = a.sampleWritePos
    ∧ (a.cpuRead addr).2.sampleReadPos = a.sampleReadPos := by
  unfold APU.cpuRead
  split <;> exact ⟨rfl, rfl⟩

/-- The frame counter step leaves the ring indices alone. -/
theorem APU.frameStep_ring (a : APU) :
    a.frameStep.sampleWritePos = a.sampleWritePos
    ∧ a.frameStep.sampleReadPos = a.sampleReadPos := by
  unfold APU.frameStep
  split <;> split <;> simp [APU.clockQuarterFrame, APU.clockHalfFrame]

/-- `APU::clock` advances the write index modulo the ring size when it emits a sample and
never moves the read index. -/
theorem APU.clock_ring (a : APU) (emit : Bool) :
    (a.clock emit).sampleWritePos
        = (if emit then (a.sampleWritePos + 1).tmod APU.BUFFER_SIZE else a.sampleWritePos)
    ∧ (a.clock emit).sampleReadPos = a.sampleReadPos := by
  unfold APU.clock
  simp only
  by_cases h : a.cpuClock % 2 = 0
  · simp only [h, if_true]
    split <;> simp [APU.frameStep_ring]
  · simp only [h, if_false]
    split <;> simp

/-- The successor of a ring index, reduced modulo the ring size, is a ring index. -/
theorem APU.ring_next (i : Int) (h0 : 0 ≤ i) (_h1 : i < 8192) :
    0 ≤ (i + 1).tmod APU.BUFFER_SIZE ∧ (i + 1).tmod APU.BUFFER_SIZE < 8192 := by
  unfold APU.BUFFER_SIZE
  rw [Int.tmod_eq_emod (by omega) (by omega)]
  omega

/-- One loop iteration of `fillBuffer` keeps the write index and keeps the read index in
the ring. -/
theorem APU.fillStep_ring (a : APU) (h0 : 0 ≤ a.sampleReadPos) (h1 : a.sampleReadPos < 8192) :
    a.fillStep.sampleWritePos = a.sampleWritePos
    ∧ 0 ≤ a.fillStep.sampleReadPos ∧ a.fillStep.sampleReadPos < 8192 := by
  unfold APU.fillStep
  split
  · exact ⟨rfl, APU.ring_next _ h0 h1⟩
  · exact ⟨rfl, h0, h1⟩

/-- `fillBuffer` keeps the write index and keeps the read index in the ring. -/
theorem APU.fillBuffer_ring (a : APU) (n : Int) (h0 : 0 ≤ a.sampleReadPos)
    (h1 : a.sampleReadPos < 8192) :
    (a.fillBuffer n).sampleWritePos = a.sampleWritePos
    ∧ 0 ≤ (a.fillBuffer n).sampleReadPos ∧ (a.fillBuffer n).sampleReadPos < 8192 := by
  unfold APU.fillBuffer
  induction n.toNat with
  | zero => exact ⟨rfl, h0, h1⟩
  | succ k ih =>
    rw [Function.iterate_succ_apply']
    obtain ⟨e, i0, i1⟩ := ih
    obtain ⟨f, j0, j1⟩ := APU.fillStep_ring _ i0 i1
    exact ⟨f.trans e, j0, j1⟩

/-- C23. Sample ring indices: in every APU state reachable from the constructed APU by
`clock()` and `fillBuffer(out, n)` calls (and register writes and reads),
`0 ≤ sampleWritePos < 8192` and `0 ≤ sampleReadPos < 8192`. -/
theorem APU.ring_index_range (a : APU) (h : APU.Played a) :
    (0 ≤ a.sampleWritePos ∧ a.sampleWritePos < 8192)
    ∧ (0 ≤ a.sampleReadPos ∧ a.sampleReadPos < 8192) := by
  induction h with
  | init => decide
  | clock a emit _ ih =>
    obtain ⟨e1, e2⟩ := APU.clock_ring a emit
    rw [e1, e2]
    refine ⟨?_, ih.2⟩
    split
    · exact APU.ring_next _ ih.1.1 ih.1.2
    · exact ih.1
  | fillBuffer a n _ ih =>
    obtain ⟨e, j0, j1⟩ := APU.fillBuffer_ring a n ih.2.1 ih.2.2
    rw [e]
    exact ⟨ih.1, j0, j1⟩
  | cpuWrite a addr val _ ih =>
    obtain ⟨e1, e2⟩ := APU.cpuWrite_ring a addr val
    rw [e1, e2]; exact ih
  | cpuRead a addr _ ih =>
    obtain ⟨e1, e2⟩ := APU.cpuRead_ring a addr
    rw [e1, e2]; exact ih

/-- After one emitting clock and a `fillBuffer` call for four samples the state is
reachable, the write index is 1 and the read index has caught up with it. -/
theorem APU.ring_index_range_witness :
    APU.Played ((({} : APU).clock true).fillBuffer 4)
    ∧ ((({} : APU).clock true).fillBuffer 4).sampleWritePos = 1
    ∧ ((({} : APU).clock true).fillBuffer 4).sampleReadPos = 1
    ∧ ((({} : APU).clock true).fillBuffer 4).sampleReadPos < 8192 :=
  ⟨APU.Played.fillBuffer _ _ (APU.Played.clock _ _ APU.Played.init), by decide, by decide,
    (APU.ring_index_range _
      (APU.Played.fillBuffer _ _ (APU.Played.clock _ _ APU.Played.init))).2.2⟩

/-! ### The DMC level read by the mixer -/

/-- A write to one of the DMC registers `0x4010..0x4013` changes only the DMC level, and
only when the register is `0x4011`. -/
theorem APU.cpuWrite_dmc (a : APU) (addr val : Nat) (h1 : 0x4010 ≤ addr) (h2 : addr ≤ 0x4013) :
    a.cpuWrite addr val
      = (if addr = 0x4011 then { a with dmc := { a.dmc with output_level := val &&& 0x7F } }
          else a) := by
  have h : addr = 0x4010 ∨ addr = 0x4011 ∨ addr = 0x4012 ∨ addr = 0x4013 := by omega
  rcases h with h | h | h | h <;> subst h <;> rfl

/-- A `$4011` write of `0x40` to the constructed APU makes the mixer read DMC level 64. -/
theorem APU.dmc_level_example :
    (APU.writes [(0x4011, 0x40)] {}).mixInputs.2.2.2.2 = 64 := by
  decide

/-- C30 as stated fails: not every sequence of writes to `0x4010..0x4013` leaves the DMC
level read by the mixer at 0. -/
theorem APU.dmc_silent_counterexample :
    ¬ (∀ ws : List (Nat × Nat), (∀ w ∈ ws, 0x4010 ≤ w.1 ∧ w.1 ≤ 0x4013) →
        (APU.writes ws {}).mixInputs.2.2.2.2 = 0) := by
  intro h
  have h1 := h [(0x4011, 0x40)] (by decide)
  rw [APU.dmc_level_example] at h1
  exact absurd h1 (by decide)

/-- C30 (amended). The DMC level the mixer reads is 0 in the constructed APU; a write to
`0x4010`, `0x4012` or `0x4013` leaves all five mixer inputs as they were, and so does any
sequence of such writes; a write of `v` to `0x4011` sets the DMC level to `v AND 0x7F` and
leaves the other four inputs as they were. -/
theorem APU.dmc_level (a : APU) (v : Nat) :
    ({} : APU).mixInputs.2.2.2.2 = 0
    ∧ (∀ addr, 0x4010 ≤ addr → addr ≤ 0x4013 → addr ≠ 0x4011 →
        (a.cpuWrite addr v).mixInputs = a.mixInputs)
    ∧ (∀ ws : List (Nat × Nat), (∀ w ∈ ws, 0x4010 ≤ w.1 ∧ w.1 ≤ 0x4013 ∧ w.1 ≠ 0x4011) →
        (APU.writes ws a).mixInputs = a.mixInputs)
    ∧ (a.cpuWrite 0x4011 v).mixInputs
        = (a.mixInputs.1, a.mixInputs.2.1, a.mixInputs.2.2.1, a.mixInputs.2.2.2.1,
            v &&& 0x7F) := by
  have one : ∀ (b : APU) (addr val : Nat), 0x4010 ≤ addr → addr ≤ 0x4013 → addr ≠ 0x4011 →
      b.cpuWrite addr val = b := by
    intro b addr val h1 h2 h3
    rw [APU.cpuWrite_dmc b addr val h1 h2, if_neg h3]
  refine ⟨rfl, fun addr h1 h2 h3 => by rw [one a addr v h1 h2 h3], fun ws => ?_, rfl⟩
  induction ws generalizing a with
  | nil => intro _; rfl
  | cons w ws ih =>
    intro hw
    have hw1 := hw w (List.mem_cons_self _ _)
    unfold APU.writes
    rw [List.foldl_cons, one a w.1 w.2 hw1.1 hw1.2.1 hw1.2.2]
    exact ih a (fun x hx => hw x (List.mem_cons_of_mem _ hx))

/-- Writes to `$4010`, `$4012`, `$4013` leave the DMC level at the value a `$4011` write of
`0xFF` gave it, which is `0x7F`. -/
theorem APU.dmc_level_witness :
    (APU.writes [(0x4010, 0x0F), (0x4012, 0x55), (0x4013, 0xAA)]
        (({} : APU).cpuWrite 0x4011 0xFF)).mixInputs.2.2.2.2 = 0x7F := by
  rw [(APU.dmc_level (({} : APU).cpuWrite 0x4011 0xFF) 0).2.2.1 _ (by decide)]
  decide

/-! ### The 4-step frame sequencer -/

/-- The quarter-frame clock leaves the sequencer registers alone. -/
theorem APU.clockQuarterFrame_seq (a : APU) :
    a.clockQuarterFrame.frameCounterMode = a.frameCounterMode
    ∧ a.clockQuarterFrame.frameClock = a.frameClock
    ∧ a.clockQuarterFrame.frameIRQ = a.frameIRQ
    ∧ a.clockQuarterFrame.inhibitIRQ = a.inhibitIRQ :=
  ⟨rfl, rfl, rfl, rfl⟩

/-- The half-frame clock leaves the sequencer registers alone. -/
theorem APU.clockHalfFrame_seq (a : APU) :
    a.clockHalfFrame.frameCounterMode = a.frameCounterMode
    ∧ a.clockHalfFrame.frameClock = a.frameClock
    ∧ a.clockHalfFrame.frameIRQ = a.frameIRQ
    ∧ a.clockHalfFrame.inhibitIRQ = a.inhibitIRQ :=
  ⟨rfl, rfl, rfl, rfl⟩

/-- The `switch (frameClock)` of the 4-step sequence as a chain of tests. -/
theorem APU.frameStep_four (a : APU) (hm : a.frameCounterMode = 0) :
    a.frameStep
      = (if a.frameClock = 3729 ∨ a.frameClock = 11186 then a.clockQuarterFrame
        else if a.frameClock = 7457 then a.clockQuarterFrame.clockHalfFrame
        else if a.frameClock = 14915 then
          { a.clockQuarterFrame.clockHalfFrame with
            frameIRQ := if !a.inhibitIRQ then true else a.frameIRQ, frameClock := 0 }
        else a) := by
  unfold APU.frameStep
  rw [if_pos hm]
  split
  next h => rw [if_pos (Or.inl h)]
  next h => rw [if_neg (by omega), if_pos h]
  next h => rw [if_pos (Or.inr h)]
  next h => rw [if_neg (by omega), if_neg (by omega), if_pos h]; rfl
  next h1 h2 h3 h4 =>
    rw [if_neg (fun h => h.elim h1 h3), if_neg h2, if_neg h4]

/-- The frame counter step leaves the sample counters of `APU::clock` alone and changes the
channels only. -/
theorem APU.clock_odd (a : APU) (emit : Bool) (h : a.cpuClock % 2 = 1) :
    (a.clock emit).frameClock = a.frameClock ∧ (a.clock emit).frameIRQ = a.frameIRQ
    ∧ (a.clock emit).inhibitIRQ = a.inhibitIRQ
    ∧ (a.clock emit).frameCounterMode = a.frameCounterMode
    ∧ (a.clock emit).channels = (a.pulse1, a.pulse2, a.triangle.clockTimer, a.noise) := by
  unfold APU.clock
  have h0 : ¬ (a.cpuClock % 2 = 0) := by omega
  simp only [h0, if_false]
  split <;> exact ⟨rfl, rfl, rfl, rfl, rfl⟩

/-- On an even CPU tick `APU::clock` runs the timers, adds one to the frame counter and
takes the frame counter step; the sample bookkeeping after it touches neither the
sequencer registers nor the channels. -/
theorem APU.clock_even (a : APU) (emit : Bool) (h : a.cpuClock % 2 = 0) :
    (a.clock emit).frameClock
        = (APU.frameStep { a.timers with frameClock := a.frameClock + 1 }).frameClock
    ∧ (a.clock emit).frameIRQ
        = (APU.frameStep { a.timers with frameClock := a.frameClock + 1 }).frameIRQ
    ∧ (a.clock emit).inhibitIRQ
        = (APU.frameStep { a.timers with frameClock := a.frameClock + 1 }).inhibitIRQ
    ∧ (a.clock emit).frameCounterMode
        = (APU.frameStep { a.timers with frameClock := a.frameClock + 1 }).frameCounterMode
    ∧ (a.clock emit).channels
        = (APU.frameStep { a.timers with frameClock := a.frameClock + 1 }).channels := by
  unfold APU.clock
  simp only [h, if_true]
  split <;> exact ⟨rfl, rfl, rfl, rfl, rfl⟩

/-- The sequencer registers and the channels after `APU::clock` on an even CPU tick in
4-step mode, by the value `c` the frame counter reaches. -/
theorem APU.clock_even_four (a : APU) (emit : Bool) (hm : a.frameCounterMode = 0)
    (h : a.cpuClock % 2 = 0) :
    (a.clock emit).frameClock = (if a.frameClock + 1 = 14915 then 0 else a.frameClock + 1)
    ∧ (a.clock emit).frameIRQ
        = (if a.frameClock + 1 = 14915 ∧ a.inhibitIRQ = false then true else a.frameIRQ)
    ∧ (a.clock emit).inhibitIRQ = a.inhibitIRQ
    ∧ (a.clock emit).frameCounterMode = 0
    ∧ (a.clock emit).channels
        = (if a.frameClock + 1 = 3729 ∨ a.frameClock + 1 = 11186 then
            a.timers.clockQuarterFrame.channels
          else if a.frameClock + 1 = 7457 ∨ a.frameClock + 1 = 14915 then
            a.timers.clockQuarterFrame.clockHalfFrame.channels
          else a.timers.channels) := by
  obtain ⟨e1, e2, e3, e4, e5⟩ := APU.clock_even a emit h
  rw [e1, e2, e3, e4, e5, APU.frameStep_four _ (by exact hm)]
  simp only
  by_cases c1 : a.frameClock + 1 = 3729 ∨ a.frameClock + 1 = 11186
  · rw [if_pos c1, if_neg (by omega), if_neg (by omega), if_pos c1]
    exact ⟨rfl, rfl, rfl, hm, rfl⟩
  · rw [if_neg c1, if_neg c1]
    by_cases c2 : a.frameClock + 1 = 7457
    · rw [if_pos c2, if_neg (by omega), if_neg (by omega), if_pos (Or.inl c2)]
      exact ⟨rfl, rfl, rfl, hm, rfl⟩
    · rw [if_neg c2]
      by_cases c3 : a.frameClock + 1 = 14915
      · rw [if_pos c3, if_pos c3, if_pos (Or.inr c3)]
        refine ⟨rfl, ?_, rfl, hm, rfl⟩
        show (if (!a.inhibitIRQ) = true then true else a.frameIRQ)
          = (if a.frameClock + 1 = 14915 ∧ a.inhibitIRQ = false then true else a.frameIRQ)
        cases hi : a.inhibitIRQ
        · rw [if_pos (by decide), if_pos ⟨c3, rfl⟩]
        · rw [if_neg (by decide), if_neg (fun x => absurd x.2 (by decide))]
      · rw [if_neg c3, if_neg c3, if_neg (fun x => c3 x.1), if_neg (by omega)]
        exact ⟨rfl, rfl, rfl, hm, rfl⟩

/-- The wrap of the frame counter at 14915 is a successor modulo 14915. -/
theorem APU.frameClock_wrap (k : Nat) :
    (if ((k % 14915 : Nat) : Int) + 1 = 14915 then (0 : Int) else ((k % 14915 : Nat) : Int) + 1)
      = (((k + 1) % 14915 : Nat) : Int) := by
  split <;> omega

/-- From frame counter 0 on an even CPU tick in 4-step mode, after `n` clocks without
register writes the counter is `⌈n / 2⌉ mod 14915`: it advances on every second clock. -/
theorem APU.clocks_four (a : APU) (emits : Nat → Bool) (hm : a.frameCounterMode = 0)
    (h0 : a.frameClock = 0) (hc : a.cpuClock % 2 = 0) (n : Nat) :
    (APU.clocks emits n a).cpuClock = a.cpuClock + n
    ∧ (APU.clocks emits n a).frameCounterMode = 0
    ∧ (APU.clocks emits n a).frameClock = (((n + 1) / 2 % 14915 : Nat) : Int) := by
  induction n with
  | zero => exact ⟨rfl, hm, h0⟩
  | succ n ih =>
    obtain ⟨i1, i2, i3⟩ := ih
    show ((APU.clocks emits n a).clock (emits n)).cpuClock = _
      ∧ ((APU.clocks emits n a).clock (emits n)).frameCounterMode = 0
      ∧ ((APU.clocks emits n a).clock (emits n)).frameClock = _
    rw [APU.clock_cpuClock, i1]
    refine ⟨by omega, ?_⟩
    by_cases hp : n % 2 = 0
    · obtain ⟨e1, -, -, e4, -⟩ := APU.clock_even_four (APU.clocks emits n a) (emits n) i2
        (by rw [i1]; omega)
      rw [e1, e4, i3, APU.frameClock_wrap]
      refine ⟨rfl, ?_⟩
      have : (n + 1) / 2 + 1 = (n + 1 + 1) / 2 := by omega
      rw [this]
    · obtain ⟨e1, -, -, e4, -⟩ := APU.clock_odd (APU.clocks emits n a) (emits n)
        (by rw [i1]; omega)
      rw [e1, e4, i3]
      refine ⟨i2, ?_⟩
      have : (n + 1) / 2 = (n + 1 + 1) / 2 := by omega
      rw [this]

/-- The sequencer registers across a register write: a write other than `$4017` leaves
them alone, and a `$4017` write with the inhibit bit clears the frame-IRQ flag. -/
theorem APU.cpuWrite_inhibit (a : APU) (addr val : Nat)
    (h : a.inhibitIRQ = true → a.frameIRQ = false) :
    (a.cpuWrite addr val).inhibitIRQ = true → (a.cpuWrite addr val).frameIRQ = false := by
  unfold APU.cpuWrite
  split <;> try exact h
  simp only
  split
  · intro hi
    have hi2 : ((val &&& 0x40) != 0) = true := hi
    show (if ((val &&& 0x40) != 0) = true then false else a.frameIRQ) = false
    rw [if_pos hi2]
  · intro hi
    have hi2 : ((val &&& 0x40) != 0) = true := hi
    show (if ((val &&& 0x40) != 0) = true then false else a.frameIRQ) = false
    rw [if_pos hi2]

/-- The frame counter step keeps the inhibit flag and sets the frame-IRQ flag only when
the inhibit flag is clear. -/
theorem APU.frameStep_inhibit (a : APU) (h : a.inhibitIRQ = true → a.frameIRQ = false) :
    a.frameStep.inhibitIRQ = true → a.frameStep.frameIRQ = false := by
  unfold APU.frameStep
  split
  · split
    any_goals exact h
    intro hi
    have hi2 : a.inhibitIRQ = true := hi
    show (if (!a.inhibitIRQ) = true then true else a.frameIRQ) = false
    rw [hi2]
    exact h hi2
  · split <;> exact h

/-- In every reachable APU state the frame-IRQ flag is clear while IRQ inhibit is set. -/
theorem APU.reachable_inhibit (a : APU) (h : APU.Reachable a) :
    a.inhibitIRQ = true → a.frameIRQ = false := by
  induction h with
  | init => intro h; exact absurd h (by decide)
  | clock a emit _ ih =>
    by_cases hp : a.cpuClock % 2 = 0
    · obtain ⟨-, e2, e3, -, -⟩ := APU.clock_even a emit hp
      rw [e2, e3]
      exact APU.frameStep_inhibit _ ih
    · obtain ⟨-, e2, e3, -, -⟩ := APU.clock_odd a emit (by omega)
      rw [e2, e3]
      exact ih
  | cpuWrite a addr val _ ih => exact APU.cpuWrite_inhibit a addr val ih
  | cpuRead a addr _ ih =>
    unfold APU.cpuRead
    split
    · intro _; rfl
    · exact ih

/-- C29. The 4-step frame sequencer: in 4-step mode the step counter is untouched on an
odd CPU tick and advances by one on an even one, so from 0 it is `⌈n / 2⌉ mod 14915`
after `n` clocks; the clock that brings it to 3729 or 11186 applies the quarter-frame
clock to the channels, the one that brings it to 7457 or 14915 the quarter-frame and then
the half-frame clock, and every other clock applies neither; on reaching 14915 the counter
returns to 0 and the frame-IRQ flag is set when IRQ inhibit is clear and kept otherwise,
which, in a state where inhibit implies a clear flag (every reachable state), makes the
flag set exactly when inhibit is clear. -/
theorem APU.four_step_sequencer (a : APU) (emit : Bool) (hm : a.frameCounterMode = 0) :
    (a.cpuClock % 2 = 1 →
      (a.clock emit).frameClock = a.frameClock ∧ (a.clock emit).frameIRQ = a.frameIRQ
      ∧ (a.clock emit).channels = (a.pulse1, a.pulse2, a.triangle.clockTimer, a.noise))
    ∧ (a.cpuClock % 2 = 0 →
      (a.clock emit).frameClock = (if a.frameClock + 1 = 14915 then 0 else a.frameClock + 1)
      ∧ (a.clock emit).frameIRQ
          = (if a.frameClock + 1 = 14915 ∧ a.inhibitIRQ = false then true else a.frameIRQ)
      ∧ ((a.inhibitIRQ = true → a.frameIRQ = false) → a.frameClock + 1 = 14915 →
          ((a.clock emit).frameIRQ = true ↔ a.inhibitIRQ = false))
      ∧ (a.clock emit).channels
          = (if a.frameClock + 1 = 3729 ∨ a.frameClock + 1 = 11186 then
              a.timers.clockQuarterFrame.channels
            else if a.frameClock + 1 = 7457 ∨ a.frameClock + 1 = 14915 then
              a.timers.clockQuarterFrame.clockHalfFrame.channels
            else a.timers.channels))
    ∧ (a.frameClock = 0 → a.cpuClock % 2 = 0 → ∀ (emits : Nat → Bool) (n : Nat),
        (APU.clocks emits n a).cpuClock = a.cpuClock + n
        ∧ (APU.clocks emits n a).frameCounterMode = 0
        ∧ (APU.clocks emits n a).frameClock = (((n + 1) / 2 % 14915 : Nat) : Int)) := by
  refine ⟨fun h => ?_, fun h => ?_, fun h0 hc emits n => APU.clocks_four a emits hm h0 hc n⟩
  · obtain ⟨e1, e2, -, -, e5⟩ := APU.clock_odd a emit h
    exact ⟨e1, e2, e5⟩
  · obtain ⟨e1, e2, -, -, e5⟩ := APU.clock_even_four a emit hm h
    refine ⟨e1, e2, fun hinv hc => ?_, e5⟩
    rw [e2]
    cases hi : a.inhibitIRQ
    · simp [hc]
    · simp [hinv hi]

/-- From the constructed APU the step counter is 3729 after 7457 clocks. -/
theorem APU.four_step_sequencer_witness :
    (APU.clocks (fun _ => false) 7457 {}).frameClock = 3729 := by
  have h := ((APU.four_step_sequencer {} false rfl).2.2 rfl rfl (fun _ => false) 7457).2.2
  rw [h]
  decide

/-! ### Nametable mirroring -/

/-- Flipping bit `k` of a number keeps the bits below `k` and the bits above `k` and
changes bit `k`. -/
theorem xor_bit (a k : Nat) :
    (a ^^^ 2 ^ k) % 2 ^ k = a % 2 ^ k
    ∧ (a ^^^ 2 ^ k) / 2 ^ (k + 1) = a / 2 ^ (k + 1)
    ∧ (a ^^^ 2 ^ k) / 2 ^ k % 2 ≠ a / 2 ^ k % 2 := by
  refine ⟨?_, ?_, ?_⟩
  · apply Nat.eq_of_testBit_eq
    intro i
    simp only [Nat.testBit_mod_two_pow, Nat.testBit_xor, Nat.testBit_two_pow]
    by_cases hi : i < k
    · have : ¬ (k = i) := by omega
      simp [hi, this]
    · simp [hi]
  · rw [← Nat.shiftRight_eq_div_pow, ← Nat.shiftRight_eq_div_pow]
    apply Nat.eq_of_testBit_eq
    intro i
    simp only [Nat.testBit_shiftRight, Nat.testBit_xor, Nat.testBit_two_pow]
    have : ¬ (k = k + 1 + i) := by omega
    simp [this]
  · have h1 : (a ^^^ 2 ^ k).testBit k = !a.testBit k := by
      simp [Nat.testBit_xor, Nat.testBit_two_pow]
    rw [Nat.testBit_to_div_mod, Nat.testBit_to_div_mod] at h1
    intro h
    rw [h] at h1
    cases hd : decide (a / 2 ^ k % 2 = 1) <;> rw [hd] at h1 <;> exact absurd h1 (by decide)

/-- The index `mirrorNametable` computes, by mirroring mode, as arithmetic on the
address. -/
theorem PPU.mirrorNametable_eq (p : PPU) (cart : Cartridge) (addr : Nat) :
    p.mirrorNametable cart addr
      = (if p.cartConn = false then addr % 0x800
        else match cart.mirrorMode with
          | MirrorMode.Vertical => addr % 0x800
          | MirrorMode.Horizontal => (addr % 0x1000 / 0x800) * 0x400 + addr % 0x400
          | MirrorMode.FourScreen => addr % 0x1000) := by
  have e1 : ∀ x : Nat, x &&& 0x0FFF = x % 0x1000 := fun x => Nat.and_pow_two_sub_one_eq_mod x 12
  have e2 : ∀ x : Nat, x &&& 0x07FF = x % 0x800 := fun x => Nat.and_pow_two_sub_one_eq_mod x 11
  have e3 : ∀ x : Nat, x &&& 0x03FF = x % 0x400 := fun x => Nat.and_pow_two_sub_one_eq_mod x 10
  unfold PPU.mirrorNametable
  simp only [e1, e2, e3]
  cases hc : p.cartConn
  · simp
    omega
  · simp only [Bool.not_true, Bool.false_eq_true, if_false]
    cases cart.mirrorMode
    · show (addr % 0x1000 / 0x800) * 0x400 + addr % 0x1000 % 0x400
        = (addr % 0x1000 / 0x800) * 0x400 + addr % 0x400
      omega
    · show addr % 0x1000 % 0x800 = addr % 0x800
      omega
    · show addr % 0x1000 % 0x1000 = addr % 0x1000
      omega

/-- Without a cartridge, and with horizontal or vertical mirroring, the nametable index is
below 2048. -/
theorem PPU.mirrorNametable_lt (p : PPU) (cart : Cartridge) (addr : Nat)
    (h : p.cartConn = false ∨ cart.mirrorMode ≠ MirrorMode.FourScreen) :
    p.mirrorNametable cart addr < 2048 := by
  rw [PPU.mirrorNametable_eq]
  cases hc : p.cartConn
  · rw [if_pos rfl]
    omega
  · rw [if_neg (by decide)]
    rcases h with h | h
    · rw [hc] at h
      exact absurd h (by decide)
    · cases hm : cart.mirrorMode
      · show (addr % 0x1000 / 0x800) * 0x400 + addr % 0x400 < 2048
        omega
      · show addr % 0x800 < 2048
        omega
      · exact absurd hm h

/-- C37. A header with valid magic and the four-screen bit loads with mirroring mode
`FourScreen`; for the PPU address `0x2800` the index `mirrorNametable` computes is then
2048, one past the last cell of the 2048-byte nametable array. -/
theorem PPU.four_screen_index :
    (Cartridge.load {} Cartridge.fourScreenHeader []).isSome = true
    ∧ ((Cartridge.load {} Cartridge.fourScreenHeader []).getD {}).mirrorMode
        = MirrorMode.FourScreen
    ∧ PPU.mirrorNametable { cartConn := true }
        ((Cartridge.load {} Cartridge.fourScreenHeader []).getD {}) (0x2800 - 0x2000) = 2048
    ∧ ¬ (PPU.mirrorNametable { cartConn := true }
        ((Cartridge.load {} Cartridge.fourScreenHeader []).getD {}) (0x2800 - 0x2000) < 2048) := by
  refine ⟨rfl, rfl, ?_, ?_⟩ <;> decide

/-- A nametable read goes to the VRAM cell `mirrorNametable` selects. -/
theorem PPU.ppuRead_nametable (p : PPU) (cart : Cartridge) (a : Nat) (h1 : 0x2000 ≤ a)
    (h2 : a < 0x3F00) :
    p.ppuRead cart a = p.vram (p.mirrorNametable cart (a - 0x2000)) :=
  (PPU.nametable_access p cart a 0 h1 h2).1

/-- A nametable write stores into the VRAM cell `mirrorNametable` selects, and a later
nametable read with the same cartridge sees the store. -/
theorem PPU.ppuWrite_read (p : PPU) (cart : Cartridge) (a b v : Nat) (ha1 : 0x2000 ≤ a)
    (ha2 : a < 0x3F00) (hb1 : 0x2000 ≤ b) (hb2 : b < 0x3F00) :
    (p.ppuWrite cart a v).1.ppuRead cart b
      = (if p.mirrorNametable cart (b - 0x2000) = p.mirrorNametable cart (a - 0x2000) then v
          else p.ppuRead cart b) := by
  rw [(PPU.nametable_access p cart a v ha1 ha2).2, PPU.ppuRead_nametable _ _ b hb1 hb2,
    PPU.ppuRead_nametable _ _ b hb1 hb2]
  have e : ∀ x, PPU.mirrorNametable
      { p with vram := Function.update p.vram (p.mirrorNametable cart (a - 0x2000)) v } cart x
      = p.mirrorNametable cart x := fun _ => rfl
  rw [e]
  generalize p.mirrorNametable cart (b - 0x2000) = i
  generalize p.mirrorNametable cart (a - 0x2000) = j
  by_cases h : i = j
  · rw [if_pos h, h]
    exact Function.update_same _ _ _
  · rw [if_neg h]
    exact Function.update_noteq h _ _

/-- The nametable index for a PPU address at or above `0x2000`, under horizontal and under
vertical mirroring. -/
theorem PPU.mirror_index (p : PPU) (cart : Cartridge) (a : Nat) (hc : p.cartConn = true)
    (h1 : 0x2000 ≤ a) :
    (cart.mirrorMode = MirrorMode.Horizontal →
      p.mirrorNametable cart (a - 0x2000) = (a % 0x1000 / 0x800) * 0x400 + a % 0x400)
    ∧ (cart.mirrorMode = MirrorMode.Vertical →
      p.mirrorNametable cart (a - 0x2000) = a % 0x800)
    ∧ (cart.mirrorMode = MirrorMode.FourScreen →
      p.mirrorNametable cart (a - 0x2000) = a % 0x1000) := by
  rw [PPU.mirrorNametable_eq, if_neg (by rw [hc]; decide)]
  generalize hx : a - 0x2000 = x
  refine ⟨fun hm => ?_, fun hm => ?_, fun hm => ?_⟩
  · rw [hm]
    show (x % 0x1000 / 0x800) * 0x400 + x % 0x400 = _
    omega
  · rw [hm]
    show x % 0x800 = _
    omega
  · rw [hm]
    show x % 0x1000 = _
    omega

/-- Index arithmetic behind the aliases: an address that differs from `a` in bit 10 only
has the same horizontal index and another vertical index, and an address that differs in
bit 11 only has the same vertical index and another horizontal index. -/
theorem mirror_index_arith (a b c : Nat)
    (x1 : b % 1024 = a % 1024) (x2 : b / 2048 = a / 2048) (x3 : b / 1024 % 2 ≠ a / 1024 % 2)
    (y1 : c % 2048 = a % 2048) (y2 : c / 4096 = a / 4096) (y3 : c / 2048 % 2 ≠ a / 2048 % 2) :
    (b % 0x1000 / 0x800) * 0x400 + b % 0x400 = (a % 0x1000 / 0x800) * 0x400 + a % 0x400
    ∧ b % 0x800 ≠ a % 0x800
    ∧ c % 0x800 = a % 0x800
    ∧ (c % 0x1000 / 0x800) * 0x400 + c % 0x400 ≠ (a % 0x1000 / 0x800) * 0x400 + a % 0x400
    ∧ (0x2000 ≤ a → a ≤ 0x2FFF → 0x2000 ≤ b ∧ b ≤ 0x2FFF ∧ 0x2000 ≤ c ∧ c ≤ 0x2FFF) := by
  refine ⟨?_, ?_, ?_, ?_, ?_⟩ <;> omega

/-- C40. Nametable mirroring aliases: for `a` in `0x2000..0x2FFF`, after `ppuWrite(a, v)`
a read of `a XOR 0x0400` returns `v` under horizontal mirroring and a read of
`a XOR 0x0800` returns `v` under vertical mirroring, while the byte read at `a XOR 0x0800`
under horizontal and at `a XOR 0x0400` under vertical mirroring is what it was before the
write; and in every mode a read of `a + 0x1000`, when that is in `0x3000..0x3EFF`, returns
the byte a read of `a` returns. -/
theorem PPU.mirror_aliases (p : PPU) (cart : Cartridge) (a v : Nat) (hc : p.cartConn = true)
    (h1 : 0x2000 ≤ a) (h2 : a ≤ 0x2FFF) :
    (cart.mirrorMode = MirrorMode.Horizontal →
      (p.ppuWrite cart a v).1.ppuRead cart (a ^^^ 0x0400) = v
      ∧ (p.ppuWrite cart a v).1.ppuRead cart (a ^^^ 0x0800) = p.ppuRead cart (a ^^^ 0x0800))
    ∧ (cart.mirrorMode = MirrorMode.Vertical →
      (p.ppuWrite cart a v).1.ppuRead cart (a ^^^ 0x0800) = v
      ∧ (p.ppuWrite cart a v).1.ppuRead cart (a ^^^ 0x0400) = p.ppuRead cart (a ^^^ 0x0400))
    ∧ (a + 0x1000 ≤ 0x3EFF → p.ppuRead cart (a + 0x1000) = p.ppuRead cart a) := by
  obtain ⟨x1, x2, x3⟩ : (a ^^^ 0x0400) % 1024 = a % 1024 ∧ (a ^^^ 0x0400) / 2048 = a / 2048
      ∧ (a ^^^ 0x0400) / 1024 % 2 ≠ a / 1024 % 2 := xor_bit a 10
  obtain ⟨y1, y2, y3⟩ : (a ^^^ 0x0800) % 2048 = a % 2048 ∧ (a ^^^ 0x0800) / 4096 = a / 4096
      ∧ (a ^^^ 0x0800) / 2048 % 2 ≠ a / 2048 % 2 := xor_bit a 11
  generalize a ^^^ 0x0400 = b at x1 x2 x3 ⊢
  generalize a ^^^ 0x0800 = c at y1 y2 y3 ⊢
  obtain ⟨i1, i2, i3, i4, i5⟩ := mirror_index_arith a b c x1 x2 x3 y1 y2 y3
  obtain ⟨b1, b2, c1, c2⟩ := i5 h1 h2
  have ha : a < 0x3F00 := by omega
  have hb : b < 0x3F00 := by omega
  have hcc : c < 0x3F00 := by omega
  refine ⟨fun hm => ?_, fun hm => ?_, fun h3 => ?_⟩
  · rw [PPU.ppuWrite_read p cart a b v h1 ha b1 hb, PPU.ppuWrite_read p cart a c v h1 ha c1 hcc,
      (PPU.mirror_index p cart a hc h1).1 hm, (PPU.mirror_index p cart b hc b1).1 hm,
      (PPU.mirror_index p cart c hc c1).1 hm, if_pos i1, if_neg i4]
    exact ⟨rfl, rfl⟩
  · rw [PPU.ppuWrite_read p cart a b v h1 ha b1 hb, PPU.ppuWrite_read p cart a c v h1 ha c1 hcc,
      (PPU.mirror_index p cart a hc h1).2.1 hm, (PPU.mirror_index p cart b hc b1).2.1 hm,
      (PPU.mirror_index p cart c hc c1).2.1 hm, if_pos i3, if_neg i2]
    exact ⟨rfl, rfl⟩
  · have h4 : 0x2000 ≤ a + 0x1000 := by omega
    rw [PPU.ppuRead_nametable p cart _ h4 (by omega), PPU.ppuRead_nametable p cart a h1 ha]
    have e : p.mirrorNametable cart (a + 0x1000 - 0x2000)
        = p.mirrorNametable cart (a - 0x2000) := by
      generalize hd : a + 0x1000 = d at h4
      cases hm : cart.mirrorMode
      · rw [(PPU.mirror_index p cart a hc h1).1 hm, (PPU.mirror_index p cart d hc h4).1 hm]
        omega
      · rw [(PPU.mirror_index p cart a hc h1).2.1 hm, (PPU.mirror_index p cart d hc h4).2.1 hm]
        omega
      · rw [(PPU.mirror_index p cart a hc h1).2.2 hm, (PPU.mirror_index p cart d hc h4).2.2 hm]
        omega
    rw [e]

/-- Under horizontal mirroring a write of `0x5A` at `0x2005` is read back at `0x2405`. -/
theorem PPU.mirror_aliases_witness :
    (({ cartConn := true } : PPU).ppuWrite { mirrorMode := MirrorMode.Horizontal } 0x2005
        0x5A).1.ppuRead { mirrorMode := MirrorMode.Horizontal } 0x2405 = 0x5A :=
  ((PPU.mirror_aliases { cartConn := true } { mirrorMode := MirrorMode.Horizontal } 0x2005
    0x5A rfl (by decide) (by decide)).1 rfl).1

/-! ### `incrementY` on the fields of the VRAM address -/

/-- Masking with an `n`-bit field at bit `k` extracts that field in place. -/
theorem and_field (x n k : Nat) : x &&& ((2 ^ n - 1) <<< k) = (x / 2 ^ k % 2 ^ n) * 2 ^ k := by
  have : x &&& ((2 ^ n - 1) <<< k) = ((x >>> k) &&& (2 ^ n - 1)) <<< k := by
    apply Nat.eq_of_testBit_eq
    intro i
    simp only [Nat.testBit_and, Nat.testBit_shiftLeft, Nat.testBit_shiftRight,
      Nat.testBit_two_pow_sub_one]
    by_cases h : k ≤ i
    · simp [h, Nat.add_sub_cancel' h]
    · simp [h]
  rw [this, Nat.and_pow_two_sub_one_eq_mod, Nat.shiftRight_eq_div_pow, Nat.shiftLeft_eq]

/-- The coarse-Y field as arithmetic. -/
theorem PPU.coarseY_eq (v : Nat) : PPU.coarseY v = v / 32 % 32 := by
  unfold PPU.coarseY
  rw [show (0x03E0 : Nat) = (2 ^ 5 - 1) <<< 5 from rfl, and_field, Nat.shiftRight_eq_div_pow]
  omega

/-- The fine-Y field as arithmetic. -/
theorem PPU.fineY_eq (v : Nat) : PPU.fineY v = v / 4096 % 8 := by
  unfold PPU.fineY
  rw [show (0x07 : Nat) = 2 ^ 3 - 1 from rfl, Nat.and_pow_two_sub_one_eq_mod,
    Nat.shiftRight_eq_div_pow]

/-- Clearing the fine-Y field of a 15-bit address leaves its low 12 bits. -/
theorem and_8FFF (v : Nat) (h : v < 0x8000) : v &&& 0x8FFF = v % 4096 := by
  have e : v = v &&& 0x7FFF := (Nat.and_pow_two_sub_one_of_lt_two_pow (n := 15) h).symm
  rw [e, Nat.and_assoc, show (0x7FFF : Nat) &&& 0x8FFF = 2 ^ 12 - 1 from rfl,
    Nat.and_pow_two_sub_one_eq_mod, ← e]

/-- Replacing the coarse-Y field of a 12-bit value `u` by `c`. -/
theorem set_coarseY (u c : Nat) (hu : u < 4096) (hc : c < 32) :
    (u &&& 0xFC1F) ||| (c <<< 5) = 1024 * (u / 1024) + (32 * c + u % 32) := by
  have e : u = u &&& 0x0FFF := (Nat.and_pow_two_sub_one_of_lt_two_pow (n := 12) hu).symm
  have e1 : u &&& 0xFC1F = 2 ^ 10 * (u / 1024) ||| u % 32 := by
    rw [e, Nat.and_assoc, show (0x0FFF : Nat) &&& 0xFC1F = ((2 ^ 2 - 1) <<< 10) ||| (2 ^ 5 - 1)
      from rfl, ← e, Nat.and_or_distrib_left, and_field, Nat.and_pow_two_sub_one_eq_mod]
    have : u / 2 ^ 10 % 2 ^ 2 * 2 ^ 10 = 2 ^ 10 * (u / 1024) := by omega
    rw [this]
  have r : u % 32 < 2 ^ 5 := by omega
  have s : 2 ^ 5 * c + u % 32 < 2 ^ 10 := by omega
  rw [e1, Nat.shiftLeft_eq, Nat.or_assoc, Nat.or_comm (u % 32), Nat.mul_comm c,
    ← Nat.mul_add_lt_is_or r, ← Nat.mul_add_lt_is_or s]
  omega

/-- The address `incrementY` stores, as arithmetic on a 15-bit address `v`: `v + 4096` when
fine Y is below 7; otherwise the low 12 bits of `v` with coarse Y replaced, and bit 11
flipped when coarse Y was 29. -/
theorem PPU.incrementY_cases (p : PPU) (hv : p.vramAddr < 0x8000) :
    (p.vramAddr / 4096 % 8 ≠ 7 → p.incrementY.vramAddr = p.vramAddr + 4096)
    ∧ (p.vramAddr / 4096 % 8 = 7 → ∃ u c,
        p.incrementY.vramAddr = 1024 * (u / 1024) + (32 * c + u % 32) ∧ u < 4096 ∧ c < 32
        ∧ (p.vramAddr / 32 % 32 = 29 → c = 0 ∧ u % 2048 = p.vramAddr % 2048
            ∧ u / 2048 % 2 ≠ p.vramAddr / 2048 % 2)
        ∧ (p.vramAddr / 32 % 32 = 31 → c = 0 ∧ u = p.vramAddr % 4096)
        ∧ (p.vramAddr / 32 % 32 ≠ 29 → p.vramAddr / 32 % 32 ≠ 31 →
            c = p.vramAddr / 32 % 32 + 1 ∧ u = p.vramAddr % 4096)) := by
  have a : p.vramAddr &&& 0x7000 = (p.vramAddr / 4096 % 8) * 4096 := by
    rw [show (0x7000 : Nat) = (2 ^ 3 - 1) <<< 12 from rfl, and_field]
    omega
  have c0 : (p.vramAddr &&& 0x8FFF &&& 0x03E0) >>> 5 = p.vramAddr / 32 % 32 := by
    rw [and_8FFF _ hv]
    have := PPU.coarseY_eq (p.vramAddr % 4096)
    unfold PPU.coarseY at this
    rw [this]
    omega
  unfold PPU.incrementY
  rw [a]
  refine ⟨fun h => ?_, fun h => ?_⟩
  · rw [if_pos (by omega)]
    show (p.vramAddr + 0x1000) % 0x10000 = _
    omega
  · rw [if_neg (by omega)]
    simp only [c0]
    rw [and_8FFF _ hv]
    have hw : p.vramAddr % 4096 < 4096 := by omega
    by_cases h29 : p.vramAddr / 32 % 32 = 29
    · rw [if_pos h29]
      have hu : p.vramAddr % 4096 ^^^ 0x0800 < 2 ^ 12 := Nat.xor_lt_two_pow hw (by decide)
      obtain ⟨y1, -, y3⟩ : (p.vramAddr % 4096 ^^^ 0x0800) % 2048 = p.vramAddr % 4096 % 2048
        ∧ (p.vramAddr % 4096 ^^^ 0x0800) / 4096 = p.vramAddr % 4096 / 4096
        ∧ (p.vramAddr % 4096 ^^^ 0x0800) / 2048 % 2 ≠ p.vramAddr % 4096 / 2048 % 2 :=
        xor_bit (p.vramAddr % 4096) 11
      refine ⟨p.vramAddr % 4096 ^^^ 0x0800, 0, set_coarseY _ 0 hu (by decide), hu, by decide,
        fun _ => ⟨rfl, by omega, by omega⟩, fun h31 => by omega, fun hn => absurd h29 hn⟩
    · rw [if_neg h29]
      by_cases h31 : p.vramAddr / 32 % 32 = 31
      · rw [if_pos h31]
        exact ⟨p.vramAddr % 4096, 0, set_coarseY _ 0 hw (by decide), hw, by decide,
          fun h => absurd h h29, fun _ => ⟨rfl, rfl⟩, fun _ hn => absurd h31 hn⟩
      · rw [if_neg h31]
        exact ⟨p.vramAddr % 4096, p.vramAddr / 32 % 32 + 1,
          set_coarseY _ _ hw (by omega), hw, by omega,
          fun h => absurd h h29, fun h => absurd h h31, fun _ _ => ⟨rfl, rfl⟩⟩

/-- Two numbers with the same bit `k` (as arithmetic) have equal `testBit k`, and with
different bits opposite ones. -/
theorem testBit_of_div (x y k : Nat) :
    (x / 2 ^ k % 2 = y / 2 ^ k % 2 → x.testBit k = y.testBit k)
    ∧ (x / 2 ^ k % 2 ≠ y / 2 ^ k % 2 → x.testBit k = !y.testBit k) := by
  rw [Nat.testBit_to_div_mod, Nat.testBit_to_div_mod]
  have hx : x / 2 ^ k % 2 = 0 ∨ x / 2 ^ k % 2 = 1 := by omega
  have hy : y / 2 ^ k % 2 = 0 ∨ y / 2 ^ k % 2 = 1 := by omega
  rcases hx with hx | hx <;> rcases hy with hy | hy <;> simp [hx, hy]

/-- C33. `incrementY` on a 15-bit address `v`: when fine Y (bits 14..12) is below 7 it adds
1 to fine Y and leaves coarse Y and bit 11 alone; when fine Y is 7 it sets fine Y to 0 and
sets coarse Y (bits 9..5) to 0 with bit 11 flipped if coarse Y was 29, to 0 with bit 11
kept if it was 31, and to coarse Y + 1 with bit 11 kept otherwise; bits 4..0 and bit 10
never change, the result is a 15-bit address, and nothing else in the PPU changes. -/
theorem PPU.incrementY_fields (p : PPU) (hv : p.vramAddr < 0x8000) :
    p.incrementY.vramAddr < 0x8000
    ∧ p.incrementY = { p with vramAddr := p.incrementY.vramAddr }
    ∧ p.incrementY.vramAddr &&& 0x1F = p.vramAddr &&& 0x1F
    ∧ p.incrementY.vramAddr.testBit 10 = p.vramAddr.testBit 10
    ∧ (PPU.fineY p.vramAddr < 7 →
        PPU.fineY p.incrementY.vramAddr = PPU.fineY p.vramAddr + 1
        ∧ PPU.coarseY p.incrementY.vramAddr = PPU.coarseY p.vramAddr
        ∧ p.incrementY.vramAddr.testBit 11 = p.vramAddr.testBit 11)
    ∧ (PPU.fineY p.vramAddr = 7 →
        PPU.fineY p.incrementY.vramAddr = 0
        ∧ (PPU.coarseY p.vramAddr = 29 →
            PPU.coarseY p.incrementY.vramAddr = 0
            ∧ p.incrementY.vramAddr.testBit 11 = !p.vramAddr.testBit 11)
        ∧ (PPU.coarseY p.vramAddr = 31 →
            PPU.coarseY p.incrementY.vramAddr = 0
            ∧ p.incrementY.vramAddr.testBit 11 = p.vramAddr.testBit 11)
        ∧ (PPU.coarseY p.vramAddr ≠ 29 → PPU.coarseY p.vramAddr ≠ 31 →
            PPU.coarseY p.incrementY.vramAddr = PPU.coarseY p.vramAddr + 1
            ∧ p.incrementY.vramAddr.testBit 11 = p.vramAddr.testBit 11)) := by
  have hs : p.incrementY = { p with vramAddr := p.incrementY.vramAddr } := by
    unfold PPU.incrementY
    dsimp only
    split_ifs <;> rfl
  obtain ⟨k1, k2⟩ := PPU.incrementY_cases p hv
  refine ⟨?_, hs, ?_⟩
  · by_cases hf : p.vramAddr / 4096 % 8 = 7
    · obtain ⟨u, c, e, hu, hc, -⟩ := k2 hf
      omega
    · have e := k1 hf
      omega
  simp only [PPU.fineY_eq, PPU.coarseY_eq]
  rw [show (0x1F : Nat) = 2 ^ 5 - 1 from rfl, Nat.and_pow_two_sub_one_eq_mod,
    Nat.and_pow_two_sub_one_eq_mod]
  generalize p.incrementY.vramAddr = v' at k1 k2 ⊢
  generalize p.vramAddr = v at hv k1 k2 ⊢
  obtain ⟨t10a, -⟩ : (v' / 1024 % 2 = v / 1024 % 2 → v'.testBit 10 = v.testBit 10)
      ∧ (v' / 1024 % 2 ≠ v / 1024 % 2 → v'.testBit 10 = !v.testBit 10) := testBit_of_div v' v 10
  obtain ⟨t11a, t11b⟩ : (v' / 2048 % 2 = v / 2048 % 2 → v'.testBit 11 = v.testBit 11)
      ∧ (v' / 2048 % 2 ≠ v / 2048 % 2 → v'.testBit 11 = !v.testBit 11) := testBit_of_div v' v 11
  by_cases hf : v / 4096 % 8 = 7
  · obtain ⟨u, c, e, hu, hc, c29, c31, co⟩ := k2 hf
    refine ⟨by omega, t10a (by omega), fun h => by omega, fun _ =>
      ⟨by omega, fun h => ?_, fun h => ?_, fun h1 h2 => ?_⟩⟩
    · obtain ⟨z1, z2, z3⟩ := c29 h
      exact ⟨by omega, t11b (by omega)⟩
    · obtain ⟨z1, z2⟩ := c31 h
      exact ⟨by omega, t11a (by omega)⟩
    · obtain ⟨z1, z2⟩ := co h1 h2
      exact ⟨by omega, t11a (by omega)⟩
  · have e := k1 hf
    refine ⟨by omega, t10a (by omega), fun _ =>
      ⟨by omega, by omega, t11a (by omega)⟩, fun h => absurd h hf⟩

/-- From fine Y 7, coarse Y 29 in the top nametable row the address wraps to coarse Y 0 of
the other vertical nametable: `0x73A5` becomes `0x0805`. -/
theorem PPU.incrementY_fields_witness :
    (PPU.incrementY { vramAddr := 0x73A5 }).vramAddr < 0x8000
    ∧ PPU.coarseY (PPU.incrementY { vramAddr := 0x73A5 }).vramAddr = 0
    ∧ (PPU.incrementY { vramAddr := 0x73A5 }).vramAddr = 0x0805 := by
  have h := PPU.incrementY_fields { vramAddr := 0x73A5 } (by decide)
  exact ⟨h.1, ((h.2.2.2.2.2 (by decide)).2.1 (by decide)).1, by decide⟩

/-! ### Sprite evaluation -/

/-- One loop iteration of `evaluateSprites`: with fewer than eight sprites buffered and
record `i` in range, the record is appended to the buffer; otherwise nothing changes.  The
scanline, PPUCTRL and OAM are never changed. -/
theorem PPU.evaluateSprite_step (cart : Cartridge) (q : PPU) (i : Nat) :
    (q.spriteCount < 8 ∧ q.spriteInRange i = true →
      (PPU.evaluateSprite cart q i).spriteCount = q.spriteCount + 1
      ∧ (PPU.evaluateSprite cart q i).spriteLine
          = Function.update q.spriteLine q.spriteCount (q.oamSprite i)
      ∧ (PPU.evaluateSprite cart q i).sprite0OnLine
          = (if i = 0 then true else q.sprite0OnLine))
    ∧ (¬ (q.spriteCount < 8 ∧ q.spriteInRange i = true) → PPU.evaluateSprite cart q i = q)
    ∧ (PPU.evaluateSprite cart q i).scanline = q.scanline
    ∧ (PPU.evaluateSprite cart q i).ctrl = q.ctrl
    ∧ (PPU.evaluateSprite cart q i).oam = q.oam := by
  refine ⟨fun h => ?_, fun h => ?_, (PPU.evaluateSprite_dot cart q i).1,
    (PPU.evaluateSprite_regs cart q i).1, PPU.evaluateSprite_oam cart q i⟩
  · have h2 : q.scanline - (q.oam (i * 4) : Int) ≥ 0
        ∧ q.scanline - (q.oam (i * 4) : Int) < (if q.ctrl &&& 0x20 ≠ 0 then 16 else 8) :=
      of_decide_eq_true h.2
    unfold PPU.evaluateSprite
    rw [if_pos h.1]
    dsimp only
    rw [if_pos h2]
    exact ⟨rfl, rfl, rfl⟩
  · unfold PPU.evaluateSprite
    by_cases h1 : q.spriteCount < 8
    · have h2 : ¬ (q.scanline - (q.oam (i * 4) : Int) ≥ 0
          ∧ q.scanline - (q.oam (i * 4) : Int) < (if q.ctrl &&& 0x20 ≠ 0 then 16 else 8)) := by
        intro hh
        exact h ⟨h1, decide_eq_true hh⟩
      rw [if_pos h1]
      dsimp only
      rw [if_neg h2]
    · rw [if_neg h1]

/-- The range test and the record copy read only the scanline, PPUCTRL and OAM. -/
theorem PPU.spriteInRange_congr (p q : PPU) (h1 : q.scanline = p.scanline)
    (h2 : q.ctrl = p.ctrl) (h3 : q.oam = p.oam) (i : Nat) :
    q.spriteInRange i = p.spriteInRange i ∧ q.oamSprite i = p.oamSprite i := by
  unfold PPU.spriteInRange PPU.oamSprite
  rw [h1, h2, h3]
  exact ⟨rfl, rfl⟩

/-- The loop of `evaluateSprites` over a list `l` of record numbers, started with `n`
sprites buffered: the count grows by the number of records in range up to the limit 8,
the buffered sprites stay, the records in range are appended in order, and the
sprite-0-on-line flag is untouched when record 0 is not in `l`. -/
theorem PPU.evaluate_fold (cart : Cartridge) (p : PPU) (l : List Nat) :
    ∀ q : PPU, q.scanline = p.scanline → q.ctrl = p.ctrl → q.oam = p.oam →
      q.spriteCount ≤ 8 →
      (l.foldl (PPU.evaluateSprite cart) q).spriteCount
          = min 8 (q.spriteCount + (l.filter p.spriteInRange).length)
      ∧ (∀ k, k < q.spriteCount →
          (l.foldl (PPU.evaluateSprite cart) q).spriteLine k = q.spriteLine k)
      ∧ (∀ j i, (l.filter p.spriteInRange)[j]? = some i → q.spriteCount + j < 8 →
          (l.foldl (PPU.evaluateSprite cart) q).spriteLine (q.spriteCount + j)
            = p.oamSprite i)
      ∧ ((∀ i ∈ l, i ≠ 0) →
          (l.foldl (PPU.evaluateSprite cart) q).sprite0OnLine = q.sprite0OnLine) := by
  induction l with
  | nil =>
    intro q _ _ _ hc
    refine ⟨?_, fun _ _ => rfl, fun j i hj => ?_, fun _ => rfl⟩
    · show q.spriteCount = min 8 (q.spriteCount + 0)
      omega
    · simp at hj
  | cons a l ih =>
    intro q h1 h2 h3 hc
    obtain ⟨s1, s2, s3, s4, s5⟩ := PPU.evaluateSprite_step cart q a
    obtain ⟨g1, g2⟩ := PPU.spriteInRange_congr p q h1 h2 h3 a
    rw [List.foldl_cons]
    by_cases hit : p.spriteInRange a = true
    · rw [List.filter_cons_of_pos hit]
      by_cases hlt : q.spriteCount < 8
      · obtain ⟨t1, t2, t3⟩ := s1 ⟨hlt, by rw [g1]; exact hit⟩
        obtain ⟨i1, i2, i3, i4⟩ := ih (PPU.evaluateSprite cart q a) (s3.trans h1)
          (s4.trans h2) (s5.trans h3) (by omega)
        refine ⟨?_, fun k hk => ?_, fun j i hj hb => ?_, fun hn => ?_⟩
        · rw [i1, t1, List.length_cons]
          omega
        · rw [i2 k (by omega), t2]
          exact Function.update_noteq (by omega) _ _
        · cases j with
          | zero =>
            have hi : a = i := by simpa using hj
            rw [Nat.add_zero, i2 _ (by omega), t2, Function.update_same, g2, hi]
          | succ j =>
            have hj2 : (l.filter p.spriteInRange)[j]? = some i := by simpa using hj
            have := i3 j i hj2 (by omega)
            rw [t1] at this
            rw [← this]
            congr 1
            omega
        · rw [i4 (fun i hi => hn i (List.mem_cons_of_mem _ hi)), t3,
            if_neg (hn a (List.mem_cons_self _ _))]
      · have e := s2 (fun h => hlt h.1)
        rw [e]
        obtain ⟨i1, i2, i3, i4⟩ := ih q h1 h2 h3 hc
        refine ⟨?_, i2, fun j i _ hb => ?_, fun hn => i4 (fun i hi =>
          hn i (List.mem_cons_of_mem _ hi))⟩
        · rw [i1, List.length_cons]
          omega
        · omega
    · rw [List.filter_cons_of_neg hit]
      have e := s2 (fun h => hit (by rw [← g1]; exact h.2))
      rw [e]
      obtain ⟨i1, i2, i3, i4⟩ := ih q h1 h2 h3 hc
      exact ⟨i1, i2, i3, fun hn => i4 (fun i hi => hn i (List.mem_cons_of_mem _ hi))⟩

/-- The number of sprites buffered by `evaluateSprites`: the records in range, at most 8. -/
theorem PPU.evaluateSprites_count (p : PPU) (cart : Cartridge) :
    (p.evaluateSprites cart).spriteCount = min 8 p.spritesInRange.length := by
  obtain ⟨p0, e0⟩ : ∃ p0 : PPU, p0 = { p with spriteCount := 0, sprite0OnLine := false } :=
    ⟨_, rfl⟩
  have c0 : p0.spriteCount = 0 := by rw [e0]
  have he : p.evaluateSprites cart = (List.range 64).foldl (PPU.evaluateSprite cart) p0 := by
    rw [e0]
    rfl
  obtain ⟨i1, -⟩ := PPU.evaluate_fold cart p (List.range 64) p0 (by rw [e0]) (by rw [e0])
    (by rw [e0]) (by omega)
  rw [he, i1, c0, Nat.zero_add]
  rfl

/-- C34. Sprite evaluation selection: after `evaluateSprites` the sprite count is
`min(8, number of records i in 0..63 in range)`, where record `i` is in range when
`0 ≤ scanline - OAM[4i] < h` with `h` 16 or 8 by PPUCTRL bit 5; the `k`-th buffered sprite
(`k < 8`) is the `k`-th such record in increasing `i`, its `y`, `tile`, `attr`, `x` copied
from OAM; and the sprite-0-on-line flag is set iff record 0 is in range. -/
theorem PPU.evaluateSprites_selection (p : PPU) (cart : Cartridge) :
    (p.evaluateSprites cart).spriteCount = min 8 p.spritesInRange.length
    ∧ (∀ k i, p.spritesInRange[k]? = some i → k < 8 →
        (p.evaluateSprites cart).spriteLine k = p.oamSprite i)
    ∧ (p.evaluateSprites cart).sprite0OnLine = p.spriteInRange 0 := by
  obtain ⟨p0, e0⟩ : ∃ p0 : PPU, p0 = { p with spriteCount := 0, sprite0OnLine := false } :=
    ⟨_, rfl⟩
  have c0 : p0.spriteCount = 0 := by rw [e0]
  have f0 : p0.sprite0OnLine = false := by rw [e0]
  have a1 : p0.scanline = p.scanline := by rw [e0]
  have a2 : p0.ctrl = p.ctrl := by rw [e0]
  have a3 : p0.oam = p.oam := by rw [e0]
  have he : p.evaluateSprites cart = (List.range 64).foldl (PPU.evaluateSprite cart) p0 := by
    rw [e0]
    rfl
  rw [he]
  clear he e0
  obtain ⟨i1, -, i3, -⟩ := PPU.evaluate_fold cart p (List.range 64) p0 a1 a2 a3 (by omega)
  rw [c0, Nat.zero_add] at i1
  refine ⟨i1, fun k i hk hb => ?_, ?_⟩
  · have := i3 k i hk (by omega)
    rw [c0, Nat.zero_add] at this
    exact this
  · rw [List.range_succ_eq_map, List.foldl_cons]
    obtain ⟨s1, s2, s3, s4, s5⟩ := PPU.evaluateSprite_step cart p0 0
    obtain ⟨g1, -⟩ := PPU.spriteInRange_congr p p0 a1 a2 a3 0
    have hn : ∀ i ∈ List.map Nat.succ (List.range 63), i ≠ 0 := by
      intro i hi
      obtain ⟨j, -, rfl⟩ := List.mem_map.mp hi
      exact Nat.succ_ne_zero j
    by_cases hit : p.spriteInRange 0 = true
    · obtain ⟨t1, -, t3⟩ := s1 ⟨by omega, by rw [g1]; exact hit⟩
      obtain ⟨-, -, -, i4⟩ := PPU.evaluate_fold cart p (List.map Nat.succ (List.range 63))
        (PPU.evaluateSprite cart p0 0) (s3.trans a1) (s4.trans a2) (s5.trans a3) (by omega)
      rw [i4 hn, t3, hit, if_pos rfl]
    · have e := s2 (fun h => hit (by rw [← g1]; exact h.2))
      rw [e]
      obtain ⟨-, -, -, i4⟩ := PPU.evaluate_fold cart p (List.map Nat.succ (List.range 63))
        p0 a1 a2 a3 (by omega)
      rw [i4 hn, f0]
      cases hb : p.spriteInRange 0
      · rfl
      · exact absurd hb hit

/-- On scanline 10 with 8-pixel sprites, records at `y = 5` (record 1) and `y = 10`
(record 3) are in range and the others (`y = 0`) are not: two sprites are buffered,
record 1 first, and sprite 0 is not on the line. -/
theorem PPU.evaluateSprites_selection_witness :
    (({ scanline := 10, oam := fun i => if i = 4 then 5 else if i = 12 then 10 else 0 }
        : PPU).evaluateSprites {}).spriteCount = 2
    ∧ (({ scanline := 10, oam := fun i => if i = 4 then 5 else if i = 12 then 10 else 0 }
        : PPU).evaluateSprites {}).sprite0OnLine = false := by
  have h := PPU.evaluateSprites_selection
    { scanline := 10, oam := fun i => if i = 4 then 5 else if i = 12 then 10 else 0 } {}
  rw [h.1, h.2.2]
  decide

/-! ### The sprite list across a PPU clock -/

/-- `updateShifters` leaves the sprite list alone. -/
theorem PPU.updateShifters_sprites (p : PPU) : p.updateShifters.spriteList = p.spriteList := by
  unfold PPU.updateShifters; split <;> rfl

/-- `incrementX` leaves the sprite list alone. -/
theorem PPU.incrementX_sprites (p : PPU) : p.incrementX.spriteList = p.spriteList := by
  unfold PPU.incrementX; split <;> rfl

/-- `incrementY` leaves the sprite list alone. -/
theorem PPU.incrementY_sprites (p : PPU) : p.incrementY.spriteList = p.spriteList := by
  unfold PPU.incrementY PPU.spriteList
  simp only [apply_ite PPU.spriteCount, apply_ite PPU.spriteLine, apply_ite PPU.spriteShiftLo,
    apply_ite PPU.spriteShiftHi, apply_ite PPU.sprite0OnLine, ite_self]

/-- The background fetch leaves the sprite list alone. -/
theorem PPU.backgroundFetch_sprites (p : PPU) (cart : Cartridge) :
    (p.backgroundFetch cart).spriteList = p.spriteList := by
  unfold PPU.backgroundFetch
  simp only
  split
  all_goals first
    | exact PPU.updateShifters_sprites p
    | exact (PPU.incrementX_sprites _).trans (PPU.updateShifters_sprites p)

/-- `renderPixel` leaves the sprite list alone. -/
theorem PPU.renderPixel_sprites (p : PPU) (cart : Cartridge) :
    (p.renderPixel cart).spriteList = p.spriteList := by
  unfold PPU.renderPixel PPU.spriteList
  simp only [apply_ite PPU.spriteCount, apply_ite PPU.spriteLine, apply_ite PPU.spriteShiftLo,
    apply_ite PPU.spriteShiftHi, apply_ite PPU.sprite0OnLine, ite_self]

/-- The tail of `PPU::clock` leaves the sprite list alone. -/
theorem PPU.advance_sprites (p : PPU) : p.advance.spriteList = p.spriteList := by
  unfold PPU.advance PPU.spriteList
  simp only [apply_ite PPU.spriteCount, apply_ite PPU.spriteLine, apply_ite PPU.spriteShiftLo,
    apply_ite PPU.spriteShiftHi, apply_ite PPU.sprite0OnLine, ite_self]

/-- The pre-render work leaves the sprite list alone, at cycle 257 as at every other
cycle. -/
theorem PPU.preRender_sprites (p : PPU) (cart : Cartridge) (r : Bool) :
    (p.preRender cart r).spriteList = p.spriteList := by
  unfold PPU.preRender
  simp only [apply_ite PPU.spriteList, PPU.incrementY_sprites, PPU.backgroundFetch_sprites,
    ite_self]
  unfold PPU.spriteList PPU.transferX PPU.transferY
  simp only [apply_ite PPU.spriteCount, apply_ite PPU.spriteLine, apply_ite PPU.spriteShiftLo,
    apply_ite PPU.spriteShiftHi, apply_ite PPU.sprite0OnLine, ite_self]

/-- The visible-scanline work leaves the sprite list alone except at cycle 257 with
rendering enabled. -/
theorem PPU.visible_sprites (p : PPU) (cart : Cartridge) (r : Bool)
    (h : ¬ (p.cycle = 257 ∧ r = true)) :
    (p.visible cart r).spriteList = p.spriteList := by
  have c1 : ∀ q : PPU, (if q.cycle = 256 then q.incrementY else q).cycle = q.cycle := by
    intro q
    split
    · exact (PPU.incrementY_dot q).2.1
    · rfl
  have c2 : ∀ q : PPU, (if (q.cycle ≥ 1 ∧ q.cycle ≤ 256) ∨ (q.cycle ≥ 321 ∧ q.cycle ≤ 336)
      then q.backgroundFetch cart else q).cycle = q.cycle := by
    intro q
    split
    · exact (PPU.backgroundFetch_dot q cart).2.1
    · rfl
  unfold PPU.visible
  cases r
  · simp only [Bool.false_eq_true, if_false, apply_ite PPU.spriteList, PPU.renderPixel_sprites,
      ite_self]
  · have hc : ¬ (p.cycle = 257) := fun x => h ⟨x, rfl⟩
    simp only [if_true, apply_ite PPU.spriteList, PPU.renderPixel_sprites, ite_self]
    rw [if_neg (by rw [c1, c2]; exact hc)]
    simp only [apply_ite PPU.spriteList, PPU.incrementY_sprites, PPU.backgroundFetch_sprites,
      ite_self]

/-- `PPU::clock` changes the sprite list only on a visible scanline at cycle 257 with
rendering enabled. -/
theorem PPU.clock_sprites (p : PPU) (cart : Cartridge)
    (h : ¬ (0 ≤ p.scanline ∧ p.scanline < 240 ∧ p.cycle = 257 ∧ p.rendering = true)) :
    (p.clock cart).spriteList = p.spriteList := by
  unfold PPU.clock
  dsimp only
  by_cases hs : p.scanline = -1
  · have d := (PPU.preRender_dot p cart ((p.mask &&& 0x18) != 0)).1
    rw [if_pos hs]
    split
    · exact PPU.preRender_sprites p cart _
    · rw [PPU.advance_sprites]
      split
      · rw [if_neg (by show ¬ ((p.preRender cart _).scanline ≥ 0 ∧ _); rw [d, hs]; omega)]
        exact PPU.preRender_sprites p cart _
      · rw [if_neg (by rw [d, hs]; omega)]
        exact PPU.preRender_sprites p cart _
  · simp only [hs, false_and, if_false]
    rw [PPU.advance_sprites]
    split
    next hv =>
      exact PPU.visible_sprites p cart _ (fun x => h ⟨hv.1, hv.2, x.1, x.2⟩)
    next => rfl

/-- C35. On the pre-render line `PPU::clock` leaves the sprite list as it was at every
cycle, cycle 257 with rendering enabled included: the list is not evaluated there, so the
sprites drawn on scanline 0 are those buffered by the last evaluation before it. -/
theorem PPU.prerender_keeps_sprites (p : PPU) (cart : Cartridge) (hs : p.scanline = -1) :
    (p.clock cart).spriteList = p.spriteList :=
  PPU.clock_sprites p cart (fun x => by omega)

/-- With records 0, 1 and 2 at `y = 236` an evaluation on scanline 239 buffers three
sprites and one on the pre-render line would buffer none; on the pre-render line at cycle
257 with rendering enabled the list of three stays in place after the clock. -/
theorem PPU.prerender_keeps_sprites_witness :
    PPU.staleSprites.scanline = -1 ∧ PPU.staleSprites.cycle = 257
    ∧ PPU.staleSprites.rendering = true
    ∧ (PPU.evaluateSprites (PPU.transferX { PPU.staleSprites with scanline := 239 }) {}).spriteCount
        = 3
    ∧ (PPU.staleSprites.clock {}).spriteCount = 3
    ∧ (PPU.staleSprites.transferX.evaluateSprites {}).spriteCount = 0 := by
  have h := PPU.prerender_keeps_sprites PPU.staleSprites {} rfl
  have h1 : (PPU.staleSprites.clock {}).spriteCount = PPU.staleSprites.spriteCount :=
    congrArg Prod.fst h
  refine ⟨rfl, rfl, by decide, ?_, h1, ?_⟩
  · rw [PPU.evaluateSprites_count]
    decide
  · rw [PPU.evaluateSprites_count]
    decide

/-- From the dot after the sprite evaluation of scanline 239 until the evaluation of
scanline 0 at (0, 257) no clock changes the sprite list: as long as no earlier state of
the run was at (0, 257), the state after `n` clocks still holds the list of the start. -/
theorem PPU.sprites_until_line0 (cart : Cartridge) (p : PPU)
    (hp : p.scanline = 239 ∧ 258 ≤ p.cycle ∧ p.cycle ≤ 340) (n : Nat)
    (hn : ∀ k, k < n →
      ¬ ((PPU.clocks cart k p).scanline = 0 ∧ (PPU.clocks cart k p).cycle = 257)) :
    (PPU.clocks cart n p).spriteList = p.spriteList
    ∧ ((239 ≤ (PPU.clocks cart n p).scanline ∧ (PPU.clocks cart n p).scanline ≤ 260
        ∧ (239 < (PPU.clocks cart n p).scanline ∨ 258 ≤ (PPU.clocks cart n p).cycle))
      ∨ (PPU.clocks cart n p).scanline = -1
      ∨ ((PPU.clocks cart n p).scanline = 0 ∧ (PPU.clocks cart n p).cycle ≤ 257))
    ∧ 0 ≤ (PPU.clocks cart n p).cycle ∧ (PPU.clocks cart n p).cycle ≤ 340 := by
  induction n with
  | zero =>
    have e : PPU.clocks cart 0 p = p := rfl
    rw [e]
    exact ⟨rfl, Or.inl ⟨by omega, by omega, Or.inr hp.2.1⟩, by omega, hp.2.2⟩
  | succ n ih =>
    obtain ⟨i1, i2, i3, i4⟩ := ih (fun k hk => hn k (by omega))
    have hnot := hn n (by omega)
    have e : PPU.clocks cart (n + 1) p = (PPU.clocks cart n p).clock cart := rfl
    rw [e]
    generalize PPU.clocks cart n p = q at i1 i2 i3 i4 hnot ⊢
    refine ⟨(PPU.clock_sprites q cart (fun x => by omega)).trans i1, ?_⟩
    by_cases hk : q.scanline = -1 ∧ q.cycle = 339 ∧ ((q.mask &&& 0x18) != 0) = true
        ∧ q.oddFrame = true
    · obtain ⟨e1, e2, -⟩ := PPU.clock_skip q cart hk.1 hk.2.1 hk.2.2.1 hk.2.2.2
      rw [e1, e2]
      omega
    · obtain ⟨e1, e2, -⟩ := PPU.clock_next q cart hk
      rw [e1, e2]
      split_ifs <;> omega

/-! ### Instruction duration -/

/-- A value found by `lookup` is the second component of a list entry. -/
theorem lookup_mem {α : Type} (P : α → Prop) (k : Nat) :
    ∀ (l : List (Nat × α)) (v : α), (∀ e ∈ l, P e.2) → l.lookup k = some v → P v := by
  intro l
  induction l with
  | nil => intro v _ h; simp [List.lookup] at h
  | cons e l ih =>
    intro v hl h
    obtain ⟨a, b⟩ := e
    rw [List.lookup_cons] at h
    split at h
    · cases h
      exact hl (a, v) (List.mem_cons_self _ _)
    · exact ih v (fun e he => hl e (List.mem_cons_of_mem _ he)) h

set_option maxRecDepth 8192 in
/-- Every `case` label of `CPU::execute` has a base cycle count of at least 2. -/
theorem CPU.decode_costly (opcode : Nat) : (CPU.decode opcode).costly = true := by
  unfold CPU.decode
  cases h : CPU.opcodeTable.lookup opcode with
  | none => rfl
  | some i =>
    exact lookup_mem (fun i => i.costly = true) opcode CPU.opcodeTable i (by decide) h

/-- Reads, fetches, pushes and pulls leave the cycle counter alone. -/
theorem CPU.access_cycles (s : Bus) (addr v : Nat) :
    (CPU.read s addr).2.cpu.cycles = s.cpu.cycles
    ∧ (CPU.write s addr v).cpu.cycles = s.cpu.cycles
    ∧ (CPU.fetch s).2.cpu.cycles = s.cpu.cycles
    ∧ (CPU.fetch16 s).2.cpu.cycles = s.cpu.cycles
    ∧ (CPU.push s v).cpu.cycles = s.cpu.cycles
    ∧ (CPU.push16 s v).cpu.cycles = s.cpu.cycles
    ∧ (CPU.pull s).2.cpu.cycles = s.cpu.cycles
    ∧ (CPU.pull16 s).2.cpu.cycles = s.cpu.cycles := by
  have f : ∀ t : Bus, (CPU.fetch t).2.cpu.cycles = t.cpu.cycles := by
    intro t; rw [(CPU.fetch_cpu_ram t).1]
  have pl : ∀ t : Bus, (CPU.pull t).2.cpu.cycles = t.cpu.cycles := by
    intro t
    unfold CPU.pull
    dsimp only
    rw [(CPU.read_cpu_ram _ _).1]
  refine ⟨by rw [(CPU.read_cpu_ram s addr).1], by rw [CPU.write_cpu], f s, ?_,
    by rw [CPU.push_cpu], by rw [CPU.push16_cpu], pl s, ?_⟩
  · unfold CPU.fetch16
    dsimp only
    rw [f, f]
  · unfold CPU.pull16
    dsimp only
    rw [pl, pl]

/-- An addressing lambda leaves the cycle counter alone. -/
theorem CPU.operand_cycles (s : Bus) (m : Mode) :
    (CPU.operand s m).2.cpu.cycles = s.cpu.cycles := by
  have r : ∀ (t : Bus) (a : Nat), (CPU.read t a).2.cpu.cycles = t.cpu.cycles :=
    fun t a => (CPU.access_cycles t a 0).1
  have f : ∀ t : Bus, (CPU.fetch t).2.cpu.cycles = t.cpu.cycles :=
    fun t => (CPU.access_cycles t 0 0).2.2.1
  have g : ∀ t : Bus, (CPU.fetch16 t).2.cpu.cycles = t.cpu.cycles :=
    fun t => (CPU.access_cycles t 0 0).2.2.2.1
  cases m <;> simp only [CPU.operand, r, f, g]

/-- No `do_...` block lowers the cycle counter. -/
theorem CPU.runOp_cycles (s : Bus) (addr : Nat) (e : Bool) (op : Op) :
    s.cpu.cycles ≤ (CPU.runOp s addr e op).cpu.cycles := by
  have b : ∀ (c : CPU) (x : Bool), c.cycles ≤ (c.bump x).cycles := by
    intro c x
    unfold CPU.bump
    split
    · show c.cycles ≤ c.cycles + 1
      omega
    · exact le_refl _
  have r : ∀ (t : Bus) (a : Nat), (CPU.read t a).2.cpu = t.cpu := fun t a =>
    (CPU.read_cpu_ram t a).1
  cases op
  all_goals simp only [CPU.runOp, r, CPU.write_cpu]
  all_goals first
    | exact le_refl _
    | exact b _ _

/-- Every instruction body leaves a cycle count of at least 2. -/
theorem CPU.run_cycles (s : Bus) (i : Instr) (hi : i.costly = true) :
    2 ≤ (CPU.run s i).cpu.cycles := by
  have r : ∀ (t : Bus) (a : Nat), (CPU.read t a).2.cpu.cycles = t.cpu.cycles :=
    fun t a => (CPU.access_cycles t a 0).1
  have f : ∀ t : Bus, (CPU.fetch t).2.cpu.cycles = t.cpu.cycles :=
    fun t => (CPU.access_cycles t 0 0).2.2.1
  cases i with
  | mem op mode cycles =>
    have h2 : 2 ≤ cycles := of_decide_eq_true hi
    exact le_trans h2 (CPU.runOp_cycles _ _ _ op)
  | nop skip cycles => exact of_decide_eq_true hi
  | branch flag value =>
    show 2 ≤ (if _ then _ else _ : Bus).cpu.cycles
    split
    · show (2 : Int) ≤ 2 + (if _ then 2 else 1)
      split <;> omega
    · exact le_refl _
  | TOP_abx =>
    show 2 ≤ (CPU.bump _ _).cycles
    unfold CPU.bump
    split
    · show (2 : Int) ≤ 4 + 1
      omega
    · show (2 : Int) ≤ 4
      omega
  | JMP_ind =>
    show (2 : Int) ≤ 5
    omega
  | _ =>
    first
      | exact le_refl _
      | (show (2 : Int) ≤ 3; omega)
      | (show (2 : Int) ≤ 4; omega)
      | (show (2 : Int) ≤ 5; omega)
      | (show (2 : Int) ≤ 6; omega)
      | (show (2 : Int) ≤ 7; omega)

/-- `CPU::execute` leaves a cycle count of at least 2. -/
theorem CPU.execute_cycles (s : Bus) : 2 ≤ (CPU.execute s).cpu.cycles := by
  unfold CPU.execute
  exact CPU.run_cycles _ _ (CPU.decode_costly _)

/-- While the cycle counter is positive, `CPU::clock` calls only count it down. -/
theorem CPU.clocks_countdown (t : Bus) (k : Nat) (h : (k : Int) ≤ t.cpu.cycles) :
    CPU.clocks k t = { t with cpu := { t.cpu with cycles := t.cpu.cycles - k } } := by
  induction k with
  | zero =>
    show t = _
    simp
  | succ k ih =>
    have e : CPU.clocks (k + 1) t = CPU.clock (CPU.clocks k t) := rfl
    rw [e, ih (by omega)]
    unfold CPU.clock
    rw [if_pos (by show t.cpu.cycles - (k : Int) > 0; omega)]
    show ({ t with cpu := { t.cpu with cycles := t.cpu.cycles - (k : Int) - 1 } } : Bus) = _
    have : t.cpu.cycles - (k : Int) - 1 = t.cpu.cycles - ((k + 1 : Nat) : Int) := by omega
    rw [this]

/-- C31. Instruction duration: a `CPU::clock()` call made with the cycle counter at 0
fetches and executes an instruction and leaves its cycle cost `N ≥ 2` less one in the
counter; each of the following `N - 1` calls only lowers the counter by one, fetching
nothing (the program counter and the rest of the system stay as the instruction left
them), and the `N`-th following call fetches and executes the next instruction. -/
theorem CPU.instruction_duration (s : Bus) (h0 : s.cpu.cycles ≤ 0) :
    2 ≤ (CPU.execute s).cpu.cycles
    ∧ CPU.clock s = { CPU.execute s with
        cpu := { (CPU.execute s).cpu with cycles := (CPU.execute s).cpu.cycles - 1 } }
    ∧ (∀ k : Nat, (k : Int) ≤ (CPU.execute s).cpu.cycles - 1 →
        CPU.clocks k (CPU.clock s) = { CPU.execute s with
          cpu := { (CPU.execute s).cpu with cycles := (CPU.execute s).cpu.cycles - 1 - k } })
    ∧ CPU.clocks (CPU.execute s).cpu.cycles.toNat (CPU.clock s)
        = CPU.clock { CPU.execute s with cpu := { (CPU.execute s).cpu with cycles := 0 } }
    ∧ CPU.clock { CPU.execute s with cpu := { (CPU.execute s).cpu with cycles := 0 } }
        = { CPU.execute { CPU.execute s with cpu := { (CPU.execute s).cpu with cycles := 0 } }
            with cpu := { (CPU.execute { CPU.execute s with
                            cpu := { (CPU.execute s).cpu with cycles := 0 } }).cpu with
              cycles := (CPU.execute { CPU.execute s with
                cpu := { (CPU.execute s).cpu with cycles := 0 } }).cpu.cycles - 1 } } := by
  have hN := CPU.execute_cycles s
  have hc : CPU.clock s = { CPU.execute s with
      cpu := { (CPU.execute s).cpu with cycles := (CPU.execute s).cpu.cycles - 1 } } := by
    unfold CPU.clock
    rw [if_neg (by omega)]
  have hk : ∀ k : Nat, (k : Int) ≤ (CPU.execute s).cpu.cycles - 1 →
      CPU.clocks k (CPU.clock s) = { CPU.execute s with
        cpu := { (CPU.execute s).cpu with cycles := (CPU.execute s).cpu.cycles - 1 - k } } := by
    intro k hk
    rw [hc, CPU.clocks_countdown _ k hk]
  refine ⟨hN, hc, hk, ?_, ?_⟩
  · obtain ⟨n, hn⟩ : ∃ n : Nat, (CPU.execute s).cpu.cycles = (n : Int) + 1 :=
      ⟨((CPU.execute s).cpu.cycles - 1).toNat, by omega⟩
    have e : (CPU.execute s).cpu.cycles.toNat = n + 1 := by omega
    rw [e]
    have e2 : CPU.clocks (n + 1) (CPU.clock s) = CPU.clock (CPU.clocks n (CPU.clock s)) := rfl
    rw [e2, hk n (by omega)]
    have : (CPU.execute s).cpu.cycles - 1 - (n : Int) = 0 := by omega
    rw [this]
  · unfold CPU.clock
    rw [if_neg (by show ¬ ((0 : Int) > 0); omega)]

/-- From the constructed system (counter 0, opcode byte 0 read: `BRK`, 7 cycles) the first
clock executes the instruction and the next six only count down to 0 with the program
counter where the instruction left it. -/
theorem CPU.instruction_duration_witness :
    ({} : Bus).cpu.cycles ≤ 0
    ∧ (CPU.execute {}).cpu.cycles = 7
    ∧ (CPU.clocks 6 (CPU.clock {})).cpu.cycles = 0
    ∧ (CPU.clocks 6 (CPU.clock {})).cpu.pc = (CPU.execute {}).cpu.pc := by
  have h7 : (CPU.execute {}).cpu.cycles = 7 := by decide
  have h := (CPU.instruction_duration {} (by decide)).2.2.1 6 (by rw [h7]; decide)
  rw [h, h7]
  exact ⟨by decide, rfl, by decide, rfl⟩

/-! ### Binary addition with carry -/

/-- Bit 7 of the overflow expression `~(a ^ m) & (a ^ sum)`. -/
theorem adc_overflow_bit (a m sum : Nat) :
    (((not32 (a ^^^ m)) &&& (a ^^^ sum) &&& 0x80) != 0)
      = ((!(decide (a / 128 % 2 = 1) ^^ decide (m / 128 % 2 = 1)))
          && (decide (a / 128 % 2 = 1) ^^ decide (sum / 128 % 2 = 1))) := by
  rw [show (0x80 : Nat) = 2 ^ 7 from rfl, and_two_pow_ne_zero]
  unfold not32
  simp only [Nat.testBit_and, Nat.testBit_xor]
  rw [show (0xFFFFFFFF : Nat).testBit 7 = true from by decide]
  simp only [Nat.testBit_to_div_mod]
  rw [show (2 : Nat) ^ 7 = 128 from rfl]
  cases decide (a / 128 % 2 = 1) <;> cases decide (m / 128 % 2 = 1) <;> rfl

/-- The overflow test of `do_adc` is signed overflow of the byte addition. -/
theorem adc_overflow (a m cin : Nat) (ha : a < 256) (hm : m < 256) (hc : cin ≤ 1) :
    (((not32 (a ^^^ m)) &&& (a ^^^ (a + m + cin)) &&& 0x80) != 0)
      = decide (toInt8 a + toInt8 m + (cin : Int) < -128
          ∨ 127 < toInt8 a + toInt8 m + (cin : Int)) := by
  rw [adc_overflow_bit]
  unfold toInt8
  have h1 : a / 128 % 2 = 1 ↔ a % 256 ≥ 128 := by omega
  have h2 : m / 128 % 2 = 1 ↔ m % 256 ≥ 128 := by omega
  by_cases pa : a % 256 ≥ 128 <;> by_cases pm : m % 256 ≥ 128 <;>
    by_cases ps : (a + m + cin) / 128 % 2 = 1 <;>
    simp only [h1, h2, pa, pm, ps, if_true, if_false, decide_True, decide_False, Bool.xor_false,
      Bool.xor_true, Bool.not_true, Bool.not_false, Bool.and_true, Bool.and_false,
      Bool.true_and, Bool.false_and, Bool.true_eq, Bool.false_eq, decide_eq_true_eq,
      decide_eq_false_iff_not, Bool.xor_self] <;>
    omega

/-- The `do_adc` block on byte operands: the sum modulo 256, carry out, signed overflow,
zero and sign. -/
theorem CPU.addWithCarry_eq (c : CPU) (m : Nat) (ha : c.a < 256) (hm : m < 256) :
    c.addWithCarry m = { c with
      a := (c.a + m + (if c.flagC then 1 else 0)) % 256
      flagC := decide (c.a + m + (if c.flagC then 1 else 0) > 255)
      flagV := decide
        (toInt8 c.a + toInt8 m + (((if c.flagC then 1 else 0 : Nat)) : Int) < -128
          ∨ 127 < toInt8 c.a + toInt8 m + (((if c.flagC then 1 else 0 : Nat)) : Int))
      flagZ := decide ((c.a + m + (if c.flagC then 1 else 0)) % 256 = 0)
      flagN := ((c.a + m + (if c.flagC then 1 else 0)) % 256).testBit 7 } := by
  obtain ⟨cin, hcin, hc⟩ : ∃ cin : Nat, cin = (if c.flagC then 1 else 0) ∧ cin ≤ 1 :=
    ⟨_, rfl, by split <;> omega⟩
  rw [← hcin]
  have hs : (c.a + m + cin) % 0x10000 = c.a + m + cin := Nat.mod_eq_of_lt (by omega)
  have hb : ∀ x : Nat, x &&& 0xFF = x % 256 := fun x => Nat.and_pow_two_sub_one_eq_mod x 8
  have hn : ∀ x : Nat, ((x &&& 0x80) != 0) = x.testBit 7 := fun x => and_two_pow_ne_zero x 7
  unfold CPU.addWithCarry CPU.setZN
  simp only [← hcin, hs, hb, adc_overflow c.a m cin ha hm hc]
  simp only [hn]

/-- C32. Binary ADC: with opcode `0x69` at `pc` and operand byte `m` after it, for every
accumulator byte `a`, carry-in `c` and either value of the D flag, `ADC #m` leaves
`A = (a + m + c) mod 256`, `C` set iff `a + m + c > 255`, `V` set iff the signed sum of
`a` and `m` plus `c` is outside `-128..127`, `Z` set iff `A = 0`, `N` = bit 7 of `A`, the
program counter two bytes on and a cost of 2 cycles; the D flag is passed through and the
result does not depend on it. -/
theorem CPU.adc_binary (b b1 b2 : Bus) (c : CPU) (m : Nat) (hconn : c.busConn = true)
    (h0 : b.cpuRead c.pc = (0x69, b1)) (h1 : b1.cpuRead ((c.pc + 1) % 0x10000) = (m, b2))
    (ha : c.a < 256) (hm : m < 256) :
    CPU.execute (b.withCpu c) = b2.withCpu { c with
        pc := ((c.pc + 1) % 0x10000 + 1) % 0x10000
        cycles := 2
        a := (c.a + m + (if c.flagC then 1 else 0)) % 256
        flagC := decide (c.a + m + (if c.flagC then 1 else 0) > 255)
        flagV := decide
          (toInt8 c.a + toInt8 m + (((if c.flagC then 1 else 0 : Nat)) : Int) < -128
            ∨ 127 < toInt8 c.a + toInt8 m + (((if c.flagC then 1 else 0 : Nat)) : Int))
        flagZ := decide ((c.a + m + (if c.flagC then 1 else 0)) % 256 = 0)
        flagN := ((c.a + m + (if c.flagC then 1 else 0)) % 256).testBit 7 }
    ∧ (∀ d : Bool, (CPU.execute (b.withCpu { c with flagD := d })).cpu
        = { (CPU.execute (b.withCpu c)).cpu with flagD := d }) := by
  have hd : CPU.decode 0x69 = Instr.mem Op.ADC Mode.imm 2 := by decide
  have key : ∀ c : CPU, c.busConn = true → ∀ b1' b2' : Bus, b.cpuRead c.pc = (0x69, b1') →
      b1'.cpuRead ((c.pc + 1) % 0x10000) = (m, b2') →
      CPU.execute (b.withCpu c) = b2'.withCpu
        (CPU.addWithCarry { c with pc := ((c.pc + 1) % 0x10000 + 1) % 0x10000, cycles := 2 }
          m) := by
    intro c hconn b1' b2' h0 h1
    have e : CPU.execute (b.withCpu c)
        = CPU.run (b1'.withCpu { c with pc := (c.pc + 1) % 0x10000 })
            (Instr.mem Op.ADC Mode.imm 2) := by
      unfold CPU.execute
      rw [CPU.fetch_withCpu b c hconn, h0]
      dsimp only
      rw [hd]
    have r : CPU.run (b1'.withCpu { c with pc := (c.pc + 1) % 0x10000 })
          (Instr.mem Op.ADC Mode.imm 2)
        = (let r := CPU.read (b1'.withCpu
              { c with pc := ((c.pc + 1) % 0x10000 + 1) % 0x10000, cycles := 2 })
              ((c.pc + 1) % 0x10000)
           { r.2 with cpu := (r.2.cpu.addWithCarry r.1).bump false }) := rfl
    rw [e, r, CPU.read_withCpu _ _ _ (by exact hconn), h1]
    rfl
  have e1 := key c hconn b1 b2 h0 h1
  refine ⟨?_, fun d => ?_⟩
  · rw [e1, CPU.addWithCarry_eq _ m (by exact ha) hm]
  · rw [e1, key { c with flagD := d } hconn b1 b2 h0 h1]
    rfl

/-- With `ADC #$50` in work RAM at address 0, `A = 0x50` and the D flag set, the result
is `A = 0xA0` with `V` set. -/
theorem CPU.adc_binary_witness :
    (CPU.execute (({ ram := fun i => if i = 0 then 0x69 else 0x50 } : Bus).withCpu
        { busConn := true, a := 0x50, flagD := true })).cpu.a = 0xA0
    ∧ (CPU.execute (({ ram := fun i => if i = 0 then 0x69 else 0x50 } : Bus).withCpu
        { busConn := true, a := 0x50, flagD := true })).cpu.flagV = true := by
  have h := (CPU.adc_binary { ram := fun i => if i = 0 then 0x69 else 0x50 }
    { ram := fun i => if i = 0 then 0x69 else 0x50 }
    { ram := fun i => if i = 0 then 0x69 else 0x50 }
    { busConn := true, a := 0x50, flagD := true } 0x50 rfl rfl rfl (by decide) (by decide)).1
  rw [h]
  exact ⟨by decide, by decide⟩

/-! ### JSR and RTS -/

/-- The two bytes of a 16-bit value, high byte first, recombine to the value. -/
theorem bytes_recombine (w : Nat) (h : w < 0x10000) :
    ((((w >>> 8) &&& 0xFF) <<< 8) ||| (w &&& 0xFF)) % 0x10000 = w := by
  rw [show (0xFF : Nat) = 2 ^ 8 - 1 from rfl, Nat.and_pow_two_sub_one_eq_mod,
    Nat.and_pow_two_sub_one_eq_mod, Nat.shiftRight_eq_div_pow, Nat.shiftLeft_eq,
    Nat.mul_comm, ← Nat.mul_add_lt_is_or (Nat.mod_lt _ (by decide))]
  omega

/-- Two operand bytes combine to `hi * 256 + lo`. -/
theorem bytes_combine (lo hi : Nat) (hlo : lo < 256) (hhi : hi < 256) :
    ((hi <<< 8) ||| lo) % 0x10000 = hi * 256 + lo := by
  rw [Nat.shiftLeft_eq, Nat.mul_comm, ← Nat.mul_add_lt_is_or (by omega)]
  omega

/-- `push16` with the bus connected, on a system in `withCpu` form. -/
theorem CPU.push16_withCpu (b : Bus) (c : CPU) (v : Nat) (hconn : c.busConn = true)
    (hsp : c.sp < 256) :
    CPU.push16 (b.withCpu c) v
      = (b.withReturn c.sp v).withCpu { c with sp := ((c.sp + 255) % 256 + 255) % 256 } := by
  unfold CPU.push16
  rw [CPU.push_eq (b.withCpu c) _ hconn hsp,
    CPU.push_eq _ _ (by exact hconn) (by show (c.sp + 255) % 256 < 256; omega)]
  show ({ b with ram := _, cpu := _ } : Bus) = _
  unfold Bus.withReturn Bus.withCpu
  have s1 : (0x0100 + c.sp) &&& 0x07FF = 0x0100 + c.sp := stack_slot _ hsp
  have s2 : (0x0100 + (c.sp + 255) % 256) &&& 0x07FF = 0x0100 + (c.sp + 255) % 256 :=
    stack_slot _ (by omega)
  dsimp only
  rw [s1, s2]

/-- `pull16` with the bus connected, on a system in `withCpu` form. -/
theorem CPU.pull16_withCpu (b : Bus) (c : CPU) (hconn : c.busConn = true) :
    CPU.pull16 (b.withCpu c)
      = ((((b.ram (0x0100 + ((c.sp + 1) % 256 + 1) % 256)) <<< 8)
            ||| b.ram (0x0100 + (c.sp + 1) % 256)) % 0x10000,
         b.withCpu { c with sp := ((c.sp + 1) % 256 + 1) % 256 }) := by
  unfold CPU.pull16
  dsimp only
  rw [CPU.pull_eq (b.withCpu c) hconn]
  dsimp only
  rw [CPU.pull_eq _ (by exact hconn)]
  have s1 : (0x0100 + (c.sp + 1) % 256) &&& 0x07FF = 0x0100 + (c.sp + 1) % 256 :=
    stack_slot _ (by omega)
  have s2 : (0x0100 + ((c.sp + 1) % 256 + 1) % 256) &&& 0x07FF
      = 0x0100 + ((c.sp + 1) % 256 + 1) % 256 := stack_slot _ (by omega)
  show ((((b.ram ((0x0100 + ((c.sp + 1) % 256 + 1) % 256) &&& 0x07FF)) <<< 8)
      ||| b.ram ((0x0100 + (c.sp + 1) % 256) &&& 0x07FF)) % 0x10000, _) = _
  rw [s1, s2]
  rfl

/-- A byte stored outside the two stack slots is still stored after `push16`. -/
theorem Bus.Holds.withReturn {b : Bus} {addr v : Nat} (h : b.Holds addr v) (sp ret : Nat)
    (hsp : sp < 256)
    (hout : addr < 0x2000 →
      addr % 0x800 ≠ 0x0100 + sp ∧ addr % 0x800 ≠ 0x0100 + (sp + 255) % 256) :
    (b.withReturn sp ret).Holds addr v := by
  unfold Bus.Holds at h ⊢
  by_cases ha : addr < 0x2000
  · obtain ⟨o1, o2⟩ := hout ha
    unfold Bus.cpuRead at h ⊢
    rw [if_pos ha] at h ⊢
    rw [and_07FF] at h ⊢
    have hv : b.ram (addr % 0x800) = v := congrArg Prod.fst h
    unfold Bus.withReturn
    dsimp only
    rw [Function.update_noteq o2, Function.update_noteq o1, hv]
  · have e : ∀ r : Nat → Nat, ({ b with ram := r } : Bus).cpuRead addr
        = ((b.cpuRead addr).1, { (b.cpuRead addr).2 with ram := r }) := by
      intro r
      unfold Bus.cpuRead
      dsimp only
      rw [if_neg ha, if_neg ha]
      split_ifs <;> rfl
    unfold Bus.withReturn
    rw [e, h]

/-- `JSR` with its three bytes stored at `pc`: the return address `pc + 2` is pushed high
byte first and the program counter becomes the operand. -/
theorem CPU.execute_JSR (b : Bus) (c : CPU) (lo hi : Nat) (hconn : c.busConn = true)
    (hsp : c.sp < 256) (hpc : c.pc < 0x10000) (hlo : lo < 256) (hhi : hi < 256)
    (h0 : b.Holds c.pc 0x20) (h1 : b.Holds ((c.pc + 1) % 0x10000) lo)
    (h2 : b.Holds ((c.pc + 2) % 0x10000) hi) :
    CPU.execute (b.withCpu c)
      = (b.withReturn c.sp ((c.pc + 2) % 0x10000)).withCpu
          { c with pc := hi * 256 + lo, sp := (c.sp + 254) % 256, cycles := 6 } := by
  have hd : CPU.decode 0x20 = Instr.JSR := by decide
  unfold Bus.Holds at h0 h1 h2
  have e : CPU.execute (b.withCpu c)
      = CPU.run (b.withCpu { c with pc := (c.pc + 1) % 0x10000 }) Instr.JSR := by
    unfold CPU.execute
    rw [CPU.fetch_withCpu b c hconn, h0]
    dsimp only
    rw [hd]
  have r : ∀ t : Bus, CPU.run t Instr.JSR
      = { CPU.push16 (CPU.fetch16 t).2 (((CPU.fetch16 t).2.cpu.pc + 0xFFFF) % 0x10000) with
          cpu := { (CPU.push16 (CPU.fetch16 t).2
              (((CPU.fetch16 t).2.cpu.pc + 0xFFFF) % 0x10000)).cpu with
            pc := (CPU.fetch16 t).1, cycles := 6 } } := fun _ => rfl
  have a2 : ((c.pc + 1) % 0x10000 + 1) % 0x10000 = (c.pc + 2) % 0x10000 := by omega
  have f : CPU.fetch16 (b.withCpu { c with pc := (c.pc + 1) % 0x10000 })
      = (hi * 256 + lo, b.withCpu { c with pc := ((c.pc + 2) % 0x10000 + 1) % 0x10000 }) := by
    rw [CPU.fetch16_withCpu _ _ (by exact hconn)]
    dsimp only
    rw [h1]
    dsimp only
    rw [a2, h2, bytes_combine lo hi hlo hhi]
  have a3 : (((c.pc + 2) % 0x10000 + 1) % 0x10000 + 0xFFFF) % 0x10000 = (c.pc + 2) % 0x10000 := by
    omega
  have a4 : ((c.sp + 255) % 256 + 255) % 256 = (c.sp + 254) % 256 := by omega
  rw [e, r, f]
  dsimp only
  rw [Bus.withCpu_cpu]
  dsimp only
  rw [a3, CPU.push16_withCpu _ _ _ (by exact hconn) (by exact hsp)]
  dsimp only
  rw [a4]
  rfl

/-- `RTS` with its opcode stored at `pc`: the program counter becomes the 16-bit value on
top of the stack plus one. -/
theorem CPU.execute_RTS (b : Bus) (c : CPU) (hconn : c.busConn = true)
    (h0 : b.Holds c.pc 0x60) :
    CPU.execute (b.withCpu c)
      = b.withCpu { c with
          pc := ((((b.ram (0x0100 + ((c.sp + 1) % 256 + 1) % 256)) <<< 8)
            ||| b.ram (0x0100 + (c.sp + 1) % 256)) % 0x10000 + 1) % 0x10000
          sp := ((c.sp + 1) % 256 + 1) % 256
          cycles := 6 } := by
  have hd : CPU.decode 0x60 = Instr.RTS := by decide
  unfold Bus.Holds at h0
  have e : CPU.execute (b.withCpu c)
      = CPU.run (b.withCpu { c with pc := (c.pc + 1) % 0x10000 }) Instr.RTS := by
    unfold CPU.execute
    rw [CPU.fetch_withCpu b c hconn, h0]
    dsimp only
    rw [hd]
  have r : ∀ t : Bus, CPU.run t Instr.RTS
      = { (CPU.pull16 t).2 with
          cpu := { (CPU.pull16 t).2.cpu with
            pc := ((CPU.pull16 t).1 + 1) % 0x10000, cycles := 6 } } := fun _ => rfl
  rw [e, r, CPU.pull16_withCpu _ _ (by exact hconn)]
  rfl

/-- C38. JSR/RTS round trip: with `JSR t` (`0x20`, `lo`, `hi`) stored at `p = pc` and
`RTS` (`0x60`) stored at `t`, `t` outside the two stack bytes written, `JSR` stores
`p + 2` on the stack high byte first, sets `PC = t` and lowers `SP` by two, and `RTS` then
leaves `PC = p + 3` (mod 2^16) and `SP` at its initial value; `A`, `X`, `Y` and all flags
are unchanged by both; each instruction costs 6 cycles. -/
theorem CPU.jsr_rts (b : Bus) (c : CPU) (lo hi : Nat) (hconn : c.busConn = true)
    (hsp : c.sp < 256) (hpc : c.pc < 0x10000) (hlo : lo < 256) (hhi : hi < 256)
    (h0 : b.Holds c.pc 0x20) (h1 : b.Holds ((c.pc + 1) % 0x10000) lo)
    (h2 : b.Holds ((c.pc + 2) % 0x10000) hi) (ht : b.Holds (hi * 256 + lo) 0x60)
    (hout : hi * 256 + lo < 0x2000 →
      (hi * 256 + lo) % 0x800 ≠ 0x0100 + c.sp
      ∧ (hi * 256 + lo) % 0x800 ≠ 0x0100 + (c.sp + 255) % 256) :
    CPU.execute (b.withCpu c)
      = (b.withReturn c.sp ((c.pc + 2) % 0x10000)).withCpu
          { c with pc := hi * 256 + lo, sp := (c.sp + 254) % 256, cycles := 6 }
    ∧ (b.withReturn c.sp ((c.pc + 2) % 0x10000)).ram (0x0100 + c.sp)
        = (c.pc + 2) % 0x10000 / 256
    ∧ (b.withReturn c.sp ((c.pc + 2) % 0x10000)).ram (0x0100 + (c.sp + 255) % 256)
        = (c.pc + 2) % 0x10000 % 256
    ∧ CPU.execute (CPU.execute (b.withCpu c))
      = (b.withReturn c.sp ((c.pc + 2) % 0x10000)).withCpu
          { c with pc := (c.pc + 3) % 0x10000, cycles := 6 } := by
  have j := CPU.execute_JSR b c lo hi hconn hsp hpc hlo hhi h0 h1 h2
  have hb : ∀ x : Nat, x &&& 0xFF = x % 256 := fun x => Nat.and_pow_two_sub_one_eq_mod x 8
  have m1 : (b.withReturn c.sp ((c.pc + 2) % 0x10000)).ram (0x0100 + c.sp)
      = (((c.pc + 2) % 0x10000) >>> 8) &&& 0xFF := by
    unfold Bus.withReturn
    dsimp only
    rw [Function.update_noteq (by omega), Function.update_same]
  have m2 : (b.withReturn c.sp ((c.pc + 2) % 0x10000)).ram (0x0100 + (c.sp + 255) % 256)
      = ((c.pc + 2) % 0x10000) &&& 0xFF := by
    unfold Bus.withReturn
    dsimp only
    rw [Function.update_same]
  refine ⟨j, ?_, ?_, ?_⟩
  · rw [m1, hb, Nat.shiftRight_eq_div_pow]
    omega
  · rw [m2, hb]
  · have ht2 := ht.withReturn c.sp ((c.pc + 2) % 0x10000) hsp hout
    rw [j, CPU.execute_RTS _ _ (by exact hconn) (by exact ht2)]
    dsimp only
    have s1 : ((c.sp + 254) % 256 + 1) % 256 = (c.sp + 255) % 256 := by omega
    have s2 : ((c.sp + 255) % 256 + 1) % 256 = c.sp := by omega
    rw [s1, s2, m1, m2, bytes_recombine _ (Nat.mod_lt _ (by decide))]
    have p3 : ((c.pc + 2) % 0x10000 + 1) % 0x10000 = (c.pc + 3) % 0x10000 := by omega
    rw [p3]

/-- With `JSR $0010` at address 0 and `RTS` at `0x0010` in work RAM and `SP = 0xFD`, the two
instructions return to address 3 with `SP = 0xFD`. -/
theorem CPU.jsr_rts_witness :
    (CPU.execute (CPU.execute
      (({ ram := fun i => if i = 0 then 0x20 else if i = 1 then 0x10 else if i = 0x10 then 0x60
            else 0 } : Bus).withCpu { busConn := true, sp := 0xFD }))).cpu.pc = 3
    ∧ (CPU.execute (CPU.execute
      (({ ram := fun i => if i = 0 then 0x20 else if i = 1 then 0x10 else if i = 0x10 then 0x60
            else 0 } : Bus).withCpu { busConn := true, sp := 0xFD }))).cpu.sp = 0xFD := by
  have h := (CPU.jsr_rts
    { ram := fun i => if i = 0 then 0x20 else if i = 1 then 0x10 else if i = 0x10 then 0x60
        else 0 }
    { busConn := true, sp := 0xFD } 0x10 0 rfl (by decide) (by decide) (by decide) (by decide)
    rfl rfl rfl rfl (fun _ => by decide)).2.2.2
  rw [h]
  exact ⟨rfl, rfl⟩

/-! ### Channel bounds in reachable APU states -/

/-- Masking with `2^n - 1` gives a value below `2^n`. -/
theorem and_mask_lt (x n : Nat) : x &&& (2 ^ n - 1) < 2 ^ n := by
  rw [Nat.and_pow_two_sub_one_eq_mod]
  exact Nat.mod_lt _ (Nat.two_pow_pos n)

/-- The pulse timer keeps the bounds. -/
theorem Pulse.pulse_clockTimer_sane (c : Pulse) (h : c.Sane) : c.clockTimer.Sane := by
  obtain ⟨h1, h2, h3, h4, h5⟩ := h
  unfold Pulse.clockTimer
  split
  · exact ⟨h1, h2, h3, and_mask_lt _ 3, h5⟩
  · exact ⟨h1, h2, h3, h4, h5⟩

/-- The pulse envelope keeps the bounds. -/
theorem Pulse.pulse_clockEnvelope_sane (c : Pulse) (h : c.Sane) : c.clockEnvelope.Sane := by
  obtain ⟨h1, h2, h3, h4, h5⟩ := h
  unfold Pulse.clockEnvelope
  split_ifs
  · exact ⟨h1, le_refl _, h3, h4, h5⟩
  · exact ⟨h1, by show c.envelopeDecay - 1 ≤ 15; omega, h3, h4, h5⟩
  · exact ⟨h1, le_refl _, h3, h4, h5⟩
  · exact ⟨h1, h2, h3, h4, h5⟩
  · exact ⟨h1, h2, h3, h4, h5⟩

/-- The pulse length counter keeps the bounds. -/
theorem Pulse.pulse_clockLengthCounter_sane (c : Pulse) (h : c.Sane) : c.clockLengthCounter.Sane := by
  obtain ⟨h1, h2, h3, h4, h5⟩ := h
  unfold Pulse.clockLengthCounter
  split
  next hc => exact ⟨h1, h2, h3, h4, fun _ => h5 hc.2⟩
  next => exact ⟨h1, h2, h3, h4, h5⟩

/-- The pulse sweep keeps the bounds. -/
theorem Pulse.clockSweep_sane (c : Pulse) (h : c.Sane) : c.clockSweep.Sane := by
  obtain ⟨h1, h2, h3, h4, h5⟩ := h
  unfold Pulse.clockSweep
  dsimp only
  split_ifs <;> exact ⟨h1, h2, h3, h4, h5⟩

/-- The triangle timer keeps the bounds. -/
theorem Triangle.triangle_clockTimer_sane (c : Triangle) (h : c.Sane) : c.clockTimer.Sane := by
  obtain ⟨h1, h2⟩ := h
  unfold Triangle.clockTimer
  split_ifs
  · exact ⟨and_mask_lt _ 5, h2⟩
  · exact ⟨h1, h2⟩
  · exact ⟨h1, h2⟩

/-- The triangle linear counter keeps the bounds. -/
theorem Triangle.clockLinearCounter_sane (c : Triangle) (h : c.Sane) :
    c.clockLinearCounter.Sane := by
  obtain ⟨h1, h2⟩ := h
  unfold Triangle.clockLinearCounter
  dsimp only
  split_ifs <;> exact ⟨h1, h2⟩

/-- The triangle length counter keeps the bounds. -/
theorem Triangle.triangle_clockLengthCounter_sane (c : Triangle) (h : c.Sane) :
    c.clockLengthCounter.Sane := by
  obtain ⟨h1, h2⟩ := h
  unfold Triangle.clockLengthCounter
  split
  next hc => exact ⟨h1, fun _ => h2 hc.2⟩
  next => exact ⟨h1, h2⟩

/-- The noise timer keeps the bounds. -/
theorem Noise.noise_clockTimer_sane (c : Noise) (h : c.Sane) : c.clockTimer.Sane := by
  obtain ⟨h1, h2, h3⟩ := h
  unfold Noise.clockTimer
  split <;> exact ⟨h1, h2, h3⟩

/-- The noise envelope keeps the bounds. -/
theorem Noise.noise_clockEnvelope_sane (c : Noise) (h : c.Sane) : c.clockEnvelope.Sane := by
  obtain ⟨h1, h2, h3⟩ := h
  unfold Noise.clockEnvelope
  split_ifs
  · exact ⟨h1, le_refl _, h3⟩
  · exact ⟨h1, by show c.envelopeDecay - 1 ≤ 15; omega, h3⟩
  · exact ⟨h1, le_refl _, h3⟩
  · exact ⟨h1, h2, h3⟩
  · exact ⟨h1, h2, h3⟩

/-- The noise length counter keeps the bounds. -/
theorem Noise.noise_clockLengthCounter_sane (c : Noise) (h : c.Sane) : c.clockLengthCounter.Sane := by
  obtain ⟨h1, h2, h3⟩ := h
  unfold Noise.clockLengthCounter
  split
  next hc => exact ⟨h1, h2, fun _ => h3 hc.2⟩
  next => exact ⟨h1, h2, h3⟩

/-- The quarter-frame clock keeps the bounds. -/
theorem APU.clockQuarterFrame_sane (a : APU) (h : a.Sane) : a.clockQuarterFrame.Sane :=
  ⟨Pulse.pulse_clockEnvelope_sane _ h.1, Pulse.pulse_clockEnvelope_sane _ h.2.1,
    Triangle.clockLinearCounter_sane _ h.2.2.1, Noise.noise_clockEnvelope_sane _ h.2.2.2⟩

/-- The half-frame clock keeps the bounds. -/
theorem APU.clockHalfFrame_sane (a : APU) (h : a.Sane) : a.clockHalfFrame.Sane :=
  ⟨Pulse.clockSweep_sane _ (Pulse.pulse_clockLengthCounter_sane _ h.1),
    Pulse.clockSweep_sane _ (Pulse.pulse_clockLengthCounter_sane _ h.2.1),
    Triangle.triangle_clockLengthCounter_sane _ h.2.2.1, Noise.noise_clockLengthCounter_sane _ h.2.2.2⟩

/-- The frame counter step keeps the bounds. -/
theorem APU.frameStep_sane (a : APU) (h : a.Sane) : a.frameStep.Sane := by
  have q := APU.clockQuarterFrame_sane a h
  have qh := APU.clockHalfFrame_sane _ q
  unfold APU.frameStep
  split <;> split
  all_goals first
    | exact h
    | exact q
    | exact qh

/-- `APU::clock` keeps the bounds. -/
theorem APU.clock_sane (a : APU) (emit : Bool) (h : a.Sane) : (a.clock emit).Sane := by
  have t : ({ a with triangle := a.triangle.clockTimer } : APU).Sane :=
    ⟨h.1, h.2.1, Triangle.triangle_clockTimer_sane _ h.2.2.1, h.2.2.2⟩
  have e : ({ a with
      triangle := a.triangle.clockTimer
      pulse1 := a.pulse1.clockTimer
      pulse2 := a.pulse2.clockTimer
      noise := a.noise.clockTimer
      frameClock := a.frameClock + 1 } : APU).Sane :=
    ⟨Pulse.pulse_clockTimer_sane _ h.1, Pulse.pulse_clockTimer_sane _ h.2.1,
      Triangle.triangle_clockTimer_sane _ h.2.2.1, Noise.noise_clockTimer_sane _ h.2.2.2⟩
  have f := APU.frameStep_sane _ e
  unfold APU.clock
  dsimp only
  by_cases hp : a.cpuClock % 2 = 0
  · rw [if_pos hp]
    split <;> exact f
  · rw [if_neg hp]
    split <;> exact t

/-- A register read keeps the bounds. -/
theorem APU.cpuRead_sane (a : APU) (addr : Nat) (h : a.Sane) : (a.cpuRead addr).2.Sane := by
  unfold APU.cpuRead
  split <;> exact h

/-- A register write keeps the bounds. -/
theorem APU.cpuWrite_sane (a : APU) (addr val : Nat) (h : a.Sane) :
    (a.cpuWrite addr val).Sane := by
  obtain ⟨⟨p1, p2, p3, p4, p5⟩, ⟨q1, q2, q3, q4, q5⟩, ⟨t1, t2⟩, ⟨n1, n2, n3⟩⟩ := h
  have m4 : val &&& 0x0F ≤ 15 := Nat.le_of_lt_succ (and_mask_lt val 4)
  have m2 : (val >>> 6) &&& 3 < 4 := and_mask_lt _ 2
  have en : ∀ (e : Bool) (n : Nat), (if (!e) = true then 0 else n) > 0 → e = true := by
    intro e n
    cases e
    · intro hh; exact absurd hh (Nat.lt_irrefl 0)
    · intro _; rfl
  have ld : ∀ (e : Bool) (n k : Nat), (n > 0 → e = true) →
      (if e = true then k else n) > 0 → e = true := by
    intro e n k hn
    cases e
    · intro hh; exact hn hh
    · intro _; rfl
  unfold APU.cpuWrite
  split
  · exact ⟨⟨m4, p2, m2, p4, p5⟩, ⟨q1, q2, q3, q4, q5⟩, ⟨t1, t2⟩, ⟨n1, n2, n3⟩⟩
  · exact ⟨⟨p1, p2, p3, p4, p5⟩, ⟨q1, q2, q3, q4, q5⟩, ⟨t1, t2⟩, ⟨n1, n2, n3⟩⟩
  · exact ⟨⟨p1, p2, p3, p4, p5⟩, ⟨q1, q2, q3, q4, q5⟩, ⟨t1, t2⟩, ⟨n1, n2, n3⟩⟩
  · exact ⟨⟨p1, p2, p3, Nat.succ_pos 7, ld _ _ _ p5⟩, ⟨q1, q2, q3, q4, q5⟩, ⟨t1, t2⟩, ⟨n1, n2, n3⟩⟩
  · exact ⟨⟨p1, p2, p3, p4, p5⟩, ⟨m4, q2, m2, q4, q5⟩, ⟨t1, t2⟩, ⟨n1, n2, n3⟩⟩
  · exact ⟨⟨p1, p2, p3, p4, p5⟩, ⟨q1, q2, q3, q4, q5⟩, ⟨t1, t2⟩, ⟨n1, n2, n3⟩⟩
  · exact ⟨⟨p1, p2, p3, p4, p5⟩, ⟨q1, q2, q3, q4, q5⟩, ⟨t1, t2⟩, ⟨n1, n2, n3⟩⟩
  · exact ⟨⟨p1, p2, p3, p4, p5⟩, ⟨q1, q2, q3, Nat.succ_pos 7, ld _ _ _ q5⟩, ⟨t1, t2⟩, ⟨n1, n2, n3⟩⟩
  · exact ⟨⟨p1, p2, p3, p4, p5⟩, ⟨q1, q2, q3, q4, q5⟩, ⟨t1, t2⟩, ⟨n1, n2, n3⟩⟩
  · exact ⟨⟨p1, p2, p3, p4, p5⟩, ⟨q1, q2, q3, q4, q5⟩, ⟨t1, t2⟩, ⟨n1, n2, n3⟩⟩
  · exact ⟨⟨p1, p2, p3, p4, p5⟩, ⟨q1, q2, q3, q4, q5⟩, ⟨t1, ld _ _ _ t2⟩, ⟨n1, n2, n3⟩⟩
  · exact ⟨⟨p1, p2, p3, p4, p5⟩, ⟨q1, q2, q3, q4, q5⟩, ⟨t1, t2⟩, ⟨m4, n2, n3⟩⟩
  · exact ⟨⟨p1, p2, p3, p4, p5⟩, ⟨q1, q2, q3, q4, q5⟩, ⟨t1, t2⟩, ⟨n1, n2, n3⟩⟩
  · exact ⟨⟨p1, p2, p3, p4, p5⟩, ⟨q1, q2, q3, q4, q5⟩, ⟨t1, t2⟩, ⟨n1, n2, ld _ _ _ n3⟩⟩
  · exact ⟨⟨p1, p2, p3, p4, p5⟩, ⟨q1, q2, q3, q4, q5⟩, ⟨t1, t2⟩, ⟨n1, n2, n3⟩⟩
  · exact ⟨⟨p1, p2, p3, p4, en _ _⟩, ⟨q1, q2, q3, q4, en _ _⟩, ⟨t1, en _ _⟩, ⟨n1, n2, en _ _⟩⟩
  · have h0 : APU.Sane { a with
          frameCounterMode := (val >>> 7) &&& 1
          inhibitIRQ := (val &&& 0x40) != 0
          frameIRQ := if ((val &&& 0x40) != 0) = true then false else a.frameIRQ
          frameClock := 0 } :=
      ⟨⟨p1, p2, p3, p4, p5⟩, ⟨q1, q2, q3, q4, q5⟩, ⟨t1, t2⟩, ⟨n1, n2, n3⟩⟩
    dsimp only
    split
    · exact APU.clockHalfFrame_sane _ (APU.clockQuarterFrame_sane _ h0)
    · exact h0
  · exact ⟨⟨p1, p2, p3, p4, p5⟩, ⟨q1, q2, q3, q4, q5⟩, ⟨t1, t2⟩, ⟨n1, n2, n3⟩⟩

/-- Every reachable APU state satisfies the bounds. -/
theorem APU.reachable_sane (a : APU) (h : APU.Reachable a) : a.Sane := by
  induction h with
  | init =>
    exact ⟨⟨by decide, by decide, by decide, by decide, fun h => absurd h (by decide)⟩,
      ⟨by decide, by decide, by decide, by decide, fun h => absurd h (by decide)⟩,
      ⟨by decide, fun h => absurd h (by decide)⟩,
      ⟨by decide, by decide, fun h => absurd h (by decide)⟩⟩
  | clock a emit _ ih => exact APU.clock_sane a emit ih
  | cpuWrite a addr val _ ih => exact APU.cpuWrite_sane a addr val ih
  | cpuRead a addr _ ih => exact APU.cpuRead_sane a addr ih

/-- The pulse output is the envelope volume, the decay level, or 0. -/
theorem Pulse.pulse_output_le (c : Pulse) (h : c.Sane) : c.output ≤ 15 := by
  obtain ⟨h1, h2, -⟩ := h
  unfold Pulse.output
  split_ifs <;> omega

/-- The noise output is the envelope volume, the decay level, or 0. -/
theorem Noise.noise_output_le (c : Noise) (h : c.Sane) : c.output ≤ 15 := by
  obtain ⟨h1, h2, -⟩ := h
  unfold Noise.output
  split_ifs <;> omega

/-- Every entry of the triangle sequence is at most 15. -/
theorem Triangle.triangle_output_le (c : Triangle) : c.output ≤ 15 := by
  have hs : ∀ i : Nat, Triangle.sequence.getD i 0 ≤ 15 := by
    intro i
    by_cases hi : i < 32
    · interval_cases i <;> decide
    · rw [List.getD_eq_default _ _ (by show Triangle.sequence.length ≤ i; simp [Triangle.sequence]; omega)]
      omega
  unfold Triangle.output
  split_ifs
  any_goals omega
  exact hs _

/-- C36. Channel levels are 4-bit: in every APU state reachable from the constructed one
by `cpuWrite`, `cpuRead` and `clock` calls, `Pulse::output()`, `Triangle::output()` and
`Noise::output()` return a value in `0..15`; the envelope volumes and decay levels are at
most 15, and duty index < 4, duty position < 8 and triangle sequence position < 32, so
every table lookup is inside its table. -/
theorem APU.channel_levels (a : APU) (h : APU.Reachable a) :
    (a.pulse1.output ≤ 15 ∧ a.pulse2.output ≤ 15 ∧ a.triangle.output ≤ 15
      ∧ a.noise.output ≤ 15)
    ∧ (a.pulse1.envelopeVolume ≤ 15 ∧ a.pulse1.envelopeDecay ≤ 15
      ∧ a.pulse2.envelopeVolume ≤ 15 ∧ a.pulse2.envelopeDecay ≤ 15
      ∧ a.noise.envelopeVolume ≤ 15 ∧ a.noise.envelopeDecay ≤ 15)
    ∧ (a.pulse1.duty < Pulse.dutyTable.length
      ∧ a.pulse1.dutyPos < (Pulse.dutyTable.getD a.pulse1.duty []).length
      ∧ a.pulse2.duty < Pulse.dutyTable.length
      ∧ a.pulse2.dutyPos < (Pulse.dutyTable.getD a.pulse2.duty []).length
      ∧ a.triangle.sequencePos < Triangle.sequence.length) := by
  obtain ⟨hp1, hp2, ht, hn⟩ := APU.reachable_sane a h
  have row : ∀ d : Nat, d < 4 → (Pulse.dutyTable.getD d []).length = 8 := by
    intro d hd
    interval_cases d <;> rfl
  refine ⟨⟨Pulse.pulse_output_le _ hp1, Pulse.pulse_output_le _ hp2, Triangle.triangle_output_le _,
    Noise.noise_output_le _ hn⟩, ⟨hp1.1, hp1.2.1, hp2.1, hp2.2.1, hn.1, hn.2.1⟩,
    hp1.2.2.1, ?_, hp2.2.2.1, ?_, ht.1⟩
  · rw [row _ hp1.2.2.1]
    exact hp1.2.2.2.1
  · rw [row _ hp2.2.2.1]
    exact hp2.2.2.2.1

/-- After writes that start pulse 1 with constant volume 15 and one clock the state is
reachable and the pulse output is at most 15. -/
theorem APU.channel_levels_witness :
    APU.Reachable (((({} : APU).cpuWrite 0x4015 0x0F).cpuWrite 0x4000 0xBF).clock false)
    ∧ (((({} : APU).cpuWrite 0x4015 0x0F).cpuWrite 0x4000 0xBF).clock false).pulse1.output
        ≤ 15 :=
  ⟨APU.Reachable.clock _ _ (APU.Reachable.cpuWrite _ _ _
      (APU.Reachable.cpuWrite _ _ _ APU.Reachable.init)),
    (APU.channel_levels _ (APU.Reachable.clock _ _ (APU.Reachable.cpuWrite _ _ _
      (APU.Reachable.cpuWrite _ _ _ APU.Reachable.init)))).1.1⟩

/-! ### Length counters and the enable bits -/

/-- The channel clocks leave the enable flags alone. -/
theorem Pulse.pulse_clocks_enabled (c : Pulse) :
    c.clockTimer.enabled = c.enabled ∧ c.clockEnvelope.enabled = c.enabled
    ∧ c.clockLengthCounter.enabled = c.enabled ∧ c.clockSweep.enabled = c.enabled := by
  refine ⟨?_, ?_, ?_, ?_⟩
  · unfold Pulse.clockTimer; split <;> rfl
  · unfold Pulse.clockEnvelope; split_ifs <;> rfl
  · unfold Pulse.clockLengthCounter; split <;> rfl
  · unfold Pulse.clockSweep; dsimp only; split_ifs <;> rfl

/-- The triangle clocks leave the enable flag alone. -/
theorem Triangle.triangle_clocks_enabled (c : Triangle) :
    c.clockTimer.enabled = c.enabled ∧ c.clockLinearCounter.enabled = c.enabled
    ∧ c.clockLengthCounter.enabled = c.enabled := by
  refine ⟨?_, ?_, ?_⟩
  · unfold Triangle.clockTimer; split_ifs <;> rfl
  · unfold Triangle.clockLinearCounter; dsimp only; split_ifs <;> rfl
  · unfold Triangle.clockLengthCounter; split <;> rfl

/-- The noise clocks leave the enable flag alone. -/
theorem Noise.noise_clocks_enabled (c : Noise) :
    c.clockTimer.enabled = c.enabled ∧ c.clockEnvelope.enabled = c.enabled
    ∧ c.clockLengthCounter.enabled = c.enabled := by
  refine ⟨?_, ?_, ?_⟩
  · unfold Noise.clockTimer; split <;> rfl
  · unfold Noise.clockEnvelope; split_ifs <;> rfl
  · unfold Noise.clockLengthCounter; split <;> rfl

/-- The quarter-frame and half-frame clocks leave the enable flags alone. -/
theorem APU.frame_enables (a : APU) :
    a.clockQuarterFrame.enables = a.enables ∧ a.clockHalfFrame.enables = a.enables := by
  unfold APU.clockQuarterFrame APU.clockHalfFrame APU.enables
  simp only [Pulse.pulse_clocks_enabled, Triangle.triangle_clocks_enabled, Noise.noise_clocks_enabled, and_self]

/-- The frame counter step leaves the enable flags alone. -/
theorem APU.frameStep_enables (a : APU) : a.frameStep.enables = a.enables := by
  have q := (APU.frame_enables a).1
  have qh := ((APU.frame_enables a.clockQuarterFrame).2).trans q
  unfold APU.frameStep
  split <;> split
  all_goals first
    | rfl
    | exact q
    | exact qh

/-- `APU::clock` leaves the enable flags alone. -/
theorem APU.clock_enables (a : APU) (emit : Bool) : (a.clock emit).enables = a.enables := by
  have e : ({ a with
      triangle := a.triangle.clockTimer
      pulse1 := a.pulse1.clockTimer
      pulse2 := a.pulse2.clockTimer
      noise := a.noise.clockTimer
      frameClock := a.frameClock + 1 } : APU).enables = a.enables := by
    unfold APU.enables
    simp only [Pulse.pulse_clocks_enabled, Triangle.triangle_clocks_enabled, Noise.noise_clocks_enabled]
  have t : ({ a with triangle := a.triangle.clockTimer } : APU).enables = a.enables := by
    unfold APU.enables
    simp only [Triangle.triangle_clocks_enabled]
  have f := (APU.frameStep_enables _).trans e
  unfold APU.clock
  dsimp only
  by_cases hp : a.cpuClock % 2 = 0
  · rw [if_pos hp]
    split <;> exact f
  · rw [if_neg hp]
    split <;> exact t

/-- A register read leaves the enable flags alone. -/
theorem APU.cpuRead_enables (a : APU) (addr : Nat) : (a.cpuRead addr).2.enables = a.enables := by
  unfold APU.cpuRead
  split <;> rfl

/-- A register write other than `$4015` leaves the enable flags alone, and a `$4015` write
sets them to bits 0..3 of the value. -/
theorem APU.cpuWrite_enables (a : APU) (addr val : Nat) :
    (addr ≠ 0x4015 → (a.cpuWrite addr val).enables = a.enables)
    ∧ (a.cpuWrite 0x4015 val).enables
        = (val.testBit 0, val.testBit 1, val.testBit 2, val.testBit 3) := by
  constructor
  · intro h
    unfold APU.cpuWrite
    split
    any_goals rfl
    · exact absurd rfl h
    · dsimp only
      split
      · exact ((APU.frame_enables _).2).trans (APU.frame_enables _).1
      · rfl
  · show ((val &&& 0x01) != 0, (val &&& 0x02) != 0, (val &&& 0x04) != 0, (val &&& 0x08) != 0) = _
    have b0 : ((val &&& 0x01) != 0) = val.testBit 0 := and_two_pow_ne_zero val 0
    have b1 : ((val &&& 0x02) != 0) = val.testBit 1 := and_two_pow_ne_zero val 1
    have b2 : ((val &&& 0x04) != 0) = val.testBit 2 := and_two_pow_ne_zero val 2
    have b3 : ((val &&& 0x08) != 0) = val.testBit 3 := and_two_pow_ne_zero val 3
    rw [b0, b1, b2, b3]

/-- A state reached with a record of the last `$4015` value is reachable. -/
theorem APU.After4015.reachable {w : Nat} {a : APU} (h : APU.After4015 w a) :
    APU.Reachable a := by
  induction h with
  | init => exact APU.Reachable.init
  | clock w a emit _ ih => exact APU.Reachable.clock a emit ih
  | cpuRead w a addr _ ih => exact APU.Reachable.cpuRead a addr ih
  | cpuWrite w a addr val _ _ ih => exact APU.Reachable.cpuWrite a addr val ih
  | status w a val _ ih => exact APU.Reachable.cpuWrite a 0x4015 val ih

/-- The enable flags are bits 0..3 of the last value written to `$4015`. -/
theorem APU.After4015.enables {w : Nat} {a : APU} (h : APU.After4015 w a) :
    a.enables = (w.testBit 0, w.testBit 1, w.testBit 2, w.testBit 3) := by
  induction h with
  | init => rfl
  | clock w a emit _ ih => rw [APU.clock_enables]; exact ih
  | cpuRead w a addr _ ih => rw [APU.cpuRead_enables]; exact ih
  | cpuWrite w a addr val hne _ ih => rw [(APU.cpuWrite_enables a addr val).1 hne]; exact ih
  | status w a val _ _ => exact (APU.cpuWrite_enables a 0x4015 val).2

/-- Bits 0..3 of the byte a `$4015` read returns are the tests `lengthCounter > 0` of the
four channels. -/
theorem APU.status_bits (a : APU) :
    (a.cpuRead 0x4015).1.testBit 0 = decide (a.pulse1.lengthCounter > 0)
    ∧ (a.cpuRead 0x4015).1.testBit 1 = decide (a.pulse2.lengthCounter > 0)
    ∧ (a.cpuRead 0x4015).1.testBit 2 = decide (a.triangle.lengthCounter > 0)
    ∧ (a.cpuRead 0x4015).1.testBit 3 = decide (a.noise.lengthCounter > 0) := by
  unfold APU.cpuRead
  rw [if_pos rfl]
  dsimp only
  by_cases h1 : a.pulse1.lengthCounter > 0 <;> by_cases h2 : a.pulse2.lengthCounter > 0 <;>
    by_cases h3 : a.triangle.lengthCounter > 0 <;> by_cases h4 : a.noise.lengthCounter > 0 <;>
    cases a.frameIRQ <;>
    simp only [h1, h2, h3, h4, if_true, if_false, decide_True, decide_False,
      Bool.false_eq_true] <;>
    decide

/-- C39. Length counter implies enabled: in every APU state reachable from the constructed
one by `cpuWrite`, `cpuRead` and `clock` calls, with `w` the last value written to `$4015`
(0 before the first such write), each of pulse 1, pulse 2, triangle and noise has a
length counter above 0 only if its enable flag is set, the enable flags are bits 0..3 of
`w`, and so every bit among bits 0..3 of a `$4015` read is a bit of `w`. -/
theorem APU.length_implies_enabled (w : Nat) (a : APU) (h : APU.After4015 w a) :
    ((a.pulse1.lengthCounter > 0 → a.pulse1.enabled = true)
      ∧ (a.pulse2.lengthCounter > 0 → a.pulse2.enabled = true)
      ∧ (a.triangle.lengthCounter > 0 → a.triangle.enabled = true)
      ∧ (a.noise.lengthCounter > 0 → a.noise.enabled = true))
    ∧ (a.pulse1.enabled = w.testBit 0 ∧ a.pulse2.enabled = w.testBit 1
      ∧ a.triangle.enabled = w.testBit 2 ∧ a.noise.enabled = w.testBit 3)
    ∧ (∀ i, i < 4 → (a.cpuRead 0x4015).1.testBit i = true → w.testBit i = true) := by
  obtain ⟨s1, s2, s3, s4⟩ := APU.reachable_sane a h.reachable
  have l1 := s1.2.2.2.2
  have l2 := s2.2.2.2.2
  have l3 := s3.2
  have l4 := s4.2.2
  have he := h.enables
  have e1 : a.pulse1.enabled = w.testBit 0 := congrArg Prod.fst he
  have e2 : a.pulse2.enabled = w.testBit 1 := congrArg (fun x => x.2.1) he
  have e3 : a.triangle.enabled = w.testBit 2 := congrArg (fun x => x.2.2.1) he
  have e4 : a.noise.enabled = w.testBit 3 := congrArg (fun x => x.2.2.2) he
  obtain ⟨t0, t1, t2, t3⟩ := APU.status_bits a
  refine ⟨⟨l1, l2, l3, l4⟩, ⟨e1, e2, e3, e4⟩, fun i hi hb => ?_⟩
  have hcase : i = 0 ∨ i = 1 ∨ i = 2 ∨ i = 3 := by omega
  rcases hcase with rfl | rfl | rfl | rfl
  · rw [← e1]
    rw [t0] at hb
    exact l1 (of_decide_eq_true hb)
  · rw [← e2]
    rw [t1] at hb
    exact l2 (of_decide_eq_true hb)
  · rw [← e3]
    rw [t2] at hb
    exact l3 (of_decide_eq_true hb)
  · rw [← e4]
    rw [t3] at hb
    exact l4 (of_decide_eq_true hb)

/-- After `$4015 := 0x01` and a length load for both pulse channels, only pulse 1 holds a
length: a `$4015` read returns 1, a subset of the value written. -/
theorem APU.length_implies_enabled_witness :
    APU.After4015 0x01 (((({} : APU).cpuWrite 0x4015 0x01).cpuWrite 0x4003 0x08).cpuWrite
      0x4007 0x08)
    ∧ ((((({} : APU).cpuWrite 0x4015 0x01).cpuWrite 0x4003 0x08).cpuWrite
      0x4007 0x08).cpuRead 0x4015).1 = 1
    ∧ (((({} : APU).cpuWrite 0x4015 0x01).cpuWrite 0x4003 0x08).cpuWrite
      0x4007 0x08).pulse2.enabled = false := by
  have r : APU.After4015 0x01 (((({} : APU).cpuWrite 0x4015 0x01).cpuWrite 0x4003 0x08).cpuWrite
      0x4007 0x08) :=
    APU.After4015.cpuWrite _ _ _ _ (by decide)
      (APU.After4015.cpuWrite _ _ _ _ (by decide)
        (APU.After4015.status _ _ _ APU.After4015.init))
  have h := (APU.length_implies_enabled _ _ r).2.1.2.1
  exact ⟨r, by decide, h.trans (by decide)⟩

end Nes
